import Mathlib

/-! Decision engine of the cluster orchestrator (`server/strategy.go`).

A shallow embedding of `DecideOps` and of the functions it calls, followed by
theorems about them.

Conventions of the embedding

* Go slices are `List`s, Go pointers that may be nil are `Option`s, Go maps with
  string keys are association lists read with `mapGet` (a missing key reads as
  the zero value, as in Go).
* Operators are values of the sum type `Operator`; each constructor records the
  arguments the Go constructor is called with.
* Go `int` values are `Int`.  The only arithmetic is the index arithmetic of
  `splitOperators`, which cannot wrap around for slices of realistic length.
* A run-time panic (bad slice bounds, index out of range) and a loop that never
  ends are results of type `Fault` in the `Except` monad.
* The node filter, the operator packages and the resource tables are not part
  of the translated sources; what `strategy.go` needs of them is collected in
  the structure `Deps`, over which every theorem is universally quantified.
-/

namespace Cke

/-! ## Data model -/

/-- How a computation can fail: a Go panic, or a loop that used up its fuel. -/
inductive Fault where
  | panic
  | outOfFuel
  deriving DecidableEq, Repr

/-- Go map with string keys. -/
abbrev StrMap (α : Type) := List (String × α)

/-- Go map read `m[k]`: the zero value when the key is missing. -/
def mapGet {α : Type} [Inhabited α] (m : StrMap α) (k : String) : α :=
  (m.lookup k).getD default

/-- Go map read `v, ok := m[k]`. -/
def mapGetOk {α : Type} [Inhabited α] (m : StrMap α) (k : String) : α × Bool :=
  match m.lookup k with
  | some v => (v, true)
  | none => (default, false)

/-- Modelled from the spec: a taint of a node. -/
structure Taint where
  Key : String
  Value : String
  Effect : String
  deriving DecidableEq, Repr, Inhabited

/-- Modelled from the spec: the type `cke.Node` (spec section 3, Cluster). -/
structure Node where
  Address : String
  Hostname : String
  User : String
  ControlPlane : Bool
  Labels : StrMap String
  Taints : List Taint
  deriving DecidableEq, Repr, Inhabited

/-- Modelled from the spec: per-service parameters (`builtin_params`, `extra_params`). -/
structure ServiceParams where
  ExtraArguments : List String
  ExtraBinds : List (String × String)
  ExtraEnvvar : StrMap String
  deriving DecidableEq, Repr, Inhabited

/-- Modelled from the spec: per-component options of the cluster. -/
structure Options where
  Etcd : ServiceParams
  Rivers : ServiceParams
  EtcdRivers : ServiceParams
  APIServer : ServiceParams
  ControllerManager : ServiceParams
  Scheduler : ServiceParams
  Kubelet : ServiceParams
  Proxy : ServiceParams
  deriving DecidableEq, Repr, Inhabited

/-- Modelled from the spec: the reboot configuration of the cluster. -/
structure Reboot where
  RebootCommand : List String
  BootCheckCommand : List String
  CommandTimeoutSeconds : Option Int
  EvictionTimeoutSeconds : Option Int
  ProtectedNamespaces : List String
  deriving DecidableEq, Repr, Inhabited

/-- Modelled from the spec: the desired state `cke.Cluster`. -/
structure Cluster where
  Name : String
  Nodes : List Node
  ServiceSubnet : String
  DNSServers : List String
  Options : Options
  Reboot : Reboot
  deriving DecidableEq, Repr, Inhabited

/-- Modelled from the spec: `cke.Constraints`. -/
structure Constraints where
  ControlPlaneCount : Int
  MinimumWorkers : Int
  MaximumWorkers : Int
  RebootMaximumUnreachable : Int
  deriving DecidableEq, Repr, Inhabited

/-- Modelled from the spec: the fields of the server configuration `Config` read
by `DecideOps` (`max_concurrent_updates`, `drain_retry_times`,
`drain_retry_interval`). -/
structure Config where
  MaxConcurrentUpdates : Int
  DrainRetryTimes : Int
  DrainRetryInterval : Int
  deriving DecidableEq, Repr, Inhabited

/-- Modelled from the spec: observed state of one container. -/
structure ServiceStatus where
  Running : Bool
  Image : String
  BuiltInParams : ServiceParams
  ExtraParams : ServiceParams
  deriving DecidableEq, Repr, Inhabited

/-- Modelled from the spec: observed state of one node. -/
structure NodeStatus where
  SSHConnected : Bool
  Etcd : ServiceStatus
  Rivers : ServiceStatus
  EtcdRivers : ServiceStatus
  APIServer : ServiceStatus
  ControllerManager : ServiceStatus
  Scheduler : ServiceStatus
  Kubelet : ServiceStatus
  Proxy : ServiceStatus
  deriving DecidableEq, Repr, Inhabited

/-- Modelled from the spec: a member of the etcd cluster. -/
structure EtcdMember where
  ID : Nat
  Name : String
  deriving DecidableEq, Repr, Inhabited

/-- Modelled from the spec: observed etcd health. -/
structure EtcdClusterStatus where
  IsHealthy : Bool
  InSyncMembers : StrMap Bool
  Members : StrMap EtcdMember
  deriving DecidableEq, Repr, Inhabited

/-- The fields of `corev1.EndpointAddress` that are read. -/
structure EndpointAddress where
  IP : String
  deriving DecidableEq, Repr, Inhabited

/-- The fields of `corev1.EndpointPort` that are read. -/
structure EndpointPort where
  Name : String
  Port : Int
  deriving DecidableEq, Repr, Inhabited

/-- The type `corev1.EndpointSubset`. -/
structure EndpointSubset where
  Addresses : List EndpointAddress
  NotReadyAddresses : List EndpointAddress
  Ports : List EndpointPort
  deriving DecidableEq, Repr, Inhabited

/-- The type `corev1.Endpoints`. -/
structure Endpoints where
  Namespace : String
  Name : String
  Labels : StrMap String
  Subsets : List EndpointSubset
  deriving DecidableEq, Repr, Inhabited

/-- The type `discoveryv1.Endpoint`; `Ready` is `Conditions.Ready`, a nullable boolean. -/
structure SliceEndpoint where
  Addresses : List String
  Ready : Option Bool
  deriving DecidableEq, Repr, Inhabited

/-- The type `discoveryv1.EndpointPort`, whose fields are pointers. -/
structure SlicePort where
  Name : Option String
  Port : Option Int
  deriving DecidableEq, Repr, Inhabited

/-- The type `discoveryv1.EndpointSlice`. -/
structure EndpointSlice where
  Namespace : String
  Name : String
  Labels : StrMap String
  AddressType : String
  Endpoints : List SliceEndpoint
  Ports : List SlicePort
  deriving DecidableEq, Repr, Inhabited

/-- The field of `corev1.ServicePort` that is read. -/
structure ServicePort where
  Port : Int
  deriving DecidableEq, Repr, Inhabited

/-- The fields of `corev1.Service` that are read (all in `Spec`; `ServiceType` is `Spec.Type`). -/
structure Service where
  Ports : List ServicePort
  ServiceType : String
  ClusterIP : String
  deriving DecidableEq, Repr, Inhabited

/-- The type `corev1.ConfigMap`, reduced to its data. -/
structure ConfigMap where
  Data : StrMap String
  deriving DecidableEq, Repr, Inhabited

/-- The fields of a Kubernetes node object that are read. -/
structure K8sNode where
  Name : String
  Labels : StrMap String
  Unschedulable : Bool
  deriving DecidableEq, Repr, Inhabited

/-- Modelled from the spec: observed status of one resource. -/
structure ResourceStatus where
  HasBeenSSA : Bool
  Completed : Bool
  deriving DecidableEq, Repr, Inhabited

/-- Modelled from the spec: a resource definition; `Kind` is compared with `KindDeployment`. -/
structure ResourceDefinition where
  Key : String
  Kind : String
  Namespace : String
  Name : String
  Rank : Nat
  Revision : Int
  Definition : String
  deriving DecidableEq, Repr, Inhabited

/-- Modelled from the spec: the constant `cke.KindDeployment`, the kind of the
resources that are "Deployments". -/
def KindDeployment : String := "Deployment"

/-- Modelled from the spec: observed state of the cluster DNS. -/
structure ClusterDNSStatus where
  ConfigMap : Option ConfigMap
  ClusterIP : String
  deriving DecidableEq, Repr, Inhabited

/-- Modelled from the spec: observed state of the node DNS. -/
structure NodeDNSStatus where
  ConfigMap : Option ConfigMap
  deriving DecidableEq, Repr, Inhabited

/-- Modelled from the spec: the observed Kubernetes state. -/
structure KubernetesClusterStatus where
  IsControlPlaneReady : Bool
  Nodes : List K8sNode
  DNSService : Option Service
  ClusterDNS : ClusterDNSStatus
  NodeDNS : NodeDNSStatus
  MasterEndpoints : Option Endpoints
  MasterEndpointSlice : Option EndpointSlice
  EtcdService : Option Service
  EtcdEndpoints : Option Endpoints
  EtcdEndpointSlice : Option EndpointSlice
  ResourceStatuses : StrMap ResourceStatus
  deriving DecidableEq, Repr, Inhabited

/-- Modelled from the spec: the observed state `cke.ClusterStatus`. -/
structure ClusterStatus where
  ConfigVersion : String
  NodeStatuses : StrMap NodeStatus
  Etcd : EtcdClusterStatus
  Kubernetes : KubernetesClusterStatus
  deriving DecidableEq, Repr, Inhabited

/-- Modelled from the spec: the status of a reboot queue entry. -/
inductive RebootStatus where
  | Queued
  | Draining
  | DrainTimedout
  | Rebooting
  | Cancelled
  deriving DecidableEq, Repr, Inhabited

/-- Modelled from the spec: an entry of the reboot queue. -/
structure RebootQueueEntry where
  Index : Int
  Node : String
  Status : RebootStatus
  deriving DecidableEq, Repr, Inhabited

/-- The type `DecideOpsRebootArgs`. -/
structure DecideOpsRebootArgs where
  RQEntries : List RebootQueueEntry
  NewlyDrained : List RebootQueueEntry
  DrainCompleted : List RebootQueueEntry
  DrainTimedout : List RebootQueueEntry
  RebootDequeued : List RebootQueueEntry
  deriving DecidableEq, Repr, Inhabited

/-- Modelled from the spec: the phase labels `cke.Phase...` that `DecideOps` reports. -/
inductive OperationPhase where
  | PhaseUpgrade
  | PhaseUpgradeAborted
  | PhaseRivers
  | PhaseEtcdBootAborted
  | PhaseEtcdBoot
  | PhaseEtcdStart
  | PhaseEtcdWait
  | PhaseK8sStart
  | PhaseEtcdMaintain
  | PhaseK8sMaintain
  | PhaseStopCP
  | PhaseUncordonNodes
  | PhaseRebootNodes
  | PhaseCompleted
  deriving DecidableEq, Repr, Inhabited

/-- Modelled from the spec: the generated kubelet configuration, reduced to the
field that is read (`clusterDomain`). -/
structure KubeletConfiguration where
  ClusterDomain : String
  deriving DecidableEq, Repr, Inhabited

/-- Modelled from the spec: operators are "tagged by name" variants of a sum
type.  There is one constructor for each operator constructor called in
`strategy.go`, carrying the arguments of the call in the same order. -/
inductive Operator where
  | UpgradeOp (current : String) (cps : List Node)
  | RiversBootOp (nodes upstreams : List Node) (params : ServiceParams)
      (name : String) (upstreamPort listenPort : Int)
  | RiversRestartOp (nodes upstreams : List Node) (params : ServiceParams)
      (name : String) (upstreamPort listenPort : Int)
  | etcd_BootOp (cps : List Node) (params : ServiceParams)
  | etcd_StartOp (nodes : List Node) (params : ServiceParams)
  | etcd_WaitClusterOp (cps : List Node)
  | etcd_RemoveMemberOp (cps : List Node) (members : List EtcdMember)
  | etcd_DestroyMemberOp (cps targets : List Node) (ids : StrMap Nat)
  | etcd_AddMemberOp (cps : List Node) (target : Node) (params : ServiceParams)
  | etcd_MarkMemberOp (nodes : List Node)
  | etcd_RestartOp (cps : List Node) (target : Node) (params : ServiceParams)
  | k8s_APIServerRestartOp (nodes cps : List Node) (serviceSubnet : String)
      (params : ServiceParams) (domain : String)
  | k8s_ControllerManagerBootOp (nodes : List Node) (cluster serviceSubnet : String)
      (params : ServiceParams)
  | k8s_ControllerManagerRestartOp (nodes : List Node) (cluster serviceSubnet : String)
      (params : ServiceParams)
  | k8s_SchedulerBootOp (nodes : List Node) (cluster : String) (params : ServiceParams)
  | k8s_SchedulerRestartOp (nodes : List Node) (cluster : String) (params : ServiceParams)
  | k8s_KubeletRestartOp (nodes : List Node) (cluster : String) (params : ServiceParams)
      (nodeStatuses : StrMap NodeStatus)
  | k8s_KubeletBootOp (nodes registered : List Node) (apiServer : Option Node)
      (cluster : String) (params : ServiceParams) (nodeStatuses : StrMap NodeStatus)
  | k8s_KubeProxyBootOp (nodes : List Node) (cluster ap : String) (params : ServiceParams)
  | k8s_KubeProxyRestartOp (nodes : List Node) (cluster ap : String) (params : ServiceParams)
  | ProxyStopOp (nodes : List Node)
  | KubeWaitOp (apiServer : Option Node)
  | ResourceApplyOp (apiServer : Option Node) (res : ResourceDefinition) (forceConflicts : Bool)
  | NopOp
  | clusterdns_CreateConfigMapOp (apiServer : Option Node) (domain : String)
      (dnsServers : List String)
  | clusterdns_UpdateConfigMapOp (apiServer : Option Node) (configMap : ConfigMap)
  | nodedns_CreateConfigMapOp (apiServer : Option Node) (clusterIP domain : String)
      (dnsServers : List String)
  | nodedns_UpdateConfigMapOp (apiServer : Option Node) (configMap : ConfigMap)
  | KubeEndpointsCreateOp (apiServer : Option Node) (ep : Endpoints)
  | KubeEndpointsUpdateOp (apiServer : Option Node) (ep : Endpoints)
  | KubeEndpointSliceCreateOp (apiServer : Option Node) (eps : EndpointSlice)
  | KubeEndpointSliceUpdateOp (apiServer : Option Node) (eps : EndpointSlice)
  | KubeEtcdServiceCreateOp (apiServer : Option Node)
  | KubeEtcdServiceUpdateOp (apiServer : Option Node)
  | KubeNodeUpdateOp (apiServer : Option Node) (nodes : List K8sNode)
  | KubeNodeRemoveOp (apiServer : Option Node) (nodes : List K8sNode)
  | APIServerStopOp (nodes : List Node)
  | ControllerManagerStopOp (nodes : List Node)
  | SchedulerStopOp (nodes : List Node)
  | EtcdStopOp (nodes : List Node)
  | EtcdRiversStopOp (nodes : List Node)
  | RebootUncordonOp (apiServer : Option Node) (nodeNames : List String)
  | RebootDrainStartOp (apiServer : Option Node) (entries : List RebootQueueEntry)
      (config : Reboot) (retryTimes retryInterval : Int)
  | RebootRebootOp (apiServer : Option Node) (entries : List RebootQueueEntry)
      (config : Reboot)
  | RebootDrainTimeoutOp (entries : List RebootQueueEntry)
  | RebootDequeueOp (entries : List RebootQueueEntry)
  | RebootRecalcMetricsOp
  deriving Repr, Inhabited

/-! ## The node filter -/

/-- Modelled from the spec: the node filter, "pure predicates over
`(Cluster, ClusterStatus)`"; its fields `cluster` and `status` are read by
`strategy.go`. -/
structure NodeFilter where
  cluster : Cluster
  status : ClusterStatus
  deriving Repr, Inhabited

/-- Modelled from the spec: the constructor of the node filter. -/
def NewNodeFilter (c : Cluster) (cs : ClusterStatus) : NodeFilter :=
  { cluster := c, status := cs }

namespace NodeFilter

/-- Modelled from the spec: the observed status of a node, read as
`nf.status.NodeStatuses[n.Address]` as `cleanOps` does.  A node without an
entry reads as the zero status, hence as not SSH-connected. -/
def nodeStatus (nf : NodeFilter) (n : Node) : NodeStatus :=
  mapGet nf.status.NodeStatuses n.Address

/-- Modelled from the spec: the node class `ControlPlane`, the ordered subset of
the cluster nodes declared as control plane. -/
def ControlPlane (nf : NodeFilter) : List Node :=
  nf.cluster.Nodes.filter (fun n => n.ControlPlane)

/-- Modelled from the spec: the node class `SSHConnected`, the ordered subset of
`targets` that is SSH-connected, restricted to control-plane nodes and to other
nodes by the two flags. -/
def SSHConnectedNodes (nf : NodeFilter) (targets : List Node)
    (includeControlPlane includeWorker : Bool) : List Node :=
  targets.filter (fun n =>
    (if n.ControlPlane then includeControlPlane else includeWorker)
      && (mapGet nf.status.NodeStatuses n.Address).SSHConnected)

/-- Modelled from the spec: the node class `SSHNotConnected`, the ordered subset
of `targets` that is not SSH-connected, restricted by the same two flags. -/
def SSHNotConnectedNodes (nf : NodeFilter) (targets : List Node)
    (includeControlPlane includeWorker : Bool) : List Node :=
  targets.filter (fun n =>
    (if n.ControlPlane then includeControlPlane else includeWorker)
      && !(mapGet nf.status.NodeStatuses n.Address).SSHConnected)

end NodeFilter

/-- What `strategy.go` uses and does not define: constants and tables of other
packages, methods of the resource and status types, and the remaining
classification predicates of the node filter (spec section 4.D).  Nothing is
assumed about them. -/
structure Deps where
  ConfigVersion : String
  RiversContainerName : String
  RiversUpstreamPort : Int
  RiversListenPort : Int
  EtcdRiversContainerName : String
  EtcdRiversUpstreamPort : Int
  EtcdRiversListenPort : Int
  EtcdEndpointsName : String
  EtcdServiceName : String
  staticResources : List ResourceDefinition
  NeedUpdate : ResourceDefinition → ResourceStatus → Bool
  IsReady : KubernetesClusterStatus → Cluster → Bool
  GenerateKubeletConfiguration : ServiceParams → String → Option KubeletConfiguration →
    KubeletConfiguration
  clusterdnsConfigMap : String → List String → ConfigMap
  nodednsConfigMap : String → String → List String → Bool → ConfigMap
  EtcdBootstrapped : NodeFilter → Bool
  EtcdIsGood : NodeFilter → Bool
  RiversStoppedNodes : NodeFilter → List Node
  RiversOutdatedNodes : NodeFilter → List Node
  EtcdRiversStoppedNodes : NodeFilter → List Node
  EtcdRiversOutdatedNodes : NodeFilter → List Node
  EtcdStoppedMembers : NodeFilter → List Node
  EtcdNonClusterMembers : NodeFilter → Bool → List EtcdMember
  EtcdNonCPMembers : NodeFilter → Bool → List Node × StrMap Nat
  EtcdUnstartedMembers : NodeFilter → List Node
  EtcdUnmarkedMembers : NodeFilter → List Node
  EtcdNewMembers : NodeFilter → List Node
  EtcdOutdatedMembers : NodeFilter → List Node
  APIServerStoppedNodes : NodeFilter → List Node
  APIServerOutdatedNodes : NodeFilter → List Node
  ControllerManagerStoppedNodes : NodeFilter → List Node
  ControllerManagerOutdatedNodes : NodeFilter → List Node
  SchedulerStoppedNodes : NodeFilter → List Node
  SchedulerOutdatedNodes : NodeFilter → ServiceParams → List Node
  KubeletUnrecognizedNodes : NodeFilter → List Node
  KubeletStoppedNodes : NodeFilter → List Node
  KubeletStoppedRegisteredNodes : NodeFilter → List Node
  KubeletOutdatedNodes : NodeFilter → List Node
  ProxyStoppedNodes : NodeFilter → List Node
  ProxyOutdatedNodes : NodeFilter → ServiceParams → List Node
  ProxyRunningUnexpectedlyNodes : NodeFilter → List Node
  HealthyAPIServer : NodeFilter → Option Node
  HealthyAPIServerNodes : NodeFilter → List Node
  UnhealthyAPIServerNodes : NodeFilter → List Node
  OutdatedAttrsNodes : NodeFilter → List K8sNode
  NonClusterNodes : NodeFilter → List K8sNode
  CordonedNodes : NodeFilter → List K8sNode

/-! ## Constants of the Kubernetes API packages -/

def NamespaceDefault : String := "default"

def NamespaceSystem : String := "kube-system"

def AddressTypeIPv4 : String := "IPv4"

def ServiceTypeClusterIP : String := "ClusterIP"

def ClusterIPNone : String := "None"

/-! ## Splitting a node list into batches -/

/-- Go slice expression `xs[i:j]` on a slice whose capacity is its length:
panics unless `0 ≤ i ≤ j ≤ len xs`. -/
def goSlice {α : Type} (xs : List α) (i j : Int) : Except Fault (List α) :=
  if 0 ≤ i ∧ i ≤ j ∧ j ≤ (xs.length : Int) then
    .ok ((xs.drop i.toNat).take (j.toNat - i.toNat))
  else
    .error .panic

/-- The loop of `splitOperators`, started at index `i` with `ops` collected so
far.  One unit of fuel is spent per iteration; running out of fuel while the
loop condition still holds is reported as `Fault.outOfFuel`. -/
def splitOperatorsLoop {α : Type} (nodes : List Node) (createOps : List Node → α)
    (maxConcurrentUpdates : Int) : Nat → Int → List α → Except Fault (List α)
  | 0, i, ops => if i < (nodes.length : Int) then .error .outOfFuel else .ok ops
  | fuel + 1, i, ops =>
    if i < (nodes.length : Int) then
      let endIdx := if i + maxConcurrentUpdates > (nodes.length : Int)
        then (nodes.length : Int) else i + maxConcurrentUpdates
      match goSlice nodes i endIdx with
      | .error e => .error e
      | .ok ns =>
        splitOperatorsLoop nodes createOps maxConcurrentUpdates fuel
          (i + maxConcurrentUpdates) (ops ++ [createOps ns])
    else
      .ok ops

/-- The function `splitOperators`.  The loop is given `len nodes` units of fuel,
which is enough whenever the index advances by at least one per iteration.  The
result type of `createOps` is left general so that the batches themselves can
be observed (take `createOps` to be the identity). -/
def splitOperators {α : Type} (nodes : List Node) (createOps : List Node → α)
    (maxConcurrentUpdates : Int) : Except Fault (List α) :=
  splitOperatorsLoop nodes createOps maxConcurrentUpdates nodes.length 0 []

/-! ## Steps 1 and 5: rivers and Kubernetes components -/

/-- The function `riversOps`: four blocks, each appending the batches of one
node class. -/
def riversOps (d : Deps) (c : Cluster) (nf : NodeFilter) (maxConcurrentUpdates : Int) :
    Except Fault (List Operator) := do
  let ops : List Operator := []
  let nodes := nf.SSHConnectedNodes (d.RiversStoppedNodes nf) true true
  let ops ← (if nodes.length > 0 then
      (splitOperators nodes (fun ns => Operator.RiversBootOp ns nf.ControlPlane
        c.Options.Rivers d.RiversContainerName d.RiversUpstreamPort d.RiversListenPort)
        maxConcurrentUpdates).map (fun new => ops ++ new)
    else pure ops)
  let nodes := nf.SSHConnectedNodes (d.RiversOutdatedNodes nf) true true
  let ops ← (if nodes.length > 0 then
      (splitOperators nodes (fun ns => Operator.RiversRestartOp ns nf.ControlPlane
        c.Options.Rivers d.RiversContainerName d.RiversUpstreamPort d.RiversListenPort)
        maxConcurrentUpdates).map (fun new => ops ++ new)
    else pure ops)
  let nodes := nf.SSHConnectedNodes (d.EtcdRiversStoppedNodes nf) true false
  let ops ← (if nodes.length > 0 then
      (splitOperators nodes (fun ns => Operator.RiversBootOp ns nf.ControlPlane
        c.Options.EtcdRivers d.EtcdRiversContainerName d.EtcdRiversUpstreamPort
        d.EtcdRiversListenPort) maxConcurrentUpdates).map (fun new => ops ++ new)
    else pure ops)
  let nodes := nf.SSHConnectedNodes (d.EtcdRiversOutdatedNodes nf) true false
  let ops ← (if nodes.length > 0 then
      (splitOperators nodes (fun ns => Operator.RiversRestartOp ns nf.ControlPlane
        c.Options.EtcdRivers d.EtcdRiversContainerName d.EtcdRiversUpstreamPort
        d.EtcdRiversListenPort) maxConcurrentUpdates).map (fun new => ops ++ new)
    else pure ops)
  pure ops

/-- The first part of `k8sOps`, "For cp nodes": no batching, no failure. -/
def k8sOpsCP (d : Deps) (c : Cluster) (nf : NodeFilter) : List Operator :=
  let ops : List Operator := []
  let nodes := nf.SSHConnectedNodes (d.APIServerStoppedNodes nf) true false
  let ops := if nodes.length > 0 then
      let kubeletConfig := d.GenerateKubeletConfiguration c.Options.Kubelet "0.0.0.0" none
      ops ++ [Operator.k8s_APIServerRestartOp nodes nf.ControlPlane c.ServiceSubnet
        c.Options.APIServer kubeletConfig.ClusterDomain]
    else ops
  let nodes := nf.SSHConnectedNodes (d.APIServerOutdatedNodes nf) true false
  let ops := if nodes.length > 0 then
      let kubeletConfig := d.GenerateKubeletConfiguration c.Options.Kubelet "0.0.0.0" none
      ops ++ [Operator.k8s_APIServerRestartOp nodes nf.ControlPlane c.ServiceSubnet
        c.Options.APIServer kubeletConfig.ClusterDomain]
    else ops
  let nodes := nf.SSHConnectedNodes (d.ControllerManagerStoppedNodes nf) true false
  let ops := if nodes.length > 0 then
      ops ++ [Operator.k8s_ControllerManagerBootOp nodes c.Name c.ServiceSubnet
        c.Options.ControllerManager]
    else ops
  let nodes := nf.SSHConnectedNodes (d.ControllerManagerOutdatedNodes nf) true false
  let ops := if nodes.length > 0 then
      ops ++ [Operator.k8s_ControllerManagerRestartOp nodes c.Name c.ServiceSubnet
        c.Options.ControllerManager]
    else ops
  let nodes := nf.SSHConnectedNodes (d.SchedulerStoppedNodes nf) true false
  let ops := if nodes.length > 0 then
      ops ++ [Operator.k8s_SchedulerBootOp nodes c.Name c.Options.Scheduler]
    else ops
  let nodes := nf.SSHConnectedNodes (d.SchedulerOutdatedNodes nf c.Options.Scheduler) true false
  let ops := if nodes.length > 0 then
      ops ++ [Operator.k8s_SchedulerRestartOp nodes c.Name c.Options.Scheduler]
    else ops
  ops

/-- The function `k8sOps`: the control-plane part, then six blocks that go
through `splitOperators`. -/
def k8sOps (d : Deps) (c : Cluster) (nf : NodeFilter) (cs : ClusterStatus)
    (maxConcurrentUpdates : Int) : Except Fault (List Operator) := do
  -- For cp nodes
  let ops := k8sOpsCP d c nf
  -- For all nodes
  let apiServer := d.HealthyAPIServer nf
  let nodes := nf.SSHConnectedNodes (d.KubeletUnrecognizedNodes nf) true true
  let ops ← (if nodes.length > 0 then
      (splitOperators nodes (fun ns => Operator.k8s_KubeletRestartOp ns c.Name
        c.Options.Kubelet cs.NodeStatuses) maxConcurrentUpdates).map (fun new => ops ++ new)
    else pure ops)
  let nodes := nf.SSHConnectedNodes (d.KubeletStoppedNodes nf) true true
  let ops ← (if nodes.length > 0 then
      (splitOperators nodes (fun ns => Operator.k8s_KubeletBootOp ns
        (d.KubeletStoppedRegisteredNodes nf) apiServer c.Name c.Options.Kubelet
        cs.NodeStatuses) maxConcurrentUpdates).map (fun new => ops ++ new)
    else pure ops)
  let nodes := nf.SSHConnectedNodes (d.KubeletOutdatedNodes nf) true true
  let ops ← (if nodes.length > 0 then
      (splitOperators nodes (fun ns => Operator.k8s_KubeletRestartOp ns c.Name
        c.Options.Kubelet cs.NodeStatuses) maxConcurrentUpdates).map (fun new => ops ++ new)
    else pure ops)
  let nodes := nf.SSHConnectedNodes (d.ProxyStoppedNodes nf) true true
  let ops ← (if nodes.length > 0 then
      (splitOperators nodes (fun ns => Operator.k8s_KubeProxyBootOp ns c.Name ""
        c.Options.Proxy) maxConcurrentUpdates).map (fun new => ops ++ new)
    else pure ops)
  let nodes := nf.SSHConnectedNodes (d.ProxyOutdatedNodes nf c.Options.Proxy) true true
  let ops ← (if nodes.length > 0 then
      (splitOperators nodes (fun ns => Operator.k8s_KubeProxyRestartOp ns c.Name ""
        c.Options.Proxy) maxConcurrentUpdates).map (fun new => ops ++ new)
    else pure ops)
  let nodes := nf.SSHConnectedNodes (d.ProxyRunningUnexpectedlyNodes nf) true true
  let ops ← (if nodes.length > 0 then
      (splitOperators nodes (fun ns => Operator.ProxyStopOp ns)
        maxConcurrentUpdates).map (fun new => ops ++ new)
    else pure ops)
  pure ops

/-! ## Step 6: etcd maintenance -/

/-- The function `etcdMaintOp`.  A test `len(nodes) > 0` followed by a read of
`nodes[0]` is written as a match on a non-empty list. -/
def etcdMaintOp (d : Deps) (c : Cluster) (nf : NodeFilter) : Option Operator :=
  let members := d.EtcdNonClusterMembers nf false
  if members.length > 0 then
    some (Operator.etcd_RemoveMemberOp nf.ControlPlane members)
  else
  let (nodes, ids) := d.EtcdNonCPMembers nf false
  if nodes.length > 0 then
    some (Operator.etcd_DestroyMemberOp nf.ControlPlane
      (nf.SSHConnectedNodes nodes false true) ids)
  else
  match d.EtcdUnstartedMembers nf with
  | node0 :: _ => some (Operator.etcd_AddMemberOp nf.ControlPlane node0 c.Options.Etcd)
  | [] =>
  let nodes := d.EtcdUnmarkedMembers nf
  if nodes.length > 0 then
    some (Operator.etcd_MarkMemberOp nodes)
  else
  if !d.EtcdIsGood nf then
    -- return nil to proceed to k8s maintenance.
    none
  else
  -- Adding members or removing/restarting healthy members is done only when
  -- all members are in sync.
  match d.EtcdNewMembers nf with
  | node0 :: _ => some (Operator.etcd_AddMemberOp nf.ControlPlane node0 c.Options.Etcd)
  | [] =>
  let members := d.EtcdNonClusterMembers nf true
  if members.length > 0 then
    some (Operator.etcd_RemoveMemberOp nf.ControlPlane members)
  else
  let (nodes, ids) := d.EtcdNonCPMembers nf true
  if nodes.length > 0 then
    some (Operator.etcd_DestroyMemberOp nf.ControlPlane
      (nf.SSHConnectedNodes nodes false true) ids)
  else
  match d.EtcdOutdatedMembers nf with
  | node0 :: _ => some (Operator.etcd_RestartOp nf.ControlPlane node0 c.Options.Etcd)
  | [] => none

/-! ## Step 7: Kubernetes resources -/

/-- The function `decideClusterDNSOps`. -/
def decideClusterDNSOps (d : Deps) (apiServer : Option Node) (c : Cluster)
    (ks : KubernetesClusterStatus) : List Operator :=
  let desiredDNSServers := c.DNSServers
  let desiredDNSServers :=
    match ks.DNSService with
    | some svc =>
      let ip := svc.ClusterIP
      if ip = "" ∨ ip = "None" then desiredDNSServers else [ip]
    | none => desiredDNSServers
  let kubeletConfig := d.GenerateKubeletConfiguration c.Options.Kubelet "0.0.0.0" none
  let desiredClusterDomain := kubeletConfig.ClusterDomain
  match ks.ClusterDNS.ConfigMap with
  | none => [Operator.clusterdns_CreateConfigMapOp apiServer desiredClusterDomain desiredDNSServers]
  | some configMap =>
    let actualConfigData := configMap.Data
    let expectedConfig := d.clusterdnsConfigMap desiredClusterDomain desiredDNSServers
    if mapGet actualConfigData "Corefile" ≠ mapGet expectedConfig.Data "Corefile" then
      [Operator.clusterdns_UpdateConfigMapOp apiServer expectedConfig]
    else []

/-- The function `decideNodeDNSOps`. -/
def decideNodeDNSOps (d : Deps) (apiServer : Option Node) (c : Cluster)
    (ks : KubernetesClusterStatus) : List Operator :=
  if ks.ClusterDNS.ClusterIP.length = 0 then
    []
  else
  let desiredDNSServers := c.DNSServers
  let desiredDNSServers :=
    match ks.DNSService with
    | some svc =>
      let ip := svc.ClusterIP
      if ip = "" ∨ ip = "None" then desiredDNSServers else [ip]
    | none => desiredDNSServers
  let kubeletConfig := d.GenerateKubeletConfiguration c.Options.Kubelet "0.0.0.0" none
  let desiredClusterDomain := kubeletConfig.ClusterDomain
  match ks.NodeDNS.ConfigMap with
  | none => [Operator.nodedns_CreateConfigMapOp apiServer ks.ClusterDNS.ClusterIP
      desiredClusterDomain desiredDNSServers]
  | some configMap =>
    let actualConfigData := configMap.Data
    let expectedConfig := d.nodednsConfigMap ks.ClusterDNS.ClusterIP desiredClusterDomain
      desiredDNSServers true
    if mapGet actualConfigData "unbound.conf" ≠ mapGet expectedConfig.Data "unbound.conf" then
      [Operator.nodedns_UpdateConfigMapOp apiServer expectedConfig]
    else []

/-- The type `endpointParams`. -/
structure endpointParams where
  namespace_ : String
  name : String
  readyIPs : List String
  notReadyIPs : List String
  port : Int
  portName : String
  serviceName : String
  deriving DecidableEq, Repr, Inhabited

/-- The loop `for k, v := range expect.Labels`: does some expected label read
differently in `actual`? -/
def labelsMismatch (expect actual : StrMap String) : Bool :=
  expect.any (fun kv => mapGet actual kv.1 != kv.2)

/-- The set built by `endpoints[a.IP] = true` over the expected addresses. -/
def ipSet (ips : List String) : StrMap Bool :=
  ips.map (fun ip => (ip, true))

/-- The loop `for _, a := range actual { if !endpoints[a] { return updateOp } }`:
is some observed address missing from the set? -/
def notAllIn (endpoints : StrMap Bool) (actual : List String) : Bool :=
  actual.any (fun a => !mapGet endpoints a)

/-- The function `decideEpOp`.  `len(xs) != 1` followed by a read of `xs[0]` is a
match on a one-element list. -/
def decideEpOp (expect : Endpoints) (actual : Option Endpoints) (apiServer : Option Node) :
    Except Fault (Option Operator) :=
  match actual with
  | none => .ok (some (Operator.KubeEndpointsCreateOp apiServer expect))
  | some actual =>
    let updateOp := Operator.KubeEndpointsUpdateOp apiServer expect
    match actual.Subsets with
    | [subset] =>
      if labelsMismatch expect.Labels actual.Labels then .ok (some updateOp) else
      match subset.Ports with
      | [port] =>
        -- `expect.Subsets[0].Ports[0]` is read only here
        match expect.Subsets with
        | [] => .error .panic
        | expectSubset :: _ =>
          match expectSubset.Ports with
          | [] => .error .panic
          | expectPort :: _ =>
            if port.Port ≠ expectPort.Port then .ok (some updateOp) else
            if subset.Addresses.length ≠ expectSubset.Addresses.length
                ∨ subset.NotReadyAddresses.length ≠ expectSubset.NotReadyAddresses.length then
              .ok (some updateOp)
            else
            if notAllIn (ipSet (expectSubset.Addresses.map (fun a => a.IP)))
                (subset.Addresses.map (fun a => a.IP)) then .ok (some updateOp) else
            if notAllIn (ipSet (expectSubset.NotReadyAddresses.map (fun a => a.IP)))
                (subset.NotReadyAddresses.map (fun a => a.IP)) then .ok (some updateOp) else
            .ok none
      | _ => .ok (some updateOp)
    | _ => .ok (some updateOp)

/-- The loop `for i := range actual.Endpoints` of `decideEpsOp`, entered with
lists of equal length: `true` when some pair of endpoints differs. -/
def endpointsMismatch : List SliceEndpoint → List SliceEndpoint → Except Fault Bool
  | actualEP :: actualRest, expectEP :: expectRest =>
    match actualEP.Ready with
    | none => .ok true
    | some actualReady =>
      match expectEP.Ready with
      | none => .error .panic
      | some expectReady =>
        if actualReady ≠ expectReady then .ok true else
        if actualEP.Addresses.length ≠ expectEP.Addresses.length then .ok true else
        if notAllIn (ipSet expectEP.Addresses) actualEP.Addresses then .ok true else
        endpointsMismatch actualRest expectRest
  | _ :: _, [] => .error .panic
  | [], _ => .ok false

/-- The function `decideEpsOp`. -/
def decideEpsOp (expect : EndpointSlice) (actual : Option EndpointSlice)
    (apiServer : Option Node) : Except Fault (Option Operator) :=
  match actual with
  | none => .ok (some (Operator.KubeEndpointSliceCreateOp apiServer expect))
  | some actual =>
    let updateOp := Operator.KubeEndpointSliceUpdateOp apiServer expect
    if labelsMismatch expect.Labels actual.Labels then .ok (some updateOp) else
    if actual.AddressType ≠ expect.AddressType then .ok (some updateOp) else
    if actual.Endpoints.length ≠ expect.Endpoints.length then .ok (some updateOp) else
    match endpointsMismatch actual.Endpoints expect.Endpoints with
    | .error e => .error e
    | .ok true => .ok (some updateOp)
    | .ok false =>
      match actual.Ports with
      | [port] =>
        match port.Name with
        | none => .ok (some updateOp)
        | some name =>
          match expect.Ports with
          | [] => .error .panic
          | expectPort :: _ =>
            match expectPort.Name with
            | none => .error .panic
            | some expectName =>
              if name ≠ expectName then .ok (some updateOp) else
              match port.Port with
              | none => .ok (some updateOp)
              | some portNumber =>
                match expectPort.Port with
                | none => .error .panic
                | some expectNumber =>
                  if portNumber ≠ expectNumber then .ok (some updateOp) else .ok none
      | _ => .ok (some updateOp)

/-- The function `decideEpEpsOps`: builds the expected Endpoints and EndpointSlice
and compares each with the observed one. -/
def decideEpEpsOps (expect : endpointParams) (actualEP : Option Endpoints)
    (actualEPS : Option EndpointSlice) (apiserver : Option Node) :
    Except Fault (List Operator) := do
  let ops : List Operator := []
  let readyAddresses := expect.readyIPs.map (fun ip => ({ IP := ip } : EndpointAddress))
  let notReadyAddresses := expect.notReadyIPs.map (fun ip => ({ IP := ip } : EndpointAddress))
  let ep : Endpoints :=
    { Namespace := expect.namespace_
      Name := expect.name
      Labels := [("endpointslice.kubernetes.io/skip-mirror", "true")]
      Subsets := [{ Addresses := readyAddresses
                    NotReadyAddresses := notReadyAddresses
                    Ports := [{ Name := expect.portName, Port := expect.port }] }] }
  let epOp ← decideEpOp ep actualEP apiserver
  let ops := match epOp with
    | some o => ops ++ [o]
    | none => ops
  let eps : EndpointSlice :=
    { Namespace := expect.namespace_
      Name := expect.name
      Labels := [("endpointslice.kubernetes.io/managed-by", "cke.cybozu.com"),
                 ("kubernetes.io/service-name", expect.serviceName)]
      AddressType := AddressTypeIPv4
      Endpoints :=
        expect.readyIPs.map (fun ip => ({ Addresses := [ip], Ready := some true } : SliceEndpoint))
          ++ expect.notReadyIPs.map
            (fun ip => ({ Addresses := [ip], Ready := some false } : SliceEndpoint))
      Ports := [{ Name := some expect.portName, Port := some expect.port }] }
  let epsOp ← decideEpsOp eps actualEPS apiserver
  let ops := match epsOp with
    | some o => ops ++ [o]
    | none => ops
  pure ops

/-- The function `decideEtcdServiceOps`. -/
def decideEtcdServiceOps (apiServer : Option Node) (svc : Option Service) : Option Operator :=
  match svc with
  | none => some (Operator.KubeEtcdServiceCreateOp apiServer)
  | some svc =>
    let updateOp := Operator.KubeEtcdServiceUpdateOp apiServer
    match svc.Ports with
    | [port] =>
      if port.Port ≠ 2379 then some updateOp else
      if svc.ServiceType ≠ ServiceTypeClusterIP then some updateOp else
      if svc.ClusterIP ≠ ClusterIPNone then some updateOp else
      none
    | _ => some updateOp

/-- The first loop of `decideResourceOps`, over the static resources: the apply
operator of the first resource that is missing or needs an update. -/
def staticResourceOp (d : Deps) (apiServer : Option Node) (ks : KubernetesClusterStatus)
    (isReady : Bool) : List ResourceDefinition → Option Operator
  | [] => none
  | res :: rest =>
    -- Deployments need to be created only after enough nodes become ready.
    if res.Kind = KindDeployment ∧ !isReady then
      staticResourceOp d apiServer ks isReady rest
    else
      let (status, ok) := mapGetOk ks.ResourceStatuses res.Key
      if !ok ∨ d.NeedUpdate res status then
        some (Operator.ResourceApplyOp apiServer res (!status.HasBeenSSA))
      else
        staticResourceOp d apiServer ks isReady rest

/-- One pass of the body of the second loop of `decideResourceOps` below the two
tests at its head: the operator list after the resource `res` has been looked at. -/
def userResourceStep (d : Deps) (apiServer : Option Node) (ks : KubernetesClusterStatus)
    (res : ResourceDefinition) (ops : List Operator) : List Operator :=
  let (status, ok) := mapGetOk ks.ResourceStatuses res.Key
  if !ok then
    ops ++ [Operator.ResourceApplyOp apiServer res (!status.HasBeenSSA)]
  else
    if d.NeedUpdate res status then
      ops ++ [Operator.ResourceApplyOp apiServer res (!status.HasBeenSSA)]
    else
      if !status.Completed then
        ops ++ [Operator.NopOp]
      else
        ops

/-- The second loop of `decideResourceOps`, over the user-defined resources, with
the loop variables `rank` and `ops` as arguments.  A skipped Deployment leaves
`rank` as it is (`continue`). -/
def userResourceLoop (d : Deps) (apiServer : Option Node) (ks : KubernetesClusterStatus)
    (isReady : Bool) : List ResourceDefinition → Nat → List Operator → List Operator
  | [], _, ops => ops
  | res :: rest, rank, ops =>
    if res.Rank ≠ rank ∧ ops.length > 0 then
      ops
    else if res.Kind = KindDeployment ∧ !isReady then
      userResourceLoop d apiServer ks isReady rest rank ops
    else
      userResourceLoop d apiServer ks isReady rest res.Rank
        (userResourceStep d apiServer ks res ops)

/-- The function `decideResourceOps`: the static resources first, then the
user-defined resources. -/
def decideResourceOps (d : Deps) (apiServer : Option Node) (ks : KubernetesClusterStatus)
    (resources : List ResourceDefinition) (isReady : Bool) : List Operator :=
  match staticResourceOp d apiServer ks isReady d.staticResources with
  | some o => [o]
  | none =>
    -- decide to apply user defined resources
    match resources with
    | [] => []
    | res0 :: _ =>
      -- resources are sorted by rank in advance
      userResourceLoop d apiServer ks isReady resources res0.Rank []

/-- The inner loops of `OUTER_MASTER` and `OUTER_ETCD` in `k8sMaintOps`: is the
node at `address` being drained or rebooted, or newly drained? -/
def rebootNotReady (rqEntries newlyDrained : List RebootQueueEntry) (address : String) : Bool :=
  rqEntries.any (fun entry => entry.Node == address
      && (entry.Status == RebootStatus.Draining || entry.Status == RebootStatus.Rebooting))
    || newlyDrained.any (fun entry => entry.Node == address)

/-- The loops `OUTER_MASTER` and `OUTER_ETCD`: the ready and the not-ready
addresses of `nodes`, appended to the lists collected so far. -/
def readyAddressesLoop (rqEntries newlyDrained : List RebootQueueEntry) :
    List Node → List String × List String → List String × List String
  | [], acc => acc
  | n :: rest, (ready, notReady) =>
    if rebootNotReady rqEntries newlyDrained n.Address then
      readyAddressesLoop rqEntries newlyDrained rest (ready, notReady ++ [n.Address])
    else
      readyAddressesLoop rqEntries newlyDrained rest (ready ++ [n.Address], notReady)

/-- The function `k8sMaintOps`. -/
def k8sMaintOps (d : Deps) (c : Cluster) (cs : ClusterStatus)
    (resources : List ResourceDefinition) (rqEntries newlyDrained : List RebootQueueEntry)
    (nf : NodeFilter) : Except Fault (List Operator) := do
  let ks := cs.Kubernetes
  let apiServer := d.HealthyAPIServer nf
  if !ks.IsControlPlaneReady then
    pure [Operator.KubeWaitOp apiServer]
  else
  let ops : List Operator := []
  let ops := ops ++ decideResourceOps d apiServer ks resources (d.IsReady ks c)
  let ops := ops ++ decideClusterDNSOps d apiServer c ks
  let ops := ops ++ decideNodeDNSOps d apiServer c ks
  let (masterReadyAddresses, masterNotReadyAddresses) :=
    readyAddressesLoop rqEntries newlyDrained (d.HealthyAPIServerNodes nf) ([], [])
  let masterNotReadyAddresses :=
    masterNotReadyAddresses ++ (d.UnhealthyAPIServerNodes nf).map (fun n => n.Address)
  let masterEP : endpointParams :=
    { namespace_ := NamespaceDefault
      name := "kubernetes"
      readyIPs := masterReadyAddresses
      notReadyIPs := masterNotReadyAddresses
      portName := "https"
      port := 6443
      serviceName := "kubernetes" }
  let epOps ← decideEpEpsOps masterEP ks.MasterEndpoints ks.MasterEndpointSlice apiServer
  let ops := ops ++ epOps
  -- Endpoints needs a corresponding Service.
  let svcOp := decideEtcdServiceOps apiServer ks.EtcdService
  let ops := match svcOp with
    | some o => ops ++ [o]
    | none => ops
  let (etcdReadyAddresses, etcdNotReadyAddresses) :=
    readyAddressesLoop rqEntries newlyDrained nf.ControlPlane ([], [])
  let etcdEP : endpointParams :=
    { namespace_ := NamespaceSystem
      name := d.EtcdEndpointsName
      readyIPs := etcdReadyAddresses
      notReadyIPs := etcdNotReadyAddresses
      portName := ""
      port := 2379
      serviceName := d.EtcdServiceName }
  let epOps ← decideEpEpsOps etcdEP ks.EtcdEndpoints ks.EtcdEndpointSlice apiServer
  let ops := ops ++ epOps
  let nodes := d.OutdatedAttrsNodes nf
  let ops := if nodes.length > 0 then ops ++ [Operator.KubeNodeUpdateOp apiServer nodes] else ops
  let nodes := d.NonClusterNodes nf
  let ops := if nodes.length > 0 then ops ++ [Operator.KubeNodeRemoveOp apiServer nodes] else ops
  pure ops

/-! ## Steps 8 to 10: clean-up, uncordon, reboot -/

/-- The nodes looked at by the loop of `cleanOps`: SSH-connected and not declared
as control plane. -/
def cleanCandidates (c : Cluster) (nf : NodeFilter) : List Node :=
  c.Nodes.filter (fun n =>
    !(!(mapGet nf.status.NodeStatuses n.Address).SSHConnected || n.ControlPlane))

/-- The function `cleanOps`.  Its loop appends each candidate node to up to five
lists; each list is the candidates filtered by the condition of its `append`. -/
def cleanOps (d : Deps) (c : Cluster) (nf : NodeFilter) : List Operator :=
  let candidates := cleanCandidates c nf
  let etcds := candidates.filter (fun n => (nf.nodeStatus n).Etcd.Running && d.EtcdIsGood nf)
  let apiServers := candidates.filter (fun n => (nf.nodeStatus n).APIServer.Running)
  let controllerManagers :=
    candidates.filter (fun n => (nf.nodeStatus n).ControllerManager.Running)
  let schedulers := candidates.filter (fun n => (nf.nodeStatus n).Scheduler.Running)
  let etcdRivers := candidates.filter (fun n => (nf.nodeStatus n).EtcdRivers.Running)
  let ops : List Operator := []
  let ops := if apiServers.length > 0 then ops ++ [Operator.APIServerStopOp apiServers] else ops
  let ops := if controllerManagers.length > 0 then
      ops ++ [Operator.ControllerManagerStopOp controllerManagers] else ops
  let ops := if schedulers.length > 0 then ops ++ [Operator.SchedulerStopOp schedulers] else ops
  let ops := if etcds.length > 0 then ops ++ [Operator.EtcdStopOp etcds] else ops
  let ops := if etcdRivers.length > 0 then ops ++ [Operator.EtcdRiversStopOp etcdRivers] else ops
  ops

/-- The function `rebootProcessing`: is the node being drained or rebooted? -/
def rebootProcessing (rqEntries : List RebootQueueEntry) (node : String) : Bool :=
  rqEntries.any (fun entry =>
    (entry.Status == RebootStatus.Draining || entry.Status == RebootStatus.Rebooting)
      && node == entry.Node)

/-- The function `rebootOps`: the operators and the flag `phaseReboot`. -/
def rebootOps (d : Deps) (c : Cluster) (constraints : Constraints)
    (rebootArgs : DecideOpsRebootArgs) (nf : NodeFilter) (drainRetryTimes : Int)
    (drainRetryInterval : Int) : List Operator × Bool :=
  if rebootArgs.RQEntries.length = 0 then
    ([], false)
  else if c.Reboot.RebootCommand.length = 0 then
    ([], false)
  else if c.Reboot.BootCheckCommand.length = 0 then
    ([], false)
  else
  let ops : List Operator := []
  let phaseReboot := false
  let (ops, phaseReboot) :=
    if rebootArgs.NewlyDrained.length > 0 then
      let sshCheckNodes :=
        nf.cluster.Nodes.filter (fun node => !rebootProcessing rebootArgs.RQEntries node.Address)
      if ((nf.SSHNotConnectedNodes sshCheckNodes true true).length : Int)
          > constraints.RebootMaximumUnreachable then
        (ops, true)
      else
        (ops ++ [Operator.RebootDrainStartOp (d.HealthyAPIServer nf) rebootArgs.NewlyDrained
          c.Reboot drainRetryTimes drainRetryInterval], true)
    else (ops, phaseReboot)
  let (ops, phaseReboot) :=
    if rebootArgs.DrainCompleted.length > 0 then
      (ops ++ [Operator.RebootRebootOp (d.HealthyAPIServer nf) rebootArgs.DrainCompleted
        c.Reboot], true)
    else (ops, phaseReboot)
  let (ops, phaseReboot) :=
    if rebootArgs.DrainTimedout.length > 0 then
      (ops ++ [Operator.RebootDrainTimeoutOp rebootArgs.DrainTimedout], true)
    else (ops, phaseReboot)
  let (ops, phaseReboot) :=
    if rebootArgs.RebootDequeued.length > 0 then
      (ops ++ [Operator.RebootDequeueOp rebootArgs.RebootDequeued], true)
    else (ops, phaseReboot)
  let (ops, phaseReboot) :=
    if ops.length > 0 then
      (ops ++ [Operator.RebootRecalcMetricsOp], true)
    else (ops, phaseReboot)
  (ops, phaseReboot)

/-- The function `rebootUncordonOp`. -/
def rebootUncordonOp (d : Deps) (rqEntries : List RebootQueueEntry) (nf : NodeFilter) :
    Option Operator :=
  let attrNodes := d.CordonedNodes nf
  if attrNodes.length = 0 then
    none
  else
  let nodes := (attrNodes.filter (fun n => !rebootProcessing rqEntries n.Name)).map
    (fun n => n.Name)
  if nodes.length = 0 then
    none
  else
  some (Operator.RebootUncordonOp (d.HealthyAPIServer nf) nodes)

/-! ## The cascade -/

/-- The function `DecideOps`: the next operations to do and the operation phase. -/
def DecideOps (d : Deps) (c : Cluster) (cs : ClusterStatus) (constraints : Constraints)
    (resources : List ResourceDefinition) (rebootArgs : DecideOpsRebootArgs)
    (config : Config) : Except Fault (List Operator × OperationPhase) :=
  let nf := NewNodeFilter c cs
  -- 0. Execute upgrade operation if necessary
  if cs.ConfigVersion ≠ d.ConfigVersion then
    -- Upgrade operations run only when all CPs are SSH reachable
    if (nf.SSHNotConnectedNodes nf.cluster.Nodes true false).length > 0 then
      .ok ([], .PhaseUpgradeAborted)
    else
      .ok ([Operator.UpgradeOp cs.ConfigVersion nf.ControlPlane], .PhaseUpgrade)
  else
  -- 1. Run or restart rivers.
  match riversOps d c nf config.MaxConcurrentUpdates with
  | .error e => .error e
  | .ok ops =>
  if ops.length > 0 then .ok (ops, .PhaseRivers) else
  -- 2. Bootstrap etcd cluster, if not yet.
  if !d.EtcdBootstrapped nf then
    -- Etcd boot operations run only when all CPs are SSH reachable
    if (nf.SSHNotConnectedNodes nf.cluster.Nodes true false).length > 0 then
      .ok ([], .PhaseEtcdBootAborted)
    else
      .ok ([Operator.etcd_BootOp nf.ControlPlane c.Options.Etcd], .PhaseEtcdBoot)
  else
  -- 3. Start etcd containers.
  let nodes := nf.SSHConnectedNodes (d.EtcdStoppedMembers nf) true false
  if nodes.length > 0 then
    .ok ([Operator.etcd_StartOp nodes c.Options.Etcd], .PhaseEtcdStart)
  else
  -- 4. Wait for etcd cluster to become ready
  if !cs.Etcd.IsHealthy then
    .ok ([Operator.etcd_WaitClusterOp nf.ControlPlane], .PhaseEtcdWait)
  else
  -- 5. Run or restart kubernetes components.
  match k8sOps d c nf cs config.MaxConcurrentUpdates with
  | .error e => .error e
  | .ok ops =>
  if ops.length > 0 then .ok (ops, .PhaseK8sStart) else
  -- 6. Maintain etcd cluster, only when all CPs are SSH reachable.
  match (if (nf.SSHNotConnectedNodes nf.cluster.Nodes true false).length = 0
      then etcdMaintOp d c nf else none) with
  | some o => .ok ([o], .PhaseEtcdMaintain)
  | none =>
  -- 7. Maintain k8s resources.
  match k8sMaintOps d c cs resources rebootArgs.RQEntries rebootArgs.NewlyDrained nf with
  | .error e => .error e
  | .ok ops =>
  if ops.length > 0 then .ok (ops, .PhaseK8sMaintain) else
  -- 8. Stop and delete control plane services running on non control plane nodes.
  let ops := cleanOps d c nf
  if ops.length > 0 then .ok (ops, .PhaseStopCP) else
  -- 9. Uncordon nodes if nodes are cordoned by CKE.
  match rebootUncordonOp d rebootArgs.RQEntries nf with
  | some o => .ok ([o], .PhaseUncordonNodes)
  | none =>
  -- 10. Reboot nodes if reboot request has been arrived to the reboot queue.
  let (ops, phaseReboot) := rebootOps d c constraints rebootArgs nf config.DrainRetryTimes
    config.DrainRetryInterval
  if phaseReboot then
    if !d.EtcdIsGood nf then
      .ok ([], .PhaseRebootNodes)
    else
      .ok (ops, .PhaseRebootNodes)
  else
  .ok ([], .PhaseCompleted)


/-! ## `container.go`: errors of `docker container inspect` that may be skipped

Go byte slices and strings that hold text are Lean strings here, that is, the
text they encode in UTF-8; their length in bytes is `byteLen`. -/

/-- A Go `error` value, as far as the code tells errors apart: the sentinel
`ErrNoLeader`, an exit error of the remote shell (`*ssh.ExitError`) with its exit
status, or any other error. -/
inductive GoError where
  | ErrNoLeader
  | ExitError (exitStatus : Int)
  | other (msg : String)
  deriving DecidableEq, Repr, Inhabited

/-- The constant `bufio.MaxScanTokenSize`: the size of the largest buffer a
`bufio.Scanner` allocates unless told otherwise. -/
def MaxScanTokenSize : Nat := 64 * 1024

/-- Length in bytes of a piece of text. -/
def byteLen (text : List Char) : Nat :=
  (text.map Char.utf8Size).sum

/-- The input cut at every newline, as `bufio.ScanLines` cuts it: the newline is
not part of a line, and what follows the last newline is a line only when it is
not empty.  `acc` holds the current line, reversed. -/
def rawLinesFrom : List Char → List Char → List (List Char)
  | acc, [] => if acc.isEmpty then [] else [acc.reverse]
  | acc, ch :: rest =>
    if ch = '\n' then acc.reverse :: rawLinesFrom [] rest
    else rawLinesFrom (ch :: acc) rest

/-- The lines of the input. -/
def rawLines (data : List Char) : List (List Char) :=
  rawLinesFrom [] data

/-- The helper `dropCR` of `bufio.ScanLines`: one trailing carriage return is
dropped. -/
def dropCR (line : List Char) : List Char :=
  if line.getLast? = some '\r' then line.dropLast else line

/-- What the loop `for scanner.Scan() { ... scanner.Text() ... }` sees for a
scanner made by `bufio.NewScanner`: the lines in order, up to the first line
that does not fit the buffer together with its newline.  At such a line `Scan`
returns false (the scanner's error is `ErrTooLong`) and the loop ends. -/
def scanTokens (data : List Char) : List (List Char) :=
  ((rawLines data).takeWhile (fun line => decide (byteLen line < MaxScanTokenSize))).map dropCR

/-- The predicate `unicode.IsSpace`. -/
def isSpace (ch : Char) : Bool :=
  let n := ch.toNat
  n = 0x09 || n = 0x0A || n = 0x0B || n = 0x0C || n = 0x0D || n = 0x20 || n = 0x85
    || n = 0xA0 || n = 0x1680 || (0x2000 ≤ n && n ≤ 0x200A) || n = 0x2028 || n = 0x2029
    || n = 0x202F || n = 0x205F || n = 0x3000

/-- The function `strings.TrimSpace`. -/
def TrimSpace (s : List Char) : List Char :=
  ((s.dropWhile isSpace).reverse.dropWhile isSpace).reverse

/-- The marker `"Error: No such container: "`. -/
def noSuchContainer : List Char := "Error: No such container: ".data

/-- The scanning loop of `isSkippableError` over the lines it sees: an empty
line and a line with the marker are passed over, any other line returns
false; when the loop ends the result is true. -/
def skippableLines : List (List Char) → Bool
  | [] => true
  | text :: rest =>
    let line := TrimSpace text
    if line.length = 0 then skippableLines rest
    else if noSuchContainer.isPrefixOf line then skippableLines rest
    else false

/-- The function `isSkippableError`.  `err` is `none` for a nil error. -/
def isSkippableError (err : Option GoError) (stderr : String) : Bool :=
  match err with
  | some (.ExitError exitStatus) =>
    if exitStatus ≠ 1 then false
    else skippableLines (scanTokens stderr.data)
  | _ => false

/-! ## `kubeconfig.go`

The types of `k8s.io/client-go/tools/clientcmd/api` are reduced to the fields of
a kubeconfig file that name servers, credentials and contexts. -/

/-- Go map write `m[k] = v`. -/
def mapSet {α : Type} (m : StrMap α) (k : String) (v : α) : StrMap α :=
  (k, v) :: m.filter (fun kv => kv.1 != k)

/-- The conversion `[]byte(s)`: the bytes of a string. -/
def bytesOf (s : String) : List UInt8 :=
  s.data.flatMap String.utf8EncodeChar

/-- The type `api.Cluster`. -/
structure api.Cluster where
  Server : String
  InsecureSkipTLSVerify : Bool
  CertificateAuthority : String
  CertificateAuthorityData : List UInt8
  deriving DecidableEq, Repr, Inhabited

/-- The type `api.AuthInfo`. -/
structure api.AuthInfo where
  ClientCertificate : String
  ClientCertificateData : List UInt8
  ClientKey : String
  ClientKeyData : List UInt8
  Token : String
  Username : String
  Password : String
  deriving DecidableEq, Repr, Inhabited

/-- The type `api.Context`. -/
structure api.Context where
  Cluster : String
  AuthInfo : String
  Namespace : String
  deriving DecidableEq, Repr, Inhabited

/-- The type `api.Config`. -/
structure api.Config where
  Clusters : StrMap api.Cluster
  AuthInfos : StrMap api.AuthInfo
  Contexts : StrMap api.Context
  CurrentContext : String
  deriving DecidableEq, Repr, Inhabited

/-- The constructor `api.NewConfig`: empty maps, no current context. -/
def api.NewConfig : api.Config :=
  { Clusters := [], AuthInfos := [], Contexts := [], CurrentContext := "" }

/-- The constructor `api.NewCluster`. -/
def api.NewCluster : api.Cluster :=
  { Server := "", InsecureSkipTLSVerify := false, CertificateAuthority := "",
    CertificateAuthorityData := [] }

/-- The constructor `api.NewAuthInfo`. -/
def api.NewAuthInfo : api.AuthInfo :=
  { ClientCertificate := "", ClientCertificateData := [], ClientKey := "", ClientKeyData := [],
    Token := "", Username := "", Password := "" }

/-- The constructor `api.NewContext`. -/
def api.NewContext : api.Context :=
  { Cluster := "", AuthInfo := "", Namespace := "" }

/-- The function `Kubeconfig`: the configuration rendered as the "kubeconfig"
file used inside the cluster. -/
def Kubeconfig (cluster user ca clientCrt clientKey : String) : api.Config :=
  let cfg := api.NewConfig
  let c := api.NewCluster
  let c := { c with Server := "https://localhost:16443" }
  let c := { c with CertificateAuthorityData := bytesOf ca }
  let cfg := { cfg with Clusters := mapSet cfg.Clusters cluster c }
  let auth := api.NewAuthInfo
  let auth := { auth with ClientCertificateData := bytesOf clientCrt }
  let auth := { auth with ClientKeyData := bytesOf clientKey }
  let cfg := { cfg with AuthInfos := mapSet cfg.AuthInfos user auth }
  let ctx := api.NewContext
  let ctx := { ctx with AuthInfo := user }
  let ctx := { ctx with Cluster := cluster }
  let cfg := { cfg with Contexts := mapSet cfg.Contexts "default" ctx }
  let cfg := { cfg with CurrentContext := "default" }
  cfg

/-- The function `UserKubeconfig`: the kubeconfig for users. -/
def UserKubeconfig (cluster userName ca clientCrt clientKey server : String) : api.Config :=
  let cfg := api.NewConfig
  let c := api.NewCluster
  let c := { c with Server := server }
  let c := { c with CertificateAuthorityData := bytesOf ca }
  let cfg := { cfg with Clusters := mapSet cfg.Clusters cluster c }
  let auth := api.NewAuthInfo
  let auth := { auth with ClientCertificateData := bytesOf clientCrt }
  let auth := { auth with ClientKeyData := bytesOf clientKey }
  let cfg := { cfg with AuthInfos := mapSet cfg.AuthInfos userName auth }
  let ctx := api.NewContext
  let ctx := { ctx with AuthInfo := userName }
  let ctx := { ctx with Cluster := cluster }
  let cfg := { cfg with Contexts := mapSet cfg.Contexts "default" ctx }
  let cfg := { cfg with CurrentContext := "default" }
  cfg

/-! ## `control.go`: the controller

The store, the nodes, the clock and the progress of the operator being run are
the world outside the controller.  Its state is a value of a type `σ`; every
call that leaves the controller takes the state and returns its result with the
new state.  Each function below also lists, in order, the calls it made. -/

/-- Modelled from the spec: the structured description of a command ("name,
target, args") that a commander gives for persistence. -/
structure Command where
  Name : String
  Target : String
  Detail : String
  deriving DecidableEq, Repr, Inhabited

/-- Modelled from the spec: the status of a record. -/
inductive RecordStatus where
  | running
  | completed
  | cancelled
  | failed
  deriving DecidableEq, Repr, Inhabited

/-- Modelled from the spec: the record of an operation, "{id, operator_name, ...,
command, error?, status}"; the time stamps are left out. -/
structure Record where
  ID : Int
  Operation : String
  Command : Command
  Error : Option GoError
  Status : RecordStatus
  deriving DecidableEq, Repr, Inhabited

/-- Modelled from the spec: the method `SetCommand` of a record, "update the
record's `command` field". -/
def Record.SetCommand (r : Record) (c : Cke.Command) : Record :=
  { r with Command := c }

/-- Modelled from the spec: the method `SetError` of a record, "record `error`
and status `failed`". -/
def Record.SetError (r : Record) (e : GoError) : Record :=
  { r with Error := some e, Status := .failed }

/-- Modelled from the spec: the method `Complete` of a record, "set
`completed`". -/
def Record.Complete (r : Record) : Record :=
  { r with Status := .completed }

/-- The interface `Commander`: `Command()` describes the command and `Run(ctx)`
performs it. -/
structure Commander (σ : Type) where
  Command : Command
  Run : σ → Option GoError × σ

/-- The interface `Operator` as `runOnce` uses it: `NewRecord(id)`,
`Cleanup(ctx)` and `NextCommand()`, which returns no commander at the end. -/
structure Controller.Operator (σ : Type) where
  NewRecord : Int → Record
  Cleanup : σ → Option GoError × σ
  NextCommand : σ → Option (Commander σ) × σ

/-- The place of a call of `storage.UpdateRecord` in `runOnce`: before a command
is run, after a command has failed, or after the last command. -/
inductive UpdateSite where
  | command
  | failure
  | completion
  deriving DecidableEq, Repr

/-- A call that leaves the controller, with its arguments and its result. -/
inductive Event (σ : Type) where
  | hostname (res : Except GoError String)
  | campaign (host : String) (res : Option GoError)
  | resign (res : Option GoError)
  | getCluster (res : Option GoError)
  | getClusterStatus (res : Option GoError)
  | wait
  | nextRecordID (res : Except GoError Int)
  | registerRecord (leaderKey : String) (r : Record) (res : Option GoError)
  | cleanup (res : Option GoError)
  | nextCommand (c : Option (Commander σ))
  | updateRecord (site : UpdateSite) (leaderKey : String) (r : Record) (res : Option GoError)
  | run (c : Commander σ) (res : Option GoError)

/-- What `control.go` calls and does not define: the store, the observation of
the cluster, the decision, the wait for the next tick, and the election. -/
structure Controller.Env (σ : Type) where
  GetCluster : σ → Except GoError Cluster × σ
  GetClusterStatus : Cluster → σ → Except GoError ClusterStatus × σ
  DecideToDo : Cluster → ClusterStatus → Option (Controller.Operator σ)
  Wait : σ → σ
  NextRecordID : σ → Except GoError Int × σ
  RegisterRecord : String → Record → σ → Option GoError × σ
  UpdateRecord : String → Record → σ → Option GoError × σ
  Hostname : σ → Except GoError String × σ
  Campaign : String → σ → Option GoError × σ
  Key : σ → String
  Resign : σ → Option GoError × σ

/-- A piece of the controller that has run: what it returned (a fault when the
fuel of a loop ran out), the state it left and the calls it made. -/
structure Ran (σ α : Type) where
  result : Except Fault α
  state : σ
  events : List (Event σ)

/-- How the command loop of `runOnce` ends: by `break`, with the record as it
is then, or by returning an error. -/
inductive LoopExit where
  | break_ (record : Record)
  | return_ (err : GoError)
  deriving DecidableEq, Repr

/-- The loop `for { commander := op.NextCommand() ... }` of `runOnce`; `fuel`
bounds the number of iterations. -/
def Controller.commandLoop {σ : Type} (env : Controller.Env σ) (op : Controller.Operator σ)
    (leaderKey : String) : Nat → Record → σ → Ran σ LoopExit
  | 0, _, s => { result := .error .outOfFuel, state := s, events := [] }
  | fuel + 1, record, s =>
    let next := op.NextCommand s
    match next.1 with
    | none =>
      { result := .ok (.break_ record), state := next.2, events := [Event.nextCommand none] }
    | some commander =>
      let record1 := record.SetCommand commander.Command
      let upd := env.UpdateRecord leaderKey record1 next.2
      match upd.1 with
      | some err =>
        { result := .ok (.return_ err), state := upd.2,
          events := [Event.nextCommand (some commander),
                     Event.updateRecord .command leaderKey record1 (some err)] }
      | none =>
        let ran := commander.Run upd.2
        match ran.1 with
        | none =>
          let rest := Controller.commandLoop env op leaderKey fuel record1 ran.2
          { result := rest.result, state := rest.state,
            events := [Event.nextCommand (some commander),
                       Event.updateRecord .command leaderKey record1 none,
                       Event.run commander none] ++ rest.events }
        | some err =>
          let record2 := record1.SetError err
          let upd2 := env.UpdateRecord leaderKey record2 ran.2
          { result := .ok (.return_ err), state := upd2.2,
            events := [Event.nextCommand (some commander),
                       Event.updateRecord .command leaderKey record1 none,
                       Event.run commander (some err),
                       Event.updateRecord .failure leaderKey record2 upd2.1] }

/-- The method `Controller.runOnce`: one tick.  The result is the returned error
(`none` for `nil`). -/
def Controller.runOnce {σ : Type} (env : Controller.Env σ) (fuel : Nat) (leaderKey : String)
    (s : σ) : Ran σ (Option GoError) :=
  let got := env.GetCluster s
  match got.1 with
  | .error err =>
    { result := .ok (some err), state := got.2, events := [Event.getCluster (some err)] }
  | .ok cluster =>
  let obs := env.GetClusterStatus cluster got.2
  match obs.1 with
  | .error err =>
    { result := .ok (some err), state := obs.2,
      events := [Event.getCluster none, Event.getClusterStatus (some err)] }
  | .ok status =>
  match env.DecideToDo cluster status with
  | none =>
    { result := .ok none, state := env.Wait obs.2,
      events := [Event.getCluster none, Event.getClusterStatus none, Event.wait] }
  | some op =>
  -- register operation record
  let nid := env.NextRecordID obs.2
  match nid.1 with
  | .error err =>
    { result := .ok (some err), state := nid.2,
      events := [Event.getCluster none, Event.getClusterStatus none,
                 Event.nextRecordID (.error err)] }
  | .ok id =>
  let record := op.NewRecord id
  let reg := env.RegisterRecord leaderKey record nid.2
  match reg.1 with
  | some err =>
    { result := .ok (some err), state := reg.2,
      events := [Event.getCluster none, Event.getClusterStatus none,
                 Event.nextRecordID (.ok id), Event.registerRecord leaderKey record (some err)] }
  | none =>
  let cln := op.Cleanup reg.2
  match cln.1 with
  | some err =>
    { result := .ok (some err), state := cln.2,
      events := [Event.getCluster none, Event.getClusterStatus none,
                 Event.nextRecordID (.ok id), Event.registerRecord leaderKey record none,
                 Event.cleanup (some err)] }
  | none =>
  let loop := Controller.commandLoop env op leaderKey fuel record cln.2
  let before : List (Event σ) :=
    [Event.getCluster none, Event.getClusterStatus none, Event.nextRecordID (.ok id),
     Event.registerRecord leaderKey record none, Event.cleanup none]
  match loop.result with
  | .error f => { result := .error f, state := loop.state, events := before ++ loop.events }
  | .ok (.return_ err) =>
    { result := .ok (some err), state := loop.state, events := before ++ loop.events }
  | .ok (.break_ record) =>
    let record := record.Complete
    let upd := env.UpdateRecord leaderKey record loop.state
    { result := .ok upd.1, state := upd.2,
      events := before ++ loop.events
        ++ [Event.updateRecord .completion leaderKey record upd.1] }

/-- The method `Controller.runLoop`: tick after tick until one returns an error;
`ticks` bounds the number of ticks. -/
def Controller.runLoop {σ : Type} (env : Controller.Env σ) (fuel : Nat) (leaderKey : String) :
    Nat → σ → Ran σ GoError
  | 0, s => { result := .error .outOfFuel, state := s, events := [] }
  | ticks + 1, s =>
    let tick := Controller.runOnce env fuel leaderKey s
    match tick.result with
    | .error f => { result := .error f, state := tick.state, events := tick.events }
    | .ok (some err) => { result := .ok err, state := tick.state, events := tick.events }
    | .ok none =>
      let rest := Controller.runLoop env fuel leaderKey ticks tick.state
      { result := rest.result, state := rest.state, events := tick.events ++ rest.events }

/-- The part of `Controller.Run` from the label `RETRY` on: campaign, run the
loop as leader, and on `ErrNoLeader` resign and campaign again; `rounds` bounds
the number of campaigns. -/
def Controller.campaignLoop {σ : Type} (env : Controller.Env σ) (fuel ticks : Nat)
    (hostname : String) : Nat → σ → Ran σ (Option GoError)
  | 0, s => { result := .error .outOfFuel, state := s, events := [] }
  | rounds + 1, s =>
    let won := env.Campaign hostname s
    match won.1 with
    | some err =>
      { result := .ok (some err), state := won.2, events := [Event.campaign hostname (some err)] }
    | none =>
    let leaderKey := env.Key won.2
    let looped := Controller.runLoop env fuel leaderKey ticks won.2
    match looped.result with
    | .error f =>
      { result := .error f, state := looped.state,
        events := Event.campaign hostname none :: looped.events }
    | .ok err =>
      if err = GoError.ErrNoLeader then
        let left := env.Resign looped.state
        match left.1 with
        | some err2 =>
          { result := .ok (some err2), state := left.2,
            events := Event.campaign hostname none :: looped.events
              ++ [Event.resign (some err2)] }
        | none =>
          let rest := Controller.campaignLoop env fuel ticks hostname rounds left.2
          { result := rest.result, state := rest.state,
            events := Event.campaign hostname none :: looped.events
              ++ [Event.resign none] ++ rest.events }
      else
        { result := .ok (some err), state := looped.state,
          events := Event.campaign hostname none :: looped.events }

/-- The method `Controller.Run`: run the controller with leader election. -/
def Controller.Run {σ : Type} (env : Controller.Env σ) (fuel ticks rounds : Nat) (s : σ) :
    Ran σ (Option GoError) :=
  let host := env.Hostname s
  match host.1 with
  | .error err =>
    { result := .ok (some err), state := host.2, events := [Event.hostname (.error err)] }
  | .ok hostname =>
    let rest := Controller.campaignLoop env fuel ticks hostname rounds host.2
    { result := rest.result, state := rest.state,
      events := Event.hostname (.ok hostname) :: rest.events }
/-! ## The cascade as the specification words it

Section 4.E of the specification describes `DecideOps` as a list of steps that
is "evaluated top-to-bottom; the first non-empty result is emitted".  The
definitions below follow those words: each step is described on its own, and
`firstOutcome` scans the list. -/

/-- What `DecideOps` returns: the operators and the phase. -/
abbrev Outcome := List Operator × OperationPhase

/-- The result of one step of the cascade taken alone: `none` when the step has
nothing to emit and hands over to the next one. -/
abbrev StepResult := Except Fault (Option Outcome)

/-- All control-plane nodes are SSH-reachable (the gate of steps 0, 2 and 6). -/
def allCPReachable (nf : NodeFilter) : Bool :=
  (nf.SSHNotConnectedNodes nf.cluster.Nodes true false).length = 0

/-- Step 0, upgrade. -/
def stepUpgrade (d : Deps) (cs : ClusterStatus) (nf : NodeFilter) : StepResult :=
  if cs.ConfigVersion = d.ConfigVersion then .ok none
  else if allCPReachable nf then
    .ok (some ([Operator.UpgradeOp cs.ConfigVersion nf.ControlPlane], .PhaseUpgrade))
  else .ok (some ([], .PhaseUpgradeAborted))

/-- A step that emits an operator list when it is not empty. -/
def stepOfOps (ops : Except Fault (List Operator)) (phase : OperationPhase) : StepResult :=
  match ops with
  | .error e => .error e
  | .ok [] => .ok none
  | .ok (o :: rest) => .ok (some (o :: rest, phase))

/-- A step that emits at most one operator. -/
def stepOfOp (o : Option Operator) (phase : OperationPhase) : StepResult :=
  match o with
  | none => .ok none
  | some o => .ok (some ([o], phase))

/-- Step 2, etcd bootstrap. -/
def stepEtcdBoot (d : Deps) (c : Cluster) (nf : NodeFilter) : StepResult :=
  if d.EtcdBootstrapped nf then .ok none
  else if allCPReachable nf then
    .ok (some ([Operator.etcd_BootOp nf.ControlPlane c.Options.Etcd], .PhaseEtcdBoot))
  else .ok (some ([], .PhaseEtcdBootAborted))

/-- Step 3, etcd start. -/
def stepEtcdStart (d : Deps) (c : Cluster) (nf : NodeFilter) : StepResult :=
  match nf.SSHConnectedNodes (d.EtcdStoppedMembers nf) true false with
  | [] => .ok none
  | n :: rest => .ok (some ([Operator.etcd_StartOp (n :: rest) c.Options.Etcd], .PhaseEtcdStart))

/-- Step 4, etcd wait. -/
def stepEtcdWait (cs : ClusterStatus) (nf : NodeFilter) : StepResult :=
  if cs.Etcd.IsHealthy then .ok none
  else .ok (some ([Operator.etcd_WaitClusterOp nf.ControlPlane], .PhaseEtcdWait))

/-- Step 6, etcd maintenance, behind its reachability gate. -/
def stepEtcdMaintain (d : Deps) (c : Cluster) (nf : NodeFilter) : StepResult :=
  if allCPReachable nf then stepOfOp (etcdMaintOp d c nf) .PhaseEtcdMaintain else .ok none

/-- Step 10, reboot, behind its safety gate on etcd. -/
def stepReboot (d : Deps) (c : Cluster) (constraints : Constraints)
    (rebootArgs : DecideOpsRebootArgs) (config : Config) (nf : NodeFilter) : StepResult :=
  let r := rebootOps d c constraints rebootArgs nf config.DrainRetryTimes config.DrainRetryInterval
  if r.2 then
    if d.EtcdIsGood nf then .ok (some (r.1, .PhaseRebootNodes))
    else .ok (some ([], .PhaseRebootNodes))
  else .ok none

/-- The eleven steps in priority order. -/
def cascade (d : Deps) (c : Cluster) (cs : ClusterStatus) (constraints : Constraints)
    (resources : List ResourceDefinition) (rebootArgs : DecideOpsRebootArgs)
    (config : Config) : List StepResult :=
  let nf := NewNodeFilter c cs
  [ stepUpgrade d cs nf,
    stepOfOps (riversOps d c nf config.MaxConcurrentUpdates) .PhaseRivers,
    stepEtcdBoot d c nf,
    stepEtcdStart d c nf,
    stepEtcdWait cs nf,
    stepOfOps (k8sOps d c nf cs config.MaxConcurrentUpdates) .PhaseK8sStart,
    stepEtcdMaintain d c nf,
    stepOfOps (k8sMaintOps d c cs resources rebootArgs.RQEntries rebootArgs.NewlyDrained nf)
      .PhaseK8sMaintain,
    stepOfOps (.ok (cleanOps d c nf)) .PhaseStopCP,
    stepOfOp (rebootUncordonOp d rebootArgs.RQEntries nf) .PhaseUncordonNodes,
    stepReboot d c constraints rebootArgs config nf ]

/-- Scan the steps top to bottom; the first one with a result decides, and when
none has one the cluster is converged. -/
def firstOutcome : List StepResult → Except Fault Outcome
  | [] => .ok ([], .PhaseCompleted)
  | .error e :: _ => .error e
  | .ok (some r) :: _ => .ok r
  | .ok none :: rest => firstOutcome rest

/-- The number of the step whose code builds the operator. -/
def Operator.origin : Operator → Nat
  | .UpgradeOp .. => 0
  | .RiversBootOp .. => 1
  | .RiversRestartOp .. => 1
  | .etcd_BootOp .. => 2
  | .etcd_StartOp .. => 3
  | .etcd_WaitClusterOp .. => 4
  | .k8s_APIServerRestartOp .. => 5
  | .k8s_ControllerManagerBootOp .. => 5
  | .k8s_ControllerManagerRestartOp .. => 5
  | .k8s_SchedulerBootOp .. => 5
  | .k8s_SchedulerRestartOp .. => 5
  | .k8s_KubeletRestartOp .. => 5
  | .k8s_KubeletBootOp .. => 5
  | .k8s_KubeProxyBootOp .. => 5
  | .k8s_KubeProxyRestartOp .. => 5
  | .ProxyStopOp .. => 5
  | .etcd_RemoveMemberOp .. => 6
  | .etcd_DestroyMemberOp .. => 6
  | .etcd_AddMemberOp .. => 6
  | .etcd_MarkMemberOp .. => 6
  | .etcd_RestartOp .. => 6
  | .KubeWaitOp .. => 7
  | .ResourceApplyOp .. => 7
  | .NopOp => 7
  | .clusterdns_CreateConfigMapOp .. => 7
  | .clusterdns_UpdateConfigMapOp .. => 7
  | .nodedns_CreateConfigMapOp .. => 7
  | .nodedns_UpdateConfigMapOp .. => 7
  | .KubeEndpointsCreateOp .. => 7
  | .KubeEndpointsUpdateOp .. => 7
  | .KubeEndpointSliceCreateOp .. => 7
  | .KubeEndpointSliceUpdateOp .. => 7
  | .KubeEtcdServiceCreateOp .. => 7
  | .KubeEtcdServiceUpdateOp .. => 7
  | .KubeNodeUpdateOp .. => 7
  | .KubeNodeRemoveOp .. => 7
  | .APIServerStopOp .. => 8
  | .ControllerManagerStopOp .. => 8
  | .SchedulerStopOp .. => 8
  | .EtcdStopOp .. => 8
  | .EtcdRiversStopOp .. => 8
  | .RebootUncordonOp .. => 9
  | .RebootDrainStartOp .. => 10
  | .RebootRebootOp .. => 10
  | .RebootDrainTimeoutOp .. => 10
  | .RebootDequeueOp .. => 10
  | .RebootRecalcMetricsOp => 10

/-- The phases with which step `k` can return. -/
def stepPhases : Nat → List OperationPhase
  | 0 => [.PhaseUpgrade, .PhaseUpgradeAborted]
  | 1 => [.PhaseRivers]
  | 2 => [.PhaseEtcdBoot, .PhaseEtcdBootAborted]
  | 3 => [.PhaseEtcdStart]
  | 4 => [.PhaseEtcdWait]
  | 5 => [.PhaseK8sStart]
  | 6 => [.PhaseEtcdMaintain]
  | 7 => [.PhaseK8sMaintain]
  | 8 => [.PhaseStopCP]
  | 9 => [.PhaseUncordonNodes]
  | 10 => [.PhaseRebootNodes]
  | _ => []

/-- The node list of an operator that `riversOps` and `k8sOps` build through
`splitOperators`; `none` for every other operator. -/
def Operator.batch : Operator → Option (List Node)
  | .RiversBootOp nodes .. => some nodes
  | .RiversRestartOp nodes .. => some nodes
  | .k8s_KubeletRestartOp nodes .. => some nodes
  | .k8s_KubeletBootOp nodes .. => some nodes
  | .k8s_KubeProxyBootOp nodes .. => some nodes
  | .k8s_KubeProxyRestartOp nodes .. => some nodes
  | .ProxyStopOp nodes => some nodes
  | _ => none

/-! ## The reboot step as the specification words it (section 4.H) -/

/-- The number of cluster nodes that are not SSH-connected, the nodes being
drained or rebooted ("already processing") left out. -/
def unreachableCount (c : Cluster) (cs : ClusterStatus) (rqEntries : List RebootQueueEntry) :
    Nat :=
  (c.Nodes.filter (fun n => !rebootProcessing rqEntries n.Address
    && !(mapGet cs.NodeStatuses n.Address).SSHConnected)).length

/-- The reboot phase is active: the queue and both commands are non-empty. -/
def rebootEnabled (c : Cluster) (rebootArgs : DecideOpsRebootArgs) : Bool :=
  !rebootArgs.RQEntries.isEmpty && !c.Reboot.RebootCommand.isEmpty
    && !c.Reboot.BootCheckCommand.isEmpty

/-- The four bullets "Start drain", "Reboot", "Drain timeout", "Dequeue". -/
def rebootCore (d : Deps) (c : Cluster) (cs : ClusterStatus) (constraints : Constraints)
    (rebootArgs : DecideOpsRebootArgs) (nf : NodeFilter) (times interval : Int) :
    List Operator :=
  (if !rebootArgs.NewlyDrained.isEmpty ∧
        (unreachableCount c cs rebootArgs.RQEntries : Int) ≤ constraints.RebootMaximumUnreachable
    then [Operator.RebootDrainStartOp (d.HealthyAPIServer nf) rebootArgs.NewlyDrained c.Reboot
      times interval] else [])
  ++ (if !rebootArgs.DrainCompleted.isEmpty
    then [Operator.RebootRebootOp (d.HealthyAPIServer nf) rebootArgs.DrainCompleted c.Reboot]
    else [])
  ++ (if !rebootArgs.DrainTimedout.isEmpty
    then [Operator.RebootDrainTimeoutOp rebootArgs.DrainTimedout] else [])
  ++ (if !rebootArgs.RebootDequeued.isEmpty
    then [Operator.RebootDequeueOp rebootArgs.RebootDequeued] else [])

/-- Some bucket of the reboot arguments is non-empty. -/
def anyBucket (rebootArgs : DecideOpsRebootArgs) : Bool :=
  !rebootArgs.NewlyDrained.isEmpty || !rebootArgs.DrainCompleted.isEmpty
    || !rebootArgs.DrainTimedout.isEmpty || !rebootArgs.RebootDequeued.isEmpty

/-- Is the operator a drain-start operator? -/
def Operator.isDrainStart : Operator → Bool
  | .RebootDrainStartOp .. => true
  | _ => false

/-! ## Etcd maintenance as the specification words it (section 4.E, step 6) -/

/-- The rules of etcd maintenance in priority order, each with the operator it
emits when it matches; the last four are present only when etcd is good. -/
def etcdMaintRules (d : Deps) (c : Cluster) (nf : NodeFilter) : List (Option Operator) :=
  [ -- a. remove non-cluster members (not in sync tolerated)
    if (d.EtcdNonClusterMembers nf false).isEmpty then none
    else some (Operator.etcd_RemoveMemberOp nf.ControlPlane (d.EtcdNonClusterMembers nf false)),
    -- b. destroy non-CP members (not in sync tolerated)
    if (d.EtcdNonCPMembers nf false).1.isEmpty then none
    else some (Operator.etcd_DestroyMemberOp nf.ControlPlane
      (nf.SSHConnectedNodes (d.EtcdNonCPMembers nf false).1 false true)
      (d.EtcdNonCPMembers nf false).2),
    -- c. add a single unstarted member
    (d.EtcdUnstartedMembers nf).head?.map
      (fun n => Operator.etcd_AddMemberOp nf.ControlPlane n c.Options.Etcd),
    -- d. mark unmarked members
    if (d.EtcdUnmarkedMembers nf).isEmpty then none
    else some (Operator.etcd_MarkMemberOp (d.EtcdUnmarkedMembers nf)) ]
  ++ (if d.EtcdIsGood nf then
    [ -- f. add one new member; remove non-cluster; destroy non-CP; restart one outdated
      (d.EtcdNewMembers nf).head?.map
        (fun n => Operator.etcd_AddMemberOp nf.ControlPlane n c.Options.Etcd),
      if (d.EtcdNonClusterMembers nf true).isEmpty then none
      else some (Operator.etcd_RemoveMemberOp nf.ControlPlane (d.EtcdNonClusterMembers nf true)),
      if (d.EtcdNonCPMembers nf true).1.isEmpty then none
      else some (Operator.etcd_DestroyMemberOp nf.ControlPlane
        (nf.SSHConnectedNodes (d.EtcdNonCPMembers nf true).1 false true)
        (d.EtcdNonCPMembers nf true).2),
      (d.EtcdOutdatedMembers nf).head?.map
        (fun n => Operator.etcd_RestartOp nf.ControlPlane n c.Options.Etcd) ]
    else [])

/-- First match wins. -/
def firstRule : List (Option Operator) → Option Operator
  | [] => none
  | some o :: _ => some o
  | none :: rest => firstRule rest

/-- Some control-plane node of the cluster is not SSH-connected. -/
def someCPUnreachable (c : Cluster) (cs : ClusterStatus) : Bool :=
  c.Nodes.any (fun n => n.ControlPlane && !(mapGet cs.NodeStatuses n.Address).SSHConnected)

/-! ## User resources as the specification words them -/

/-- What one user-defined resource contributes: nothing for a Deployment while
the cluster is not ready; otherwise an apply operator (flag `true`) when it has no
observed status, an apply operator (flag `!has_been_SSA`) when it needs an
update, a no-op operator when it needs none but is not completed, and nothing
when it is completed. -/
def userResourceOp (d : Deps) (apiServer : Option Node) (ks : KubernetesClusterStatus)
    (isReady : Bool) (res : ResourceDefinition) : Option Operator :=
  if res.Kind = KindDeployment ∧ isReady = false then none
  else
    match ks.ResourceStatuses.lookup res.Key with
    | none => some (Operator.ResourceApplyOp apiServer res true)
    | some status =>
      if d.NeedUpdate res status then
        some (Operator.ResourceApplyOp apiServer res (!status.HasBeenSSA))
      else if status.Completed = false then some Operator.NopOp
      else none

/-- The operators of the lowest rank at which some resource contributes one:
the contributions, in input order, of all resources of the rank of the first
contributing resource. -/
def lowestRankOps (d : Deps) (apiServer : Option Node) (ks : KubernetesClusterStatus)
    (isReady : Bool) (resources : List ResourceDefinition) : List Operator :=
  match resources.find? (fun r => (userResourceOp d apiServer ks isReady r).isSome) with
  | none => []
  | some r0 =>
    (resources.filter (fun r => r.Rank = r0.Rank)).filterMap (userResourceOp d apiServer ks isReady)

/-! ## The shape of the reboot operator list -/

/-- The position of a reboot-step operator in the order of section 4.H: drain
start, reboot, drain timeout, dequeue, recalc metrics; 5 for any other operator. -/
def Operator.rebootRank : Operator → Nat
  | .RebootDrainStartOp .. => 0
  | .RebootRebootOp .. => 1
  | .RebootDrainTimeoutOp .. => 2
  | .RebootDequeueOp .. => 3
  | .RebootRecalcMetricsOp => 4
  | _ => 5

/-! ## Static resources as the specification words them -/

/-- A static resource needs applying: it is not a Deployment skipped because the
cluster is not ready, and it is missing from the observed resource statuses or
its `NeedUpdate(status)` is true. -/
def staticNeedsApply (d : Deps) (ks : KubernetesClusterStatus) (isReady : Bool)
    (res : ResourceDefinition) : Bool :=
  !(res.Kind == KindDeployment && !isReady)
    && (match ks.ResourceStatuses.lookup res.Key with
        | none => true
        | some status => d.NeedUpdate res status)

/-- The server-side-apply flag of the apply operator: the negation of
`has_been_SSA`, which is `true` when the resource has no observed status. -/
def applyFlag (ks : KubernetesClusterStatus) (res : ResourceDefinition) : Bool :=
  match ks.ResourceStatuses.lookup res.Key with
  | none => true
  | some status => !status.HasBeenSSA

/-! ## Endpoints and EndpointSlice: expectation and equivalence -/

/-- The Endpoints object that `decideEpEpsOps` builds as its expectation. -/
def expectedEndpoints (expect : endpointParams) : Endpoints :=
  { Namespace := expect.namespace_
    Name := expect.name
    Labels := [("endpointslice.kubernetes.io/skip-mirror", "true")]
    Subsets := [{ Addresses := expect.readyIPs.map (fun ip => ({ IP := ip } : EndpointAddress))
                  NotReadyAddresses :=
                    expect.notReadyIPs.map (fun ip => ({ IP := ip } : EndpointAddress))
                  Ports := [{ Name := expect.portName, Port := expect.port }] }] }

/-- The EndpointSlice object that `decideEpEpsOps` builds as its expectation. -/
def expectedEndpointSlice (expect : endpointParams) : EndpointSlice :=
  { Namespace := expect.namespace_
    Name := expect.name
    Labels := [("endpointslice.kubernetes.io/managed-by", "cke.cybozu.com"),
               ("kubernetes.io/service-name", expect.serviceName)]
    AddressType := AddressTypeIPv4
    Endpoints :=
      expect.readyIPs.map (fun ip => ({ Addresses := [ip], Ready := some true } : SliceEndpoint))
        ++ expect.notReadyIPs.map
          (fun ip => ({ Addresses := [ip], Ready := some false } : SliceEndpoint))
    Ports := [{ Name := some expect.portName, Port := some expect.port }] }

/-- Every expected label reads the same in the observed labels (Go map read: a
missing label reads as the empty string). -/
def labelsMatch (expect actual : StrMap String) : Prop :=
  ∀ kv ∈ expect, mapGet actual kv.1 = kv.2

/-- What `decideEpsOp` requires of an observed endpoint against the expected one at
the same index: the `Ready` pointer is non-nil with the same boolean, the address
list has the same length and holds only expected addresses. -/
def sliceEndpointMatches (actual expect : SliceEndpoint) : Prop :=
  actual.Ready ≠ none ∧ actual.Ready = expect.Ready
    ∧ actual.Addresses.length = expect.Addresses.length
    ∧ ∀ a ∈ actual.Addresses, a ∈ expect.Addresses

/-- The observed endpoint has the `Ready` value of the expected one and the same
addresses up to order. -/
def sliceEndpointSame (actual expect : SliceEndpoint) : Prop :=
  actual.Ready = expect.Ready ∧ actual.Addresses.Perm expect.Addresses

/-- The observed endpoint equals the expected one in `Ready` and in its address
list. -/
def sliceEndpointEqual (actual expect : SliceEndpoint) : Prop :=
  actual.Ready = expect.Ready ∧ actual.Addresses = expect.Addresses

/-! ## Expected endpoint addresses in `k8sMaintOps` -/

/-- The parameters that `k8sMaintOps` builds for the `kubernetes` Endpoints and
EndpointSlice (`masterEP`). -/
def masterEndpointParams (d : Deps) (rqEntries newlyDrained : List RebootQueueEntry)
    (nf : NodeFilter) : endpointParams :=
  { namespace_ := NamespaceDefault
    name := "kubernetes"
    readyIPs := (readyAddressesLoop rqEntries newlyDrained (d.HealthyAPIServerNodes nf)
      ([], [])).1
    notReadyIPs := (readyAddressesLoop rqEntries newlyDrained (d.HealthyAPIServerNodes nf)
      ([], [])).2 ++ (d.UnhealthyAPIServerNodes nf).map (fun n => n.Address)
    portName := "https"
    port := 6443
    serviceName := "kubernetes" }

/-- The parameters that `k8sMaintOps` builds for the etcd Endpoints and
EndpointSlice (`etcdEP`). -/
def etcdEndpointParams (d : Deps) (rqEntries newlyDrained : List RebootQueueEntry)
    (nf : NodeFilter) : endpointParams :=
  { namespace_ := NamespaceSystem
    name := d.EtcdEndpointsName
    readyIPs := (readyAddressesLoop rqEntries newlyDrained nf.ControlPlane ([], [])).1
    notReadyIPs := (readyAddressesLoop rqEntries newlyDrained nf.ControlPlane ([], [])).2
    portName := ""
    port := 2379
    serviceName := d.EtcdServiceName }

/-- Some reboot-queue entry for the address has status draining or rebooting, or
the address occurs in `NewlyDrained`. -/
def drainExcluded (rqEntries newlyDrained : List RebootQueueEntry) (address : String) : Prop :=
  (∃ e ∈ rqEntries, e.Node = address
      ∧ (e.Status = RebootStatus.Draining ∨ e.Status = RebootStatus.Rebooting))
    ∨ ∃ e ∈ newlyDrained, e.Node = address

/-! ## DNS as the specification words it -/

/-- The expected upstream DNS servers: the cluster IP of the observed DNS service
when that service exists and its cluster IP is neither empty nor `None`, and
`Cluster.DNSServers` otherwise. -/
def expectedDNSServers (c : Cluster) (ks : KubernetesClusterStatus) : List String :=
  match ks.DNSService with
  | some svc =>
    if svc.ClusterIP ≠ "" ∧ svc.ClusterIP ≠ "None" then [svc.ClusterIP] else c.DNSServers
  | none => c.DNSServers

/-- The expected cluster domain: the `clusterDomain` of the generated kubelet
configuration. -/
def expectedClusterDomain (d : Deps) (c : Cluster) : String :=
  (d.GenerateKubeletConfiguration c.Options.Kubelet "0.0.0.0" none).ClusterDomain


/-! ## Clean-up, uncordon and the phases, as the specification words them -/

/-- The five control-plane containers that `cleanOps` stops on nodes that are
not declared as control plane, in the order of its operators. -/
inductive StoppedContainer where
  | apiserver
  | controllerManager
  | scheduler
  | etcd
  | etcdRivers
  deriving DecidableEq, Repr

/-- The five containers in the order in which `cleanOps` emits their operators. -/
def StoppedContainer.all : List StoppedContainer :=
  [.apiserver, .controllerManager, .scheduler, .etcd, .etcdRivers]

/-- Is the container running, according to the observed status of a node? -/
def StoppedContainer.running (k : StoppedContainer) (st : NodeStatus) : Bool :=
  match k with
  | .apiserver => st.APIServer.Running
  | .controllerManager => st.ControllerManager.Running
  | .scheduler => st.Scheduler.Running
  | .etcd => st.Etcd.Running
  | .etcdRivers => st.EtcdRivers.Running

/-- The stop operator of a container. -/
def StoppedContainer.stopOp (k : StoppedContainer) (nodes : List Node) : Operator :=
  match k with
  | .apiserver => Operator.APIServerStopOp nodes
  | .controllerManager => Operator.ControllerManagerStopOp nodes
  | .scheduler => Operator.SchedulerStopOp nodes
  | .etcd => Operator.EtcdStopOp nodes
  | .etcdRivers => Operator.EtcdRiversStopOp nodes

/-- The target list of a stop operator as step 8 words it: the cluster nodes, in
order, that are SSH-connected, are not declared control plane and run the
container; for etcd only when `EtcdIsGood` holds. -/
def cleanTargets (d : Deps) (c : Cluster) (nf : NodeFilter) (k : StoppedContainer) :
    List Node :=
  c.Nodes.filter (fun n =>
    (nf.nodeStatus n).SSHConnected && !n.ControlPlane && k.running (nf.nodeStatus n)
      && (if k = .etcd then d.EtcdIsGood nf else true))

/-- The names of the cordoned nodes that have no reboot-queue entry in status
draining or rebooting, in the order of the cordoned nodes (step 9). -/
def uncordonNames (d : Deps) (rqEntries : List RebootQueueEntry) (nf : NodeFilter) :
    List String :=
  ((d.CordonedNodes nf).filter (fun n =>
    decide (∀ entry ∈ rqEntries, entry.Node = n.Name →
      entry.Status ≠ RebootStatus.Draining ∧ entry.Status ≠ RebootStatus.Rebooting))).map
    (fun n => n.Name)

/-- The phases with which `DecideOps` may return an empty operator list. -/
def OperationPhase.mayBeEmpty : OperationPhase → Bool
  | .PhaseUpgradeAborted => true
  | .PhaseEtcdBootAborted => true
  | .PhaseRebootNodes => true
  | .PhaseCompleted => true
  | _ => false

/-- The relation between phase and operator list of an outcome: phase `Completed`
only with an empty list, and an empty list only with a phase that may be
empty. -/
def phaseAgrees (r : Outcome) : Prop :=
  (r.2 = .PhaseCompleted → r.1 = []) ∧ (r.1 = [] → r.2.mayBeEmpty = true)

/-! ## Reordered endpoints and repeated ticks, as the claims word them -/

/-- An observed subset and the same subset with its ready addresses and its
not-ready addresses each reordered. -/
def reorderedSubset (observed reordered : EndpointSubset) : Prop :=
  reordered.Addresses.Perm observed.Addresses
    ∧ reordered.NotReadyAddresses.Perm observed.NotReadyAddresses
    ∧ reordered.Ports = observed.Ports

/-- The rank with which the user-resource loop of `decideResourceOps` compares
the next resource after it has gone through `processed`, having started with
`rank`: the rank of the last resource that was not skipped as a Deployment of a
cluster that is not ready. -/
def rankAfter (isReady : Bool) (rank : Nat) (processed : List ResourceDefinition) : Nat :=
  processed.foldl
    (fun r res => if res.Kind = KindDeployment ∧ isReady = false then r else res.Rank) rank


/-! ## Reading the calls of the controller -/

/-- The commanders that were run, in order, each with the result of its run. -/
def runsOf {σ : Type} : List (Event σ) → List (Commander σ × Option GoError)
  | [] => []
  | Event.run c res :: rest => (c, res) :: runsOf rest
  | _ :: rest => runsOf rest

/-- The answers of `NextCommand`, in order. -/
def requestsOf {σ : Type} : List (Event σ) → List (Option (Commander σ))
  | [] => []
  | Event.nextCommand c :: rest => c :: requestsOf rest
  | _ :: rest => requestsOf rest

/-- The records that were registered, in order. -/
def registeredOf {σ : Type} : List (Event σ) → List Record
  | [] => []
  | Event.registerRecord _ r _ :: rest => r :: registeredOf rest
  | _ :: rest => registeredOf rest

/-- The terminal updates, in order: the records handed to the store after a
command has failed or after the last command. -/
def terminalUpdatesOf {σ : Type} : List (Event σ) → List Record
  | [] => []
  | Event.updateRecord .failure _ r _ :: rest => r :: terminalUpdatesOf rest
  | Event.updateRecord .completion _ r _ :: rest => r :: terminalUpdatesOf rest
  | _ :: rest => terminalUpdatesOf rest

/-- The number of ticks that were begun: every tick begins by reading the
cluster from the store. -/
def ticksOf {σ : Type} : List (Event σ) → Nat
  | [] => 0
  | Event.getCluster _ :: rest => ticksOf rest + 1
  | _ :: rest => ticksOf rest

/-- The calls of a tick that has started an operator, up to the command loop:
read the cluster, observe it, obtain the record id, register the record and
clean up, all without error. -/
def beforeLoop {σ : Type} (leaderKey : String) (id : Int) (record : Record) : List (Event σ) :=
  [Event.getCluster none, Event.getClusterStatus none, Event.nextRecordID (.ok id),
   Event.registerRecord leaderKey record none, Event.cleanup none]

/-- What a failed run of a commander entails for the calls made by the command
loop and for its result. -/
def FailureAt {σ : Type} (leaderKey : String) (evs : List (Event σ)) (k : Nat)
    (c : Commander σ) (e : GoError) : Prop :=
  (runsOf evs).length = k + 1
    ∧ (∀ j, j < k → ∃ cj, (runsOf evs)[j]? = some (cj, none))
    ∧ requestsOf evs = (runsOf evs).map (fun cr => some cr.1)
    ∧ ∃ (pre : List (Event σ)) (r : Record) (res : Option GoError), evs = pre
        ++ [Event.run c (some e), Event.updateRecord .failure leaderKey (r.SetError e) res]

/-- The ways in which a tick ends before the command loop, with the calls made
and the error returned: the cluster cannot be read; it cannot be observed;
there is nothing to do; no record id is obtained; the record is not registered;
the clean-up of the operator fails. -/
def endsBeforeLoop {σ : Type} (leaderKey : String) (evs : List (Event σ))
    (res : Option GoError) : Prop :=
  (∃ err, res = some err ∧ evs = [Event.getCluster (some err)])
    ∨ (∃ err, res = some err
        ∧ evs = [Event.getCluster none, Event.getClusterStatus (some err)])
    ∨ (res = none ∧ evs = [Event.getCluster none, Event.getClusterStatus none, Event.wait])
    ∨ (∃ err, res = some err
        ∧ evs = [Event.getCluster none, Event.getClusterStatus none,
                 Event.nextRecordID (.error err)])
    ∨ (∃ err id r, res = some err
        ∧ evs = [Event.getCluster none, Event.getClusterStatus none, Event.nextRecordID (.ok id),
                 Event.registerRecord leaderKey r (some err)])
    ∨ (∃ err id r, res = some err
        ∧ evs = [Event.getCluster none, Event.getClusterStatus none, Event.nextRecordID (.ok id),
                 Event.registerRecord leaderKey r none, Event.cleanup (some err)])

/-- A configuration with the server of one of its clusters replaced, every other
field left as it is. -/
def withServer (cfg : api.Config) (cluster server : String) : api.Config :=
  { cfg with
    Clusters := cfg.Clusters.map (fun kv =>
      if kv.1 = cluster then (kv.1, { kv.2 with Server := server }) else kv) }
/-! ## Concrete inputs

A cluster of one control-plane node and two workers, used to evaluate the
definitions at concrete inputs. -/

/-- Dependencies that report a converged cluster: every node class is empty,
etcd is bootstrapped and good, nothing needs an update. -/
def quietDeps : Deps :=
  { ConfigVersion := "2"
    RiversContainerName := "rivers"
    RiversUpstreamPort := 6443
    RiversListenPort := 16443
    EtcdRiversContainerName := "etcd-rivers"
    EtcdRiversUpstreamPort := 2379
    EtcdRiversListenPort := 12379
    EtcdEndpointsName := "cke-etcd"
    EtcdServiceName := "cke-etcd"
    staticResources := []
    NeedUpdate := fun _ _ => false
    IsReady := fun _ _ => true
    GenerateKubeletConfiguration := fun _ _ _ => { ClusterDomain := "cluster.local" }
    clusterdnsConfigMap := fun _ _ => { Data := [] }
    nodednsConfigMap := fun _ _ _ _ => { Data := [] }
    EtcdBootstrapped := fun _ => true
    EtcdIsGood := fun _ => true
    RiversStoppedNodes := fun _ => []
    RiversOutdatedNodes := fun _ => []
    EtcdRiversStoppedNodes := fun _ => []
    EtcdRiversOutdatedNodes := fun _ => []
    EtcdStoppedMembers := fun _ => []
    EtcdNonClusterMembers := fun _ _ => []
    EtcdNonCPMembers := fun _ _ => ([], [])
    EtcdUnstartedMembers := fun _ => []
    EtcdUnmarkedMembers := fun _ => []
    EtcdNewMembers := fun _ => []
    EtcdOutdatedMembers := fun _ => []
    APIServerStoppedNodes := fun _ => []
    APIServerOutdatedNodes := fun _ => []
    ControllerManagerStoppedNodes := fun _ => []
    ControllerManagerOutdatedNodes := fun _ => []
    SchedulerStoppedNodes := fun _ => []
    SchedulerOutdatedNodes := fun _ _ => []
    KubeletUnrecognizedNodes := fun _ => []
    KubeletStoppedNodes := fun _ => []
    KubeletStoppedRegisteredNodes := fun _ => []
    KubeletOutdatedNodes := fun _ => []
    ProxyStoppedNodes := fun _ => []
    ProxyOutdatedNodes := fun _ _ => []
    ProxyRunningUnexpectedlyNodes := fun _ => []
    HealthyAPIServer := fun _ => none
    HealthyAPIServerNodes := fun _ => []
    UnhealthyAPIServerNodes := fun _ => []
    OutdatedAttrsNodes := fun _ => []
    NonClusterNodes := fun _ => []
    CordonedNodes := fun _ => [] }

/-- A node with the given address and role. -/
def mkNode (address : String) (cp : Bool) : Node :=
  { Address := address, Hostname := "", User := "cybozu", ControlPlane := cp, Labels := [],
    Taints := [] }

/-- The status of a node that is SSH-connected and runs nothing. -/
def connectedStatus : NodeStatus :=
  { (default : NodeStatus) with SSHConnected := true }

/-- One control-plane node and two workers, with reboot commands configured. -/
def sampleCluster : Cluster :=
  { Name := "sample"
    Nodes := [mkNode "10.0.0.1" true, mkNode "10.0.0.2" false, mkNode "10.0.0.3" false]
    ServiceSubnet := "10.68.0.0/16"
    DNSServers := ["8.8.8.8"]
    Options := default
    Reboot := { RebootCommand := ["reboot"], BootCheckCommand := ["true"],
                CommandTimeoutSeconds := none, EvictionTimeoutSeconds := none,
                ProtectedNamespaces := [] } }

/-- The Endpoints object `decideEpEpsOps` expects for the given parameters. -/
def sampleEndpoints (ns name portName : String) (port : Int) (ready : List String) :
    Endpoints :=
  { Namespace := ns
    Name := name
    Labels := [("endpointslice.kubernetes.io/skip-mirror", "true")]
    Subsets := [{ Addresses := ready.map (fun ip => { IP := ip })
                  NotReadyAddresses := []
                  Ports := [{ Name := portName, Port := port }] }] }

/-- The EndpointSlice object `decideEpEpsOps` expects for the given parameters. -/
def sampleEndpointSlice (ns name service portName : String) (port : Int)
    (ready : List String) : EndpointSlice :=
  { Namespace := ns
    Name := name
    Labels := [("endpointslice.kubernetes.io/managed-by", "cke.cybozu.com"),
               ("kubernetes.io/service-name", service)]
    AddressType := AddressTypeIPv4
    Endpoints := ready.map (fun ip => { Addresses := [ip], Ready := some true })
    Ports := [{ Name := some portName, Port := some port }] }

/-- A converged Kubernetes state for `sampleCluster` under `quietDeps`. -/
def sampleKubernetes : KubernetesClusterStatus :=
  { IsControlPlaneReady := true
    Nodes := []
    DNSService := none
    ClusterDNS := { ConfigMap := some { Data := [] }, ClusterIP := "" }
    NodeDNS := { ConfigMap := none }
    MasterEndpoints := some (sampleEndpoints "default" "kubernetes" "https" 6443 [])
    MasterEndpointSlice :=
      some (sampleEndpointSlice "default" "kubernetes" "kubernetes" "https" 6443 [])
    EtcdService := some { Ports := [{ Port := 2379 }], ServiceType := "ClusterIP",
                          ClusterIP := "None" }
    EtcdEndpoints := some (sampleEndpoints "kube-system" "cke-etcd" "" 2379 ["10.0.0.1"])
    EtcdEndpointSlice :=
      some (sampleEndpointSlice "kube-system" "cke-etcd" "cke-etcd" "" 2379 ["10.0.0.1"])
    ResourceStatuses := [] }

/-- An observed status of `sampleCluster`: current configuration version, etcd
healthy, and the listed nodes SSH-connected. -/
def sampleStatus (connected : List String) : ClusterStatus :=
  { ConfigVersion := "2"
    NodeStatuses := connected.map (fun a => (a, connectedStatus))
    Etcd := { IsHealthy := true, InSyncMembers := [], Members := [] }
    Kubernetes := sampleKubernetes }

/-- All three nodes of `sampleCluster`. -/
def allAddresses : List String := ["10.0.0.1", "10.0.0.2", "10.0.0.3"]

def sampleConstraints : Constraints :=
  { ControlPlaneCount := 1, MinimumWorkers := 1, MaximumWorkers := 5,
    RebootMaximumUnreachable := 0 }

def sampleConfig : Config :=
  { MaxConcurrentUpdates := 2, DrainRetryTimes := 3, DrainRetryInterval := 5 }

/-- No reboot requested. -/
def noReboot : DecideOpsRebootArgs :=
  { RQEntries := [], NewlyDrained := [], DrainCompleted := [], DrainTimedout := [],
    RebootDequeued := [] }

/-- A reboot queue whose single entry, for the worker 10.0.0.2, is newly drained. -/
def drainReboot : DecideOpsRebootArgs :=
  { RQEntries := [{ Index := 0, Node := "10.0.0.2", Status := .Queued }]
    NewlyDrained := [{ Index := 0, Node := "10.0.0.2", Status := .Queued }]
    DrainCompleted := [], DrainTimedout := [], RebootDequeued := [] }

/-- A user resource of the given key, kind and rank. -/
def mkResource (key kind : String) (rank : Nat) : ResourceDefinition :=
  { Key := key, Kind := kind, Namespace := "default", Name := key, Rank := rank, Revision := 1,
    Definition := "" }

/-- Two resources of rank 10, both observed, and one of rank 20, not yet created. -/
def sampleResources : List ResourceDefinition :=
  [mkResource "ConfigMap/default/a" "ConfigMap" 10,
   mkResource "ConfigMap/default/b" "ConfigMap" 10,
   mkResource "ConfigMap/default/c" "ConfigMap" 20]

/-- A Kubernetes state in which the two rank-10 resources of `sampleResources`
have been applied server-side and are completed. -/
def sampleResourceState : KubernetesClusterStatus :=
  { sampleKubernetes with
    ResourceStatuses := [("ConfigMap/default/a", { HasBeenSSA := true, Completed := true }),
                         ("ConfigMap/default/b", { HasBeenSSA := true, Completed := true })] }

/-- Dependencies under which every observed resource needs an update. -/
def updateDeps : Deps :=
  { quietDeps with NeedUpdate := fun _ _ => true }

/-- Expected and observed `kubernetes` Endpoints that differ only in the ready
addresses: two distinct addresses are expected, one address is observed twice. -/
def expectedTwoAddresses : Endpoints :=
  sampleEndpoints "default" "kubernetes" "https" 6443 ["10.0.0.1", "10.0.0.2"]

def observedDuplicateAddress : Endpoints :=
  sampleEndpoints "default" "kubernetes" "https" 6443 ["10.0.0.1", "10.0.0.1"]

/-- The ready IPs of the single subset of an Endpoints object. -/
def readyIPsOf (ep : Endpoints) : List String :=
  ep.Subsets.flatMap (fun s => s.Addresses.map (fun a => a.IP))

/-- The sample cluster without a reboot command. -/
def clusterWithoutRebootCommand : Cluster :=
  { sampleCluster with Reboot := { sampleCluster.Reboot with RebootCommand := [] } }

/-- Dependencies of a converged cluster whose etcd is not good. -/
def etcdNotGoodDeps : Deps :=
  { quietDeps with EtcdIsGood := fun _ => false }

/-- The status of the sample cluster observed with an old configuration version;
the worker 10.0.0.3 is not SSH-connected. -/
def oldVersionStatus : ClusterStatus :=
  { sampleStatus ["10.0.0.1", "10.0.0.2"] with ConfigVersion := "1" }

/-- A reboot queue whose single entry, for the worker 10.0.0.2, has completed its
drain. -/
def completedReboot : DecideOpsRebootArgs :=
  { RQEntries := [{ Index := 0, Node := "10.0.0.2", Status := .Draining }]
    NewlyDrained := []
    DrainCompleted := [{ Index := 0, Node := "10.0.0.2", Status := .Draining }]
    DrainTimedout := [], RebootDequeued := [] }

/-- Dependencies with three static resources, the first of which is observed and
up to date (nothing needs an update), the other two missing. -/
def staticDeps : Deps :=
  { quietDeps with
    staticResources := [mkResource "ConfigMap/default/a" "ConfigMap" 0,
                        mkResource "ServiceAccount/kube-system/s" "ServiceAccount" 0,
                        mkResource "Role/kube-system/r" "Role" 0] }

/-- A user resource that is a Deployment, not yet created. -/
def sampleDeployment : ResourceDefinition :=
  mkResource "Deployment/default/web" "Deployment" 10

/-- An expected EndpointSlice with one endpoint of two addresses, and an observed
one that lists the same two addresses in the other order. -/
def expectedTwoAddressSlice : EndpointSlice :=
  { sampleEndpointSlice "default" "kubernetes" "kubernetes" "https" 6443 [] with
    Endpoints := [{ Addresses := ["10.0.0.1", "10.0.0.2"], Ready := some true }] }

def observedSwappedSlice : EndpointSlice :=
  { sampleEndpointSlice "default" "kubernetes" "kubernetes" "https" 6443 [] with
    Endpoints := [{ Addresses := ["10.0.0.2", "10.0.0.1"], Ready := some true }] }

/-- Parameters of the `kubernetes` endpoints of the sample cluster. -/
def sampleParams : endpointParams :=
  { namespace_ := "default", name := "kubernetes", readyIPs := ["10.0.0.1"], notReadyIPs := [],
    port := 6443, portName := "https", serviceName := "kubernetes" }

/-- The expected `kubernetes` Endpoints of `sampleParams` with its labels removed. -/
def observedWithoutLabel : Endpoints :=
  { expectedEndpoints sampleParams with Labels := [] }

/-- Dependencies under which the three nodes of the sample cluster run healthy
API servers and one further node runs an unhealthy one. -/
def apiServerDeps : Deps :=
  { quietDeps with
    HealthyAPIServerNodes := fun nf => nf.cluster.Nodes
    UnhealthyAPIServerNodes := fun _ => [mkNode "10.0.0.4" true] }

/-- Dependencies whose expected cluster-dns and node-dns ConfigMaps record the
upstream servers they are generated for. -/
def dnsDeps : Deps :=
  { quietDeps with
    clusterdnsConfigMap := fun domain servers =>
      { Data := [("Corefile", String.intercalate " " (domain :: servers))] }
    nodednsConfigMap := fun clusterIP domain servers _ =>
      { Data := [("unbound.conf", String.intercalate " " (clusterIP :: domain :: servers))] } }

/-- A Kubernetes state with a DNS service at 10.68.0.10, a cluster-dns ConfigMap
generated for another upstream server, and no node-dns ConfigMap. -/
def dnsState (clusterIP : String) : KubernetesClusterStatus :=
  { sampleKubernetes with
    DNSService := some { Ports := [{ Port := 53 }], ServiceType := "ClusterIP",
                         ClusterIP := "10.68.0.10" }
    ClusterDNS := { ConfigMap := some { Data := [("Corefile", "cluster.local 8.8.8.8")] },
                    ClusterIP := clusterIP }
    NodeDNS := { ConfigMap := none } }


/-- An observed status of the sample cluster in which the worker 10.0.0.2, a
former control-plane node, still runs the API server and etcd. -/
def formerControlPlaneStatus : ClusterStatus :=
  { sampleStatus ["10.0.0.1", "10.0.0.3"] with
    NodeStatuses :=
      [("10.0.0.1", connectedStatus),
       ("10.0.0.2", { connectedStatus with
                      APIServer := { (default : ServiceStatus) with Running := true }
                      Etcd := { (default : ServiceStatus) with Running := true } }),
       ("10.0.0.3", connectedStatus)] }

/-- Dependencies under which the two workers of the sample cluster are cordoned. -/
def cordonedDeps : Deps :=
  { quietDeps with
    CordonedNodes := fun _ =>
      [{ Name := "10.0.0.2", Labels := [], Unschedulable := true },
       { Name := "10.0.0.3", Labels := [], Unschedulable := true }] }

/-- A small world for running the controller: the commands that the operator has
still to hand out, each with the result its run will have; the result of the
operator's clean-up; the number of store writes that still succeed before the
leader key is lost; the next record id; the records as written to the store;
the names of the commands run. -/
structure SampleWorld where
  pending : List (String × Option GoError)
  cleanupError : Option GoError
  writesLeft : Nat
  nextID : Int
  records : List Record
  done : List String
  deriving Repr

/-- A store write in the sample world: it fails with `ErrNoLeader` once the
leader key is lost. -/
def sampleWrite (r : Record) (s : SampleWorld) : Option GoError × SampleWorld :=
  match s.writesLeft with
  | 0 => (some .ErrNoLeader, s)
  | n + 1 => (none, { s with writesLeft := n, records := s.records ++ [r] })

/-- A commander of the sample world with the given name and run result. -/
def sampleCommander (name : String) (res : Option GoError) : Commander SampleWorld :=
  { Command := { Name := name, Target := "10.0.0.1", Detail := "" }
    Run := fun s => (res, { s with done := s.done ++ [name] }) }

/-- The operator of the sample world: it hands out the pending commands. -/
def sampleOperator : Controller.Operator SampleWorld :=
  { NewRecord := fun id =>
      { ID := id, Operation := "sample", Command := default, Error := none, Status := .running }
    Cleanup := fun s => (s.cleanupError, s)
    NextCommand := fun s =>
      match s.pending with
      | [] => (none, s)
      | (name, res) :: rest => (some (sampleCommander name res), { s with pending := rest }) }

/-- The environment of the sample world: the store hands out ids and accepts
writes while the leader key is held, and there is always something to do. -/
def sampleEnv : Controller.Env SampleWorld :=
  { GetCluster := fun s => (.ok sampleCluster, s)
    GetClusterStatus := fun _ s => (.ok (sampleStatus allAddresses), s)
    DecideToDo := fun _ _ => some sampleOperator
    Wait := fun s => s
    NextRecordID := fun s =>
      match s.writesLeft with
      | 0 => (.error .ErrNoLeader, s)
      | n + 1 => (.ok s.nextID, { s with writesLeft := n, nextID := s.nextID + 1 })
    RegisterRecord := fun _ r s => sampleWrite r s
    UpdateRecord := fun _ r s => sampleWrite r s
    Hostname := fun s => (.ok "host1", s)
    Campaign := fun _ s => (none, s)
    Key := fun _ => "leader/1"
    Resign := fun s => (none, s) }

/-- A world in which the second of three commands fails. -/
def failingWorld : SampleWorld :=
  { pending := [("stop-etcd", none), ("remove-member", some (.other "exit status 1")),
                ("start-etcd", none)]
    cleanupError := none, writesLeft := 100, nextID := 7, records := [], done := [] }

/-- The same world, except that the leader key is lost after four store writes:
the id, the registration and the updates before the two commands. -/
def lostLeaderWorld : SampleWorld :=
  { failingWorld with writesLeft := 4 }

/-- A world in which the clean-up of the operator fails. -/
def cleanupFailsWorld : SampleWorld :=
  { failingWorld with cleanupError := some (.other "cleanup failed") }

/-- The record of the sample operator while the given command is run. -/
def runningRecord (name : String) : Record :=
  { ID := 7, Operation := "sample", Command := { Name := name, Target := "10.0.0.1", Detail := "" },
    Error := none, Status := .running }

/-- The environment of the sample world when there is nothing to do. -/
def idleEnv : Controller.Env SampleWorld :=
  { sampleEnv with DecideToDo := fun _ _ => none }

/-- A world whose store holds one completed record. -/
def settledWorld : SampleWorld :=
  { pending := [], cleanupError := none, writesLeft := 100, nextID := 8,
    records := [{ ID := 7, Operation := "sample", Command := default, Error := none,
                  Status := .completed }],
    done := [] }

/-- A world in which the leader key is lost after two store writes, the id and
the registration, so that the update before the first command fails. -/
def unpersistedWorld : SampleWorld :=
  { failingWorld with writesLeft := 2 }

/-- The status of the sample cluster with all nodes connected and etcd reported
unhealthy. -/
def unhealthyEtcdStatus : ClusterStatus :=
  { sampleStatus allAddresses with Etcd := { IsHealthy := false, InSyncMembers := [],
                                             Members := [] } }

/-- Dependencies under which only the resource `ConfigMap/default/b` needs an
update. -/
def contributionDeps : Deps :=
  { quietDeps with NeedUpdate := fun res _ => res.Key == "ConfigMap/default/b" }

/-- A Kubernetes state in which `a` and `b` have been applied server-side and
are completed, `c` has been applied otherwise and is not completed, and nothing
else is observed. -/
def contributionState : KubernetesClusterStatus :=
  { sampleKubernetes with
    ResourceStatuses := [("ConfigMap/default/a", { HasBeenSSA := true, Completed := true }),
                         ("ConfigMap/default/b", { HasBeenSSA := true, Completed := true }),
                         ("ConfigMap/default/c", { HasBeenSSA := false, Completed := false })] }

/-- A Deployment and four other resources of rank 10, then one of rank 20. -/
def contributionResources : List ResourceDefinition :=
  [sampleDeployment,
   mkResource "ConfigMap/default/a" "ConfigMap" 10,
   mkResource "ConfigMap/default/b" "ConfigMap" 10,
   mkResource "ConfigMap/default/c" "ConfigMap" 10,
   mkResource "ConfigMap/default/e" "ConfigMap" 10,
   mkResource "ConfigMap/default/z" "ConfigMap" 20]

theorem goSlice_ok {α : Type} (xs : List α) (i j : Int) (hi : 0 ≤ i) (hij : i ≤ j)
    (hj : j ≤ (xs.length : Int)) :
    ∃ ns, goSlice xs i j = .ok ns ∧ (ns.length : Int) = j - i := by
  refine ⟨(xs.drop i.toNat).take (j.toNat - i.toNat), ?_, ?_⟩
  · simp [goSlice, hi, hij, hj]
  · simp only [List.length_take, List.length_drop]
    omega

theorem splitOperatorsLoop_map {α β : Type} (nodes : List Node) (f : List Node → α)
    (g : α → β) (m : Int) :
    ∀ (fuel : Nat) (i : Int) (ops : List α),
      splitOperatorsLoop nodes (fun ns => g (f ns)) m fuel i (ops.map g)
        = (splitOperatorsLoop nodes f m fuel i ops).map (List.map g) := by
  intro fuel
  induction fuel with
  | zero =>
    intro i ops
    simp only [splitOperatorsLoop]
    split <;> rfl
  | succ fuel ih =>
    intro i ops
    simp only [splitOperatorsLoop]
    split
    · cases hs : goSlice nodes i (if i + m > (nodes.length : Int) then (nodes.length : Int) else i + m) with
      | error e => rfl
      | ok ns =>
        simp only []
        rw [← ih]
        simp
    · rfl

theorem splitOperators_map {α : Type} (nodes : List Node) (createOps : List Node → α)
    (m : Int) :
    splitOperators nodes createOps m
      = (splitOperators nodes (fun ns => ns) m).map (List.map createOps) := by
  have h := splitOperatorsLoop_map nodes (fun ns => ns) createOps m nodes.length 0 []
  simpa [splitOperators] using h

theorem splitOperatorsLoop_batches (nodes : List Node) (m : Int) (hm : 1 ≤ m) :
    ∀ (fuel : Nat) (i : Int) (ops : List (List Node)), 0 ≤ i →
      (nodes.length : Int) - i ≤ fuel →
      (∀ t ∈ ops, t ≠ [] ∧ (t.length : Int) ≤ m) →
      ∃ ts, splitOperatorsLoop nodes (fun ns => ns) m fuel i ops = .ok ts
        ∧ ∀ t ∈ ts, t ≠ [] ∧ (t.length : Int) ≤ m := by
  intro fuel
  induction fuel with
  | zero =>
    intro i ops _ hfuel hops
    refine ⟨ops, ?_, hops⟩
    simp only [splitOperatorsLoop]
    rw [if_neg]
    simp at hfuel
    omega
  | succ fuel ih =>
    intro i ops hi hfuel hops
    simp only [splitOperatorsLoop]
    split
    · rename_i hlt
      have hle : i ≤ (if i + m > (nodes.length : Int) then (nodes.length : Int) else i + m) := by
        split <;> omega
      have hlen : (if i + m > (nodes.length : Int) then (nodes.length : Int) else i + m)
          ≤ (nodes.length : Int) := by
        split <;> omega
      obtain ⟨ns, hns, hsz⟩ := goSlice_ok nodes i _ hi hle hlen
      rw [hns]
      simp only []
      apply ih
      · omega
      · push_cast at hfuel ⊢
        omega
      · intro t ht
        rcases List.mem_append.mp ht with h | h
        · exact hops t h
        · have : t = ns := by simpa using h
          subst this
          have hpos : 1 ≤ (t.length : Int) ∧ (t.length : Int) ≤ m := by
            constructor
            · rw [hsz]; split <;> omega
            · rw [hsz]; split <;> omega
          refine ⟨?_, hpos.2⟩
          intro h0
          rw [h0] at hpos
          simp at hpos
    · exact ⟨ops, rfl, hops⟩

theorem splitOperators_batches (nodes : List Node) (m : Int) (hm : 1 ≤ m) :
    ∃ ts, splitOperators nodes (fun ns => ns) m = .ok ts
      ∧ ∀ t ∈ ts, t ≠ [] ∧ (t.length : Int) ≤ m := by
  apply splitOperatorsLoop_batches nodes m hm nodes.length 0 [] (le_refl 0)
  · simp
  · intro t ht
    simp at ht

theorem splitOperators_ok {α : Type} (nodes : List Node) (createOps : List Node → α)
    (m : Int) (hm : 1 ≤ m) :
    ∃ ts, splitOperators nodes (fun ns => ns) m = .ok ts
      ∧ splitOperators nodes createOps m = .ok (ts.map createOps)
      ∧ ∀ t ∈ ts, t ≠ [] ∧ (t.length : Int) ≤ m := by
  obtain ⟨ts, h1, h2⟩ := splitOperators_batches nodes m hm
  refine ⟨ts, h1, ?_, h2⟩
  rw [splitOperators_map, h1]
  rfl


/-- With `maxConcurrentUpdates = 0` the index stays at 0: whatever the fuel, the
loop over a non-empty list is still running when the fuel is used up. -/
theorem splitOperatorsLoop_zero_stuck {α : Type} (nodes : List Node) (createOps : List Node → α)
    (hne : nodes ≠ []) :
    ∀ (fuel : Nat) (ops : List α),
      splitOperatorsLoop nodes createOps 0 fuel 0 ops = .error .outOfFuel := by
  have hpos : (0 : Int) < (nodes.length : Int) := by
    have : nodes.length ≠ 0 := fun h0 => hne (List.length_eq_zero.mp h0)
    omega
  intro fuel
  induction fuel with
  | zero =>
    intro ops
    simp only [splitOperatorsLoop]
    rw [if_pos hpos]
  | succ fuel ih =>
    intro ops
    rw [splitOperatorsLoop, if_pos hpos]
    simp only []
    have hend : (if (0 : Int) + 0 > (nodes.length : Int) then (nodes.length : Int) else 0 + 0)
        = 0 := by
      rw [if_neg (by omega)]; rfl
    rw [hend]
    have hslice : goSlice nodes 0 0 = .ok [] := by
      simp [goSlice]
    rw [hslice]
    simp only [add_zero]
    exact ih _
/-! ## What each step can emit -/

theorem bind_eq_ok {α β : Type} (x : Except Fault α) (f : α → Except Fault β) (b : β)
    (h : (x >>= f) = .ok b) : ∃ a, x = .ok a ∧ f a = .ok b := by
  cases x with
  | error e => simp [bind, Except.bind] at h
  | ok a => exact ⟨a, rfl, h⟩

theorem ok_bind {α β : Type} (a : α) (f : α → Except Fault β) :
    ((Except.ok a : Except Fault α) >>= f) = f a := rfl

theorem splitOperators_eq_ok {α : Type} (nodes : List Node) (createOps : List Node → α)
    (m : Int) (ops : List α) (h : splitOperators nodes createOps m = .ok ops) :
    ∃ ts, splitOperators nodes (fun ns => ns) m = .ok ts ∧ ops = ts.map createOps := by
  rw [splitOperators_map] at h
  cases hs : splitOperators nodes (fun ns => ns) m with
  | error e => rw [hs] at h; simp [Except.map] at h
  | ok ts =>
    rw [hs] at h
    simp only [Except.map, Except.ok.injEq] at h
    exact ⟨ts, rfl, h.symm⟩

/-- One `if len(nodes) > 0 { ops = append(ops, splitOperators(...)...) }` block
keeps a property of all operators, provided the constructor establishes it on
every batch. -/
theorem appendSplit_forall (P : Operator → Prop) (nodes : List Node)
    (f : List Node → Operator) (m : Int) (ops ops1 : List Operator)
    (h : (if nodes.length > 0 then
        (splitOperators nodes f m).map (fun new => ops ++ new) else pure ops) = .ok ops1)
    (hops : ∀ o ∈ ops, P o)
    (hf : ∀ ns, (1 ≤ m → ns ≠ [] ∧ (ns.length : Int) ≤ m) → P (f ns)) :
    ∀ o ∈ ops1, P o := by
  split at h
  · cases hs : splitOperators nodes f m with
    | error e => rw [hs] at h; simp [Except.map] at h
    | ok new =>
      rw [hs] at h
      simp only [Except.map, Except.ok.injEq] at h
      obtain ⟨ts, hts, hnew⟩ := splitOperators_eq_ok nodes f m new hs
      subst h
      intro o ho
      rcases List.mem_append.mp ho with ho | ho
      · exact hops o ho
      · rw [hnew] at ho
        obtain ⟨t, ht, rfl⟩ := List.mem_map.mp ho
        apply hf
        intro hm
        obtain ⟨ts2, hts2, hb⟩ := splitOperators_batches nodes m hm
        rw [hts] at hts2
        cases hts2
        exact hb t ht
  · simp only [pure, Except.pure, Except.ok.injEq] at h
    subst h
    exact hops

/-- With a positive batch size, one such block never fails. -/
theorem appendSplit_ok (nodes : List Node) (f : List Node → Operator) (m : Int)
    (hm : 1 ≤ m) (ops : List Operator) :
    ∃ ops1, (if nodes.length > 0 then
        (splitOperators nodes f m).map (fun new => ops ++ new) else pure ops) = .ok ops1 := by
  split
  · obtain ⟨ts, _, h, _⟩ := splitOperators_ok nodes f m hm
    rw [h]
    exact ⟨_, rfl⟩
  · exact ⟨_, rfl⟩

/-- Every operator of `riversOps` is a rivers operator over one batch, and with
a positive `maxConcurrentUpdates` the batch is non-empty and within the bound. -/
theorem riversOps_forall (d : Deps) (c : Cluster) (nf : NodeFilter) (m : Int)
    (ops : List Operator) (h : riversOps d c nf m = .ok ops) :
    ∀ o ∈ ops, o.origin = 1 ∧
      ∃ ns, o.batch = some ns ∧ (1 ≤ m → ns ≠ [] ∧ (ns.length : Int) ≤ m) := by
  unfold riversOps at h
  obtain ⟨ops1, h1, h⟩ := bind_eq_ok _ _ _ h
  obtain ⟨ops2, h2, h⟩ := bind_eq_ok _ _ _ h
  obtain ⟨ops3, h3, h⟩ := bind_eq_ok _ _ _ h
  obtain ⟨ops4, h4, h⟩ := bind_eq_ok _ _ _ h
  simp only [pure, Except.pure, Except.ok.injEq] at h
  subst h
  have p1 := appendSplit_forall
    (fun o => o.origin = 1 ∧
      ∃ ns, o.batch = some ns ∧ (1 ≤ m → ns ≠ [] ∧ (ns.length : Int) ≤ m))
    _ _ _ _ _ h1 (by intro o ho; simp at ho) (fun ns hns => ⟨rfl, ns, rfl, hns⟩)
  have p2 := appendSplit_forall _ _ _ _ _ _ h2 p1 (fun ns hns => ⟨rfl, ns, rfl, hns⟩)
  have p3 := appendSplit_forall _ _ _ _ _ _ h3 p2 (fun ns hns => ⟨rfl, ns, rfl, hns⟩)
  exact appendSplit_forall _ _ _ _ _ _ h4 p3 (fun ns hns => ⟨rfl, ns, rfl, hns⟩)

theorem riversOps_ok (d : Deps) (c : Cluster) (nf : NodeFilter) (m : Int) (hm : 1 ≤ m) :
    ∃ ops, riversOps d c nf m = .ok ops := by
  unfold riversOps
  obtain ⟨ops1, h1⟩ := appendSplit_ok (nf.SSHConnectedNodes (d.RiversStoppedNodes nf) true true)
    (fun ns => Operator.RiversBootOp ns nf.ControlPlane
        c.Options.Rivers d.RiversContainerName d.RiversUpstreamPort d.RiversListenPort) m hm []
  obtain ⟨ops2, h2⟩ := appendSplit_ok (nf.SSHConnectedNodes (d.RiversOutdatedNodes nf) true true)
    (fun ns => Operator.RiversRestartOp ns nf.ControlPlane
        c.Options.Rivers d.RiversContainerName d.RiversUpstreamPort d.RiversListenPort) m hm ops1
  obtain ⟨ops3, h3⟩ := appendSplit_ok
    (nf.SSHConnectedNodes (d.EtcdRiversStoppedNodes nf) true false)
    (fun ns => Operator.RiversBootOp ns nf.ControlPlane
        c.Options.EtcdRivers d.EtcdRiversContainerName d.EtcdRiversUpstreamPort
        d.EtcdRiversListenPort) m hm ops2
  obtain ⟨ops4, h4⟩ := appendSplit_ok
    (nf.SSHConnectedNodes (d.EtcdRiversOutdatedNodes nf) true false)
    (fun ns => Operator.RiversRestartOp ns nf.ControlPlane
        c.Options.EtcdRivers d.EtcdRiversContainerName d.EtcdRiversUpstreamPort
        d.EtcdRiversListenPort) m hm ops3
  refine ⟨ops4, ?_⟩
  simp only []
  rw [h1, ok_bind, h2, ok_bind, h3, ok_bind, h4, ok_bind]
  rfl

/-- One `if len(nodes) > 0 { ops = append(ops, x) }` block keeps a property of
all operators when `x` has it. -/
theorem appendIf_forall (P : Operator → Prop) (cond : Prop) [Decidable cond]
    (ops : List Operator) (x : Operator) (hops : ∀ o ∈ ops, P o) (hx : P x) :
    ∀ o ∈ (if cond then ops ++ [x] else ops), P o := by
  intro o ho
  split at ho
  · rcases List.mem_append.mp ho with h | h
    · exact hops o h
    · have : o = x := by simpa using h
      rw [this]; exact hx
  · exact hops o ho

theorem k8sOpsCP_forall (d : Deps) (c : Cluster) (nf : NodeFilter) :
    ∀ o ∈ k8sOpsCP d c nf, o.origin = 5 ∧ o.batch = none := by
  unfold k8sOpsCP
  simp only []
  apply appendIf_forall (fun o => o.origin = 5 ∧ o.batch = none)
  apply appendIf_forall (fun o => o.origin = 5 ∧ o.batch = none)
  apply appendIf_forall (fun o => o.origin = 5 ∧ o.batch = none)
  apply appendIf_forall (fun o => o.origin = 5 ∧ o.batch = none)
  apply appendIf_forall (fun o => o.origin = 5 ∧ o.batch = none)
  apply appendIf_forall (fun o => o.origin = 5 ∧ o.batch = none)
  · intro o ho; simp at ho
  all_goals exact ⟨rfl, rfl⟩

/-- Every operator of `k8sOps` belongs to step 5, and those built through
`splitOperators` have a non-empty batch within the bound when
`maxConcurrentUpdates` is positive. -/
theorem k8sOps_forall (d : Deps) (c : Cluster) (nf : NodeFilter) (cs : ClusterStatus)
    (m : Int) (ops : List Operator) (h : k8sOps d c nf cs m = .ok ops) :
    ∀ o ∈ ops, o.origin = 5 ∧
      ∀ ns, o.batch = some ns → (1 ≤ m → ns ≠ [] ∧ (ns.length : Int) ≤ m) := by
  unfold k8sOps at h
  obtain ⟨ops1, h1, h⟩ := bind_eq_ok _ _ _ h
  obtain ⟨ops2, h2, h⟩ := bind_eq_ok _ _ _ h
  obtain ⟨ops3, h3, h⟩ := bind_eq_ok _ _ _ h
  obtain ⟨ops4, h4, h⟩ := bind_eq_ok _ _ _ h
  obtain ⟨ops5, h5, h⟩ := bind_eq_ok _ _ _ h
  obtain ⟨ops6, h6, h⟩ := bind_eq_ok _ _ _ h
  simp only [pure, Except.pure, Except.ok.injEq] at h
  subst h
  have hb : ∀ (f : List Node → Operator), (∀ ns, (f ns).origin = 5 ∧ (f ns).batch = some ns) →
      ∀ ns, (1 ≤ m → ns ≠ [] ∧ (ns.length : Int) ≤ m) →
      (f ns).origin = 5 ∧
        ∀ ns1, (f ns).batch = some ns1 → (1 ≤ m → ns1 ≠ [] ∧ (ns1.length : Int) ≤ m) := by
    intro f hf ns hns
    refine ⟨(hf ns).1, ?_⟩
    intro ns1 h1
    rw [(hf ns).2] at h1
    cases h1
    exact hns
  have p0 : ∀ o ∈ k8sOpsCP d c nf, o.origin = 5 ∧
      ∀ ns, o.batch = some ns → (1 ≤ m → ns ≠ [] ∧ (ns.length : Int) ≤ m) := by
    intro o ho
    obtain ⟨ha, hb⟩ := k8sOpsCP_forall d c nf o ho
    refine ⟨ha, ?_⟩
    intro ns hns
    rw [hb] at hns
    cases hns
  have p1 := appendSplit_forall _ _ _ _ _ _ h1 p0 (hb _ (fun ns => ⟨rfl, rfl⟩))
  have p2 := appendSplit_forall _ _ _ _ _ _ h2 p1 (hb _ (fun ns => ⟨rfl, rfl⟩))
  have p3 := appendSplit_forall _ _ _ _ _ _ h3 p2 (hb _ (fun ns => ⟨rfl, rfl⟩))
  have p4 := appendSplit_forall _ _ _ _ _ _ h4 p3 (hb _ (fun ns => ⟨rfl, rfl⟩))
  have p5 := appendSplit_forall _ _ _ _ _ _ h5 p4 (hb _ (fun ns => ⟨rfl, rfl⟩))
  exact appendSplit_forall _ _ _ _ _ _ h6 p5 (hb _ (fun ns => ⟨rfl, rfl⟩))

theorem k8sOps_ok (d : Deps) (c : Cluster) (nf : NodeFilter) (cs : ClusterStatus) (m : Int)
    (hm : 1 ≤ m) : ∃ ops, k8sOps d c nf cs m = .ok ops := by
  unfold k8sOps
  simp only []
  obtain ⟨ops1, h1⟩ := appendSplit_ok (nf.SSHConnectedNodes (d.KubeletUnrecognizedNodes nf) true true)
    (fun ns => Operator.k8s_KubeletRestartOp ns c.Name c.Options.Kubelet cs.NodeStatuses) m hm
    (k8sOpsCP d c nf)
  obtain ⟨ops2, h2⟩ := appendSplit_ok (nf.SSHConnectedNodes (d.KubeletStoppedNodes nf) true true)
    (fun ns => Operator.k8s_KubeletBootOp ns (d.KubeletStoppedRegisteredNodes nf)
      (d.HealthyAPIServer nf) c.Name c.Options.Kubelet cs.NodeStatuses) m hm ops1
  obtain ⟨ops3, h3⟩ := appendSplit_ok (nf.SSHConnectedNodes (d.KubeletOutdatedNodes nf) true true)
    (fun ns => Operator.k8s_KubeletRestartOp ns c.Name c.Options.Kubelet cs.NodeStatuses) m hm
    ops2
  obtain ⟨ops4, h4⟩ := appendSplit_ok (nf.SSHConnectedNodes (d.ProxyStoppedNodes nf) true true)
    (fun ns => Operator.k8s_KubeProxyBootOp ns c.Name "" c.Options.Proxy) m hm ops3
  obtain ⟨ops5, h5⟩ := appendSplit_ok
    (nf.SSHConnectedNodes (d.ProxyOutdatedNodes nf c.Options.Proxy) true true)
    (fun ns => Operator.k8s_KubeProxyRestartOp ns c.Name "" c.Options.Proxy) m hm ops4
  obtain ⟨ops6, h6⟩ := appendSplit_ok
    (nf.SSHConnectedNodes (d.ProxyRunningUnexpectedlyNodes nf) true true)
    (fun ns => Operator.ProxyStopOp ns) m hm ops5
  refine ⟨ops6, ?_⟩
  rw [h1, ok_bind, h2, ok_bind, h3, ok_bind, h4, ok_bind, h5, ok_bind, h6, ok_bind]
  rfl

theorem etcdMaintOp_origin (d : Deps) (c : Cluster) (nf : NodeFilter) (o : Operator)
    (h : etcdMaintOp d c nf = some o) : o.origin = 6 := by
  unfold etcdMaintOp at h
  simp only [] at h
  repeat' split at h
  all_goals first
    | (simp only [Option.some.injEq] at h; subst h; rfl)
    | (simp at h)

theorem cleanOps_origin (d : Deps) (c : Cluster) (nf : NodeFilter) :
    ∀ o ∈ cleanOps d c nf, o.origin = 8 := by
  unfold cleanOps
  simp only []
  apply appendIf_forall (fun o => o.origin = 8)
  apply appendIf_forall (fun o => o.origin = 8)
  apply appendIf_forall (fun o => o.origin = 8)
  apply appendIf_forall (fun o => o.origin = 8)
  apply appendIf_forall (fun o => o.origin = 8)
  · intro o ho; simp at ho
  all_goals rfl

theorem rebootUncordonOp_origin (d : Deps) (rqEntries : List RebootQueueEntry)
    (nf : NodeFilter) (o : Operator) (h : rebootUncordonOp d rqEntries nf = some o) :
    o.origin = 9 := by
  unfold rebootUncordonOp at h
  simp only [] at h
  repeat' split at h
  all_goals first
    | (simp only [Option.some.injEq] at h; subst h; rfl)
    | (simp at h)

/-! ## What step 7 can emit -/

theorem staticResourceOp_origin (d : Deps) (apiServer : Option Node)
    (ks : KubernetesClusterStatus) (isReady : Bool) (rs : List ResourceDefinition)
    (o : Operator) (h : staticResourceOp d apiServer ks isReady rs = some o) :
    o.origin = 7 := by
  induction rs with
  | nil => simp [staticResourceOp] at h
  | cons res rest ih =>
    simp only [staticResourceOp] at h
    split at h
    · exact ih h
    · split at h
      · simp only [Option.some.injEq] at h
        subst h; rfl
      · exact ih h

theorem userResourceStep_forall (P : Operator → Prop) (d : Deps) (apiServer : Option Node)
    (ks : KubernetesClusterStatus) (res : ResourceDefinition) (ops : List Operator)
    (hops : ∀ o ∈ ops, P o) (happly : ∀ b, P (Operator.ResourceApplyOp apiServer res b))
    (hnop : P Operator.NopOp) :
    ∀ o ∈ userResourceStep d apiServer ks res ops, P o := by
  intro o ho
  unfold userResourceStep at ho
  simp only [] at ho
  repeat' split at ho
  all_goals first
    | exact hops o ho
    | (rcases List.mem_append.mp ho with h | h
       · exact hops o h
       · have h2 := List.mem_singleton.mp h
         rw [h2]
         first | exact happly _ | exact hnop)

theorem userResourceLoop_origin (d : Deps) (apiServer : Option Node)
    (ks : KubernetesClusterStatus) (isReady : Bool) (rs : List ResourceDefinition) :
    ∀ (rank : Nat) (ops : List Operator), (∀ o ∈ ops, o.origin = 7) →
      ∀ o ∈ userResourceLoop d apiServer ks isReady rs rank ops, o.origin = 7 := by
  induction rs with
  | nil => intro rank ops hops; simpa [userResourceLoop] using hops
  | cons res rest ih =>
    intro rank ops hops
    simp only [userResourceLoop]
    split
    · exact hops
    · split
      · exact ih rank ops hops
      · apply ih
        exact userResourceStep_forall (fun o => o.origin = 7) d apiServer ks res ops hops
          (fun _ => rfl) rfl

theorem decideResourceOps_origin (d : Deps) (apiServer : Option Node)
    (ks : KubernetesClusterStatus) (resources : List ResourceDefinition) (isReady : Bool) :
    ∀ o ∈ decideResourceOps d apiServer ks resources isReady, o.origin = 7 := by
  unfold decideResourceOps
  split
  · rename_i o1 h1
    intro o ho
    rw [List.mem_singleton.mp ho]
    exact staticResourceOp_origin d apiServer ks isReady _ o1 h1
  · split
    · intro o ho; simp at ho
    · apply userResourceLoop_origin
      intro o ho; simp at ho

theorem decideClusterDNSOps_origin (d : Deps) (apiServer : Option Node) (c : Cluster)
    (ks : KubernetesClusterStatus) : ∀ o ∈ decideClusterDNSOps d apiServer c ks, o.origin = 7 := by
  intro o ho
  unfold decideClusterDNSOps at ho
  simp only [] at ho
  repeat' split at ho
  all_goals first
    | (rw [List.mem_singleton.mp ho]; rfl)
    | (simp at ho)

theorem decideNodeDNSOps_origin (d : Deps) (apiServer : Option Node) (c : Cluster)
    (ks : KubernetesClusterStatus) : ∀ o ∈ decideNodeDNSOps d apiServer c ks, o.origin = 7 := by
  intro o ho
  unfold decideNodeDNSOps at ho
  simp only [] at ho
  repeat' split at ho
  all_goals first
    | (rw [List.mem_singleton.mp ho]; rfl)
    | (simp at ho)

theorem decideEpOp_origin (expect : Endpoints) (actual : Option Endpoints)
    (apiServer : Option Node) (o : Operator)
    (h : decideEpOp expect actual apiServer = .ok (some o)) : o.origin = 7 := by
  unfold decideEpOp at h
  simp only [] at h
  repeat' split at h
  all_goals first
    | (simp only [Except.ok.injEq, Option.some.injEq] at h; subst h; rfl)
    | (simp at h)

theorem decideEpsOp_origin (expect : EndpointSlice) (actual : Option EndpointSlice)
    (apiServer : Option Node) (o : Operator)
    (h : decideEpsOp expect actual apiServer = .ok (some o)) : o.origin = 7 := by
  unfold decideEpsOp at h
  simp only [] at h
  repeat' split at h
  all_goals first
    | (simp only [Except.ok.injEq, Option.some.injEq] at h; subst h; rfl)
    | (simp at h)

theorem decideEpEpsOps_origin (expect : endpointParams) (actualEP : Option Endpoints)
    (actualEPS : Option EndpointSlice) (apiserver : Option Node) (ops : List Operator)
    (h : decideEpEpsOps expect actualEP actualEPS apiserver = .ok ops) :
    ∀ o ∈ ops, o.origin = 7 := by
  unfold decideEpEpsOps at h
  simp only [] at h
  obtain ⟨epOp, h1, h⟩ := bind_eq_ok _ _ _ h
  obtain ⟨epsOp, h2, h⟩ := bind_eq_ok _ _ _ h
  simp only [pure, Except.pure, Except.ok.injEq] at h
  subst h
  intro o ho
  cases epOp with
  | none =>
    cases epsOp with
    | none => simp at ho
    | some o2 =>
      simp at ho
      rw [ho]
      exact decideEpsOp_origin _ _ _ _ h2
  | some o1 =>
    cases epsOp with
    | none =>
      simp at ho
      rw [ho]
      exact decideEpOp_origin _ _ _ _ h1
    | some o2 =>
      simp at ho
      rcases ho with ho | ho
      · rw [ho]; exact decideEpOp_origin _ _ _ _ h1
      · rw [ho]; exact decideEpsOp_origin _ _ _ _ h2

theorem decideEtcdServiceOps_origin (apiServer : Option Node) (svc : Option Service)
    (o : Operator) (h : decideEtcdServiceOps apiServer svc = some o) : o.origin = 7 := by
  unfold decideEtcdServiceOps at h
  simp only [] at h
  repeat' split at h
  all_goals first
    | (simp only [Option.some.injEq] at h; subst h; rfl)
    | (simp at h)

theorem k8sMaintOps_origin (d : Deps) (c : Cluster) (cs : ClusterStatus)
    (resources : List ResourceDefinition) (rqEntries newlyDrained : List RebootQueueEntry)
    (nf : NodeFilter) (ops : List Operator)
    (h : k8sMaintOps d c cs resources rqEntries newlyDrained nf = .ok ops) :
    ∀ o ∈ ops, o.origin = 7 := by
  unfold k8sMaintOps at h
  simp only [] at h
  split at h
  · simp only [pure, Except.pure, Except.ok.injEq] at h
    subst h
    intro o ho
    rw [List.mem_singleton.mp ho]; rfl
  · obtain ⟨epOps1, h1, h⟩ := bind_eq_ok _ _ _ h
    obtain ⟨epOps2, h2, h⟩ := bind_eq_ok _ _ _ h
    simp only [pure, Except.pure, Except.ok.injEq] at h
    subst h
    apply appendIf_forall (fun o => o.origin = 7)
    apply appendIf_forall (fun o => o.origin = 7)
    · intro o ho
      rcases List.mem_append.mp ho with ho | ho
      swap
      · exact decideEpEpsOps_origin _ _ _ _ _ h2 o ho
      have hpre : ∀ o ∈ [] ++ decideResourceOps d (d.HealthyAPIServer nf) cs.Kubernetes resources
          (d.IsReady cs.Kubernetes c) ++ decideClusterDNSOps d (d.HealthyAPIServer nf) c
          cs.Kubernetes ++ decideNodeDNSOps d (d.HealthyAPIServer nf) c cs.Kubernetes ++ epOps1,
          o.origin = 7 := by
        intro o ho
        simp only [List.nil_append, List.mem_append] at ho
        rcases ho with ((ho | ho) | ho) | ho
        · exact decideResourceOps_origin _ _ _ _ _ o ho
        · exact decideClusterDNSOps_origin _ _ _ _ o ho
        · exact decideNodeDNSOps_origin _ _ _ _ o ho
        · exact decideEpEpsOps_origin _ _ _ _ _ h1 o ho
      split at ho
      · rename_i o1 hsvc
        rcases List.mem_append.mp ho with ho | ho
        · exact hpre o ho
        · rw [List.mem_singleton.mp ho]
          exact decideEtcdServiceOps_origin _ _ _ hsvc
      · exact hpre o ho
    · rfl
    · rfl

/-! ## The reboot step -/

theorem SSHNotConnected_length (c : Cluster) (cs : ClusterStatus)
    (rqEntries : List RebootQueueEntry) :
    ((NewNodeFilter c cs).SSHNotConnectedNodes
      ((NewNodeFilter c cs).cluster.Nodes.filter
        (fun node => !rebootProcessing rqEntries node.Address)) true true).length
      = unreachableCount c cs rqEntries := by
  unfold NodeFilter.SSHNotConnectedNodes unreachableCount NewNodeFilter
  simp only [List.filter_filter]
  congr 1
  apply List.filter_congr
  intro n _
  cases n.ControlPlane <;> simp [Bool.and_comm]

theorem rebootOps_disabled (d : Deps) (c : Cluster) (cs : ClusterStatus)
    (constraints : Constraints) (rebootArgs : DecideOpsRebootArgs) (times interval : Int)
    (h : rebootEnabled c rebootArgs = false) :
    rebootOps d c constraints rebootArgs (NewNodeFilter c cs) times interval = ([], false) := by
  unfold rebootOps
  unfold rebootEnabled at h
  by_cases h1 : rebootArgs.RQEntries.length = 0
  · simp [h1]
  by_cases h2 : c.Reboot.RebootCommand.length = 0
  · simp [h2]
  by_cases h3 : c.Reboot.BootCheckCommand.length = 0
  · simp [h3]
  exfalso
  simp only [List.length_eq_zero] at h1 h2 h3
  simp [List.isEmpty_iff, h1, h2, h3] at h

theorem rebootOps_enabled (d : Deps) (c : Cluster) (cs : ClusterStatus)
    (constraints : Constraints) (rebootArgs : DecideOpsRebootArgs) (times interval : Int)
    (h : rebootEnabled c rebootArgs = true) :
    rebootOps d c constraints rebootArgs (NewNodeFilter c cs) times interval
      = (if (rebootCore d c cs constraints rebootArgs (NewNodeFilter c cs) times
            interval).isEmpty
          then []
          else rebootCore d c cs constraints rebootArgs (NewNodeFilter c cs) times interval
            ++ [Operator.RebootRecalcMetricsOp],
         anyBucket rebootArgs) := by
  unfold rebootEnabled at h
  simp only [Bool.and_eq_true, Bool.not_eq_true', List.isEmpty_eq_false] at h
  obtain ⟨⟨h1, h2⟩, h3⟩ := h
  have h1' : ¬ rebootArgs.RQEntries.length = 0 := by simpa using h1
  have h2' : ¬ c.Reboot.RebootCommand.length = 0 := by simpa using h2
  have h3' : ¬ c.Reboot.BootCheckCommand.length = 0 := by simpa using h3
  unfold rebootOps rebootCore anyBucket
  simp only [h1', h2', h3', if_false, SSHNotConnected_length]
  obtain ⟨rq, nd, dc, dt, rd⟩ := rebootArgs
  simp only []
  by_cases hb : (unreachableCount c cs rq : Int) ≤ constraints.RebootMaximumUnreachable
  · have hb' : ¬ ((unreachableCount c cs rq : Int) > constraints.RebootMaximumUnreachable) := by
      omega
    cases nd <;> cases dc <;> cases dt <;> cases rd <;> simp [hb, hb']
  · have hb' : ((unreachableCount c cs rq : Int) > constraints.RebootMaximumUnreachable) := by
      omega
    cases nd <;> cases dc <;> cases dt <;> cases rd <;> simp [hb, hb']

theorem rebootCore_origin (d : Deps) (c : Cluster) (cs : ClusterStatus)
    (constraints : Constraints) (rebootArgs : DecideOpsRebootArgs) (nf : NodeFilter)
    (times interval : Int) :
    ∀ o ∈ rebootCore d c cs constraints rebootArgs nf times interval, o.origin = 10 := by
  intro o ho
  unfold rebootCore at ho
  simp only [List.mem_append] at ho
  rcases ho with ((ho | ho) | ho) | ho <;> split at ho <;>
    first
      | (rw [List.mem_singleton.mp ho]; rfl)
      | (simp at ho)

theorem rebootOps_origin (d : Deps) (c : Cluster) (cs : ClusterStatus)
    (constraints : Constraints) (rebootArgs : DecideOpsRebootArgs) (times interval : Int) :
    ∀ o ∈ (rebootOps d c constraints rebootArgs (NewNodeFilter c cs) times interval).1,
      o.origin = 10 := by
  intro o ho
  cases he : rebootEnabled c rebootArgs with
  | false =>
    rw [rebootOps_disabled d c cs constraints rebootArgs times interval he] at ho
    simp at ho
  | true =>
    rw [rebootOps_enabled d c cs constraints rebootArgs times interval he] at ho
    simp only [] at ho
    split at ho
    · simp at ho
    · rcases List.mem_append.mp ho with ho | ho
      · exact rebootCore_origin _ _ _ _ _ _ _ _ o ho
      · rw [List.mem_singleton.mp ho]; rfl

/-! ## `DecideOps` is the first-match scan of the cascade -/

theorem DecideOps_eq_firstOutcome (d : Deps) (c : Cluster) (cs : ClusterStatus)
    (constraints : Constraints) (resources : List ResourceDefinition)
    (rebootArgs : DecideOpsRebootArgs) (config : Config) :
    DecideOps d c cs constraints resources rebootArgs config
      = firstOutcome (cascade d c cs constraints resources rebootArgs config) := by
  unfold DecideOps cascade
  simp only []
  generalize NewNodeFilter c cs = nf
  -- step 0
  by_cases hv : cs.ConfigVersion = d.ConfigVersion
  swap
  · by_cases hcp : (nf.SSHNotConnectedNodes nf.cluster.Nodes true false).length = 0
    · simp [hv, hcp, stepUpgrade, allCPReachable, firstOutcome]
    · have : (nf.SSHNotConnectedNodes nf.cluster.Nodes true false).length > 0 := by omega
      simp [hv, hcp, this, stepUpgrade, allCPReachable, firstOutcome]
  simp only [hv, ne_eq, not_true_eq_false, if_false, stepUpgrade, if_true, firstOutcome]
  -- step 1
  cases hr : riversOps d c nf config.MaxConcurrentUpdates with
  | error e => simp [stepOfOps, firstOutcome]
  | ok ops1 =>
  cases ops1 with
  | cons o rest => simp [stepOfOps, firstOutcome]
  | nil =>
  simp only [stepOfOps, firstOutcome, List.length_nil, gt_iff_lt, lt_self_iff_false, if_false]
  -- step 2
  by_cases hb : d.EtcdBootstrapped nf = true
  swap
  · by_cases hcp : (nf.SSHNotConnectedNodes nf.cluster.Nodes true false).length = 0
    · simp [hb, hcp, stepEtcdBoot, allCPReachable, firstOutcome]
    · have : (nf.SSHNotConnectedNodes nf.cluster.Nodes true false).length > 0 := by omega
      simp [hb, hcp, this, stepEtcdBoot, allCPReachable, firstOutcome]
  simp only [hb, Bool.not_true, Bool.false_eq_true, if_false, stepEtcdBoot, if_true, firstOutcome]
  -- step 3
  cases hs : nf.SSHConnectedNodes (d.EtcdStoppedMembers nf) true false with
  | cons n rest => simp [stepEtcdStart, hs, firstOutcome]
  | nil =>
  simp only [stepEtcdStart, hs, firstOutcome, List.length_nil, gt_iff_lt, lt_self_iff_false,
    if_false]
  -- step 4
  by_cases hh : cs.Etcd.IsHealthy = true
  swap
  · simp [hh, stepEtcdWait, firstOutcome]
  simp only [hh, Bool.not_true, Bool.false_eq_true, if_false, stepEtcdWait, if_true, firstOutcome]
  -- step 5
  cases hk : k8sOps d c nf cs config.MaxConcurrentUpdates with
  | error e => simp [stepOfOps, firstOutcome]
  | ok ops5 =>
  cases ops5 with
  | cons o rest => simp [stepOfOps, firstOutcome]
  | nil =>
  simp only [stepOfOps, firstOutcome, List.length_nil, gt_iff_lt, lt_self_iff_false, if_false]
  -- step 6
  cases hm : (if (nf.SSHNotConnectedNodes nf.cluster.Nodes true false).length = 0
      then etcdMaintOp d c nf else none) with
  | some o =>
    have hcp : (nf.SSHNotConnectedNodes nf.cluster.Nodes true false).length = 0 := by
      by_contra hne
      simp [hne] at hm
    simp only [hcp, if_true] at hm
    simp [stepEtcdMaintain, allCPReachable, hcp, hm, stepOfOp, firstOutcome]
  | none =>
  have hstep : stepEtcdMaintain d c nf = .ok none := by
    unfold stepEtcdMaintain allCPReachable
    by_cases hcp : (nf.SSHNotConnectedNodes nf.cluster.Nodes true false).length = 0
    · simp only [hcp, if_true] at hm
      simp [hcp, hm, stepOfOp]
    · simp [hcp]
  simp only [hstep, firstOutcome]
  -- step 7
  cases hk7 : k8sMaintOps d c cs resources rebootArgs.RQEntries rebootArgs.NewlyDrained nf with
  | error e => simp [stepOfOps, firstOutcome]
  | ok ops7 =>
  cases ops7 with
  | cons o rest => simp [stepOfOps, firstOutcome]
  | nil =>
  simp only [stepOfOps, firstOutcome, List.length_nil, gt_iff_lt, lt_self_iff_false, if_false]
  -- step 8
  cases hc8 : cleanOps d c nf with
  | cons o rest => simp [stepOfOps, firstOutcome]
  | nil =>
  simp only [stepOfOps, firstOutcome, List.length_nil, gt_iff_lt, lt_self_iff_false, if_false]
  -- step 9
  cases hu : rebootUncordonOp d rebootArgs.RQEntries nf with
  | some o => simp [stepOfOp, firstOutcome]
  | none =>
  simp only [stepOfOp, firstOutcome]
  -- step 10
  unfold stepReboot
  cases hrb : rebootOps d c constraints rebootArgs nf config.DrainRetryTimes
    config.DrainRetryInterval with
  | mk ops10 phaseReboot =>
  cases phaseReboot <;> cases hg : d.EtcdIsGood nf <;> simp [firstOutcome, hg]

/-! ## The result of the scan and of each step -/

/-- A successful scan either stops at a first step with a result, every earlier
step having passed, or finds no result in any step and reports completion. -/
theorem firstOutcome_ok (steps : List StepResult) (r : Outcome)
    (h : firstOutcome steps = .ok r) :
    (∃ k, k < steps.length ∧ steps[k]? = some (.ok (some r))
        ∧ ∀ j, j < k → steps[j]? = some (.ok none))
      ∨ (r = ([], .PhaseCompleted) ∧ ∀ j, j < steps.length → steps[j]? = some (.ok none)) := by
  induction steps with
  | nil =>
    right
    simp only [firstOutcome, Except.ok.injEq] at h
    exact ⟨h.symm, by intro j hj; simp at hj⟩
  | cons s rest ih =>
    cases s with
    | error e => simp [firstOutcome] at h
    | ok v =>
      cases v with
      | some r1 =>
        simp only [firstOutcome, Except.ok.injEq] at h
        subst h
        left
        exact ⟨0, by simp, by simp, by intro j hj; omega⟩
      | none =>
        simp only [firstOutcome] at h
        rcases ih h with ⟨k, hk, hk1, hk2⟩ | ⟨hr, hall⟩
        · left
          refine ⟨k + 1, by simp; omega, by simpa using hk1, ?_⟩
          intro j hj
          cases j with
          | zero => simp
          | succ j => simpa using hk2 j (by omega)
        · right
          refine ⟨hr, ?_⟩
          intro j hj
          cases j with
          | zero => simp
          | succ j => simpa using hall j (by simpa using hj)

theorem stepOfOps_some (x : Except Fault (List Operator)) (phase : OperationPhase)
    (r : Outcome) (h : stepOfOps x phase = .ok (some r)) :
    ∃ ops, x = .ok ops ∧ r = (ops, phase) ∧ ops ≠ [] := by
  unfold stepOfOps at h
  split at h
  · simp at h
  · simp at h
  · rename_i o rest
    simp only [Except.ok.injEq, Option.some.injEq] at h
    exact ⟨o :: rest, rfl, h.symm, by simp⟩

theorem stepOfOp_some (x : Option Operator) (phase : OperationPhase)
    (r : Outcome) (h : stepOfOp x phase = .ok (some r)) :
    ∃ o, x = some o ∧ r = ([o], phase) := by
  unfold stepOfOp at h
  split at h
  · simp at h
  · rename_i o
    simp only [Except.ok.injEq, Option.some.injEq] at h
    exact ⟨o, rfl, h.symm⟩

/-- What a step that has a result returns: one of its own phases, operators
built by its own code only, and a non-empty list unless the phase is one of the
two aborts or the reboot phase. -/
theorem cascade_step_spec (d : Deps) (c : Cluster) (cs : ClusterStatus)
    (constraints : Constraints) (resources : List ResourceDefinition)
    (rebootArgs : DecideOpsRebootArgs) (config : Config) (k : Nat) (r : Outcome)
    (h : (cascade d c cs constraints resources rebootArgs config)[k]? = some (.ok (some r))) :
    r.2 ∈ stepPhases k ∧ (∀ o ∈ r.1, o.origin = k)
      ∧ (r.1 ≠ [] ∨ r.2 = .PhaseUpgradeAborted ∨ r.2 = .PhaseEtcdBootAborted
          ∨ r.2 = .PhaseRebootNodes) := by
  unfold cascade at h
  simp only [] at h
  rcases k with _ | _ | _ | _ | _ | _ | _ | _ | _ | _ | _ | k
  · -- upgrade
    simp only [List.getElem?_cons_zero, Option.some.injEq] at h
    unfold stepUpgrade at h
    repeat' split at h
    all_goals simp only [Except.ok.injEq, Option.some.injEq] at h
    all_goals first
      | (subst h; simp [stepPhases, Operator.origin])
      | (simp at h)
  · -- rivers
    simp only [List.getElem?_cons_succ, List.getElem?_cons_zero, Option.some.injEq] at h
    obtain ⟨ops, hops, rfl, hne⟩ := stepOfOps_some _ _ _ h
    refine ⟨by simp [stepPhases], ?_, Or.inl hne⟩
    intro o ho
    exact (riversOps_forall _ _ _ _ _ hops o ho).1
  · -- etcd bootstrap
    simp only [List.getElem?_cons_succ, List.getElem?_cons_zero, Option.some.injEq] at h
    unfold stepEtcdBoot at h
    repeat' split at h
    all_goals simp only [Except.ok.injEq, Option.some.injEq] at h
    all_goals first
      | (subst h; simp [stepPhases, Operator.origin])
      | (simp at h)
  · -- etcd start
    simp only [List.getElem?_cons_succ, List.getElem?_cons_zero, Option.some.injEq] at h
    unfold stepEtcdStart at h
    repeat' split at h
    all_goals simp only [Except.ok.injEq, Option.some.injEq] at h
    all_goals first
      | (subst h; simp [stepPhases, Operator.origin])
      | (simp at h)
  · -- etcd wait
    simp only [List.getElem?_cons_succ, List.getElem?_cons_zero, Option.some.injEq] at h
    unfold stepEtcdWait at h
    repeat' split at h
    all_goals simp only [Except.ok.injEq, Option.some.injEq] at h
    all_goals first
      | (subst h; simp [stepPhases, Operator.origin])
      | (simp at h)
  · -- kubernetes components
    simp only [List.getElem?_cons_succ, List.getElem?_cons_zero, Option.some.injEq] at h
    obtain ⟨ops, hops, rfl, hne⟩ := stepOfOps_some _ _ _ h
    refine ⟨by simp [stepPhases], ?_, Or.inl hne⟩
    intro o ho
    exact (k8sOps_forall _ _ _ _ _ _ hops o ho).1
  · -- etcd maintenance
    simp only [List.getElem?_cons_succ, List.getElem?_cons_zero, Option.some.injEq] at h
    unfold stepEtcdMaintain at h
    split at h
    · obtain ⟨o, ho, rfl⟩ := stepOfOp_some _ _ _ h
      refine ⟨by simp [stepPhases], ?_, Or.inl (by simp)⟩
      intro o1 ho1
      rw [List.mem_singleton.mp ho1]
      exact etcdMaintOp_origin _ _ _ _ ho
    · simp at h
  · -- kubernetes maintenance
    simp only [List.getElem?_cons_succ, List.getElem?_cons_zero, Option.some.injEq] at h
    obtain ⟨ops, hops, rfl, hne⟩ := stepOfOps_some _ _ _ h
    refine ⟨by simp [stepPhases], ?_, Or.inl hne⟩
    exact k8sMaintOps_origin _ _ _ _ _ _ _ _ hops
  · -- clean control plane
    simp only [List.getElem?_cons_succ, List.getElem?_cons_zero, Option.some.injEq] at h
    obtain ⟨ops, hops, rfl, hne⟩ := stepOfOps_some _ _ _ h
    refine ⟨by simp [stepPhases], ?_, Or.inl hne⟩
    simp only [Except.ok.injEq] at hops
    subst hops
    exact cleanOps_origin _ _ _
  · -- uncordon
    simp only [List.getElem?_cons_succ, List.getElem?_cons_zero, Option.some.injEq] at h
    obtain ⟨o, ho, rfl⟩ := stepOfOp_some _ _ _ h
    refine ⟨by simp [stepPhases], ?_, Or.inl (by simp)⟩
    intro o1 ho1
    rw [List.mem_singleton.mp ho1]
    exact rebootUncordonOp_origin _ _ _ _ ho
  · -- reboot
    simp only [List.getElem?_cons_succ, List.getElem?_cons_zero, Option.some.injEq] at h
    unfold stepReboot at h
    simp only [] at h
    repeat' split at h
    all_goals simp only [Except.ok.injEq, Option.some.injEq] at h
    all_goals first
      | (subst h
         refine ⟨by simp [stepPhases], ?_, Or.inr (Or.inr (Or.inr rfl))⟩
         first
           | exact rebootOps_origin _ _ _ _ _ _ _
           | (intro o ho; simp at ho))
      | (simp at h)
  · simp at h

theorem cascade_length (d : Deps) (c : Cluster) (cs : ClusterStatus)
    (constraints : Constraints) (resources : List ResourceDefinition)
    (rebootArgs : DecideOpsRebootArgs) (config : Config) :
    (cascade d c cs constraints resources rebootArgs config).length = 11 := rfl

/-! ## `DecideOps` returns whenever the batch size is positive -/

theorem decideEpOp_ok (expect : Endpoints) (actual : Option Endpoints)
    (apiServer : Option Node) (es : EndpointSubset) (rest : List EndpointSubset)
    (p : EndpointPort) (ps : List EndpointPort) (h1 : expect.Subsets = es :: rest)
    (h2 : es.Ports = p :: ps) : ∃ r, decideEpOp expect actual apiServer = .ok r := by
  unfold decideEpOp
  simp only [h1, h2]
  repeat' split
  all_goals exact ⟨_, rfl⟩

theorem endpointsMismatch_ok (actual : List SliceEndpoint) :
    ∀ (expect : List SliceEndpoint), (∀ e ∈ expect, ∃ b, e.Ready = some b) →
      actual.length = expect.length → ∃ b, endpointsMismatch actual expect = .ok b := by
  induction actual with
  | nil => intro expect _ _; exact ⟨false, by simp [endpointsMismatch]⟩
  | cons a rest ih =>
    intro expect hready hlen
    cases expect with
    | nil => simp at hlen
    | cons e erest =>
      obtain ⟨b, hb⟩ := hready e (List.mem_cons_self _ _)
      obtain ⟨b2, hb2⟩ := ih erest (fun e2 he2 => hready e2 (List.mem_cons_of_mem _ he2))
        (by simpa using hlen)
      simp only [endpointsMismatch, hb]
      repeat' split
      all_goals first
        | exact ⟨_, rfl⟩
        | exact ⟨b2, hb2⟩

theorem decideEpsOp_ok (expect : EndpointSlice) (actual : Option EndpointSlice)
    (apiServer : Option Node) (name : String) (port : Int)
    (hready : ∀ e ∈ expect.Endpoints, ∃ b, e.Ready = some b)
    (hports : expect.Ports = [{ Name := some name, Port := some port }]) :
    ∃ r, decideEpsOp expect actual apiServer = .ok r := by
  unfold decideEpsOp
  cases actual with
  | none => exact ⟨_, rfl⟩
  | some actual =>
    simp only [hports]
    split
    · exact ⟨_, rfl⟩
    split
    · exact ⟨_, rfl⟩
    split
    · exact ⟨_, rfl⟩
    rename_i hlen
    obtain ⟨b, hb⟩ := endpointsMismatch_ok actual.Endpoints expect.Endpoints hready
      (by simpa using hlen)
    rw [hb]
    cases b
    · simp only []
      repeat' split
      all_goals exact ⟨_, rfl⟩
    · exact ⟨_, rfl⟩

theorem decideEpEpsOps_ok (expect : endpointParams) (actualEP : Option Endpoints)
    (actualEPS : Option EndpointSlice) (apiserver : Option Node) :
    ∃ ops, decideEpEpsOps expect actualEP actualEPS apiserver = .ok ops := by
  unfold decideEpEpsOps
  simp only []
  obtain ⟨r1, h1⟩ := decideEpOp_ok
    { Namespace := expect.namespace_
      Name := expect.name
      Labels := [("endpointslice.kubernetes.io/skip-mirror", "true")]
      Subsets := [{ Addresses := expect.readyIPs.map (fun ip => ({ IP := ip } : EndpointAddress))
                    NotReadyAddresses :=
                      expect.notReadyIPs.map (fun ip => ({ IP := ip } : EndpointAddress))
                    Ports := [{ Name := expect.portName, Port := expect.port }] }] }
    actualEP apiserver _ _ _ _ rfl rfl
  obtain ⟨r2, h2⟩ := decideEpsOp_ok
    { Namespace := expect.namespace_
      Name := expect.name
      Labels := [("endpointslice.kubernetes.io/managed-by", "cke.cybozu.com"),
                 ("kubernetes.io/service-name", expect.serviceName)]
      AddressType := AddressTypeIPv4
      Endpoints :=
        expect.readyIPs.map (fun ip => ({ Addresses := [ip], Ready := some true } : SliceEndpoint))
          ++ expect.notReadyIPs.map
            (fun ip => ({ Addresses := [ip], Ready := some false } : SliceEndpoint))
      Ports := [{ Name := some expect.portName, Port := some expect.port }] }
    actualEPS apiserver expect.portName expect.port
    (by
      intro e he
      simp only [List.mem_append, List.mem_map] at he
      rcases he with ⟨ip, _, rfl⟩ | ⟨ip, _, rfl⟩
      · exact ⟨true, rfl⟩
      · exact ⟨false, rfl⟩)
    rfl
  rw [h1, ok_bind, h2, ok_bind]
  exact ⟨_, rfl⟩

theorem k8sMaintOps_ok (d : Deps) (c : Cluster) (cs : ClusterStatus)
    (resources : List ResourceDefinition) (rqEntries newlyDrained : List RebootQueueEntry)
    (nf : NodeFilter) :
    ∃ ops, k8sMaintOps d c cs resources rqEntries newlyDrained nf = .ok ops := by
  unfold k8sMaintOps
  simp only []
  split
  · exact ⟨_, rfl⟩
  · obtain ⟨ops1, h1⟩ := decideEpEpsOps_ok
      { namespace_ := NamespaceDefault
        name := "kubernetes"
        readyIPs := (readyAddressesLoop rqEntries newlyDrained (d.HealthyAPIServerNodes nf)
          ([], [])).1
        notReadyIPs := (readyAddressesLoop rqEntries newlyDrained (d.HealthyAPIServerNodes nf)
          ([], [])).2 ++ (d.UnhealthyAPIServerNodes nf).map (fun n => n.Address)
        portName := "https"
        port := 6443
        serviceName := "kubernetes" }
      cs.Kubernetes.MasterEndpoints cs.Kubernetes.MasterEndpointSlice (d.HealthyAPIServer nf)
    obtain ⟨ops2, h2⟩ := decideEpEpsOps_ok
      { namespace_ := NamespaceSystem
        name := d.EtcdEndpointsName
        readyIPs := (readyAddressesLoop rqEntries newlyDrained nf.ControlPlane ([], [])).1
        notReadyIPs := (readyAddressesLoop rqEntries newlyDrained nf.ControlPlane ([], [])).2
        portName := ""
        port := 2379
        serviceName := d.EtcdServiceName }
      cs.Kubernetes.EtcdEndpoints cs.Kubernetes.EtcdEndpointSlice (d.HealthyAPIServer nf)
    rw [h1, ok_bind, h2, ok_bind]
    exact ⟨_, rfl⟩

theorem firstOutcome_total (steps : List StepResult) (h : ∀ s ∈ steps, ∃ v, s = .ok v) :
    ∃ r, firstOutcome steps = .ok r := by
  induction steps with
  | nil => exact ⟨_, rfl⟩
  | cons s rest ih =>
    obtain ⟨v, hv⟩ := h s (List.mem_cons_self _ _)
    subst hv
    cases v with
    | some r => exact ⟨r, rfl⟩
    | none =>
      simp only [firstOutcome]
      exact ih (fun s2 hs2 => h s2 (List.mem_cons_of_mem _ hs2))

theorem stepOfOps_ok (x : Except Fault (List Operator)) (phase : OperationPhase)
    (h : ∃ ops, x = .ok ops) : ∃ v, stepOfOps x phase = .ok v := by
  obtain ⟨ops, rfl⟩ := h
  cases ops with
  | nil => exact ⟨_, rfl⟩
  | cons o rest => exact ⟨_, rfl⟩

/-- With `MaxConcurrentUpdates` at least 1, `DecideOps` returns a result. -/
theorem DecideOps_ok (d : Deps) (c : Cluster) (cs : ClusterStatus)
    (constraints : Constraints) (resources : List ResourceDefinition)
    (rebootArgs : DecideOpsRebootArgs) (config : Config) (hm : 1 ≤ config.MaxConcurrentUpdates) :
    ∃ r, DecideOps d c cs constraints resources rebootArgs config = .ok r := by
  rw [DecideOps_eq_firstOutcome]
  apply firstOutcome_total
  intro s hs
  unfold cascade at hs
  simp only [List.mem_cons, List.mem_singleton, List.not_mem_nil, or_false] at hs
  rcases hs with h | h | h | h | h | h | h | h | h | h | h <;> subst h
  · unfold stepUpgrade; repeat' split
    all_goals exact ⟨_, rfl⟩
  · exact stepOfOps_ok _ _ (riversOps_ok _ _ _ _ hm)
  · unfold stepEtcdBoot; repeat' split
    all_goals exact ⟨_, rfl⟩
  · unfold stepEtcdStart; repeat' split
    all_goals exact ⟨_, rfl⟩
  · unfold stepEtcdWait; repeat' split
    all_goals exact ⟨_, rfl⟩
  · exact stepOfOps_ok _ _ (k8sOps_ok _ _ _ _ _ hm)
  · unfold stepEtcdMaintain stepOfOp; repeat' split
    all_goals exact ⟨_, rfl⟩
  · exact stepOfOps_ok _ _ (k8sMaintOps_ok _ _ _ _ _ _ _)
  · exact stepOfOps_ok _ _ ⟨_, rfl⟩
  · unfold stepOfOp; repeat' split
    all_goals exact ⟨_, rfl⟩
  · unfold stepReboot; simp only []; repeat' split
    all_goals exact ⟨_, rfl⟩

/-! ## Claims about the cascade -/

/-- Claim C1 fails as stated, at three inputs.  On the converged sample cluster
no step yields anything, and `DecideOps` returns the empty list with phase
Completed, which is the result of no step.  With the worker 10.0.0.2 newly
drained while the worker 10.0.0.3 is unreachable and no unreachable node is
allowed, the reboot step is the first with a result, and that result is an empty
list under phase RebootNodes: the step neither yields operators nor is one of
the two steps that abort.  With `MaxConcurrentUpdates` at 0 and rivers stopped,
the loop of `splitOperators` never ends, whatever the number of iterations it is
given, and `DecideOps` does not return. -/
theorem DecideOps_first_step_counterexample :
    (DecideOps quietDeps sampleCluster (sampleStatus allAddresses) sampleConstraints []
          noReboot sampleConfig = .ok ([], .PhaseCompleted)
        ∧ (∀ j, j < 11 →
            (cascade quietDeps sampleCluster (sampleStatus allAddresses) sampleConstraints []
              noReboot sampleConfig)[j]? = some (.ok none))
        ∧ ∀ k, OperationPhase.PhaseCompleted ∉ stepPhases k)
      ∧ (DecideOps quietDeps sampleCluster (sampleStatus ["10.0.0.1", "10.0.0.2"])
            sampleConstraints [] drainReboot sampleConfig = .ok ([], .PhaseRebootNodes)
          ∧ (∀ j, j < 10 →
              (cascade quietDeps sampleCluster (sampleStatus ["10.0.0.1", "10.0.0.2"])
                sampleConstraints [] drainReboot sampleConfig)[j]? = some (.ok none))
          ∧ (cascade quietDeps sampleCluster (sampleStatus ["10.0.0.1", "10.0.0.2"])
                sampleConstraints [] drainReboot sampleConfig)[10]?
              = some (.ok (some ([], .PhaseRebootNodes))))
      ∧ (DecideOps { quietDeps with RiversStoppedNodes := fun nf => nf.cluster.Nodes }
            sampleCluster (sampleStatus allAddresses) sampleConstraints [] noReboot
            { sampleConfig with MaxConcurrentUpdates := 0 } = .error .outOfFuel
          ∧ ∀ fuel, splitOperatorsLoop sampleCluster.Nodes
              (fun ns => Operator.RiversBootOp ns [mkNode "10.0.0.1" true] default "rivers"
                6443 16443) 0 fuel 0 [] = .error .outOfFuel) := by
  refine ⟨⟨rfl, ?_, ?_⟩, ⟨rfl, ?_, rfl⟩, ⟨rfl, ?_⟩⟩
  · intro j hj
    rcases j with _ | _ | _ | _ | _ | _ | _ | _ | _ | _ | _ | j
    all_goals first
      | rfl
      | omega
  · intro k
    rcases k with _ | _ | _ | _ | _ | _ | _ | _ | _ | _ | _ | k
    all_goals simp [stepPhases]
  · intro j hj
    rcases j with _ | _ | _ | _ | _ | _ | _ | _ | _ | _ | j
    all_goals first
      | rfl
      | omega
  · intro fuel
    exact splitOperatorsLoop_zero_stuck _ _ (by simp [sampleCluster]) fuel []

/-- Claim C1, amended.  `DecideOps` is the top-to-bottom scan of the eleven steps
(upgrade, rivers, etcd bootstrap, etcd start, etcd wait, k8s components, etcd
maintenance, k8s maintenance, clean control plane, uncordon, reboot), and it
returns whenever `MaxConcurrentUpdates` is at least 1.  Whenever it returns,
either some step `k` is the first one with a result, all steps before it having
passed, and the returned pair is exactly that step's result: the phase is one of
step `k`, every returned operator is built by the code of step `k` (so none of a
later step is included), and the list is non-empty unless the phase is an abort
(upgrade, etcd bootstrap) or the reboot phase (the reboot step being active with
nothing to emit); or no step has a result and the pair is the empty list with
phase Completed. -/
theorem DecideOps_returns_first_step (d : Deps) (c : Cluster) (cs : ClusterStatus)
    (constraints : Constraints) (resources : List ResourceDefinition)
    (rebootArgs : DecideOpsRebootArgs) (config : Config) :
    DecideOps d c cs constraints resources rebootArgs config
        = firstOutcome (cascade d c cs constraints resources rebootArgs config)
      ∧ (1 ≤ config.MaxConcurrentUpdates →
          ∃ r, DecideOps d c cs constraints resources rebootArgs config = .ok r)
      ∧ ∀ r, DecideOps d c cs constraints resources rebootArgs config = .ok r →
        (∃ k, k < 11
            ∧ (cascade d c cs constraints resources rebootArgs config)[k]? = some (.ok (some r))
            ∧ (∀ j, j < k →
                (cascade d c cs constraints resources rebootArgs config)[j]? = some (.ok none))
            ∧ r.2 ∈ stepPhases k
            ∧ (∀ o ∈ r.1, o.origin = k)
            ∧ (r.1 ≠ [] ∨ r.2 = .PhaseUpgradeAborted ∨ r.2 = .PhaseEtcdBootAborted
                ∨ r.2 = .PhaseRebootNodes))
          ∨ (r = ([], .PhaseCompleted) ∧ ∀ j, j < 11 →
              (cascade d c cs constraints resources rebootArgs config)[j]? = some (.ok none)) := by
  refine ⟨DecideOps_eq_firstOutcome _ _ _ _ _ _ _, DecideOps_ok _ _ _ _ _ _ _, ?_⟩
  intro r hr
  rw [DecideOps_eq_firstOutcome] at hr
  rcases firstOutcome_ok _ _ hr with ⟨k, hk, hk1, hk2⟩ | ⟨h1, h2⟩
  · left
    rw [cascade_length] at hk
    obtain ⟨p1, p2, p3⟩ := cascade_step_spec _ _ _ _ _ _ _ k r hk1
    exact ⟨k, hk, hk1, hk2, p1, p2, p3⟩
  · right
    rw [cascade_length] at h2
    exact ⟨h1, h2⟩

/-- Claim C1, amended, at a concrete input: with rivers stopped on all three
nodes of the sample cluster and a reboot pending, `DecideOps` returns at step 1
with the two rivers batches only. -/
theorem DecideOps_returns_first_step_witness :
    (∃ r, DecideOps { quietDeps with RiversStoppedNodes := fun nf => nf.cluster.Nodes }
        sampleCluster (sampleStatus allAddresses) sampleConstraints [] drainReboot
        sampleConfig = .ok r) ∧
    ((∃ k, k < 11
        ∧ (cascade { quietDeps with RiversStoppedNodes := fun nf => nf.cluster.Nodes }
            sampleCluster (sampleStatus allAddresses) sampleConstraints [] drainReboot
            sampleConfig)[k]?
          = some (.ok (some
              ([Operator.RiversBootOp [mkNode "10.0.0.1" true, mkNode "10.0.0.2" false]
                  [mkNode "10.0.0.1" true] default "rivers" 6443 16443,
                Operator.RiversBootOp [mkNode "10.0.0.3" false]
                  [mkNode "10.0.0.1" true] default "rivers" 6443 16443],
               OperationPhase.PhaseRivers)))
        ∧ (∀ j, j < k →
            (cascade { quietDeps with RiversStoppedNodes := fun nf => nf.cluster.Nodes }
              sampleCluster (sampleStatus allAddresses) sampleConstraints [] drainReboot
              sampleConfig)[j]? = some (.ok none))
        ∧ OperationPhase.PhaseRivers ∈ stepPhases k
        ∧ (∀ o ∈ [Operator.RiversBootOp [mkNode "10.0.0.1" true, mkNode "10.0.0.2" false]
                  [mkNode "10.0.0.1" true] default "rivers" 6443 16443,
                Operator.RiversBootOp [mkNode "10.0.0.3" false]
                  [mkNode "10.0.0.1" true] default "rivers" 6443 16443], o.origin = k)
        ∧ ([Operator.RiversBootOp [mkNode "10.0.0.1" true, mkNode "10.0.0.2" false]
                  [mkNode "10.0.0.1" true] default "rivers" 6443 16443,
                Operator.RiversBootOp [mkNode "10.0.0.3" false]
                  [mkNode "10.0.0.1" true] default "rivers" 6443 16443] ≠ []
            ∨ OperationPhase.PhaseRivers = .PhaseUpgradeAborted
            ∨ OperationPhase.PhaseRivers = .PhaseEtcdBootAborted
            ∨ OperationPhase.PhaseRivers = .PhaseRebootNodes))
      ∨ ((([Operator.RiversBootOp [mkNode "10.0.0.1" true, mkNode "10.0.0.2" false]
                  [mkNode "10.0.0.1" true] default "rivers" 6443 16443,
                Operator.RiversBootOp [mkNode "10.0.0.3" false]
                  [mkNode "10.0.0.1" true] default "rivers" 6443 16443],
               OperationPhase.PhaseRivers) : Outcome) = ([], .PhaseCompleted)
          ∧ ∀ j, j < 11 →
            (cascade { quietDeps with RiversStoppedNodes := fun nf => nf.cluster.Nodes }
              sampleCluster (sampleStatus allAddresses) sampleConstraints [] drainReboot
              sampleConfig)[j]? = some (.ok none))) :=
  ⟨(DecideOps_returns_first_step
      { quietDeps with RiversStoppedNodes := fun nf => nf.cluster.Nodes }
      sampleCluster (sampleStatus allAddresses) sampleConstraints [] drainReboot
      sampleConfig).2.1 (by decide),
    (DecideOps_returns_first_step
      { quietDeps with RiversStoppedNodes := fun nf => nf.cluster.Nodes }
      sampleCluster (sampleStatus allAddresses) sampleConstraints [] drainReboot
      sampleConfig).2.2 _ rfl⟩

theorem allCPReachable_eq (c : Cluster) (cs : ClusterStatus) :
    allCPReachable (NewNodeFilter c cs) = !someCPUnreachable c cs := by
  unfold allCPReachable NodeFilter.SSHNotConnectedNodes NewNodeFilter someCPUnreachable
  simp only []
  induction c.Nodes with
  | nil => rfl
  | cons n rest ih =>
    simp only [List.filter_cons, List.any_cons]
    cases hc : n.ControlPlane <;>
      cases hs : (mapGet cs.NodeStatuses n.Address).SSHConnected <;>
      simp_all

theorem allCPReachable_false (c : Cluster) (cs : ClusterStatus)
    (h : someCPUnreachable c cs = true) : allCPReachable (NewNodeFilter c cs) = false := by
  rw [allCPReachable_eq, h]; rfl

/-- Claim C2.  When some control-plane node is not SSH-connected, whatever
`DecideOps` returns contains no operator built by step 0 (the upgrade operator),
step 2 (the etcd boot operator) or step 6 (the etcd maintenance operators), and
its phase is none of Upgrade, EtcdBoot, EtcdMaintain; and it does return
whenever `MaxConcurrentUpdates` is at least 1. -/
theorem DecideOps_reachability_gates (d : Deps) (c : Cluster) (cs : ClusterStatus)
    (constraints : Constraints) (resources : List ResourceDefinition)
    (rebootArgs : DecideOpsRebootArgs) (config : Config)
    (hcp : someCPUnreachable c cs = true) :
    (1 ≤ config.MaxConcurrentUpdates →
        ∃ r, DecideOps d c cs constraints resources rebootArgs config = .ok r)
      ∧ ∀ r, DecideOps d c cs constraints resources rebootArgs config = .ok r →
        (∀ o ∈ r.1, o.origin ≠ 0 ∧ o.origin ≠ 2 ∧ o.origin ≠ 6)
          ∧ r.2 ≠ .PhaseUpgrade ∧ r.2 ≠ .PhaseEtcdBoot ∧ r.2 ≠ .PhaseEtcdMaintain := by
  refine ⟨DecideOps_ok _ _ _ _ _ _ _, ?_⟩
  intro r hr
  have hgate := allCPReachable_false c cs hcp
  rw [DecideOps_eq_firstOutcome] at hr
  rcases firstOutcome_ok _ _ hr with ⟨k, hk, hk1, _⟩ | ⟨h1, _⟩
  swap
  · subst h1
    simp
  obtain ⟨p1, p2, _⟩ := cascade_step_spec _ _ _ _ _ _ _ k r hk1
  rw [cascade_length] at hk
  unfold cascade at hk1
  simp only [] at hk1
  rcases k with _ | _ | _ | _ | _ | _ | _ | _ | _ | _ | _ | k
  · -- upgrade: aborted
    simp only [List.getElem?_cons_zero, Option.some.injEq] at hk1
    unfold stepUpgrade at hk1
    rw [hgate] at hk1
    split at hk1
    · simp at hk1
    · simp only [Bool.false_eq_true, if_false, Except.ok.injEq, Option.some.injEq] at hk1
      subst hk1
      simp
  · exact ⟨fun o ho => by rw [p2 o ho]; simp, by
      simp only [stepPhases, List.mem_singleton] at p1; rw [p1]; simp⟩
  · -- etcd bootstrap: aborted
    simp only [List.getElem?_cons_succ, List.getElem?_cons_zero, Option.some.injEq] at hk1
    unfold stepEtcdBoot at hk1
    rw [hgate] at hk1
    split at hk1
    · simp at hk1
    · simp only [Bool.false_eq_true, if_false, Except.ok.injEq, Option.some.injEq] at hk1
      subst hk1
      simp
  · exact ⟨fun o ho => by rw [p2 o ho]; simp, by
      simp only [stepPhases, List.mem_singleton] at p1; rw [p1]; simp⟩
  · exact ⟨fun o ho => by rw [p2 o ho]; simp, by
      simp only [stepPhases, List.mem_singleton] at p1; rw [p1]; simp⟩
  · exact ⟨fun o ho => by rw [p2 o ho]; simp, by
      simp only [stepPhases, List.mem_singleton] at p1; rw [p1]; simp⟩
  · -- etcd maintenance: gated
    simp only [List.getElem?_cons_succ, List.getElem?_cons_zero, Option.some.injEq] at hk1
    unfold stepEtcdMaintain at hk1
    rw [hgate] at hk1
    simp at hk1
  · exact ⟨fun o ho => by rw [p2 o ho]; simp, by
      simp only [stepPhases, List.mem_singleton] at p1; rw [p1]; simp⟩
  · exact ⟨fun o ho => by rw [p2 o ho]; simp, by
      simp only [stepPhases, List.mem_singleton] at p1; rw [p1]; simp⟩
  · exact ⟨fun o ho => by rw [p2 o ho]; simp, by
      simp only [stepPhases, List.mem_singleton] at p1; rw [p1]; simp⟩
  · exact ⟨fun o ho => by rw [p2 o ho]; simp, by
      simp only [stepPhases, List.mem_singleton] at p1; rw [p1]; simp⟩
  · omega

/-- Claim C2 at a concrete input: the control-plane node of the sample cluster
is unreachable, etcd is not bootstrapped and has members to add; `DecideOps`
returns the empty list with phase EtcdBootAborted. -/
theorem DecideOps_reachability_gates_witness :
    someCPUnreachable sampleCluster (sampleStatus ["10.0.0.2", "10.0.0.3"]) = true
      ∧ (∃ r, DecideOps
          { quietDeps with EtcdBootstrapped := fun _ => false,
                           EtcdUnstartedMembers := fun nf => nf.cluster.Nodes }
          sampleCluster (sampleStatus ["10.0.0.2", "10.0.0.3"]) sampleConstraints [] noReboot
          sampleConfig = .ok r)
      ∧ (∀ o ∈ ([] : List Operator), o.origin ≠ 0 ∧ o.origin ≠ 2 ∧ o.origin ≠ 6)
      ∧ OperationPhase.PhaseEtcdBootAborted ≠ .PhaseUpgrade
      ∧ OperationPhase.PhaseEtcdBootAborted ≠ .PhaseEtcdBoot
      ∧ OperationPhase.PhaseEtcdBootAborted ≠ .PhaseEtcdMaintain :=
  ⟨rfl,
    (DecideOps_reachability_gates
      { quietDeps with EtcdBootstrapped := fun _ => false,
                       EtcdUnstartedMembers := fun nf => nf.cluster.Nodes }
      sampleCluster (sampleStatus ["10.0.0.2", "10.0.0.3"]) sampleConstraints [] noReboot
      sampleConfig rfl).1 (by decide),
    (DecideOps_reachability_gates
      { quietDeps with EtcdBootstrapped := fun _ => false,
                       EtcdUnstartedMembers := fun nf => nf.cluster.Nodes }
      sampleCluster (sampleStatus ["10.0.0.2", "10.0.0.3"]) sampleConstraints [] noReboot
      sampleConfig rfl).2 ([], .PhaseEtcdBootAborted) rfl⟩

/-! ## Etcd maintenance and bootstrap -/

theorem isEmpty_eq_false_of_length_pos {α : Type} (l : List α) (h : l.length > 0) :
    l.isEmpty = false := by
  cases l with
  | nil => simp at h
  | cons a t => rfl

theorem isEmpty_eq_true_of_not_length_pos {α : Type} (l : List α) (h : ¬ l.length > 0) :
    l.isEmpty = true := by
  cases l with
  | nil => rfl
  | cons a t => simp at h

theorem etcdMaintOp_eq_firstRule (d : Deps) (c : Cluster) (nf : NodeFilter) :
    etcdMaintOp d c nf = firstRule (etcdMaintRules d c nf) := by
  unfold etcdMaintOp etcdMaintRules
  simp only []
  by_cases h1 : (d.EtcdNonClusterMembers nf false).length > 0
  · simp [h1, isEmpty_eq_false_of_length_pos _ h1, firstRule]
  simp only [h1, if_false, isEmpty_eq_true_of_not_length_pos _ h1, if_true]
  by_cases h2 : (d.EtcdNonCPMembers nf false).1.length > 0
  · simp [h2, isEmpty_eq_false_of_length_pos _ h2, firstRule]
  simp only [h2, if_false, isEmpty_eq_true_of_not_length_pos _ h2, if_true]
  cases h3 : d.EtcdUnstartedMembers nf with
  | cons n rest => simp [firstRule]
  | nil =>
  simp only [List.head?_nil, Option.map_none']
  by_cases h4 : (d.EtcdUnmarkedMembers nf).length > 0
  · simp [h4, isEmpty_eq_false_of_length_pos _ h4, firstRule]
  simp only [h4, if_false, isEmpty_eq_true_of_not_length_pos _ h4, if_true]
  cases h5 : d.EtcdIsGood nf with
  | false => simp [firstRule]
  | true =>
  simp only [Bool.not_true, Bool.false_eq_true, if_false, if_true]
  cases h6 : d.EtcdNewMembers nf with
  | cons n rest => simp [firstRule]
  | nil =>
  simp only [List.head?_nil, Option.map_none']
  by_cases h7 : (d.EtcdNonClusterMembers nf true).length > 0
  · simp [h7, isEmpty_eq_false_of_length_pos _ h7, firstRule]
  simp only [h7, if_false, isEmpty_eq_true_of_not_length_pos _ h7, if_true]
  by_cases h8 : (d.EtcdNonCPMembers nf true).1.length > 0
  · simp [h8, isEmpty_eq_false_of_length_pos _ h8, firstRule]
  simp only [h8, if_false, isEmpty_eq_true_of_not_length_pos _ h8, if_true]
  cases h9 : d.EtcdOutdatedMembers nf with
  | cons n rest => simp [firstRule]
  | nil => simp [firstRule]

theorem firstRule_eq_none_iff (rules : List (Option Operator)) :
    firstRule rules = none ↔ ∀ rule ∈ rules, rule = none := by
  induction rules with
  | nil => simp [firstRule]
  | cons rule rest ih =>
    cases rule with
    | none => simp [firstRule, ih]
    | some o => simp [firstRule]

/-- An add-member operator of `etcdMaintOp` targets the head of the unstarted
members, or, when there is none and etcd is good, the head of the new members. -/
theorem etcdMaintOp_add (d : Deps) (c : Cluster) (nf : NodeFilter) (cps : List Node)
    (n : Node) (p : ServiceParams)
    (h : etcdMaintOp d c nf = some (Operator.etcd_AddMemberOp cps n p)) :
    (d.EtcdUnstartedMembers nf).head? = some n
      ∨ (d.EtcdUnstartedMembers nf = [] ∧ d.EtcdIsGood nf = true
          ∧ (d.EtcdNewMembers nf).head? = some n) := by
  unfold etcdMaintOp at h
  simp only [] at h
  repeat' split at h
  all_goals simp_all

theorem etcdMaintOp_restart (d : Deps) (c : Cluster) (nf : NodeFilter) (cps : List Node)
    (n : Node) (p : ServiceParams)
    (h : etcdMaintOp d c nf = some (Operator.etcd_RestartOp cps n p)) :
    d.EtcdIsGood nf = true := by
  unfold etcdMaintOp at h
  simp only [] at h
  repeat' split at h
  all_goals simp_all

/-- Claim C7.  `etcdMaintOp` returns the operator of the first rule that matches
in the order: remove non-cluster members, destroy non-control-plane members
(both without requiring sync), add the first unstarted member, mark unmarked
members, and, only when `EtcdIsGood` holds, add the first new member, remove
non-cluster members, destroy non-control-plane members (both in sync), restart
the first outdated member.  It returns nothing exactly when no rule matches, and
when `EtcdIsGood` is false it returns no restart operator and no add-member
operator other than the one for the first unstarted member. -/
theorem etcdMaintOp_first_match (d : Deps) (c : Cluster) (nf : NodeFilter) :
    etcdMaintOp d c nf = firstRule (etcdMaintRules d c nf)
      ∧ (etcdMaintOp d c nf = none ↔ ∀ rule ∈ etcdMaintRules d c nf, rule = none)
      ∧ (d.EtcdIsGood nf = false →
          (∀ cps n p, etcdMaintOp d c nf ≠ some (Operator.etcd_RestartOp cps n p))
          ∧ (∀ cps n p, etcdMaintOp d c nf = some (Operator.etcd_AddMemberOp cps n p) →
              (d.EtcdUnstartedMembers nf).head? = some n)) := by
  refine ⟨etcdMaintOp_eq_firstRule d c nf, ?_, ?_⟩
  · rw [etcdMaintOp_eq_firstRule]
    exact firstRule_eq_none_iff _
  · intro hgood
    constructor
    · intro cps n p h
      have := etcdMaintOp_restart d c nf cps n p h
      rw [hgood] at this
      cases this
    · intro cps n p h
      rcases etcdMaintOp_add d c nf cps n p h with h1 | ⟨_, h2, _⟩
      · exact h1
      · rw [hgood] at h2
        cases h2

/-- Claim C7 at a concrete input: etcd is not good, two nodes are new members
and one member is outdated; no rule before the gate matches and nothing is
returned. -/
theorem etcdMaintOp_first_match_witness :
    etcdMaintOp
        { quietDeps with EtcdIsGood := fun _ => false,
                         EtcdNewMembers := fun nf => nf.cluster.Nodes,
                         EtcdOutdatedMembers := fun nf => nf.cluster.Nodes }
        sampleCluster (NewNodeFilter sampleCluster (sampleStatus allAddresses)) = none
      ∧ (∀ cps n p, etcdMaintOp
          { quietDeps with EtcdIsGood := fun _ => false,
                           EtcdNewMembers := fun nf => nf.cluster.Nodes,
                           EtcdOutdatedMembers := fun nf => nf.cluster.Nodes }
          sampleCluster (NewNodeFilter sampleCluster (sampleStatus allAddresses))
            ≠ some (Operator.etcd_RestartOp cps n p))
      ∧ (∀ cps n p, etcdMaintOp
          { quietDeps with EtcdIsGood := fun _ => false,
                           EtcdNewMembers := fun nf => nf.cluster.Nodes,
                           EtcdOutdatedMembers := fun nf => nf.cluster.Nodes }
          sampleCluster (NewNodeFilter sampleCluster (sampleStatus allAddresses))
            = some (Operator.etcd_AddMemberOp cps n p) →
          (([] : List Node).head? = some n)) :=
  ⟨rfl,
    (etcdMaintOp_first_match
      { quietDeps with EtcdIsGood := fun _ => false,
                       EtcdNewMembers := fun nf => nf.cluster.Nodes,
                       EtcdOutdatedMembers := fun nf => nf.cluster.Nodes }
      sampleCluster (NewNodeFilter sampleCluster (sampleStatus allAddresses))).2.2 rfl⟩

/-- Claim C6.  Whenever `DecideOps` returns phase EtcdMaintain, the operator list
has exactly one element, the operator of `etcdMaintOp`; and when that operator
is an add-member operator its single target node is the first node of the
unstarted-member list, or (when that list is empty and etcd is good) the first
node of the new-member list. -/
theorem DecideOps_etcd_maintain_single (d : Deps) (c : Cluster) (cs : ClusterStatus)
    (constraints : Constraints) (resources : List ResourceDefinition)
    (rebootArgs : DecideOpsRebootArgs) (config : Config) (ops : List Operator)
    (hr : DecideOps d c cs constraints resources rebootArgs config
      = .ok (ops, .PhaseEtcdMaintain)) :
    ∃ o, ops = [o] ∧ etcdMaintOp d c (NewNodeFilter c cs) = some o
      ∧ ∀ cps n p, o = Operator.etcd_AddMemberOp cps n p →
        (d.EtcdUnstartedMembers (NewNodeFilter c cs)).head? = some n
          ∨ (d.EtcdUnstartedMembers (NewNodeFilter c cs) = []
              ∧ d.EtcdIsGood (NewNodeFilter c cs) = true
              ∧ (d.EtcdNewMembers (NewNodeFilter c cs)).head? = some n) := by
  rw [DecideOps_eq_firstOutcome] at hr
  rcases firstOutcome_ok _ _ hr with ⟨k, hk, hk1, _⟩ | ⟨h1, _⟩
  swap
  · simp at h1
  obtain ⟨p1, _, _⟩ := cascade_step_spec _ _ _ _ _ _ _ k _ hk1
  have hk6 : k = 6 := by
    rcases k with _ | _ | _ | _ | _ | _ | _ | _ | _ | _ | _ | k <;>
      simp [stepPhases] at p1 ⊢
  subst hk6
  unfold cascade at hk1
  simp only [List.getElem?_cons_succ, List.getElem?_cons_zero, Option.some.injEq] at hk1
  unfold stepEtcdMaintain at hk1
  split at hk1
  · obtain ⟨o, ho, hpair⟩ := stepOfOp_some _ _ _ hk1
    simp only [Prod.mk.injEq, and_true] at hpair
    refine ⟨o, hpair, ho, ?_⟩
    intro cps n p hadd
    rw [hadd] at ho
    exact etcdMaintOp_add d c _ cps n p ho
  · simp at hk1

/-- Claim C6 at a concrete input: all three nodes of the sample cluster wait to
be added as etcd members; a single add-member operator for the first of them is
returned. -/
theorem DecideOps_etcd_maintain_single_witness :
    ∃ o, [Operator.etcd_AddMemberOp [mkNode "10.0.0.1" true] (mkNode "10.0.0.1" true)
          (default : ServiceParams)] = [o]
      ∧ etcdMaintOp { quietDeps with EtcdUnstartedMembers := fun nf => nf.cluster.Nodes }
          sampleCluster (NewNodeFilter sampleCluster (sampleStatus allAddresses)) = some o
      ∧ ∀ cps n p, o = Operator.etcd_AddMemberOp cps n p →
        (sampleCluster.Nodes).head? = some n
          ∨ (sampleCluster.Nodes = []
              ∧ true = true
              ∧ ([] : List Node).head? = some n) :=
  DecideOps_etcd_maintain_single
    { quietDeps with EtcdUnstartedMembers := fun nf => nf.cluster.Nodes }
    sampleCluster (sampleStatus allAddresses) sampleConstraints [] noReboot sampleConfig
    [Operator.etcd_AddMemberOp [mkNode "10.0.0.1" true] (mkNode "10.0.0.1" true) default] rfl

/-- Claim C8.  With the current configuration version, no rivers operator to
emit and etcd not bootstrapped: if some control-plane node is not SSH-connected
`DecideOps` returns no operators and phase EtcdBootAborted; otherwise it returns
exactly one operator, the etcd boot operator over the control-plane nodes of
the cluster, with phase EtcdBoot. -/
theorem DecideOps_etcd_boot (d : Deps) (c : Cluster) (cs : ClusterStatus)
    (constraints : Constraints) (resources : List ResourceDefinition)
    (rebootArgs : DecideOpsRebootArgs) (config : Config)
    (hv : cs.ConfigVersion = d.ConfigVersion)
    (hrivers : riversOps d c (NewNodeFilter c cs) config.MaxConcurrentUpdates = .ok [])
    (hboot : d.EtcdBootstrapped (NewNodeFilter c cs) = false) :
    DecideOps d c cs constraints resources rebootArgs config
      = .ok (if someCPUnreachable c cs then ([], .PhaseEtcdBootAborted)
          else ([Operator.etcd_BootOp (c.Nodes.filter (fun n => n.ControlPlane)) c.Options.Etcd],
            .PhaseEtcdBoot)) := by
  rw [DecideOps_eq_firstOutcome]
  unfold cascade
  simp only [stepUpgrade, hv, if_true, firstOutcome, hrivers, stepOfOps, stepEtcdBoot, hboot,
    Bool.false_eq_true, if_false, allCPReachable_eq]
  cases someCPUnreachable c cs <;> simp [firstOutcome, NodeFilter.ControlPlane, NewNodeFilter]

/-- Claim C8 at a concrete input: the control-plane node of the sample cluster is
unreachable and etcd is not bootstrapped. -/
theorem DecideOps_etcd_boot_witness :
    DecideOps { quietDeps with EtcdBootstrapped := fun _ => false } sampleCluster
        (sampleStatus ["10.0.0.2", "10.0.0.3"]) sampleConstraints [] noReboot sampleConfig
      = .ok (if someCPUnreachable sampleCluster (sampleStatus ["10.0.0.2", "10.0.0.3"])
          then ([], .PhaseEtcdBootAborted)
          else ([Operator.etcd_BootOp (sampleCluster.Nodes.filter (fun n => n.ControlPlane))
            sampleCluster.Options.Etcd], .PhaseEtcdBoot)) :=
  DecideOps_etcd_boot { quietDeps with EtcdBootstrapped := fun _ => false } sampleCluster
    (sampleStatus ["10.0.0.2", "10.0.0.3"]) sampleConstraints [] noReboot sampleConfig
    rfl rfl rfl

/-! ## Batches of bounded width -/

/-- Claim C4.  For every node list and every `maxConcurrentUpdates` of at least 1,
`splitOperators` succeeds, the target lists it hands to the operator constructor
(observed by taking the identity as constructor) are each non-empty and of at
most `maxConcurrentUpdates` nodes, and the operators are the constructor applied
to these lists; consequently `riversOps` and `k8sOps` succeed and every operator
they build through the splitter (rivers boot and restart; kubelet restart and
boot, kube-proxy boot and restart, proxy stop) has a non-empty node list of at
most `maxConcurrentUpdates` nodes. -/
theorem splitOperators_width (nodes : List Node) (m : Int) (hm : 1 ≤ m) :
    (∃ ts, splitOperators nodes (fun ns => ns) m = .ok ts
        ∧ (∀ t ∈ ts, t ≠ [] ∧ (t.length : Int) ≤ m)
        ∧ ∀ (createOps : List Node → Operator),
            splitOperators nodes createOps m = .ok (ts.map createOps))
      ∧ (∀ (d : Deps) (c : Cluster) (nf : NodeFilter),
          ∃ ops, riversOps d c nf m = .ok ops
            ∧ ∀ o ∈ ops, ∃ ns, o.batch = some ns ∧ ns ≠ [] ∧ (ns.length : Int) ≤ m)
      ∧ (∀ (d : Deps) (c : Cluster) (nf : NodeFilter) (cs : ClusterStatus),
          ∃ ops, k8sOps d c nf cs m = .ok ops
            ∧ ∀ o ∈ ops, ∀ ns, o.batch = some ns → ns ≠ [] ∧ (ns.length : Int) ≤ m) := by
  refine ⟨?_, ?_, ?_⟩
  · obtain ⟨ts, h1, h2⟩ := splitOperators_batches nodes m hm
    refine ⟨ts, h1, h2, ?_⟩
    intro createOps
    rw [splitOperators_map, h1]
    rfl
  · intro d c nf
    obtain ⟨ops, hops⟩ := riversOps_ok d c nf m hm
    refine ⟨ops, hops, ?_⟩
    intro o ho
    obtain ⟨_, ns, hns, hb⟩ := riversOps_forall d c nf m ops hops o ho
    exact ⟨ns, hns, hb hm⟩
  · intro d c nf cs
    obtain ⟨ops, hops⟩ := k8sOps_ok d c nf cs m hm
    refine ⟨ops, hops, ?_⟩
    intro o ho ns hns
    exact (k8sOps_forall d c nf cs m ops hops o ho).2 ns hns hm

/-- Claim C4 at a concrete input: the three nodes of the sample cluster with
`maxConcurrentUpdates = 2`. -/
theorem splitOperators_width_witness :
    (∃ ts, splitOperators sampleCluster.Nodes (fun ns => ns) 2 = .ok ts
        ∧ (∀ t ∈ ts, t ≠ [] ∧ (t.length : Int) ≤ 2)
        ∧ ∀ (createOps : List Node → Operator),
            splitOperators sampleCluster.Nodes createOps 2 = .ok (ts.map createOps))
      ∧ (∀ (d : Deps) (c : Cluster) (nf : NodeFilter),
          ∃ ops, riversOps d c nf 2 = .ok ops
            ∧ ∀ o ∈ ops, ∃ ns, o.batch = some ns ∧ ns ≠ [] ∧ (ns.length : Int) ≤ 2)
      ∧ (∀ (d : Deps) (c : Cluster) (nf : NodeFilter) (cs : ClusterStatus),
          ∃ ops, k8sOps d c nf cs 2 = .ok ops
            ∧ ∀ o ∈ ops, ∀ ns, o.batch = some ns → ns ≠ [] ∧ (ns.length : Int) ≤ 2) :=
  splitOperators_width sampleCluster.Nodes 2 (by decide)

/-! ## User resources, rank by rank -/

theorem userResourceStep_eq (d : Deps) (apiServer : Option Node)
    (ks : KubernetesClusterStatus) (isReady : Bool) (res : ResourceDefinition)
    (ops : List Operator) (hskip : ¬ (res.Kind = KindDeployment ∧ (!isReady) = true)) :
    userResourceStep d apiServer ks res ops
      = ops ++ (userResourceOp d apiServer ks isReady res).toList := by
  have hskip2 : ¬ (res.Kind = KindDeployment ∧ isReady = false) := by
    intro h
    apply hskip
    exact ⟨h.1, by simp [h.2]⟩
  unfold userResourceStep userResourceOp mapGetOk
  simp only [hskip2, if_false]
  cases hl : ks.ResourceStatuses.lookup res.Key with
  | none => simp [default, instInhabitedResourceStatus]
  | some status =>
    simp only [Bool.not_true, Bool.false_eq_true, if_false]
    by_cases hn : d.NeedUpdate res status = true
    · simp [hn]
    · cases hc : status.Completed <;> simp [hn, hc]

theorem userResourceOp_skip (d : Deps) (apiServer : Option Node)
    (ks : KubernetesClusterStatus) (isReady : Bool) (res : ResourceDefinition)
    (hskip : res.Kind = KindDeployment ∧ (!isReady) = true) :
    userResourceOp d apiServer ks isReady res = none := by
  unfold userResourceOp
  have : res.Kind = KindDeployment ∧ isReady = false := ⟨hskip.1, by simpa using hskip.2⟩
  simp [this]

/-- Once operators exist, the loop goes on exactly while the rank stays the same. -/
theorem userResourceLoop_nonempty (d : Deps) (apiServer : Option Node)
    (ks : KubernetesClusterStatus) (isReady : Bool) (rs : List ResourceDefinition) :
    ∀ (rank : Nat) (ops : List Operator), ops ≠ [] →
      userResourceLoop d apiServer ks isReady rs rank ops
        = ops ++ (rs.takeWhile (fun r => r.Rank = rank)).filterMap
            (userResourceOp d apiServer ks isReady) := by
  induction rs with
  | nil => intro rank ops _; simp [userResourceLoop]
  | cons res rest ih =>
    intro rank ops hne
    have hpos : ops.length > 0 := by
      cases ops with
      | nil => exact absurd rfl hne
      | cons a t => simp
    simp only [userResourceLoop]
    by_cases hrank : res.Rank = rank
    · have h1 : ¬ (res.Rank ≠ rank ∧ ops.length > 0) := fun h => h.1 hrank
      simp only [h1, if_false]
      by_cases hskip : res.Kind = KindDeployment ∧ (!isReady) = true
      · simp only [hskip, and_self, if_true]
        rw [ih rank ops hne]
        simp [List.takeWhile_cons, hrank, userResourceOp_skip d apiServer ks isReady res hskip]
      · simp only [hskip, if_false]
        rw [userResourceStep_eq d apiServer ks isReady res ops hskip]
        rw [ih res.Rank _ (by simp [hne])]
        rw [hrank]
        cases hu : userResourceOp d apiServer ks isReady res <;>
          simp [List.takeWhile_cons, hrank, hu]
    · have h1 : res.Rank ≠ rank ∧ ops.length > 0 := ⟨hrank, hpos⟩
      simp [h1, List.takeWhile_cons, hrank]

/-- In a list sorted by rank and bounded below by `v`, the resources of rank `v`
form a prefix. -/
theorem takeWhile_eq_filter_of_sorted (rs : List ResourceDefinition) (v : Nat)
    (hsorted : rs.Pairwise (fun a b => a.Rank ≤ b.Rank)) (hlow : ∀ r ∈ rs, v ≤ r.Rank) :
    rs.takeWhile (fun r => r.Rank = v) = rs.filter (fun r => r.Rank = v) := by
  induction rs with
  | nil => rfl
  | cons res rest ih =>
    rw [List.pairwise_cons] at hsorted
    have hrest : ∀ r ∈ rest, v ≤ r.Rank := fun r hr => hlow r (List.mem_cons_of_mem _ hr)
    by_cases hv : res.Rank = v
    · simp [List.takeWhile_cons, List.filter_cons, hv, ih hsorted.2 hrest]
    · have hlt : v < res.Rank := by
        have := hlow res (List.mem_cons_self _ _)
        omega
      have hnone : rest.filter (fun r => r.Rank = v) = [] := by
        rw [List.filter_eq_nil_iff]
        intro r hr
        have := hsorted.1 r hr
        simp
        omega
      simp [List.takeWhile_cons, List.filter_cons, hv, hnone]

theorem userResourceLoop_sorted (d : Deps) (apiServer : Option Node)
    (ks : KubernetesClusterStatus) (isReady : Bool) (rs : List ResourceDefinition) :
    ∀ (rank : Nat), rs.Pairwise (fun a b => a.Rank ≤ b.Rank) →
      userResourceLoop d apiServer ks isReady rs rank []
        = lowestRankOps d apiServer ks isReady rs := by
  induction rs with
  | nil => intro rank _; simp [userResourceLoop, lowestRankOps]
  | cons res rest ih =>
    intro rank hsorted
    have hs := List.pairwise_cons.mp hsorted
    simp only [userResourceLoop, List.length_nil, gt_iff_lt, lt_self_iff_false, and_false,
      if_false]
    have hnone : userResourceOp d apiServer ks isReady res = none →
        lowestRankOps d apiServer ks isReady (res :: rest)
          = lowestRankOps d apiServer ks isReady rest := by
      intro hu
      unfold lowestRankOps
      simp only [List.find?_cons, hu, Option.isSome_none]
      cases hf : rest.find? (fun r => (userResourceOp d apiServer ks isReady r).isSome) with
      | none => rfl
      | some r0 =>
        simp only [List.filter_cons]
        by_cases hr : res.Rank = r0.Rank
        · simp [hr, hu]
        · simp [hr]
    by_cases hskip : res.Kind = KindDeployment ∧ (!isReady) = true
    · simp only [hskip, and_self, if_true]
      rw [ih rank hs.2, hnone (userResourceOp_skip d apiServer ks isReady res hskip)]
    · simp only [hskip, if_false]
      rw [userResourceStep_eq d apiServer ks isReady res [] hskip]
      cases hu : userResourceOp d apiServer ks isReady res with
      | none =>
        simp only [Option.toList, List.append_nil]
        rw [ih res.Rank hs.2, hnone hu]
      | some o =>
        simp only [Option.toList, List.nil_append]
        rw [userResourceLoop_nonempty d apiServer ks isReady rest res.Rank [o] (by simp)]
        rw [takeWhile_eq_filter_of_sorted rest res.Rank hs.2 (fun r hr => hs.1 r hr)]
        unfold lowestRankOps
        simp [List.find?_cons, hu, List.filter_cons]

/-- Claim C5.  When no static resource needs applying and the user resources are
sorted by rank, `decideResourceOps` returns exactly the operators of the lowest
rank at which some resource yields one: with `r0` the first resource that yields
an operator (create, update or wait), the result is the list of the
contributions of all resources of the rank of `r0`, in input order (every
contributing resource of that rank is present, none of another rank), and no
contributing resource has a rank below that of `r0`; when no resource yields an
operator the result is empty. -/
theorem decideResourceOps_lowest_rank (d : Deps) (apiServer : Option Node)
    (ks : KubernetesClusterStatus) (resources : List ResourceDefinition) (isReady : Bool)
    (hstatic : staticResourceOp d apiServer ks isReady d.staticResources = none)
    (hsorted : resources.Pairwise (fun a b => a.Rank ≤ b.Rank)) :
    decideResourceOps d apiServer ks resources isReady
        = lowestRankOps d apiServer ks isReady resources
      ∧ ∀ r0, resources.find? (fun r => (userResourceOp d apiServer ks isReady r).isSome)
            = some r0 →
          ∀ r ∈ resources, (userResourceOp d apiServer ks isReady r).isSome = true →
            r0.Rank ≤ r.Rank := by
  constructor
  · unfold decideResourceOps
    rw [hstatic]
    cases resources with
    | nil => simp [lowestRankOps]
    | cons res0 rest => exact userResourceLoop_sorted d apiServer ks isReady _ res0.Rank hsorted
  · intro r0 hfind r hr hsome
    clear hstatic
    induction resources with
    | nil => simp at hr
    | cons res rest ih =>
      have hs := List.pairwise_cons.mp hsorted
      rw [List.find?_cons] at hfind
      cases hu : (userResourceOp d apiServer ks isReady res).isSome with
      | true =>
        simp only [hu, Option.some.injEq] at hfind
        subst hfind
        rcases List.mem_cons.mp hr with h | h
        · rw [h]
        · exact hs.1 r h
      | false =>
        simp only [hu] at hfind
        rcases List.mem_cons.mp hr with h | h
        · rw [h, hu] at hsome
          cases hsome
        · exact ih hs.2 hfind h

/-- Claim C5 at a concrete input: two resources of rank 10 need an update and one
of rank 20 needs to be created; both rank-10 apply operators are returned and
nothing for rank 20. -/
theorem decideResourceOps_lowest_rank_witness :
    sampleResources.Pairwise (fun a b => a.Rank ≤ b.Rank)
      ∧ lowestRankOps updateDeps none sampleResourceState true sampleResources
          = [Operator.ResourceApplyOp none (mkResource "ConfigMap/default/a" "ConfigMap" 10) false,
             Operator.ResourceApplyOp none (mkResource "ConfigMap/default/b" "ConfigMap" 10) false]
      ∧ (decideResourceOps updateDeps none sampleResourceState sampleResources true
            = lowestRankOps updateDeps none sampleResourceState true sampleResources
          ∧ ∀ r0, sampleResources.find?
                (fun r => (userResourceOp updateDeps none sampleResourceState true r).isSome)
              = some r0 →
            ∀ r ∈ sampleResources,
              (userResourceOp updateDeps none sampleResourceState true r).isSome = true →
              r0.Rank ≤ r.Rank) :=
  ⟨by decide, rfl,
    decideResourceOps_lowest_rank updateDeps none sampleResourceState sampleResources true rfl
      (by decide)⟩

/-! ## Endpoints equivalence -/

/-- Claim C3, evaluated at an input where it fails.  Two ready addresses
10.0.0.1 and 10.0.0.2 are expected and the observed object lists 10.0.0.1 twice:
labels, port and address counts agree, the observed ready IPs are not the
expected ones as sets (10.0.0.2 is missing), and `decideEpOp` returns no
operator. -/
theorem decideEpOp_duplicate_address :
    decideEpOp expectedTwoAddresses (some observedDuplicateAddress) none = .ok none
      ∧ observedDuplicateAddress.Subsets.length = 1
      ∧ labelsMismatch expectedTwoAddresses.Labels observedDuplicateAddress.Labels = false
      ∧ (readyIPsOf observedDuplicateAddress).length = (readyIPsOf expectedTwoAddresses).length
      ∧ "10.0.0.2" ∈ readyIPsOf expectedTwoAddresses
      ∧ "10.0.0.2" ∉ readyIPsOf observedDuplicateAddress := by
  refine ⟨rfl, rfl, rfl, rfl, by decide, by decide⟩

/-! ## The reboot step inside the cascade -/

/-- When the ten steps before the reboot step all pass, `DecideOps` returns
what the reboot step decides. -/
theorem DecideOps_at_reboot (d : Deps) (c : Cluster) (cs : ClusterStatus)
    (constraints : Constraints) (resources : List ResourceDefinition)
    (rebootArgs : DecideOpsRebootArgs) (config : Config)
    (hreach : ∀ j, j < 10 →
      (cascade d c cs constraints resources rebootArgs config)[j]? = some (.ok none)) :
    DecideOps d c cs constraints resources rebootArgs config
      = firstOutcome [stepReboot d c constraints rebootArgs config (NewNodeFilter c cs)] := by
  rw [DecideOps_eq_firstOutcome]
  have h0 := hreach 0 (by omega)
  have h1 := hreach 1 (by omega)
  have h2 := hreach 2 (by omega)
  have h3 := hreach 3 (by omega)
  have h4 := hreach 4 (by omega)
  have h5 := hreach 5 (by omega)
  have h6 := hreach 6 (by omega)
  have h7 := hreach 7 (by omega)
  have h8 := hreach 8 (by omega)
  have h9 := hreach 9 (by omega)
  unfold cascade at h0 h1 h2 h3 h4 h5 h6 h7 h8 h9 ⊢
  simp only [List.getElem?_cons_succ, List.getElem?_cons_zero, Option.some.injEq]
    at h0 h1 h2 h3 h4 h5 h6 h7 h8 h9
  simp only [h0, h1, h2, h3, h4, h5, h6, h7, h8, h9, firstOutcome]

theorem rebootCore_isEmpty (d : Deps) (c : Cluster) (cs : ClusterStatus)
    (constraints : Constraints) (rebootArgs : DecideOpsRebootArgs) (nf : NodeFilter)
    (times interval : Int)
    (hnd : rebootArgs.NewlyDrained.isEmpty = true ∨
      ¬ (unreachableCount c cs rebootArgs.RQEntries : Int) ≤ constraints.RebootMaximumUnreachable)
    (hdc : rebootArgs.DrainCompleted = []) (hdt : rebootArgs.DrainTimedout = [])
    (hrd : rebootArgs.RebootDequeued = []) :
    rebootCore d c cs constraints rebootArgs nf times interval = [] := by
  unfold rebootCore
  rw [hdc, hdt, hrd]
  rcases hnd with h | h
  · simp [h]
  · simp [h]

/-- With the reboot phase enabled, a drain-start operator is emitted exactly when
there are newly drained entries and the unreachable nodes are within the bound. -/
theorem rebootOps_drainStart_iff (d : Deps) (c : Cluster) (cs : ClusterStatus)
    (constraints : Constraints) (rebootArgs : DecideOpsRebootArgs) (times interval : Int)
    (hen : rebootEnabled c rebootArgs = true) :
    (∃ o ∈ (rebootOps d c constraints rebootArgs (NewNodeFilter c cs) times interval).1,
        o.isDrainStart = true)
      ↔ (rebootArgs.NewlyDrained ≠ []
          ∧ (unreachableCount c cs rebootArgs.RQEntries : Int)
              ≤ constraints.RebootMaximumUnreachable) := by
  rw [rebootOps_enabled d c cs constraints rebootArgs times interval hen]
  simp only []
  constructor
  · rintro ⟨o, ho, hds⟩
    split at ho
    · simp at ho
    · rcases List.mem_append.mp ho with ho | ho
      · unfold rebootCore at ho
        simp only [List.mem_append] at ho
        rcases ho with ((ho | ho) | ho) | ho
        · split at ho
          · rename_i hc
            refine ⟨?_, hc.2⟩
            intro hnil
            rw [hnil] at hc
            simp at hc
          · simp at ho
        all_goals
          split at ho
          · rw [List.mem_singleton.mp ho] at hds
            simp [Operator.isDrainStart] at hds
          · simp at ho
      · rw [List.mem_singleton.mp ho] at hds
        simp [Operator.isDrainStart] at hds
  · rintro ⟨hne, hb⟩
    have hnd : (!rebootArgs.NewlyDrained.isEmpty) = true := by
      cases h : rebootArgs.NewlyDrained with
      | nil => exact absurd h hne
      | cons a t => rfl
    refine ⟨Operator.RebootDrainStartOp (d.HealthyAPIServer (NewNodeFilter c cs))
      rebootArgs.NewlyDrained c.Reboot times interval, ?_, rfl⟩
    have hmem : Operator.RebootDrainStartOp (d.HealthyAPIServer (NewNodeFilter c cs))
        rebootArgs.NewlyDrained c.Reboot times interval
        ∈ rebootCore d c cs constraints rebootArgs (NewNodeFilter c cs) times interval := by
      unfold rebootCore
      simp [hnd, hb]
    split
    · rename_i hemp
      rw [List.isEmpty_iff] at hemp
      rw [hemp] at hmem
      simp at hmem
    · exact List.mem_append_left _ hmem

/-- Claim C9 as stated fails: the reboot queue and both commands are non-empty,
one entry is newly drained, one node is unreachable with
`RebootMaximumUnreachable = 0`, the other buckets are empty, and yet `DecideOps`
does not return the empty list with phase RebootNodes, because the
configuration version is old and the upgrade step returns first. -/
theorem DecideOps_reboot_skipped_counterexample :
    rebootEnabled sampleCluster drainReboot = true
      ∧ drainReboot.NewlyDrained ≠ []
      ∧ ¬ ((unreachableCount sampleCluster oldVersionStatus drainReboot.RQEntries : Int)
            ≤ sampleConstraints.RebootMaximumUnreachable)
      ∧ drainReboot.DrainCompleted = [] ∧ drainReboot.DrainTimedout = []
      ∧ drainReboot.RebootDequeued = []
      ∧ DecideOps quietDeps sampleCluster oldVersionStatus sampleConstraints [] drainReboot
          sampleConfig
          = .ok ([Operator.UpgradeOp "1" [mkNode "10.0.0.1" true]], .PhaseUpgrade)
      ∧ DecideOps quietDeps sampleCluster oldVersionStatus sampleConstraints [] drainReboot
          sampleConfig ≠ .ok ([], .PhaseRebootNodes) := by
  have heval : DecideOps quietDeps sampleCluster oldVersionStatus sampleConstraints []
      drainReboot sampleConfig
      = .ok ([Operator.UpgradeOp "1" [mkNode "10.0.0.1" true]], .PhaseUpgrade) := rfl
  refine ⟨rfl, by simp [drainReboot], by decide, rfl, rfl, rfl, heval, ?_⟩
  rw [heval]
  simp

/-- Claim C9, amended.  With a non-empty reboot queue and non-empty reboot and
boot-check commands, `rebootOps` emits the drain-start operator if and only if
`NewlyDrained` is non-empty and the number of SSH-unreachable cluster nodes that
are not being drained or rebooted is at most `RebootMaximumUnreachable`; when
`NewlyDrained` is non-empty, the bound is exceeded and the other buckets are
empty, `rebootOps` emits no operator and reports the reboot phase, and
`DecideOps`, provided every step before the reboot step passes, returns the
empty list with phase RebootNodes. -/
theorem rebootOps_drain_start (d : Deps) (c : Cluster) (cs : ClusterStatus)
    (constraints : Constraints) (resources : List ResourceDefinition)
    (rebootArgs : DecideOpsRebootArgs) (config : Config)
    (hen : rebootEnabled c rebootArgs = true) :
    ((∃ o ∈ (rebootOps d c constraints rebootArgs (NewNodeFilter c cs) config.DrainRetryTimes
          config.DrainRetryInterval).1, o.isDrainStart = true)
        ↔ (rebootArgs.NewlyDrained ≠ []
            ∧ (unreachableCount c cs rebootArgs.RQEntries : Int)
                ≤ constraints.RebootMaximumUnreachable))
      ∧ (rebootArgs.NewlyDrained ≠ [] →
          ¬ ((unreachableCount c cs rebootArgs.RQEntries : Int)
              ≤ constraints.RebootMaximumUnreachable) →
          rebootArgs.DrainCompleted = [] → rebootArgs.DrainTimedout = [] →
          rebootArgs.RebootDequeued = [] →
          rebootOps d c constraints rebootArgs (NewNodeFilter c cs) config.DrainRetryTimes
              config.DrainRetryInterval = ([], true)
            ∧ ((∀ j, j < 10 →
                  (cascade d c cs constraints resources rebootArgs config)[j]? = some (.ok none)) →
                DecideOps d c cs constraints resources rebootArgs config
                  = .ok ([], .PhaseRebootNodes))) := by
  refine ⟨rebootOps_drainStart_iff d c cs constraints rebootArgs _ _ hen, ?_⟩
  intro hnd hb hdc hdt hrd
  have hops : rebootOps d c constraints rebootArgs (NewNodeFilter c cs) config.DrainRetryTimes
      config.DrainRetryInterval = ([], true) := by
    rw [rebootOps_enabled d c cs constraints rebootArgs _ _ hen,
      rebootCore_isEmpty d c cs constraints rebootArgs _ _ _ (Or.inr hb) hdc hdt hrd]
    have hany : anyBucket rebootArgs = true := by
      unfold anyBucket
      cases h : rebootArgs.NewlyDrained with
      | nil => exact absurd h hnd
      | cons a t => simp
    simp [hany]
  refine ⟨hops, ?_⟩
  intro hreach
  rw [DecideOps_at_reboot d c cs constraints resources rebootArgs config hreach]
  unfold stepReboot
  simp only [hops]
  cases d.EtcdIsGood (NewNodeFilter c cs) <;> simp [firstOutcome]

/-- Claim C9, amended, at a concrete input: one entry of the sample cluster is
newly drained, the worker 10.0.0.3 is unreachable and
`RebootMaximumUnreachable = 0`; every earlier step passes. -/
theorem rebootOps_drain_start_witness :
    ((∃ o ∈ (rebootOps quietDeps sampleCluster sampleConstraints drainReboot
          (NewNodeFilter sampleCluster (sampleStatus ["10.0.0.1", "10.0.0.2"]))
          sampleConfig.DrainRetryTimes sampleConfig.DrainRetryInterval).1,
          o.isDrainStart = true)
        ↔ (drainReboot.NewlyDrained ≠ []
            ∧ (unreachableCount sampleCluster (sampleStatus ["10.0.0.1", "10.0.0.2"])
                drainReboot.RQEntries : Int) ≤ sampleConstraints.RebootMaximumUnreachable))
      ∧ rebootOps quietDeps sampleCluster sampleConstraints drainReboot
          (NewNodeFilter sampleCluster (sampleStatus ["10.0.0.1", "10.0.0.2"]))
          sampleConfig.DrainRetryTimes sampleConfig.DrainRetryInterval = ([], true)
      ∧ DecideOps quietDeps sampleCluster (sampleStatus ["10.0.0.1", "10.0.0.2"])
          sampleConstraints [] drainReboot sampleConfig = .ok ([], .PhaseRebootNodes) :=
  have h := rebootOps_drain_start quietDeps sampleCluster (sampleStatus ["10.0.0.1", "10.0.0.2"])
    sampleConstraints [] drainReboot sampleConfig rfl
  have h2 := h.2 (by simp [drainReboot]) (by decide) rfl rfl rfl
  ⟨h.1, h2.1, h2.2 (by
    intro j hj
    rcases j with _ | _ | _ | _ | _ | _ | _ | _ | _ | _ | j
    all_goals first
      | rfl
      | omega)⟩

/-- Claim C10 as stated fails: `DecideOps` reaches the reboot step (every earlier
step passes), etcd is not good and `NewlyDrained` is non-empty, but the cluster
has no reboot command; the result is the empty list with phase Completed, not
RebootNodes. -/
theorem DecideOps_reboot_gate_counterexample :
    (∀ j, j < 10 →
        (cascade etcdNotGoodDeps clusterWithoutRebootCommand (sampleStatus allAddresses)
          sampleConstraints [] drainReboot sampleConfig)[j]? = some (.ok none))
      ∧ etcdNotGoodDeps.EtcdIsGood
          (NewNodeFilter clusterWithoutRebootCommand (sampleStatus allAddresses)) = false
      ∧ drainReboot.NewlyDrained ≠ []
      ∧ DecideOps etcdNotGoodDeps clusterWithoutRebootCommand (sampleStatus allAddresses)
          sampleConstraints [] drainReboot sampleConfig = .ok ([], .PhaseCompleted)
      ∧ DecideOps etcdNotGoodDeps clusterWithoutRebootCommand (sampleStatus allAddresses)
          sampleConstraints [] drainReboot sampleConfig ≠ .ok ([], .PhaseRebootNodes) := by
  have heval : DecideOps etcdNotGoodDeps clusterWithoutRebootCommand (sampleStatus allAddresses)
      sampleConstraints [] drainReboot sampleConfig = .ok ([], .PhaseCompleted) := rfl
  refine ⟨?_, rfl, by simp [drainReboot], heval, ?_⟩
  · intro j hj
    rcases j with _ | _ | _ | _ | _ | _ | _ | _ | _ | _ | j
    all_goals first
      | rfl
      | omega
  · rw [heval]
    simp

/-- Claim C10, amended.  Whenever `DecideOps` reaches the reboot step (every
earlier step passes) and `EtcdIsGood` is false, it returns no operator at all:
the result is the empty list, with phase RebootNodes if the reboot queue, the
reboot command and the boot-check command are non-empty and one of the four
buckets is non-empty, and with phase Completed otherwise. -/
theorem DecideOps_reboot_gate (d : Deps) (c : Cluster) (cs : ClusterStatus)
    (constraints : Constraints) (resources : List ResourceDefinition)
    (rebootArgs : DecideOpsRebootArgs) (config : Config)
    (hreach : ∀ j, j < 10 →
      (cascade d c cs constraints resources rebootArgs config)[j]? = some (.ok none))
    (hgood : d.EtcdIsGood (NewNodeFilter c cs) = false) :
    DecideOps d c cs constraints resources rebootArgs config
      = .ok ([], if rebootEnabled c rebootArgs && anyBucket rebootArgs
          then .PhaseRebootNodes else .PhaseCompleted) := by
  rw [DecideOps_at_reboot d c cs constraints resources rebootArgs config hreach]
  unfold stepReboot
  simp only [hgood, Bool.false_eq_true, if_false]
  cases hen : rebootEnabled c rebootArgs with
  | false =>
    rw [rebootOps_disabled d c cs constraints rebootArgs _ _ hen]
    simp [firstOutcome]
  | true =>
    rw [rebootOps_enabled d c cs constraints rebootArgs _ _ hen]
    cases hany : anyBucket rebootArgs <;> simp [firstOutcome]

/-- Claim C10, amended, at a concrete input: the sample cluster is converged,
etcd is not good and one entry is newly drained. -/
theorem DecideOps_reboot_gate_witness :
    DecideOps etcdNotGoodDeps sampleCluster (sampleStatus allAddresses) sampleConstraints []
        drainReboot sampleConfig
      = .ok ([], if rebootEnabled sampleCluster drainReboot && anyBucket drainReboot
          then .PhaseRebootNodes else .PhaseCompleted) :=
  DecideOps_reboot_gate etcdNotGoodDeps sampleCluster (sampleStatus allAddresses)
    sampleConstraints [] drainReboot sampleConfig
    (by
      intro j hj
      rcases j with _ | _ | _ | _ | _ | _ | _ | _ | _ | _ | j
      all_goals first
        | rfl
        | omega)
    rfl

/-! ## The reboot operator list -/

theorem rebootCore_ranks (d : Deps) (c : Cluster) (cs : ClusterStatus)
    (constraints : Constraints) (rebootArgs : DecideOpsRebootArgs) (nf : NodeFilter)
    (times interval : Int) :
    ((rebootCore d c cs constraints rebootArgs nf times interval).map
        Operator.rebootRank).Pairwise (fun a b => a < b)
      ∧ ∀ o ∈ rebootCore d c cs constraints rebootArgs nf times interval, o.rebootRank < 4 := by
  unfold rebootCore
  split_ifs <;> simp [Operator.rebootRank]

theorem mem_ite_singleton (cond : Prop) [Decidable cond] (a o : Operator) :
    o ∈ (if cond then [a] else []) ↔ cond ∧ o = a := by
  split
  · rename_i h
    simp [h]
  · rename_i h
    simp [h]

theorem rebootCore_mem (d : Deps) (c : Cluster) (cs : ClusterStatus)
    (constraints : Constraints) (rebootArgs : DecideOpsRebootArgs) (nf : NodeFilter)
    (times interval : Int) (o : Operator) :
    o ∈ rebootCore d c cs constraints rebootArgs nf times interval ↔
      (((!rebootArgs.NewlyDrained.isEmpty) = true ∧
          (unreachableCount c cs rebootArgs.RQEntries : Int)
            ≤ constraints.RebootMaximumUnreachable)
        ∧ o = Operator.RebootDrainStartOp (d.HealthyAPIServer nf) rebootArgs.NewlyDrained
            c.Reboot times interval)
      ∨ ((!rebootArgs.DrainCompleted.isEmpty) = true
        ∧ o = Operator.RebootRebootOp (d.HealthyAPIServer nf) rebootArgs.DrainCompleted c.Reboot)
      ∨ ((!rebootArgs.DrainTimedout.isEmpty) = true
        ∧ o = Operator.RebootDrainTimeoutOp rebootArgs.DrainTimedout)
      ∨ ((!rebootArgs.RebootDequeued.isEmpty) = true
        ∧ o = Operator.RebootDequeueOp rebootArgs.RebootDequeued) := by
  unfold rebootCore
  simp only [List.mem_append, mem_ite_singleton, or_assoc]

theorem not_isEmpty_iff {α : Type} (l : List α) : (!l.isEmpty) = true ↔ l ≠ [] := by
  cases l <;> simp

theorem rebootCore_mem_rank (d : Deps) (c : Cluster) (cs : ClusterStatus)
    (constraints : Constraints) (rebootArgs : DecideOpsRebootArgs) (nf : NodeFilter)
    (times interval : Int) :
    ((∃ o ∈ rebootCore d c cs constraints rebootArgs nf times interval, o.rebootRank = 1)
        ↔ rebootArgs.DrainCompleted ≠ [])
      ∧ ((∃ o ∈ rebootCore d c cs constraints rebootArgs nf times interval, o.rebootRank = 2)
        ↔ rebootArgs.DrainTimedout ≠ [])
      ∧ ((∃ o ∈ rebootCore d c cs constraints rebootArgs nf times interval, o.rebootRank = 3)
        ↔ rebootArgs.RebootDequeued ≠ []) := by
  refine ⟨⟨?_, ?_⟩, ⟨?_, ?_⟩, ⟨?_, ?_⟩⟩
  · rintro ⟨o, ho, hr⟩
    rcases (rebootCore_mem _ _ _ _ _ _ _ _ o).mp ho with ⟨_, rfl⟩ | ⟨h, rfl⟩ | ⟨_, rfl⟩ | ⟨_, rfl⟩
    · cases hr
    · exact (not_isEmpty_iff _).mp h
    · cases hr
    · cases hr
  · intro h
    exact ⟨_, (rebootCore_mem _ _ _ _ _ _ _ _ _).mpr
      (Or.inr (Or.inl ⟨(not_isEmpty_iff _).mpr h, rfl⟩)), rfl⟩
  · rintro ⟨o, ho, hr⟩
    rcases (rebootCore_mem _ _ _ _ _ _ _ _ o).mp ho with ⟨_, rfl⟩ | ⟨_, rfl⟩ | ⟨h, rfl⟩ | ⟨_, rfl⟩
    · cases hr
    · cases hr
    · exact (not_isEmpty_iff _).mp h
    · cases hr
  · intro h
    exact ⟨_, (rebootCore_mem _ _ _ _ _ _ _ _ _).mpr
      (Or.inr (Or.inr (Or.inl ⟨(not_isEmpty_iff _).mpr h, rfl⟩))), rfl⟩
  · rintro ⟨o, ho, hr⟩
    rcases (rebootCore_mem _ _ _ _ _ _ _ _ o).mp ho with ⟨_, rfl⟩ | ⟨_, rfl⟩ | ⟨_, rfl⟩ | ⟨h, rfl⟩
    · cases hr
    · cases hr
    · cases hr
    · exact (not_isEmpty_iff _).mp h
  · intro h
    exact ⟨_, (rebootCore_mem _ _ _ _ _ _ _ _ _).mpr
      (Or.inr (Or.inr (Or.inr ⟨(not_isEmpty_iff _).mpr h, rfl⟩))), rfl⟩

/-- Claim C11 as stated fails: the drain of one entry has completed, so
`DrainCompleted` is non-empty, but the cluster has no reboot command; `rebootOps`
returns the empty list, hence no reboot operator. -/
theorem rebootOps_shape_counterexample :
    completedReboot.DrainCompleted ≠ []
      ∧ (rebootOps quietDeps clusterWithoutRebootCommand sampleConstraints completedReboot
          (NewNodeFilter clusterWithoutRebootCommand (sampleStatus allAddresses))
          sampleConfig.DrainRetryTimes sampleConfig.DrainRetryInterval).1 = []
      ∧ ¬ ∃ o ∈ (rebootOps quietDeps clusterWithoutRebootCommand sampleConstraints
          completedReboot
          (NewNodeFilter clusterWithoutRebootCommand (sampleStatus allAddresses))
          sampleConfig.DrainRetryTimes sampleConfig.DrainRetryInterval).1,
          o.rebootRank = 1 := by
  have heval : (rebootOps quietDeps clusterWithoutRebootCommand sampleConstraints
      completedReboot (NewNodeFilter clusterWithoutRebootCommand (sampleStatus allAddresses))
      sampleConfig.DrainRetryTimes sampleConfig.DrainRetryInterval).1 = [] := rfl
  refine ⟨by simp [completedReboot], heval, ?_⟩
  rw [heval]
  simp

/-- Claim C11, amended.  The operator list returned by `rebootOps` is either
empty or ends with exactly one recalc-metrics operator that appears nowhere else;
before it come, each at most once and in this order, the drain-start, reboot,
drain-timeout and dequeue operators (the ranks 0 to 4 are strictly increasing
along the list).  When the reboot queue, the reboot command and the boot-check
command are non-empty, the reboot, drain-timeout and dequeue operators are
present exactly when `DrainCompleted`, `DrainTimedout` and `RebootDequeued`
respectively are non-empty; otherwise the list is empty. -/
theorem rebootOps_shape (d : Deps) (c : Cluster) (cs : ClusterStatus)
    (constraints : Constraints) (rebootArgs : DecideOpsRebootArgs) (times interval : Int) :
    ((rebootOps d c constraints rebootArgs (NewNodeFilter c cs) times interval).1 = []
        ∨ ∃ core, core ≠ []
            ∧ (rebootOps d c constraints rebootArgs (NewNodeFilter c cs) times interval).1
                = core ++ [Operator.RebootRecalcMetricsOp]
            ∧ ∀ o ∈ core, o.rebootRank < 4)
      ∧ ((rebootOps d c constraints rebootArgs (NewNodeFilter c cs) times interval).1.map
          Operator.rebootRank).Pairwise (fun a b => a < b)
      ∧ (rebootEnabled c rebootArgs = true →
          ((∃ o ∈ (rebootOps d c constraints rebootArgs (NewNodeFilter c cs) times interval).1,
              o.rebootRank = 1) ↔ rebootArgs.DrainCompleted ≠ [])
          ∧ ((∃ o ∈ (rebootOps d c constraints rebootArgs (NewNodeFilter c cs) times interval).1,
              o.rebootRank = 2) ↔ rebootArgs.DrainTimedout ≠ [])
          ∧ ((∃ o ∈ (rebootOps d c constraints rebootArgs (NewNodeFilter c cs) times interval).1,
              o.rebootRank = 3) ↔ rebootArgs.RebootDequeued ≠ []))
      ∧ (rebootEnabled c rebootArgs = false →
          (rebootOps d c constraints rebootArgs (NewNodeFilter c cs) times interval).1 = []) := by
  cases hen : rebootEnabled c rebootArgs with
  | false =>
    rw [rebootOps_disabled d c cs constraints rebootArgs times interval hen]
    simp
  | true =>
    rw [rebootOps_enabled d c cs constraints rebootArgs times interval hen]
    simp only []
    obtain ⟨hpair, hlt⟩ :=
      rebootCore_ranks d c cs constraints rebootArgs (NewNodeFilter c cs) times interval
    obtain ⟨m1, m2, m3⟩ :=
      rebootCore_mem_rank d c cs constraints rebootArgs (NewNodeFilter c cs) times interval
    cases hcore : (rebootCore d c cs constraints rebootArgs (NewNodeFilter c cs) times
        interval) with
    | nil =>
      rw [hcore] at m1 m2 m3
      have hnil : (if ([] : List Operator).isEmpty = true then ([] : List Operator)
          else [] ++ [Operator.RebootRecalcMetricsOp]) = [] := rfl
      rw [hnil]
      exact ⟨Or.inl rfl, by simp, fun _ => ⟨m1, m2, m3⟩, fun h => by cases h⟩
    | cons o rest =>
      rw [hcore] at hpair hlt m1 m2 m3
      simp only [List.isEmpty_cons, Bool.false_eq_true, if_false]
      have hmem : ∀ (k : Nat), k < 4 →
          ((∃ x ∈ o :: rest ++ [Operator.RebootRecalcMetricsOp], x.rebootRank = k)
            ↔ ∃ x ∈ o :: rest, x.rebootRank = k) := by
        intro k hk
        constructor
        · rintro ⟨x, hx, hr⟩
          rcases List.mem_append.mp hx with h | h
          · exact ⟨x, h, hr⟩
          · rw [List.mem_singleton.mp h] at hr
            simp only [Operator.rebootRank] at hr
            omega
        · rintro ⟨x, hx, hr⟩
          exact ⟨x, List.mem_append_left _ hx, hr⟩
      refine ⟨Or.inr ⟨o :: rest, by simp, rfl, hlt⟩, ?_, ?_, ?_⟩
      · rw [List.map_append, List.pairwise_append]
        refine ⟨hpair, by simp, ?_⟩
        intro a ha b hb
        obtain ⟨x, hx, rfl⟩ := List.mem_map.mp ha
        simp only [List.map_cons, List.map_nil, List.mem_singleton] at hb
        rw [hb]
        exact hlt x hx
      · intro _
        exact ⟨(hmem 1 (by omega)).trans m1, (hmem 2 (by omega)).trans m2,
          (hmem 3 (by omega)).trans m3⟩
      · intro h
        cases h

/-- Claim C11, amended, at a concrete input: reboot enabled on the sample cluster
and one completed drain; the list is the reboot operator followed by the
recalc-metrics operator. -/
theorem rebootOps_shape_witness :
    (rebootOps quietDeps sampleCluster sampleConstraints completedReboot
        (NewNodeFilter sampleCluster (sampleStatus allAddresses)) 3 5).1
        = [Operator.RebootRebootOp none completedReboot.DrainCompleted sampleCluster.Reboot,
           Operator.RebootRecalcMetricsOp]
      ∧ ((∃ o ∈ (rebootOps quietDeps sampleCluster sampleConstraints completedReboot
            (NewNodeFilter sampleCluster (sampleStatus allAddresses)) 3 5).1,
            o.rebootRank = 1) ↔ completedReboot.DrainCompleted ≠ [])
      ∧ ((∃ o ∈ (rebootOps quietDeps sampleCluster sampleConstraints completedReboot
            (NewNodeFilter sampleCluster (sampleStatus allAddresses)) 3 5).1,
            o.rebootRank = 2) ↔ completedReboot.DrainTimedout ≠ [])
      ∧ ((∃ o ∈ (rebootOps quietDeps sampleCluster sampleConstraints completedReboot
            (NewNodeFilter sampleCluster (sampleStatus allAddresses)) 3 5).1,
            o.rebootRank = 3) ↔ completedReboot.RebootDequeued ≠ []) :=
  ⟨rfl, (rebootOps_shape quietDeps sampleCluster (sampleStatus allAddresses) sampleConstraints
    completedReboot 3 5).2.2.1 rfl⟩

/-- Claim C12.  If the reboot queue is empty, or the reboot command of the
cluster is empty, or its boot-check command is empty, `rebootOps` returns no
operators and reports that the reboot phase is not active, whatever the four
buckets contain; `DecideOps`, having reached this step (every earlier step
passes), then returns the empty list with phase Completed. -/
theorem rebootOps_preconditions (d : Deps) (c : Cluster) (cs : ClusterStatus)
    (constraints : Constraints) (resources : List ResourceDefinition)
    (rebootArgs : DecideOpsRebootArgs) (config : Config)
    (h : rebootArgs.RQEntries = [] ∨ c.Reboot.RebootCommand = []
      ∨ c.Reboot.BootCheckCommand = []) :
    rebootOps d c constraints rebootArgs (NewNodeFilter c cs) config.DrainRetryTimes
        config.DrainRetryInterval = ([], false)
      ∧ ((∀ j, j < 10 →
            (cascade d c cs constraints resources rebootArgs config)[j]? = some (.ok none)) →
          DecideOps d c cs constraints resources rebootArgs config
            = .ok ([], .PhaseCompleted)) := by
  have hen : rebootEnabled c rebootArgs = false := by
    unfold rebootEnabled
    rcases h with h | h | h <;> simp [h]
  have hops := rebootOps_disabled d c cs constraints rebootArgs config.DrainRetryTimes
    config.DrainRetryInterval hen
  refine ⟨hops, ?_⟩
  intro hreach
  rw [DecideOps_at_reboot d c cs constraints resources rebootArgs config hreach]
  unfold stepReboot
  simp [hops, firstOutcome]

/-- Claim C12 at a concrete input: the sample cluster without a reboot command,
converged, with one newly drained entry in the queue. -/
theorem rebootOps_preconditions_witness :
    rebootOps quietDeps clusterWithoutRebootCommand sampleConstraints drainReboot
        (NewNodeFilter clusterWithoutRebootCommand (sampleStatus allAddresses))
        sampleConfig.DrainRetryTimes sampleConfig.DrainRetryInterval = ([], false)
      ∧ DecideOps quietDeps clusterWithoutRebootCommand (sampleStatus allAddresses)
          sampleConstraints [] drainReboot sampleConfig = .ok ([], .PhaseCompleted) :=
  have h := rebootOps_preconditions quietDeps clusterWithoutRebootCommand
    (sampleStatus allAddresses) sampleConstraints [] drainReboot sampleConfig
    (Or.inr (Or.inl rfl))
  ⟨h.1, h.2 (by
    intro j hj
    rcases j with _ | _ | _ | _ | _ | _ | _ | _ | _ | _ | j
    all_goals first
      | rfl
      | omega)⟩

/-! ## Static resources and the contribution of a user resource -/

theorem staticResourceOp_eq_find (d : Deps) (apiServer : Option Node)
    (ks : KubernetesClusterStatus) (isReady : Bool) (rs : List ResourceDefinition) :
    staticResourceOp d apiServer ks isReady rs
      = (rs.find? (staticNeedsApply d ks isReady)).map
          (fun res => Operator.ResourceApplyOp apiServer res (applyFlag ks res)) := by
  induction rs with
  | nil => rfl
  | cons res rest ih =>
    simp only [staticResourceOp, List.find?_cons]
    by_cases hskip : res.Kind = KindDeployment ∧ (!isReady) = true
    · have hn : staticNeedsApply d ks isReady res = false := by
        unfold staticNeedsApply
        simp [hskip.1, hskip.2]
      simp only [hskip, and_self, if_true, hn, ih]
    · simp only [hskip, if_false]
      have hk : (res.Kind == KindDeployment && !isReady) = false := by
        cases hb : (res.Kind == KindDeployment && !isReady) with
        | false => rfl
        | true =>
          exfalso
          apply hskip
          simp only [Bool.and_eq_true, beq_iff_eq] at hb
          exact hb
      unfold mapGetOk
      cases hl : ks.ResourceStatuses.lookup res.Key with
      | none =>
        have hn : staticNeedsApply d ks isReady res = true := by
          unfold staticNeedsApply
          simp [hk, hl]
        simp [hn, applyFlag, hl, default, instInhabitedResourceStatus]
      | some status =>
        cases hu : d.NeedUpdate res status with
        | true =>
          have hn : staticNeedsApply d ks isReady res = true := by
            unfold staticNeedsApply
            simp [hk, hl, hu]
          simp [hn, applyFlag, hl, hu]
        | false =>
          have hn : staticNeedsApply d ks isReady res = false := by
            unfold staticNeedsApply
            simp [hk, hl, hu]
          simp [hn, hu, ih]

/-- Claim C13.  If some static resource (not a Deployment skipped for readiness)
is missing from the observed resource statuses or needs an update, and `res` is
the first such resource in declared order, `decideResourceOps` returns exactly
one operator: the apply operator for `res`, whose server-side-apply flag is the
negation of `has_been_SSA` (`true` when `res` is missing); no later static
resource and no user resource contributes an operator. -/
theorem decideResourceOps_static_first (d : Deps) (apiServer : Option Node)
    (ks : KubernetesClusterStatus) (resources : List ResourceDefinition) (isReady : Bool)
    (res : ResourceDefinition)
    (h : d.staticResources.find? (staticNeedsApply d ks isReady) = some res) :
    decideResourceOps d apiServer ks resources isReady
        = [Operator.ResourceApplyOp apiServer res (applyFlag ks res)]
      ∧ (ks.ResourceStatuses.lookup res.Key = none → applyFlag ks res = true)
      ∧ (∀ status, ks.ResourceStatuses.lookup res.Key = some status →
          applyFlag ks res = !status.HasBeenSSA) := by
  refine ⟨?_, ?_, ?_⟩
  · unfold decideResourceOps
    rw [staticResourceOp_eq_find, h]
    rfl
  · intro hl
    simp [applyFlag, hl]
  · intro status hl
    simp [applyFlag, hl]

/-- Claim C13 at a concrete input: the first static resource is observed and up
to date, the second and third are missing, and user resources wait as well; only
the apply operator of the second static resource is returned. -/
theorem decideResourceOps_static_first_witness :
    decideResourceOps staticDeps none sampleResourceState sampleResources true
        = [Operator.ResourceApplyOp none
            (mkResource "ServiceAccount/kube-system/s" "ServiceAccount" 0) true]
      ∧ (sampleResourceState.ResourceStatuses.lookup "ServiceAccount/kube-system/s" = none →
          applyFlag sampleResourceState
            (mkResource "ServiceAccount/kube-system/s" "ServiceAccount" 0) = true)
      ∧ (∀ status,
          sampleResourceState.ResourceStatuses.lookup "ServiceAccount/kube-system/s"
            = some status →
          applyFlag sampleResourceState
            (mkResource "ServiceAccount/kube-system/s" "ServiceAccount" 0)
            = !status.HasBeenSSA) :=
  decideResourceOps_static_first staticDeps none sampleResourceState sampleResources true
    (mkResource "ServiceAccount/kube-system/s" "ServiceAccount" 0) rfl

theorem filterMap_cons_toList {α β : Type} (f : α → Option β) (a : α) (l : List α) :
    (a :: l).filterMap f = (f a).toList ++ l.filterMap f := by
  rw [List.filterMap_cons]
  cases f a <;> rfl

/-- The user-resource loop, whatever its loop variables: it goes through a
prefix `processed` of the resources, appends the contribution of each of them,
and stops at the first resource whose rank differs from the current one once
there are operators. -/
theorem userResourceLoop_processed (d : Deps) (apiServer : Option Node)
    (ks : KubernetesClusterStatus) (isReady : Bool) :
    ∀ (rs : List ResourceDefinition) (rank : Nat) (ops : List Operator),
      ∃ processed rest, rs = processed ++ rest
        ∧ userResourceLoop d apiServer ks isReady rs rank ops
            = ops ++ processed.filterMap (userResourceOp d apiServer ks isReady)
        ∧ (∀ p1 res p2, processed = p1 ++ res :: p2 →
            ¬ (res.Rank ≠ rankAfter isReady rank p1
                ∧ ops ++ p1.filterMap (userResourceOp d apiServer ks isReady) ≠ []))
        ∧ (∀ res rest1, rest = res :: rest1 →
            res.Rank ≠ rankAfter isReady rank processed
              ∧ ops ++ processed.filterMap (userResourceOp d apiServer ks isReady) ≠ []) := by
  intro rs
  induction rs with
  | nil =>
    intro rank ops
    refine ⟨[], [], rfl, by simp [userResourceLoop], ?_, ?_⟩
    · intro p1 res p2 h
      exact absurd h (by simp)
    · intro res rest1 h
      exact absurd h (by simp)
  | cons res tl ih =>
    intro rank ops
    by_cases hstop : res.Rank ≠ rank ∧ ops.length > 0
    · refine ⟨[], res :: tl, rfl, ?_, ?_, ?_⟩
      · rw [userResourceLoop, if_pos hstop]
        simp only [List.filterMap_nil, List.append_nil]
      · intro p1 r p2 h
        exact absurd h (by simp)
      · intro r rest1 h
        simp only [List.cons.injEq] at h
        obtain ⟨rfl, _⟩ := h
        refine ⟨hstop.1, ?_⟩
        simp only [List.filterMap_nil, List.append_nil]
        intro h0
        rw [h0] at hstop
        exact absurd hstop.2 (by simp)
    · -- the loop goes through `res`
      have hloop : userResourceLoop d apiServer ks isReady (res :: tl) rank ops
          = userResourceLoop d apiServer ks isReady tl
              (rankAfter isReady rank [res])
              (ops ++ (userResourceOp d apiServer ks isReady res).toList) := by
        rw [userResourceLoop, if_neg hstop]
        simp only [rankAfter, List.foldl_cons, List.foldl_nil]
        by_cases hskip : res.Kind = KindDeployment ∧ (!isReady) = true
        · have hskip2 : res.Kind = KindDeployment ∧ isReady = false :=
            ⟨hskip.1, by simpa using hskip.2⟩
          rw [userResourceOp_skip d apiServer ks isReady res hskip]
          rw [if_pos hskip, if_pos hskip2]
          simp only [Option.toList, List.append_nil]
        · have hskip2 : ¬ (res.Kind = KindDeployment ∧ isReady = false) := by
            intro h
            exact hskip ⟨h.1, by simp [h.2]⟩
          rw [if_neg hskip, if_neg hskip2]
          rw [userResourceStep_eq d apiServer ks isReady res ops hskip]
      obtain ⟨processed, rest, hsplit, hres, hpassed, hstopped⟩ :=
        ih (rankAfter isReady rank [res])
          (ops ++ (userResourceOp d apiServer ks isReady res).toList)
      have hrank : ∀ l, rankAfter isReady rank (res :: l)
          = rankAfter isReady (rankAfter isReady rank [res]) l := by
        intro l
        simp only [rankAfter, List.foldl_cons, List.foldl_nil]
      have hops : ∀ l, ops ++ (res :: l).filterMap (userResourceOp d apiServer ks isReady)
          = (ops ++ (userResourceOp d apiServer ks isReady res).toList)
              ++ l.filterMap (userResourceOp d apiServer ks isReady) := by
        intro l
        rw [filterMap_cons_toList, List.append_assoc]
      refine ⟨res :: processed, rest, by rw [hsplit]; rfl, ?_, ?_, ?_⟩
      · rw [hloop, hres, hops]
      · intro p1 r p2 h
        cases p1 with
        | nil =>
          simp only [List.nil_append, List.cons.injEq] at h
          obtain ⟨rfl, _⟩ := h
          simp only [rankAfter, List.foldl_nil, List.filterMap_nil, List.append_nil]
          intro hc
          apply hstop
          refine ⟨hc.1, ?_⟩
          cases ops with
          | nil => exact absurd rfl hc.2
          | cons a t => simp
        | cons a p1 =>
          simp only [List.cons_append, List.cons.injEq] at h
          obtain ⟨rfl, h⟩ := h
          rw [hrank, hops]
          exact hpassed p1 r p2 h
      · intro r rest1 h
        rw [hrank, hops]
        exact hstopped r rest1 h

/-- Claim C14.  With no static resource to apply, `decideResourceOps` goes
through a prefix `processed` of the user resources, the loop stopping only at a
resource whose rank differs from the current one once there are operators, and
what it returns is, in order, the contribution `userResourceOp` of each
processed resource.  The contribution is: nothing if the resource is a
Deployment and the cluster is not ready, even when it is missing; otherwise an
apply operator with flag `true` if it has no observed status; an apply operator
with flag `!has_been_SSA` if `NeedUpdate` holds; a no-op operator if it needs no
update but is not completed; and nothing if it needs no update and is
completed. -/
theorem userResource_contribution (d : Deps) (apiServer : Option Node)
    (ks : KubernetesClusterStatus) (isReady : Bool) (resources : List ResourceDefinition)
    (hstatic : staticResourceOp d apiServer ks isReady d.staticResources = none) :
    (∃ processed rest, resources = processed ++ rest
        ∧ decideResourceOps d apiServer ks resources isReady
            = processed.filterMap (userResourceOp d apiServer ks isReady)
        ∧ (∀ p1 res p2, processed = p1 ++ res :: p2 →
            ¬ (res.Rank ≠ rankAfter isReady ((resources.head?.map (fun r => r.Rank)).getD 0) p1
                ∧ p1.filterMap (userResourceOp d apiServer ks isReady) ≠ []))
        ∧ (∀ res rest1, rest = res :: rest1 →
            res.Rank ≠ rankAfter isReady ((resources.head?.map (fun r => r.Rank)).getD 0)
                processed
              ∧ decideResourceOps d apiServer ks resources isReady ≠ []))
      ∧ (∀ res : ResourceDefinition,
          (res.Kind = KindDeployment → isReady = false →
            userResourceOp d apiServer ks isReady res = none)
          ∧ (¬ (res.Kind = KindDeployment ∧ isReady = false) →
              (ks.ResourceStatuses.lookup res.Key = none →
                userResourceOp d apiServer ks isReady res
                  = some (Operator.ResourceApplyOp apiServer res true))
              ∧ (∀ status, ks.ResourceStatuses.lookup res.Key = some status →
                  (d.NeedUpdate res status = true →
                    userResourceOp d apiServer ks isReady res
                      = some (Operator.ResourceApplyOp apiServer res (!status.HasBeenSSA)))
                  ∧ (d.NeedUpdate res status = false → status.Completed = false →
                    userResourceOp d apiServer ks isReady res = some Operator.NopOp)
                  ∧ (d.NeedUpdate res status = false → status.Completed = true →
                    userResourceOp d apiServer ks isReady res = none)))) := by
  refine ⟨?_, ?_⟩
  · have hdec : decideResourceOps d apiServer ks resources isReady
        = userResourceLoop d apiServer ks isReady resources
            ((resources.head?.map (fun r => r.Rank)).getD 0) [] := by
      unfold decideResourceOps
      rw [hstatic]
      cases resources with
      | nil => simp [userResourceLoop]
      | cons res0 tl => simp
    obtain ⟨processed, rest, hsplit, hres, hpassed, hstopped⟩ :=
      userResourceLoop_processed d apiServer ks isReady resources
        ((resources.head?.map (fun r => r.Rank)).getD 0) []
    simp only [List.nil_append] at hres hpassed hstopped
    refine ⟨processed, rest, hsplit, by rw [hdec, hres], hpassed, ?_⟩
    intro res rest1 h
    rw [hdec, hres]
    exact hstopped res rest1 h
  · intro res
    refine ⟨?_, ?_⟩
    · intro hk hr
      unfold userResourceOp
      simp [hk, hr]
    · intro hskip
      refine ⟨?_, ?_⟩
      · intro hl
        unfold userResourceOp
        simp [hskip, hl]
      · intro status hl
        refine ⟨?_, ?_, ?_⟩
        · intro hu
          unfold userResourceOp
          simp [hskip, hl, hu]
        · intro hu hc
          unfold userResourceOp
          simp [hskip, hl, hu, hc]
        · intro hu hc
          unfold userResourceOp
          simp [hskip, hl, hu, hc]

/-- Claim C14 at a concrete input.  Five resources of rank 10 are processed: a
Deployment that is missing while the cluster is not ready (nothing), a completed
resource that needs no update (nothing), a resource that needs an update and has
been applied server-side (apply, flag `false`), a resource that needs no update
and is not completed (no-op) and a missing resource (apply, flag `true`); the
loop stops at the resource of rank 20. -/
theorem userResource_contribution_witness :
    staticResourceOp contributionDeps none contributionState false
        contributionDeps.staticResources = none
      ∧ decideResourceOps contributionDeps none contributionState contributionResources false
          = [Operator.ResourceApplyOp none (mkResource "ConfigMap/default/b" "ConfigMap" 10)
              false,
             Operator.NopOp,
             Operator.ResourceApplyOp none (mkResource "ConfigMap/default/e" "ConfigMap" 10)
              true]
      ∧ userResourceOp contributionDeps none contributionState false sampleDeployment = none
      ∧ ∃ processed rest, contributionResources = processed ++ rest
          ∧ decideResourceOps contributionDeps none contributionState contributionResources
              false
            = processed.filterMap (userResourceOp contributionDeps none contributionState false)
          ∧ (∀ p1 res p2, processed = p1 ++ res :: p2 →
              ¬ (res.Rank ≠ rankAfter false
                    ((contributionResources.head?.map (fun r => r.Rank)).getD 0) p1
                  ∧ p1.filterMap (userResourceOp contributionDeps none contributionState false)
                      ≠ []))
          ∧ (∀ res rest1, rest = res :: rest1 →
              res.Rank ≠ rankAfter false
                  ((contributionResources.head?.map (fun r => r.Rank)).getD 0) processed
                ∧ decideResourceOps contributionDeps none contributionState
                    contributionResources false ≠ []) :=
  have h := userResource_contribution contributionDeps none contributionState false
    contributionResources rfl
  ⟨rfl, rfl, ((h.2 sampleDeployment).1 rfl rfl), h.1⟩
/-! ## EndpointSlice equivalence -/

theorem mapGet_ipSet (xs : List String) (y : String) :
    mapGet (ipSet xs) y = true ↔ y ∈ xs := by
  unfold mapGet ipSet
  induction xs with
  | nil => simp [List.lookup, default]
  | cons x rest ih =>
    simp only [List.map_cons, List.lookup, List.mem_cons]
    by_cases h : y = x
    · subst h
      simp
    · have hb : (y == x) = false := by simpa using h
      simp only [hb, h, false_or]
      exact ih

theorem notAllIn_eq_false (xs ys : List String) :
    notAllIn (ipSet xs) ys = false ↔ ∀ y ∈ ys, y ∈ xs := by
  unfold notAllIn
  rw [Bool.eq_false_iff, Ne, List.any_eq_true]
  constructor
  · intro h y hy
    by_contra hn
    apply h
    refine ⟨y, hy, ?_⟩
    have : ¬ mapGet (ipSet xs) y = true := fun hm => hn ((mapGet_ipSet xs y).mp hm)
    simpa using this
  · rintro h ⟨y, hy, hm⟩
    have := (mapGet_ipSet xs y).mpr (h y hy)
    rw [this] at hm
    simp at hm

theorem labelsMismatch_eq_false (expect actual : StrMap String) :
    labelsMismatch expect actual = false ↔ labelsMatch expect actual := by
  unfold labelsMismatch labelsMatch
  rw [Bool.eq_false_iff, Ne, List.any_eq_true]
  constructor
  · intro h kv hkv
    by_contra hn
    exact h ⟨kv, hkv, by simpa using hn⟩
  · rintro h ⟨kv, hkv, hm⟩
    have := h kv hkv
    simp [this] at hm

theorem endpointsMismatch_false_iff (actual : List SliceEndpoint) :
    ∀ (expect : List SliceEndpoint), (∀ e ∈ expect, ∃ b, e.Ready = some b) →
      actual.length = expect.length →
      (endpointsMismatch actual expect = .ok false
          ↔ List.Forall₂ sliceEndpointMatches actual expect)
        ∧ (endpointsMismatch actual expect = .ok false
            ∨ endpointsMismatch actual expect = .ok true) := by
  induction actual with
  | nil =>
    intro expect _ hlen
    cases expect with
    | nil => simp [endpointsMismatch]
    | cons e rest => simp at hlen
  | cons a rest ih =>
    intro expect hready hlen
    cases expect with
    | nil => simp at hlen
    | cons e erest =>
      obtain ⟨b, hb⟩ := hready e (List.mem_cons_self _ _)
      obtain ⟨ih1, ih2⟩ := ih erest (fun e2 he2 => hready e2 (List.mem_cons_of_mem _ he2))
        (by simpa using hlen)
      simp only [endpointsMismatch, hb, List.forall₂_cons, sliceEndpointMatches]
      cases ha : a.Ready with
      | none => simp
      | some ab =>
        simp only [ne_eq, reduceCtorEq, not_false_eq_true, Option.some.injEq, true_and]
        by_cases h1 : ab = b
        · subst h1
          simp only [not_true_eq_false, if_false, true_and]
          by_cases h2 : a.Addresses.length = e.Addresses.length
          · simp only [h2, not_true_eq_false, if_false, true_and]
            cases h3 : notAllIn (ipSet e.Addresses) a.Addresses with
            | true =>
              have : ¬ ∀ x ∈ a.Addresses, x ∈ e.Addresses := by
                intro hall
                have := (notAllIn_eq_false e.Addresses a.Addresses).mpr hall
                rw [h3] at this
                cases this
              simp [this]
            | false =>
              have := (notAllIn_eq_false e.Addresses a.Addresses).mp h3
              simp only [Bool.false_eq_true, if_false]
              refine ⟨?_, ih2⟩
              rw [ih1]
              constructor
              · intro hf
                exact ⟨this, hf⟩
              · intro hf
                exact hf.2
          · simp [h2]
        · simp [h1]

theorem decideEpsOp_result (expect : EndpointSlice) (actual : EndpointSlice)
    (apiServer : Option Node) (r : Option Operator)
    (h : decideEpsOp expect (some actual) apiServer = .ok r) :
    r = none ∨ r = some (Operator.KubeEndpointSliceUpdateOp apiServer expect) := by
  unfold decideEpsOp at h
  simp only [] at h
  repeat' split at h
  all_goals first
    | (simp only [Except.ok.injEq] at h; subst h; simp)
    | (simp at h)

theorem decideEpsOp_none_iff (expect : EndpointSlice) (actual : EndpointSlice)
    (apiServer : Option Node) (name : String) (port : Int)
    (hready : ∀ e ∈ expect.Endpoints, ∃ b, e.Ready = some b)
    (hports : expect.Ports = [{ Name := some name, Port := some port }]) :
    decideEpsOp expect (some actual) apiServer = .ok none
      ↔ labelsMatch expect.Labels actual.Labels
        ∧ actual.AddressType = expect.AddressType
        ∧ List.Forall₂ sliceEndpointMatches actual.Endpoints expect.Endpoints
        ∧ actual.Ports = [{ Name := some name, Port := some port }] := by
  unfold decideEpsOp
  simp only [hports]
  by_cases hl : labelsMismatch expect.Labels actual.Labels = true
  · rw [if_pos hl]
    constructor
    · intro h; simp at h
    · rintro ⟨hm, _⟩
      rw [(labelsMismatch_eq_false _ _).mpr hm] at hl
      cases hl
  rw [if_neg hl]
  have hlm : labelsMatch expect.Labels actual.Labels :=
    (labelsMismatch_eq_false _ _).mp (by simpa using hl)
  by_cases ht : actual.AddressType = expect.AddressType
  swap
  · rw [if_pos ht]
    constructor
    · intro h; simp at h
    · rintro ⟨_, h, _⟩
      exact absurd h ht
  rw [if_neg (not_not.mpr ht)]
  by_cases hlen : actual.Endpoints.length = expect.Endpoints.length
  swap
  · rw [if_pos hlen]
    constructor
    · intro h; simp at h
    · rintro ⟨_, _, h, _⟩
      exact absurd h.length_eq hlen
  rw [if_neg (not_not.mpr hlen)]
  obtain ⟨hiff, hcases⟩ := endpointsMismatch_false_iff actual.Endpoints expect.Endpoints
    hready hlen
  rcases hcases with hm | hm
  swap
  · rw [hm]
    constructor
    · intro h; simp at h
    · rintro ⟨_, _, h, _⟩
      rw [hiff.mpr h] at hm
      cases hm
  rw [hm]
  have hf := hiff.mp hm
  simp only []
  cases hp : actual.Ports with
  | nil => simp
  | cons p rest =>
    cases rest with
    | cons p2 rest2 => simp
    | nil =>
      obtain ⟨pn, pp⟩ := p
      cases pn with
      | none => simp
      | some n =>
        simp only []
        by_cases hn : n = name
        swap
        · simp [hn]
        subst hn
        simp only [ne_eq, not_true_eq_false, if_false]
        cases pp with
        | none => simp
        | some q =>
          simp only []
          by_cases hq : q = port
          · subst hq
            simp [hlm, ht, hf]
          · simp [hq]

theorem forall₂_matches_iff_equal (actual expect : List SliceEndpoint)
    (hready : ∀ e ∈ expect, ∃ b, e.Ready = some b)
    (hone : ∀ e ∈ expect, e.Addresses.length = 1) :
    List.Forall₂ sliceEndpointMatches actual expect
      ↔ List.Forall₂ sliceEndpointEqual actual expect := by
  induction actual generalizing expect with
  | nil =>
    cases expect with
    | nil => simp
    | cons e rest => simp
  | cons a rest ih =>
    cases expect with
    | nil => simp
    | cons e erest =>
      simp only [List.forall₂_cons]
      rw [ih erest (fun e2 he2 => hready e2 (List.mem_cons_of_mem _ he2))
        (fun e2 he2 => hone e2 (List.mem_cons_of_mem _ he2))]
      obtain ⟨b, hb⟩ := hready e (List.mem_cons_self _ _)
      have h1 := hone e (List.mem_cons_self _ _)
      have hhead : sliceEndpointMatches a e ↔ sliceEndpointEqual a e := by
        unfold sliceEndpointMatches sliceEndpointEqual
        constructor
        · rintro ⟨_, hr, hlen, hall⟩
          refine ⟨hr, ?_⟩
          rw [h1] at hlen
          obtain ⟨x, hx⟩ := List.length_eq_one.mp hlen
          obtain ⟨y, hy⟩ := List.length_eq_one.mp h1
          rw [hx, hy] at hall ⊢
          have := hall x (by simp)
          simp only [List.mem_singleton] at this
          rw [this]
        · rintro ⟨hr, haddr⟩
          refine ⟨?_, hr, by rw [haddr], ?_⟩
          · rw [hr, hb]; simp
          · intro x hx
            rw [haddr] at hx
            exact hx
      rw [hhead]

theorem forall₂_matches_iff_same (actual expect : List SliceEndpoint)
    (hready : ∀ e ∈ expect, ∃ b, e.Ready = some b)
    (hnodup : ∀ a ∈ actual, a.Addresses.Nodup) :
    List.Forall₂ sliceEndpointMatches actual expect
      ↔ List.Forall₂ sliceEndpointSame actual expect := by
  induction actual generalizing expect with
  | nil =>
    cases expect with
    | nil => simp
    | cons e rest => simp
  | cons a rest ih =>
    cases expect with
    | nil => simp
    | cons e erest =>
      simp only [List.forall₂_cons]
      rw [ih erest (fun e2 he2 => hready e2 (List.mem_cons_of_mem _ he2))
        (fun a2 ha2 => hnodup a2 (List.mem_cons_of_mem _ ha2))]
      obtain ⟨b, hb⟩ := hready e (List.mem_cons_self _ _)
      have hnd := hnodup a (List.mem_cons_self _ _)
      have hhead : sliceEndpointMatches a e ↔ sliceEndpointSame a e := by
        unfold sliceEndpointMatches sliceEndpointSame
        constructor
        · rintro ⟨_, hr, hlen, hall⟩
          refine ⟨hr, ?_⟩
          exact (hnd.subperm hall).perm_of_length_le (by omega)
        · rintro ⟨hr, hperm⟩
          refine ⟨?_, hr, hperm.length_eq, ?_⟩
          · rw [hr, hb]; simp
          · intro x hx
            exact hperm.subset hx
      rw [hhead]

/-- Claim C15 as stated fails: the expected endpoint has the addresses 10.0.0.1,
10.0.0.2 and the observed endpoint has 10.0.0.2, 10.0.0.1; labels, address type,
`Ready` and the port agree, the observed address list is not equal to the
expected one, and `decideEpsOp` returns no operator. -/
theorem decideEpsOp_equivalence_counterexample :
    decideEpsOp expectedTwoAddressSlice (some observedSwappedSlice) none = .ok none
      ∧ (∀ e ∈ expectedTwoAddressSlice.Endpoints, ∃ b, e.Ready = some b)
      ∧ expectedTwoAddressSlice.Ports.length = 1
      ∧ observedSwappedSlice.Endpoints.length = expectedTwoAddressSlice.Endpoints.length
      ∧ ¬ List.Forall₂ (fun a e => a.Addresses = e.Addresses)
          observedSwappedSlice.Endpoints expectedTwoAddressSlice.Endpoints := by
  refine ⟨rfl, ?_, rfl, rfl, ?_⟩
  · intro e he
    simp only [expectedTwoAddressSlice, List.mem_singleton] at he
    subst he
    exact ⟨true, rfl⟩
  · simp [observedSwappedSlice, expectedTwoAddressSlice]

/-- Claim C15, amended.  For every expected EndpointSlice with non-nil `Ready`
pointers and one port with a name and a number, and every non-nil observed
EndpointSlice whose endpoints list no address twice, `decideEpsOp` returns no
operator if and only if every expected label reads the same in the observed
labels, the address types are equal, the two endpoint lists have the same length
and, at each index, the observed `Ready` pointer is non-nil with the same boolean
and the observed address list equals the expected one up to order, and the
observed slice has exactly one port whose name and number are non-nil and equal
to the expected ones; it returns the update operator otherwise.  When every
expected endpoint has a single address, as in the expectation built by
`decideEpEpsOps`, the same holds for every observed EndpointSlice with "the
observed address list equals the expected address list". -/
theorem decideEpsOp_equivalence (expect : EndpointSlice) (actual : EndpointSlice)
    (apiServer : Option Node) (name : String) (port : Int)
    (hready : ∀ e ∈ expect.Endpoints, ∃ b, e.Ready = some b)
    (hports : expect.Ports = [{ Name := some name, Port := some port }]) :
    ((∀ a ∈ actual.Endpoints, a.Addresses.Nodup) →
        (decideEpsOp expect (some actual) apiServer = .ok none
          ↔ labelsMatch expect.Labels actual.Labels
            ∧ actual.AddressType = expect.AddressType
            ∧ List.Forall₂ sliceEndpointSame actual.Endpoints expect.Endpoints
            ∧ actual.Ports = [{ Name := some name, Port := some port }]))
      ∧ ((∀ e ∈ expect.Endpoints, e.Addresses.length = 1) →
          (decideEpsOp expect (some actual) apiServer = .ok none
            ↔ labelsMatch expect.Labels actual.Labels
              ∧ actual.AddressType = expect.AddressType
              ∧ List.Forall₂ sliceEndpointEqual actual.Endpoints expect.Endpoints
              ∧ actual.Ports = [{ Name := some name, Port := some port }]))
      ∧ (decideEpsOp expect (some actual) apiServer = .ok none
          ∨ decideEpsOp expect (some actual) apiServer
              = .ok (some (Operator.KubeEndpointSliceUpdateOp apiServer expect))) := by
  have hiff := decideEpsOp_none_iff expect actual apiServer name port hready hports
  refine ⟨?_, ?_, ?_⟩
  · intro hnodup
    rw [hiff, forall₂_matches_iff_same _ _ hready hnodup]
  · intro hone
    rw [hiff, forall₂_matches_iff_equal _ _ hready hone]
  · obtain ⟨r, hr⟩ := decideEpsOp_ok expect (some actual) apiServer name port hready hports
    rcases decideEpsOp_result expect actual apiServer r hr with h | h
    · left; rw [hr, h]
    · right; rw [hr, h]

/-- Claim C15, amended, at a concrete input: the two-address expectation against
the observed slice with the addresses in the other order, and the expectation
built for the `kubernetes` endpoints of the sample cluster against itself. -/
theorem decideEpsOp_equivalence_witness :
    (decideEpsOp expectedTwoAddressSlice (some observedSwappedSlice) none = .ok none
        ↔ labelsMatch expectedTwoAddressSlice.Labels observedSwappedSlice.Labels
          ∧ observedSwappedSlice.AddressType = expectedTwoAddressSlice.AddressType
          ∧ List.Forall₂ sliceEndpointSame observedSwappedSlice.Endpoints
              expectedTwoAddressSlice.Endpoints
          ∧ observedSwappedSlice.Ports = [{ Name := some "https", Port := some 6443 }])
      ∧ (decideEpsOp (expectedEndpointSlice sampleParams)
            (some (expectedEndpointSlice sampleParams)) none = .ok none
          ↔ labelsMatch (expectedEndpointSlice sampleParams).Labels
              (expectedEndpointSlice sampleParams).Labels
            ∧ (expectedEndpointSlice sampleParams).AddressType
                = (expectedEndpointSlice sampleParams).AddressType
            ∧ List.Forall₂ sliceEndpointEqual (expectedEndpointSlice sampleParams).Endpoints
                (expectedEndpointSlice sampleParams).Endpoints
            ∧ (expectedEndpointSlice sampleParams).Ports
                = [{ Name := some "https", Port := some 6443 }]) :=
  ⟨(decideEpsOp_equivalence expectedTwoAddressSlice observedSwappedSlice none "https" 6443
      (by
        intro e he
        simp only [expectedTwoAddressSlice, List.mem_singleton] at he
        subst he
        exact ⟨true, rfl⟩) rfl).1
      (by
        intro a ha
        simp only [observedSwappedSlice, List.mem_singleton] at ha
        subst ha
        decide),
    (decideEpsOp_equivalence (expectedEndpointSlice sampleParams)
      (expectedEndpointSlice sampleParams) none "https" 6443
      (by
        intro e he
        simp only [expectedEndpointSlice, sampleParams, List.map_cons, List.map_nil,
          List.append_nil, List.mem_singleton] at he
        subst he
        exact ⟨true, rfl⟩) rfl).2.1
      (by
        intro e he
        simp only [expectedEndpointSlice, sampleParams, List.map_cons, List.map_nil,
          List.append_nil, List.mem_singleton] at he
        subst he
        rfl)⟩

/-! ## Endpoints: label mismatch, create and update -/

theorem decideEpOp_result (expect : Endpoints) (actual : Endpoints)
    (apiServer : Option Node) (r : Option Operator)
    (h : decideEpOp expect (some actual) apiServer = .ok r) :
    r = none ∨ r = some (Operator.KubeEndpointsUpdateOp apiServer expect) := by
  unfold decideEpOp at h
  simp only [] at h
  repeat' split at h
  all_goals first
    | (simp only [Except.ok.injEq] at h; subst h; simp)
    | (simp at h)

theorem decideEpOp_labels (expect : Endpoints) (actual : Endpoints)
    (apiServer : Option Node)
    (h : labelsMismatch expect.Labels actual.Labels = true) :
    decideEpOp expect (some actual) apiServer
      = .ok (some (Operator.KubeEndpointsUpdateOp apiServer expect)) := by
  unfold decideEpOp
  simp only []
  split
  · rw [if_pos h]
  · rfl

theorem decideEtcdServiceOps_result (apiServer : Option Node) (svc : Service) :
    decideEtcdServiceOps apiServer (some svc) = none
      ∨ decideEtcdServiceOps apiServer (some svc)
          = some (Operator.KubeEtcdServiceUpdateOp apiServer) := by
  unfold decideEtcdServiceOps
  simp only []
  repeat' split
  all_goals simp

/-- Claim C16.  For every non-nil observed Endpoints object in which some
expected label reads differently (it is missing or has a different value),
`decideEpOp` returns the update operator, whatever the subsets, ports and
addresses are.  In particular, for the expectation that `decideEpEpsOps` builds,
whose label is `endpointslice.kubernetes.io/skip-mirror` with value `true`: when
the observed object lacks that label or has another value for it, `decideEpOp`
returns the update operator and it is the first operator of `decideEpEpsOps`. -/
theorem decideEpOp_label_mismatch (apiServer : Option Node) (actual : Endpoints) :
    (∀ (expect : Endpoints), (∃ kv ∈ expect.Labels, mapGet actual.Labels kv.1 ≠ kv.2) →
        decideEpOp expect (some actual) apiServer
          = .ok (some (Operator.KubeEndpointsUpdateOp apiServer expect)))
      ∧ (∀ (p : endpointParams) (actualEPS : Option EndpointSlice),
          actual.Labels.lookup "endpointslice.kubernetes.io/skip-mirror" ≠ some "true" →
          decideEpOp (expectedEndpoints p) (some actual) apiServer
              = .ok (some (Operator.KubeEndpointsUpdateOp apiServer (expectedEndpoints p)))
            ∧ ∃ rest, decideEpEpsOps p (some actual) actualEPS apiServer
                = .ok (Operator.KubeEndpointsUpdateOp apiServer (expectedEndpoints p) :: rest)) := by
  have hgen : ∀ (expect : Endpoints), (∃ kv ∈ expect.Labels, mapGet actual.Labels kv.1 ≠ kv.2) →
      decideEpOp expect (some actual) apiServer
        = .ok (some (Operator.KubeEndpointsUpdateOp apiServer expect)) := by
    intro expect ⟨kv, hkv, hne⟩
    apply decideEpOp_labels
    unfold labelsMismatch
    rw [List.any_eq_true]
    exact ⟨kv, hkv, by simpa using hne⟩
  refine ⟨hgen, ?_⟩
  intro p actualEPS hlabel
  have h1 : decideEpOp (expectedEndpoints p) (some actual) apiServer
      = .ok (some (Operator.KubeEndpointsUpdateOp apiServer (expectedEndpoints p))) := by
    apply hgen
    refine ⟨("endpointslice.kubernetes.io/skip-mirror", "true"), by simp [expectedEndpoints], ?_⟩
    unfold mapGet
    cases hl : actual.Labels.lookup "endpointslice.kubernetes.io/skip-mirror" with
    | none => simp [default]
    | some v =>
      simp only [Option.getD_some, ne_eq]
      intro hv
      apply hlabel
      rw [hl, hv]
  refine ⟨h1, ?_⟩
  obtain ⟨r2, h2⟩ := decideEpsOp_ok (expectedEndpointSlice p) actualEPS apiServer p.portName
    p.port (by
      intro e he
      simp only [expectedEndpointSlice, List.mem_append, List.mem_map] at he
      rcases he with ⟨ip, _, rfl⟩ | ⟨ip, _, rfl⟩
      · exact ⟨true, rfl⟩
      · exact ⟨false, rfl⟩) rfl
  unfold decideEpEpsOps
  simp only []
  unfold expectedEndpoints at h1
  unfold expectedEndpointSlice at h2
  rw [h1, ok_bind, h2, ok_bind]
  cases r2 with
  | none => exact ⟨[], rfl⟩
  | some o => exact ⟨[o], rfl⟩

/-- Claim C16 at a concrete input: the observed `kubernetes` Endpoints has the
expected port and addresses and no label. -/
theorem decideEpOp_label_mismatch_witness :
    observedWithoutLabel.Subsets = (expectedEndpoints sampleParams).Subsets
      ∧ decideEpOp (expectedEndpoints sampleParams) (some observedWithoutLabel) none
          = .ok (some (Operator.KubeEndpointsUpdateOp none (expectedEndpoints sampleParams)))
      ∧ ∃ rest, decideEpEpsOps sampleParams (some observedWithoutLabel)
            (some (expectedEndpointSlice sampleParams)) none
          = .ok (Operator.KubeEndpointsUpdateOp none (expectedEndpoints sampleParams) :: rest) :=
  ⟨rfl, (decideEpOp_label_mismatch none observedWithoutLabel).2 sampleParams
    (some (expectedEndpointSlice sampleParams)) (by decide)⟩

/-- Claim C17.  Each of `decideEpOp`, `decideEpsOp` and `decideEtcdServiceOps`
returns the create operator if and only if the observed object is nil; for a
non-nil observed object whatever it returns is no operator or the update
operator, never the create operator.  The two endpoint functions do return for
the expectations that `decideEpEpsOps` builds, and `decideEtcdServiceOps` always
returns. -/
theorem create_iff_observed_nil (apiServer : Option Node) (expectEP : Endpoints)
    (actualEP : Option Endpoints) (expectEPS : EndpointSlice)
    (actualEPS : Option EndpointSlice) (svc : Option Service) :
    (decideEpOp expectEP actualEP apiServer
          = .ok (some (Operator.KubeEndpointsCreateOp apiServer expectEP))
        ↔ actualEP = none)
      ∧ (∀ a r, decideEpOp expectEP (some a) apiServer = .ok r →
          r = none ∨ r = some (Operator.KubeEndpointsUpdateOp apiServer expectEP))
      ∧ (decideEpsOp expectEPS actualEPS apiServer
            = .ok (some (Operator.KubeEndpointSliceCreateOp apiServer expectEPS))
          ↔ actualEPS = none)
      ∧ (∀ a r, decideEpsOp expectEPS (some a) apiServer = .ok r →
          r = none ∨ r = some (Operator.KubeEndpointSliceUpdateOp apiServer expectEPS))
      ∧ (decideEtcdServiceOps apiServer svc = some (Operator.KubeEtcdServiceCreateOp apiServer)
          ↔ svc = none)
      ∧ (∀ s, decideEtcdServiceOps apiServer (some s) = none
          ∨ decideEtcdServiceOps apiServer (some s)
              = some (Operator.KubeEtcdServiceUpdateOp apiServer))
      ∧ (∀ (p : endpointParams),
          (∃ r, decideEpOp (expectedEndpoints p) actualEP apiServer = .ok r)
            ∧ ∃ r, decideEpsOp (expectedEndpointSlice p) actualEPS apiServer = .ok r) := by
  refine ⟨?_, ?_, ?_, ?_, ?_, ?_, ?_⟩
  · constructor
    · intro h
      cases actualEP with
      | none => rfl
      | some a =>
        rcases decideEpOp_result expectEP a apiServer _ h with h1 | h1
        · cases h1
        · simp at h1
    · intro h
      subst h
      rfl
  · intro a r h
    exact decideEpOp_result expectEP a apiServer r h
  · constructor
    · intro h
      cases actualEPS with
      | none => rfl
      | some a =>
        rcases decideEpsOp_result expectEPS a apiServer _ h with h1 | h1
        · cases h1
        · simp at h1
    · intro h
      subst h
      rfl
  · intro a r h
    exact decideEpsOp_result expectEPS a apiServer r h
  · constructor
    · intro h
      cases svc with
      | none => rfl
      | some s =>
        rcases decideEtcdServiceOps_result apiServer s with h1 | h1
        · rw [h1] at h
          cases h
        · rw [h1] at h
          simp at h
    · intro h
      subst h
      rfl
  · intro s
    exact decideEtcdServiceOps_result apiServer s
  · intro p
    constructor
    · exact decideEpOp_ok (expectedEndpoints p) actualEP apiServer _ _ _ _ rfl rfl
    · exact decideEpsOp_ok (expectedEndpointSlice p) actualEPS apiServer p.portName p.port
        (by
          intro e he
          simp only [expectedEndpointSlice, List.mem_append, List.mem_map] at he
          rcases he with ⟨ip, _, rfl⟩ | ⟨ip, _, rfl⟩
          · exact ⟨true, rfl⟩
          · exact ⟨false, rfl⟩) rfl

/-- Claim C17 at a concrete input: the expectations for the `kubernetes`
endpoints of the sample cluster with nothing observed, and an observed etcd
Service with a wrong port. -/
theorem create_iff_observed_nil_witness :
    decideEpOp (expectedEndpoints sampleParams) none none
        = .ok (some (Operator.KubeEndpointsCreateOp none (expectedEndpoints sampleParams)))
      ∧ decideEpsOp (expectedEndpointSlice sampleParams) none none
        = .ok (some (Operator.KubeEndpointSliceCreateOp none
            (expectedEndpointSlice sampleParams)))
      ∧ decideEtcdServiceOps none none = some (Operator.KubeEtcdServiceCreateOp none)
      ∧ decideEtcdServiceOps none
          (some { Ports := [{ Port := 2380 }], ServiceType := "ClusterIP", ClusterIP := "None" })
        = some (Operator.KubeEtcdServiceUpdateOp none) :=
  have h := create_iff_observed_nil none (expectedEndpoints sampleParams) none
    (expectedEndpointSlice sampleParams) none none
  ⟨h.1.mpr rfl, h.2.2.1.mpr rfl, h.2.2.2.2.1.mpr rfl, rfl⟩

/-! ## Ready and not-ready addresses -/

theorem readyAddressesLoop_eq (rqEntries newlyDrained : List RebootQueueEntry)
    (nodes : List Node) :
    ∀ (ready notReady : List String),
      readyAddressesLoop rqEntries newlyDrained nodes (ready, notReady)
        = (ready ++ (nodes.filter
              (fun n => !rebootNotReady rqEntries newlyDrained n.Address)).map
              (fun n => n.Address),
           notReady ++ (nodes.filter
              (fun n => rebootNotReady rqEntries newlyDrained n.Address)).map
              (fun n => n.Address)) := by
  induction nodes with
  | nil => intro ready notReady; simp [readyAddressesLoop]
  | cons n rest ih =>
    intro ready notReady
    simp only [readyAddressesLoop]
    cases h : rebootNotReady rqEntries newlyDrained n.Address with
    | true =>
      simp only [if_true]
      rw [ih]
      simp [List.filter_cons, h]
    | false =>
      simp only [Bool.false_eq_true, if_false]
      rw [ih]
      simp [List.filter_cons, h]

theorem rebootNotReady_iff (rqEntries newlyDrained : List RebootQueueEntry)
    (address : String) :
    rebootNotReady rqEntries newlyDrained address = true
      ↔ drainExcluded rqEntries newlyDrained address := by
  unfold rebootNotReady drainExcluded
  simp only [Bool.or_eq_true, List.any_eq_true, Bool.and_eq_true, beq_iff_eq]

/-- With the control plane ready, `k8sMaintOps` is the concatenation of its parts,
the two endpoint parts being `decideEpEpsOps` on `masterEndpointParams` and on
`etcdEndpointParams`. -/
theorem k8sMaintOps_parts (d : Deps) (c : Cluster) (cs : ClusterStatus)
    (resources : List ResourceDefinition) (rqEntries newlyDrained : List RebootQueueEntry)
    (nf : NodeFilter) (hready : cs.Kubernetes.IsControlPlaneReady = true) :
    ∃ ops1 ops2,
      decideEpEpsOps (masterEndpointParams d rqEntries newlyDrained nf)
          cs.Kubernetes.MasterEndpoints cs.Kubernetes.MasterEndpointSlice
          (d.HealthyAPIServer nf) = .ok ops1
      ∧ decideEpEpsOps (etcdEndpointParams d rqEntries newlyDrained nf)
          cs.Kubernetes.EtcdEndpoints cs.Kubernetes.EtcdEndpointSlice
          (d.HealthyAPIServer nf) = .ok ops2
      ∧ k8sMaintOps d c cs resources rqEntries newlyDrained nf
        = .ok (decideResourceOps d (d.HealthyAPIServer nf) cs.Kubernetes resources
              (d.IsReady cs.Kubernetes c)
            ++ decideClusterDNSOps d (d.HealthyAPIServer nf) c cs.Kubernetes
            ++ decideNodeDNSOps d (d.HealthyAPIServer nf) c cs.Kubernetes
            ++ ops1
            ++ (decideEtcdServiceOps (d.HealthyAPIServer nf) cs.Kubernetes.EtcdService).toList
            ++ ops2
            ++ (if (d.OutdatedAttrsNodes nf).length > 0
                then [Operator.KubeNodeUpdateOp (d.HealthyAPIServer nf) (d.OutdatedAttrsNodes nf)]
                else [])
            ++ (if (d.NonClusterNodes nf).length > 0
                then [Operator.KubeNodeRemoveOp (d.HealthyAPIServer nf) (d.NonClusterNodes nf)]
                else [])) := by
  obtain ⟨ops1, h1⟩ := decideEpEpsOps_ok (masterEndpointParams d rqEntries newlyDrained nf)
    cs.Kubernetes.MasterEndpoints cs.Kubernetes.MasterEndpointSlice (d.HealthyAPIServer nf)
  obtain ⟨ops2, h2⟩ := decideEpEpsOps_ok (etcdEndpointParams d rqEntries newlyDrained nf)
    cs.Kubernetes.EtcdEndpoints cs.Kubernetes.EtcdEndpointSlice (d.HealthyAPIServer nf)
  refine ⟨ops1, ops2, h1, h2, ?_⟩
  unfold masterEndpointParams at h1
  unfold etcdEndpointParams at h2
  unfold k8sMaintOps
  simp only [hready, Bool.not_true, Bool.false_eq_true, if_false]
  rw [h1, ok_bind, h2, ok_bind]
  cases decideEtcdServiceOps (d.HealthyAPIServer nf) cs.Kubernetes.EtcdService <;>
    split_ifs <;> simp [pure, Except.pure]

/-- Claim C18.  In `k8sMaintOps` (control plane ready) the endpoint operators are
decided from two parameter sets whose ready and not-ready address lists partition
the source nodes.  For the `kubernetes` endpoints the ready addresses are those
of the healthy API-server nodes that are not drain-excluded, in node order, and
the not-ready addresses are those of the drain-excluded healthy API-server nodes,
in node order, followed by the addresses of all unhealthy API-server nodes.  For
the etcd endpoints the same holds with the control-plane nodes and no further
node.  A node is drain-excluded exactly when some reboot-queue entry for its
address has status draining or rebooting or its address occurs in `NewlyDrained`.
Each source node thus occurs in exactly one of the two lists. -/
theorem k8sMaintOps_address_partition (d : Deps) (c : Cluster) (cs : ClusterStatus)
    (resources : List ResourceDefinition) (rqEntries newlyDrained : List RebootQueueEntry)
    (nf : NodeFilter) :
    (cs.Kubernetes.IsControlPlaneReady = true →
        ∃ ops1 ops2,
          decideEpEpsOps (masterEndpointParams d rqEntries newlyDrained nf)
              cs.Kubernetes.MasterEndpoints cs.Kubernetes.MasterEndpointSlice
              (d.HealthyAPIServer nf) = .ok ops1
          ∧ decideEpEpsOps (etcdEndpointParams d rqEntries newlyDrained nf)
              cs.Kubernetes.EtcdEndpoints cs.Kubernetes.EtcdEndpointSlice
              (d.HealthyAPIServer nf) = .ok ops2
          ∧ k8sMaintOps d c cs resources rqEntries newlyDrained nf
            = .ok (decideResourceOps d (d.HealthyAPIServer nf) cs.Kubernetes resources
                  (d.IsReady cs.Kubernetes c)
                ++ decideClusterDNSOps d (d.HealthyAPIServer nf) c cs.Kubernetes
                ++ decideNodeDNSOps d (d.HealthyAPIServer nf) c cs.Kubernetes
                ++ ops1
                ++ (decideEtcdServiceOps (d.HealthyAPIServer nf)
                      cs.Kubernetes.EtcdService).toList
                ++ ops2
                ++ (if (d.OutdatedAttrsNodes nf).length > 0
                    then [Operator.KubeNodeUpdateOp (d.HealthyAPIServer nf)
                      (d.OutdatedAttrsNodes nf)]
                    else [])
                ++ (if (d.NonClusterNodes nf).length > 0
                    then [Operator.KubeNodeRemoveOp (d.HealthyAPIServer nf)
                      (d.NonClusterNodes nf)]
                    else [])))
      ∧ (masterEndpointParams d rqEntries newlyDrained nf).readyIPs
          = ((d.HealthyAPIServerNodes nf).filter
              (fun n => !rebootNotReady rqEntries newlyDrained n.Address)).map
              (fun n => n.Address)
      ∧ (masterEndpointParams d rqEntries newlyDrained nf).notReadyIPs
          = ((d.HealthyAPIServerNodes nf).filter
              (fun n => rebootNotReady rqEntries newlyDrained n.Address)).map
              (fun n => n.Address)
            ++ (d.UnhealthyAPIServerNodes nf).map (fun n => n.Address)
      ∧ (etcdEndpointParams d rqEntries newlyDrained nf).readyIPs
          = (nf.ControlPlane.filter
              (fun n => !rebootNotReady rqEntries newlyDrained n.Address)).map
              (fun n => n.Address)
      ∧ (etcdEndpointParams d rqEntries newlyDrained nf).notReadyIPs
          = (nf.ControlPlane.filter
              (fun n => rebootNotReady rqEntries newlyDrained n.Address)).map
              (fun n => n.Address)
      ∧ (∀ address, rebootNotReady rqEntries newlyDrained address = true
          ↔ drainExcluded rqEntries newlyDrained address)
      ∧ ((etcdEndpointParams d rqEntries newlyDrained nf).notReadyIPs
            ++ (etcdEndpointParams d rqEntries newlyDrained nf).readyIPs).Perm
          (nf.ControlPlane.map (fun n => n.Address))
      ∧ ((masterEndpointParams d rqEntries newlyDrained nf).readyIPs
            ++ (masterEndpointParams d rqEntries newlyDrained nf).notReadyIPs).Perm
          ((d.HealthyAPIServerNodes nf).map (fun n => n.Address)
            ++ (d.UnhealthyAPIServerNodes nf).map (fun n => n.Address)) := by
  have hm := readyAddressesLoop_eq rqEntries newlyDrained (d.HealthyAPIServerNodes nf) [] []
  have he := readyAddressesLoop_eq rqEntries newlyDrained nf.ControlPlane [] []
  have hperm : ∀ (nodes : List Node),
      ((nodes.filter (fun n => rebootNotReady rqEntries newlyDrained n.Address)).map
          (fun n => n.Address)
        ++ (nodes.filter (fun n => !rebootNotReady rqEntries newlyDrained n.Address)).map
          (fun n => n.Address)).Perm (nodes.map (fun n => n.Address)) := by
    intro nodes
    rw [← List.map_append]
    exact (List.filter_append_perm _ nodes).map _
  refine ⟨k8sMaintOps_parts d c cs resources rqEntries newlyDrained nf, ?_, ?_, ?_, ?_,
    rebootNotReady_iff rqEntries newlyDrained, ?_, ?_⟩
  · simp only [masterEndpointParams, hm, List.nil_append]
  · simp only [masterEndpointParams, hm, List.nil_append]
  · simp only [etcdEndpointParams, he, List.nil_append]
  · simp only [etcdEndpointParams, he, List.nil_append]
  · simp only [etcdEndpointParams, he, List.nil_append]
    exact hperm _
  · simp only [masterEndpointParams, hm, List.nil_append]
    rw [← List.append_assoc]
    exact (List.perm_append_comm.trans (hperm _)).append_right _

/-- Claim C18 at a concrete input: the three nodes of the sample cluster run
healthy API servers, 10.0.0.4 an unhealthy one, and 10.0.0.2 is newly drained. -/
theorem k8sMaintOps_address_partition_witness :
    (masterEndpointParams apiServerDeps drainReboot.RQEntries drainReboot.NewlyDrained
        (NewNodeFilter sampleCluster (sampleStatus allAddresses))).readyIPs
        = ["10.0.0.1", "10.0.0.3"]
      ∧ (masterEndpointParams apiServerDeps drainReboot.RQEntries drainReboot.NewlyDrained
          (NewNodeFilter sampleCluster (sampleStatus allAddresses))).notReadyIPs
        = ["10.0.0.2", "10.0.0.4"]
      ∧ ∃ ops1 ops2,
          decideEpEpsOps (masterEndpointParams apiServerDeps drainReboot.RQEntries
              drainReboot.NewlyDrained (NewNodeFilter sampleCluster (sampleStatus allAddresses)))
              (sampleStatus allAddresses).Kubernetes.MasterEndpoints
              (sampleStatus allAddresses).Kubernetes.MasterEndpointSlice
              (apiServerDeps.HealthyAPIServer
                (NewNodeFilter sampleCluster (sampleStatus allAddresses))) = .ok ops1
          ∧ decideEpEpsOps (etcdEndpointParams apiServerDeps drainReboot.RQEntries
              drainReboot.NewlyDrained (NewNodeFilter sampleCluster (sampleStatus allAddresses)))
              (sampleStatus allAddresses).Kubernetes.EtcdEndpoints
              (sampleStatus allAddresses).Kubernetes.EtcdEndpointSlice
              (apiServerDeps.HealthyAPIServer
                (NewNodeFilter sampleCluster (sampleStatus allAddresses))) = .ok ops2
          ∧ k8sMaintOps apiServerDeps sampleCluster (sampleStatus allAddresses) []
              drainReboot.RQEntries drainReboot.NewlyDrained
              (NewNodeFilter sampleCluster (sampleStatus allAddresses))
            = .ok (decideResourceOps apiServerDeps
                  (apiServerDeps.HealthyAPIServer
                    (NewNodeFilter sampleCluster (sampleStatus allAddresses)))
                  (sampleStatus allAddresses).Kubernetes []
                  (apiServerDeps.IsReady (sampleStatus allAddresses).Kubernetes sampleCluster)
                ++ decideClusterDNSOps apiServerDeps
                  (apiServerDeps.HealthyAPIServer
                    (NewNodeFilter sampleCluster (sampleStatus allAddresses)))
                  sampleCluster (sampleStatus allAddresses).Kubernetes
                ++ decideNodeDNSOps apiServerDeps
                  (apiServerDeps.HealthyAPIServer
                    (NewNodeFilter sampleCluster (sampleStatus allAddresses)))
                  sampleCluster (sampleStatus allAddresses).Kubernetes
                ++ ops1
                ++ (decideEtcdServiceOps
                      (apiServerDeps.HealthyAPIServer
                        (NewNodeFilter sampleCluster (sampleStatus allAddresses)))
                      (sampleStatus allAddresses).Kubernetes.EtcdService).toList
                ++ ops2
                ++ (if (apiServerDeps.OutdatedAttrsNodes
                      (NewNodeFilter sampleCluster (sampleStatus allAddresses))).length > 0
                    then [Operator.KubeNodeUpdateOp
                      (apiServerDeps.HealthyAPIServer
                        (NewNodeFilter sampleCluster (sampleStatus allAddresses)))
                      (apiServerDeps.OutdatedAttrsNodes
                        (NewNodeFilter sampleCluster (sampleStatus allAddresses)))]
                    else [])
                ++ (if (apiServerDeps.NonClusterNodes
                      (NewNodeFilter sampleCluster (sampleStatus allAddresses))).length > 0
                    then [Operator.KubeNodeRemoveOp
                      (apiServerDeps.HealthyAPIServer
                        (NewNodeFilter sampleCluster (sampleStatus allAddresses)))
                      (apiServerDeps.NonClusterNodes
                        (NewNodeFilter sampleCluster (sampleStatus allAddresses)))]
                    else [])) :=
  ⟨rfl, rfl,
    (k8sMaintOps_address_partition apiServerDeps sampleCluster (sampleStatus allAddresses) []
      drainReboot.RQEntries drainReboot.NewlyDrained
      (NewNodeFilter sampleCluster (sampleStatus allAddresses))).1 rfl⟩

/-! ## Cluster DNS and node DNS -/

theorem decideClusterDNSOps_eq (d : Deps) (apiServer : Option Node) (c : Cluster)
    (ks : KubernetesClusterStatus) :
    decideClusterDNSOps d apiServer c ks
      = match ks.ClusterDNS.ConfigMap with
        | none => [Operator.clusterdns_CreateConfigMapOp apiServer (expectedClusterDomain d c)
            (expectedDNSServers c ks)]
        | some configMap =>
          if mapGet configMap.Data "Corefile"
              ≠ mapGet (d.clusterdnsConfigMap (expectedClusterDomain d c)
                  (expectedDNSServers c ks)).Data "Corefile"
          then [Operator.clusterdns_UpdateConfigMapOp apiServer
            (d.clusterdnsConfigMap (expectedClusterDomain d c) (expectedDNSServers c ks))]
          else [] := by
  unfold decideClusterDNSOps expectedDNSServers expectedClusterDomain
  cases ks.DNSService with
  | none => rfl
  | some svc =>
    simp only []
    by_cases h1 : svc.ClusterIP = ""
    · cases ks.ClusterDNS.ConfigMap <;> simp [h1]
    · by_cases h2 : svc.ClusterIP = "None"
      · cases ks.ClusterDNS.ConfigMap <;> simp [h2]
      · cases ks.ClusterDNS.ConfigMap <;> simp [h1, h2]

theorem string_length_zero (s : String) : s.length = 0 ↔ s = "" := by
  constructor
  · intro h
    have : s.data = [] := List.length_eq_zero.mp h
    exact String.ext this
  · intro h
    rw [h]
    rfl

theorem decideNodeDNSOps_eq (d : Deps) (apiServer : Option Node) (c : Cluster)
    (ks : KubernetesClusterStatus) :
    decideNodeDNSOps d apiServer c ks
      = if ks.ClusterDNS.ClusterIP = "" then []
        else match ks.NodeDNS.ConfigMap with
          | none => [Operator.nodedns_CreateConfigMapOp apiServer ks.ClusterDNS.ClusterIP
              (expectedClusterDomain d c) (expectedDNSServers c ks)]
          | some configMap =>
            if mapGet configMap.Data "unbound.conf"
                ≠ mapGet (d.nodednsConfigMap ks.ClusterDNS.ClusterIP (expectedClusterDomain d c)
                    (expectedDNSServers c ks) true).Data "unbound.conf"
            then [Operator.nodedns_UpdateConfigMapOp apiServer
              (d.nodednsConfigMap ks.ClusterDNS.ClusterIP (expectedClusterDomain d c)
                (expectedDNSServers c ks) true)]
            else [] := by
  unfold decideNodeDNSOps expectedDNSServers expectedClusterDomain
  simp only [string_length_zero]
  by_cases hip : ks.ClusterDNS.ClusterIP = ""
  · rw [if_pos hip, if_pos hip]
  · rw [if_neg hip, if_neg hip]
    cases ks.DNSService with
    | none => rfl
    | some svc =>
      simp only []
      by_cases h1 : svc.ClusterIP = ""
      · cases ks.NodeDNS.ConfigMap <;> simp [h1]
      · by_cases h2 : svc.ClusterIP = "None"
        · cases ks.NodeDNS.ConfigMap <;> simp [h2]
        · cases ks.NodeDNS.ConfigMap <;> simp [h1, h2]

/-- Claim C19.  `decideClusterDNSOps` returns at most one operator: the create
operator when the cluster-dns ConfigMap is absent, the update operator when it
is present and its `Corefile` entry differs from the expected one, and nothing
when the `Corefile` is equal.  The expected upstream DNS servers are the single
cluster IP of the observed DNS service when that service exists and its cluster
IP is neither empty nor `None`, and `Cluster.DNSServers` otherwise. -/
theorem decideClusterDNSOps_cases (d : Deps) (apiServer : Option Node) (c : Cluster)
    (ks : KubernetesClusterStatus) :
    (decideClusterDNSOps d apiServer c ks).length ≤ 1
      ∧ (ks.ClusterDNS.ConfigMap = none →
          decideClusterDNSOps d apiServer c ks
            = [Operator.clusterdns_CreateConfigMapOp apiServer (expectedClusterDomain d c)
                (expectedDNSServers c ks)])
      ∧ (∀ configMap, ks.ClusterDNS.ConfigMap = some configMap →
          (mapGet configMap.Data "Corefile"
              ≠ mapGet (d.clusterdnsConfigMap (expectedClusterDomain d c)
                  (expectedDNSServers c ks)).Data "Corefile" →
            decideClusterDNSOps d apiServer c ks
              = [Operator.clusterdns_UpdateConfigMapOp apiServer
                  (d.clusterdnsConfigMap (expectedClusterDomain d c) (expectedDNSServers c ks))])
          ∧ (mapGet configMap.Data "Corefile"
              = mapGet (d.clusterdnsConfigMap (expectedClusterDomain d c)
                  (expectedDNSServers c ks)).Data "Corefile" →
            decideClusterDNSOps d apiServer c ks = []))
      ∧ (∀ svc, ks.DNSService = some svc → svc.ClusterIP ≠ "" → svc.ClusterIP ≠ "None" →
          expectedDNSServers c ks = [svc.ClusterIP])
      ∧ (∀ svc, ks.DNSService = some svc → (svc.ClusterIP = "" ∨ svc.ClusterIP = "None") →
          expectedDNSServers c ks = c.DNSServers)
      ∧ (ks.DNSService = none → expectedDNSServers c ks = c.DNSServers) := by
  rw [decideClusterDNSOps_eq]
  refine ⟨?_, ?_, ?_, ?_, ?_, ?_⟩
  · cases ks.ClusterDNS.ConfigMap with
    | none => simp
    | some configMap =>
      simp only []
      split <;> simp
  · intro h
    rw [h]
  · intro configMap h
    rw [h]
    constructor
    · intro hne
      simp only [hne, ne_eq, not_false_eq_true, if_true]
    · intro heq
      simp only [heq, ne_eq, not_true_eq_false, if_false]
  · intro svc h h1 h2
    unfold expectedDNSServers
    rw [h]
    simp [h1, h2]
  · intro svc h h1
    unfold expectedDNSServers
    rw [h]
    rcases h1 with h1 | h1 <;> simp [h1]
  · intro h
    unfold expectedDNSServers
    rw [h]

/-- Claim C19 at a concrete input: the DNS service has the cluster IP 10.68.0.10
and the observed `Corefile` was generated for 8.8.8.8; the update operator is
returned, for the single upstream server 10.68.0.10. -/
theorem decideClusterDNSOps_cases_witness :
    expectedDNSServers sampleCluster (dnsState "10.68.0.53") = ["10.68.0.10"]
      ∧ decideClusterDNSOps dnsDeps none sampleCluster (dnsState "10.68.0.53")
        = [Operator.clusterdns_UpdateConfigMapOp none
            (dnsDeps.clusterdnsConfigMap (expectedClusterDomain dnsDeps sampleCluster)
              (expectedDNSServers sampleCluster (dnsState "10.68.0.53")))] :=
  have h := decideClusterDNSOps_cases dnsDeps none sampleCluster (dnsState "10.68.0.53")
  ⟨h.2.2.2.1 _ rfl (by decide) (by decide),
    (h.2.2.1 { Data := [("Corefile", "cluster.local 8.8.8.8")] } rfl).1 (by decide)⟩

/-- Claim C20.  `decideNodeDNSOps` returns no operator whenever the observed
cluster DNS cluster IP is empty, even if the node-dns ConfigMap is missing;
otherwise it returns the create operator when the ConfigMap is absent, the update
operator exactly when it is present and its `unbound.conf` entry differs from the
expected one, and nothing when it is equal. -/
theorem decideNodeDNSOps_cases (d : Deps) (apiServer : Option Node) (c : Cluster)
    (ks : KubernetesClusterStatus) :
    (ks.ClusterDNS.ClusterIP = "" → decideNodeDNSOps d apiServer c ks = [])
      ∧ (ks.ClusterDNS.ClusterIP ≠ "" →
          (ks.NodeDNS.ConfigMap = none →
            decideNodeDNSOps d apiServer c ks
              = [Operator.nodedns_CreateConfigMapOp apiServer ks.ClusterDNS.ClusterIP
                  (expectedClusterDomain d c) (expectedDNSServers c ks)])
          ∧ (∀ configMap, ks.NodeDNS.ConfigMap = some configMap →
              (mapGet configMap.Data "unbound.conf"
                  ≠ mapGet (d.nodednsConfigMap ks.ClusterDNS.ClusterIP
                      (expectedClusterDomain d c) (expectedDNSServers c ks) true).Data
                      "unbound.conf" →
                decideNodeDNSOps d apiServer c ks
                  = [Operator.nodedns_UpdateConfigMapOp apiServer
                      (d.nodednsConfigMap ks.ClusterDNS.ClusterIP (expectedClusterDomain d c)
                        (expectedDNSServers c ks) true)])
              ∧ (mapGet configMap.Data "unbound.conf"
                  = mapGet (d.nodednsConfigMap ks.ClusterDNS.ClusterIP
                      (expectedClusterDomain d c) (expectedDNSServers c ks) true).Data
                      "unbound.conf" →
                decideNodeDNSOps d apiServer c ks = []))) := by
  rw [decideNodeDNSOps_eq]
  refine ⟨?_, ?_⟩
  · intro h
    rw [if_pos h]
  · intro h
    rw [if_neg h]
    refine ⟨?_, ?_⟩
    · intro hn
      rw [hn]
    · intro configMap hc
      rw [hc]
      constructor
      · intro hne
        simp only [hne, ne_eq, not_false_eq_true, if_true]
      · intro heq
        simp only [heq, ne_eq, not_true_eq_false, if_false]

/-- Claim C20 at concrete inputs: the node-dns ConfigMap is missing; with an
empty cluster DNS cluster IP nothing is returned, with the cluster IP 10.68.0.53
the create operator is returned. -/
theorem decideNodeDNSOps_cases_witness :
    (dnsState "").NodeDNS.ConfigMap = none
      ∧ decideNodeDNSOps dnsDeps none sampleCluster (dnsState "") = []
      ∧ decideNodeDNSOps dnsDeps none sampleCluster (dnsState "10.68.0.53")
        = [Operator.nodedns_CreateConfigMapOp none "10.68.0.53"
            (expectedClusterDomain dnsDeps sampleCluster)
            (expectedDNSServers sampleCluster (dnsState "10.68.0.53"))] :=
  ⟨rfl, (decideNodeDNSOps_cases dnsDeps none sampleCluster (dnsState "")).1 rfl,
    ((decideNodeDNSOps_cases dnsDeps none sampleCluster (dnsState "10.68.0.53")).2
      (by decide)).1 rfl⟩


/-! ## Step 8: stopping control-plane containers on other nodes -/

/-- The list that the loop of `cleanOps` collects for a container is the target
list of step 8. -/
theorem cleanCandidates_filter (d : Deps) (c : Cluster) (nf : NodeFilter)
    (k : StoppedContainer) :
    (cleanCandidates c nf).filter (fun n =>
        k.running (nf.nodeStatus n) && (if k = .etcd then d.EtcdIsGood nf else true))
      = cleanTargets d c nf k := by
  unfold cleanCandidates cleanTargets NodeFilter.nodeStatus
  rw [List.filter_filter]
  apply List.filter_congr
  intro n _
  cases (mapGet nf.status.NodeStatuses n.Address).SSHConnected <;>
    cases n.ControlPlane <;> simp

/-- The function `cleanOps` written over the five containers: the stop
operators of the containers with a non-empty target list, in order. -/
theorem cleanOps_eq (d : Deps) (c : Cluster) (nf : NodeFilter) :
    cleanOps d c nf
      = (StoppedContainer.all.filter (fun k => !(cleanTargets d c nf k).isEmpty)).map
          (fun k => k.stopOp (cleanTargets d c nf k)) := by
  have h1 := cleanCandidates_filter d c nf .apiserver
  have h2 := cleanCandidates_filter d c nf .controllerManager
  have h3 := cleanCandidates_filter d c nf .scheduler
  have h4 := cleanCandidates_filter d c nf .etcd
  have h5 := cleanCandidates_filter d c nf .etcdRivers
  simp only [StoppedContainer.running, Bool.and_true, if_true, reduceCtorEq, if_false] at h1 h2 h3 h4 h5
  unfold cleanOps
  simp only [h1, h2, h3, h4, h5, StoppedContainer.all]
  cases e1 : cleanTargets d c nf .apiserver <;>
    cases e2 : cleanTargets d c nf .controllerManager <;>
    cases e3 : cleanTargets d c nf .scheduler <;>
    cases e4 : cleanTargets d c nf .etcd <;>
    cases e5 : cleanTargets d c nf .etcdRivers <;>
    simp [List.filter, e1, e2, e3, e4, e5, StoppedContainer.stopOp]

/-- Claim C21.  Every operator returned by `cleanOps` is the stop operator of one
of the five containers with its target list, which is not empty; every target
is a cluster node that is SSH-connected, is not declared control plane and runs
that container.  The etcd stop operator is returned only when `EtcdIsGood`
holds.  The returned list consists of the stop operators whose target list is
non-empty, in the order apiserver, controller-manager, scheduler, etcd,
etcd-rivers. -/
theorem cleanOps_stop_targets (d : Deps) (c : Cluster) (nf : NodeFilter) :
    (∀ o ∈ cleanOps d c nf, ∃ k : StoppedContainer,
        o = k.stopOp (cleanTargets d c nf k)
          ∧ cleanTargets d c nf k ≠ []
          ∧ ∀ n ∈ cleanTargets d c nf k,
              n ∈ c.Nodes ∧ (mapGet nf.status.NodeStatuses n.Address).SSHConnected = true
                ∧ n.ControlPlane = false ∧ k.running (nf.nodeStatus n) = true)
      ∧ (∀ nodes, Operator.EtcdStopOp nodes ∈ cleanOps d c nf → d.EtcdIsGood nf = true)
      ∧ cleanOps d c nf
          = ([StoppedContainer.apiserver, .controllerManager, .scheduler, .etcd,
                .etcdRivers].filter (fun k => !(cleanTargets d c nf k).isEmpty)).map
              (fun k => k.stopOp (cleanTargets d c nf k)) := by
  have hmem : ∀ o ∈ cleanOps d c nf, ∃ k : StoppedContainer,
      o = k.stopOp (cleanTargets d c nf k) ∧ cleanTargets d c nf k ≠ [] := by
    intro o ho
    rw [cleanOps_eq, List.mem_map] at ho
    obtain ⟨k, hk, rfl⟩ := ho
    refine ⟨k, rfl, ?_⟩
    have := (List.mem_filter.mp hk).2
    intro hnil
    rw [hnil] at this
    simp at this
  have htarget : ∀ (k : StoppedContainer), ∀ n ∈ cleanTargets d c nf k,
      n ∈ c.Nodes ∧ ((mapGet nf.status.NodeStatuses n.Address).SSHConnected = true
        ∧ n.ControlPlane = false ∧ k.running (nf.nodeStatus n) = true)
        ∧ (k = .etcd → d.EtcdIsGood nf = true) := by
    intro k n hn
    unfold cleanTargets at hn
    obtain ⟨hin, hp⟩ := List.mem_filter.mp hn
    simp only [Bool.and_eq_true, Bool.not_eq_true', NodeFilter.nodeStatus] at hp
    refine ⟨hin, ⟨hp.1.1.1, hp.1.1.2, hp.1.2⟩, ?_⟩
    intro hk
    simpa [hk] using hp.2
  refine ⟨?_, ?_, cleanOps_eq d c nf⟩
  · intro o ho
    obtain ⟨k, hk, hne⟩ := hmem o ho
    refine ⟨k, hk, hne, ?_⟩
    intro n hn
    exact ⟨(htarget k n hn).1, (htarget k n hn).2.1⟩
  · intro nodes ho
    obtain ⟨k, hk, hne⟩ := hmem _ ho
    have hketcd : k = .etcd := by
      cases k <;> first | rfl | simp [StoppedContainer.stopOp] at hk
    obtain ⟨n, hn⟩ := List.exists_mem_of_ne_nil _ hne
    exact (htarget k n hn).2.2 hketcd

/-- Claim C21 at a concrete input: the worker 10.0.0.2 still runs the API server
and etcd, so `cleanOps` stops the API server and then etcd there. -/
theorem cleanOps_stop_targets_witness :
    cleanOps quietDeps sampleCluster (NewNodeFilter sampleCluster formerControlPlaneStatus)
        = [Operator.APIServerStopOp [mkNode "10.0.0.2" false],
           Operator.EtcdStopOp [mkNode "10.0.0.2" false]]
      ∧ quietDeps.EtcdIsGood (NewNodeFilter sampleCluster formerControlPlaneStatus) = true :=
  ⟨rfl, (cleanOps_stop_targets quietDeps sampleCluster
      (NewNodeFilter sampleCluster formerControlPlaneStatus)).2.1 [mkNode "10.0.0.2" false]
      (by
        have h : cleanOps quietDeps sampleCluster
            (NewNodeFilter sampleCluster formerControlPlaneStatus)
            = [Operator.APIServerStopOp [mkNode "10.0.0.2" false],
               Operator.EtcdStopOp [mkNode "10.0.0.2" false]] := rfl
        rw [h]
        simp)⟩

/-! ## Step 9: uncordon -/

/-- A node is not being drained or rebooted exactly when no reboot-queue entry
of the node has status draining or rebooting. -/
theorem rebootProcessing_eq_false_iff (rqEntries : List RebootQueueEntry) (node : String) :
    rebootProcessing rqEntries node = false
      ↔ ∀ entry ∈ rqEntries, entry.Node = node →
          entry.Status ≠ RebootStatus.Draining ∧ entry.Status ≠ RebootStatus.Rebooting := by
  unfold rebootProcessing
  rw [List.any_eq_false]
  constructor
  · intro h entry he hnode
    have := h entry he
    simp only [Bool.and_eq_true, Bool.or_eq_true, beq_iff_eq, not_and] at this
    constructor
    · intro hs; exact this (Or.inl hs) hnode.symm
    · intro hs; exact this (Or.inr hs) hnode.symm
  · intro h entry he
    simp only [Bool.and_eq_true, Bool.or_eq_true, beq_iff_eq, not_and]
    intro hs hnode
    have := h entry he hnode.symm
    rcases hs with hs | hs
    · exact this.1 hs
    · exact this.2 hs

/-- The node list that `rebootUncordonOp` collects. -/
theorem uncordonNames_eq (d : Deps) (rqEntries : List RebootQueueEntry) (nf : NodeFilter) :
    ((d.CordonedNodes nf).filter (fun n => !rebootProcessing rqEntries n.Name)).map
        (fun n => n.Name)
      = uncordonNames d rqEntries nf := by
  unfold uncordonNames
  congr 1
  apply List.filter_congr
  intro n _
  cases h : rebootProcessing rqEntries n.Name
  · simp only [Bool.not_false]
    exact (decide_eq_true ((rebootProcessing_eq_false_iff rqEntries n.Name).mp h)).symm
  · simp only [Bool.not_true]
    symm
    apply decide_eq_false
    intro hall
    rw [(rebootProcessing_eq_false_iff rqEntries n.Name).mpr hall] at h
    cases h

/-- The function `rebootUncordonOp` by its result: nothing when no cordoned node
is left to uncordon, else the operator for the names of those nodes. -/
theorem rebootUncordonOp_eq (d : Deps) (rqEntries : List RebootQueueEntry) (nf : NodeFilter) :
    rebootUncordonOp d rqEntries nf
      = if (uncordonNames d rqEntries nf).isEmpty then none
        else some (Operator.RebootUncordonOp (d.HealthyAPIServer nf)
          (uncordonNames d rqEntries nf)) := by
  unfold rebootUncordonOp
  simp only [uncordonNames_eq]
  by_cases h0 : (d.CordonedNodes nf).length = 0
  · have hnil : d.CordonedNodes nf = [] := List.length_eq_zero.mp h0
    simp [h0, uncordonNames, hnil]
  · rw [if_neg h0]
    cases h : uncordonNames d rqEntries nf <;> simp

/-- Claim C22.  `rebootUncordonOp` returns an operator if and only if at least
one cordoned node has no reboot-queue entry in status draining or rebooting; the
node list of the operator is exactly the names of the cordoned nodes without
such an entry, in order, so no node in it is being drained or rebooted. -/
theorem rebootUncordonOp_unprocessed (d : Deps) (rqEntries : List RebootQueueEntry)
    (nf : NodeFilter) :
    ((∃ o, rebootUncordonOp d rqEntries nf = some o)
        ↔ ∃ n ∈ d.CordonedNodes nf, ∀ entry ∈ rqEntries, entry.Node = n.Name →
            entry.Status ≠ RebootStatus.Draining ∧ entry.Status ≠ RebootStatus.Rebooting)
      ∧ (∀ o, rebootUncordonOp d rqEntries nf = some o →
          o = Operator.RebootUncordonOp (d.HealthyAPIServer nf)
                (((d.CordonedNodes nf).filter (fun n =>
                    decide (∀ entry ∈ rqEntries, entry.Node = n.Name →
                      entry.Status ≠ RebootStatus.Draining
                        ∧ entry.Status ≠ RebootStatus.Rebooting))).map (fun n => n.Name)))
      ∧ (∀ api nodes, rebootUncordonOp d rqEntries nf
            = some (Operator.RebootUncordonOp api nodes) →
          ∀ name ∈ nodes, ∀ entry ∈ rqEntries, entry.Node = name →
            entry.Status ≠ RebootStatus.Draining ∧ entry.Status ≠ RebootStatus.Rebooting) := by
  have hmem : ∀ name, name ∈ uncordonNames d rqEntries nf ↔
      ∃ n ∈ d.CordonedNodes nf, (∀ entry ∈ rqEntries, entry.Node = n.Name →
        entry.Status ≠ RebootStatus.Draining ∧ entry.Status ≠ RebootStatus.Rebooting)
        ∧ n.Name = name := by
    intro name
    unfold uncordonNames
    simp only [List.mem_map, List.mem_filter, decide_eq_true_eq]
    constructor
    · rintro ⟨n, ⟨h1, h2⟩, h3⟩; exact ⟨n, h1, h2, h3⟩
    · rintro ⟨n, h1, h2, h3⟩; exact ⟨n, ⟨h1, h2⟩, h3⟩
  rw [rebootUncordonOp_eq]
  refine ⟨?_, ?_, ?_⟩
  · constructor
    · rintro ⟨o, ho⟩
      cases hn : uncordonNames d rqEntries nf with
      | nil => simp [hn] at ho
      | cons name rest =>
        have : name ∈ uncordonNames d rqEntries nf := by rw [hn]; simp
        obtain ⟨n, h1, h2, _⟩ := (hmem name).mp this
        exact ⟨n, h1, h2⟩
    · rintro ⟨n, h1, h2⟩
      have : n.Name ∈ uncordonNames d rqEntries nf := (hmem n.Name).mpr ⟨n, h1, h2, rfl⟩
      cases hn : uncordonNames d rqEntries nf with
      | nil => rw [hn] at this; cases this
      | cons name rest => exact ⟨_, rfl⟩
  · intro o ho
    cases hn : uncordonNames d rqEntries nf with
    | nil => simp [hn] at ho
    | cons name rest =>
      simp only [hn, List.isEmpty_cons, Bool.false_eq_true, if_false, Option.some.injEq] at ho
      rw [← ho, ← hn]
      rfl
  · intro api nodes ho name hname
    cases hn : uncordonNames d rqEntries nf with
    | nil => simp [hn] at ho
    | cons name0 rest =>
      simp only [hn, List.isEmpty_cons, Bool.false_eq_true, if_false, Option.some.injEq,
        Operator.RebootUncordonOp.injEq] at ho
      rw [← ho.2, ← hn] at hname
      obtain ⟨n, _, h2, h3⟩ := (hmem name).mp hname
      rw [← h3]
      exact h2

/-- Claim C22 at a concrete input: both workers are cordoned and 10.0.0.2 is
being drained, so only 10.0.0.3 is uncordoned. -/
theorem rebootUncordonOp_unprocessed_witness :
    rebootUncordonOp cordonedDeps completedReboot.RQEntries
        (NewNodeFilter sampleCluster (sampleStatus allAddresses))
      = some (Operator.RebootUncordonOp none ["10.0.0.3"])
      ∧ ∀ entry ∈ completedReboot.RQEntries, entry.Node = "10.0.0.3" →
          entry.Status ≠ RebootStatus.Draining ∧ entry.Status ≠ RebootStatus.Rebooting :=
  ⟨rfl, (rebootUncordonOp_unprocessed cordonedDeps completedReboot.RQEntries
      (NewNodeFilter sampleCluster (sampleStatus allAddresses))).2.2 none ["10.0.0.3"] rfl
      "10.0.0.3" (by simp)⟩

/-! ## Phases and empty operator lists -/

/-- A property of every outcome that a step can emit, and of the converged
outcome, holds of what the scan returns. -/
theorem firstOutcome_invariant (P : Outcome → Prop) (steps : List StepResult)
    (hsteps : ∀ s ∈ steps, ∀ r, s = .ok (some r) → P r)
    (hdone : P ([], .PhaseCompleted)) (r : Outcome)
    (h : firstOutcome steps = .ok r) : P r := by
  induction steps with
  | nil =>
    simp only [firstOutcome, Except.ok.injEq] at h
    rw [← h]; exact hdone
  | cons s rest ih =>
    cases s with
    | error e => simp [firstOutcome] at h
    | ok v =>
      cases v with
      | some r0 =>
        simp only [firstOutcome, Except.ok.injEq] at h
        rw [← h]
        exact hsteps _ (List.mem_cons_self _ _) r0 rfl
      | none =>
        simp only [firstOutcome] at h
        exact ih (fun s hs => hsteps s (List.mem_cons_of_mem _ hs)) h

/-- A step that emits a non-empty list under a phase other than `Completed`
respects the relation. -/
theorem stepOfOps_phaseAgrees (ops : Except Fault (List Operator)) (phase : OperationPhase)
    (hphase : phase ≠ .PhaseCompleted) (r : Outcome)
    (h : stepOfOps ops phase = .ok (some r)) : phaseAgrees r := by
  unfold stepOfOps at h
  split at h
  · cases h
  · cases h
  · simp only [Except.ok.injEq, Option.some.injEq] at h
    rw [← h]
    exact ⟨fun hp => absurd hp hphase, fun ho => by cases ho⟩

/-- A step that emits one operator under a phase other than `Completed` respects
the relation. -/
theorem stepOfOp_phaseAgrees (o : Option Operator) (phase : OperationPhase)
    (hphase : phase ≠ .PhaseCompleted) (r : Outcome)
    (h : stepOfOp o phase = .ok (some r)) : phaseAgrees r := by
  unfold stepOfOp at h
  split at h
  · cases h
  · simp only [Except.ok.injEq, Option.some.injEq] at h
    rw [← h]
    exact ⟨fun hp => absurd hp hphase, fun ho => by cases ho⟩

/-- Every step of the cascade respects the relation. -/
theorem cascade_phaseAgrees (d : Deps) (c : Cluster) (cs : ClusterStatus)
    (constraints : Constraints) (resources : List ResourceDefinition)
    (rebootArgs : DecideOpsRebootArgs) (config : Config) :
    ∀ s ∈ cascade d c cs constraints resources rebootArgs config,
      ∀ r, s = .ok (some r) → phaseAgrees r := by
  intro s hs r hr
  unfold cascade at hs
  simp only [List.mem_cons, List.mem_singleton, List.not_mem_nil, or_false] at hs
  rcases hs with hs | hs | hs | hs | hs | hs | hs | hs | hs | hs | hs
  · rw [hs] at hr
    unfold stepUpgrade at hr
    split_ifs at hr <;> cases hr <;>
      exact ⟨fun hp => (by cases hp), fun ho => by first | rfl | cases ho⟩
  · rw [hs] at hr
    exact stepOfOps_phaseAgrees _ _ (by decide) r hr
  · rw [hs] at hr
    unfold stepEtcdBoot at hr
    split_ifs at hr <;> cases hr <;>
      exact ⟨fun hp => (by cases hp), fun ho => by first | rfl | cases ho⟩
  · rw [hs] at hr
    unfold stepEtcdStart at hr
    split at hr <;> cases hr
    exact ⟨fun hp => (by cases hp), fun ho => by cases ho⟩
  · rw [hs] at hr
    unfold stepEtcdWait at hr
    split_ifs at hr
    · cases hr
    · cases hr
      exact ⟨fun hp => (by cases hp), fun ho => (by cases ho)⟩
  · rw [hs] at hr
    exact stepOfOps_phaseAgrees _ _ (by decide) r hr
  · rw [hs] at hr
    unfold stepEtcdMaintain at hr
    split_ifs at hr <;> first
      | cases hr
      | exact stepOfOp_phaseAgrees _ _ (by decide) r hr
  · rw [hs] at hr
    exact stepOfOps_phaseAgrees _ _ (by decide) r hr
  · rw [hs] at hr
    exact stepOfOps_phaseAgrees _ _ (by decide) r hr
  · rw [hs] at hr
    exact stepOfOp_phaseAgrees _ _ (by decide) r hr
  · rw [hs] at hr
    unfold stepReboot at hr
    simp only [] at hr
    split_ifs at hr <;> cases hr <;> exact ⟨fun hp => (by cases hp), fun _ => rfl⟩

/-- Claim C23.  Whatever `DecideOps` returns, phase `Completed` comes only with an
empty operator list; an empty operator list comes only with phase
`UpgradeAborted`, `EtcdBootAborted`, `RebootNodes` or `Completed`; with every
other phase the list is non-empty. -/
theorem DecideOps_phase_list (d : Deps) (c : Cluster) (cs : ClusterStatus)
    (constraints : Constraints) (resources : List ResourceDefinition)
    (rebootArgs : DecideOpsRebootArgs) (config : Config)
    (ops : List Operator) (phase : OperationPhase)
    (h : DecideOps d c cs constraints resources rebootArgs config = .ok (ops, phase)) :
    (phase = .PhaseCompleted → ops = [])
      ∧ (ops = [] → phase = .PhaseUpgradeAborted ∨ phase = .PhaseEtcdBootAborted
            ∨ phase = .PhaseRebootNodes ∨ phase = .PhaseCompleted)
      ∧ (phase ≠ .PhaseUpgradeAborted → phase ≠ .PhaseEtcdBootAborted
            → phase ≠ .PhaseRebootNodes → phase ≠ .PhaseCompleted → ops ≠ []) := by
  rw [DecideOps_eq_firstOutcome] at h
  have key : phaseAgrees (ops, phase) :=
    firstOutcome_invariant phaseAgrees _
      (cascade_phaseAgrees d c cs constraints resources rebootArgs config)
      ⟨fun _ => rfl, fun _ => rfl⟩ (ops, phase) h
  refine ⟨key.1, ?_, ?_⟩
  · intro ho
    have := key.2 ho
    cases phase <;> simp [OperationPhase.mayBeEmpty] at this ⊢
  · intro h1 h2 h3 h4 ho
    have := key.2 ho
    cases phase <;> simp [OperationPhase.mayBeEmpty] at this h1 h2 h3 h4

/-- Claim C23 at a concrete input: the converged sample cluster gives phase
`Completed` with no operator. -/
theorem DecideOps_phase_list_witness :
    (DecideOps quietDeps sampleCluster (sampleStatus allAddresses) sampleConstraints []
        noReboot sampleConfig = .ok ([], .PhaseCompleted))
      ∧ (OperationPhase.PhaseCompleted = .PhaseCompleted → ([] : List Operator) = []) :=
  ⟨rfl, (DecideOps_phase_list quietDeps sampleCluster (sampleStatus allAddresses)
      sampleConstraints [] noReboot sampleConfig [] .PhaseCompleted rfl).1⟩

/-! ## Skippable errors -/

/-- A text without a newline is one line. -/
theorem rawLinesFrom_no_newline (acc data : List Char) (h : '\n' ∉ data) :
    rawLinesFrom acc data
      = if (acc.reverse ++ data).isEmpty then [] else [acc.reverse ++ data] := by
  induction data generalizing acc with
  | nil => simp [rawLinesFrom]
  | cons ch rest ih =>
    have hch : ch ≠ '\n' := fun e => h (by rw [e]; exact List.mem_cons_self _ _)
    have hrest : '\n' ∉ rest := fun e => h (List.mem_cons_of_mem _ e)
    rw [rawLinesFrom, if_neg hch, ih (ch :: acc) hrest]
    simp

/-- Byte length of a run of one ASCII letter. -/
theorem byteLen_replicate_x (n : Nat) : byteLen (List.replicate n 'x') = n := by
  unfold byteLen
  induction n with
  | zero => rfl
  | succ n ih =>
    rw [List.replicate_succ, List.map_cons, List.sum_cons, ih]
    have : Char.utf8Size 'x' = 1 := by decide
    omega

/-- A single line that does not fit the scanner's buffer ends the scan before
the loop body has seen anything. -/
theorem scanTokens_too_long (data : List Char) (hnl : '\n' ∉ data)
    (hlong : MaxScanTokenSize ≤ byteLen data) : scanTokens data = [] := by
  unfold scanTokens rawLines
  rw [rawLinesFrom_no_newline [] data hnl]
  simp only [List.reverse_nil, List.nil_append]
  split
  · rfl
  · have : ¬ byteLen data < MaxScanTokenSize := by omega
    simp [List.takeWhile, this]

/-- With an exit error of status 1, a standard error output that is one line too
long for the scanner is classified as skippable, whatever the line says. -/
theorem isSkippableError_too_long (stderr : List Char) (hnl : '\n' ∉ stderr)
    (hlong : MaxScanTokenSize ≤ byteLen stderr) :
    isSkippableError (some (.ExitError 1)) (String.mk stderr) = true := by
  unfold isSkippableError
  simp only [ne_eq, not_true_eq_false, if_false]
  rw [scanTokens_too_long stderr hnl hlong]
  rfl

/-- The scanning loop accepts the lines exactly when each of them, trimmed, is
empty or starts with the marker. -/
theorem skippableLines_iff (lines : List (List Char)) :
    skippableLines lines = true
      ↔ ∀ text ∈ lines, TrimSpace text = []
          ∨ noSuchContainer.isPrefixOf (TrimSpace text) = true := by
  induction lines with
  | nil => simp [skippableLines]
  | cons text rest ih =>
    rw [skippableLines]
    simp only [List.mem_cons, forall_eq_or_imp, List.length_eq_zero]
    by_cases h1 : TrimSpace text = []
    · simp [h1, ih]
    · by_cases h2 : noSuchContainer.isPrefixOf (TrimSpace text) = true
      · simp [h1, h2, ih]
      · simp [h1, h2]

/-- When every line of the standard error output fits the scanner's buffer,
`isSkippableError` holds exactly for an exit error of status 1 whose every
line, trimmed, is empty or starts with the marker. -/
theorem isSkippableError_short_lines (err : Option GoError) (stderr : String)
    (hfit : ∀ line ∈ rawLines stderr.data, byteLen line < MaxScanTokenSize) :
    isSkippableError err stderr = true
      ↔ err = some (.ExitError 1)
          ∧ ∀ line ∈ rawLines stderr.data, TrimSpace (dropCR line) = []
              ∨ noSuchContainer.isPrefixOf (TrimSpace (dropCR line)) = true := by
  have htok : scanTokens stderr.data = (rawLines stderr.data).map dropCR := by
    unfold scanTokens
    congr 1
    rw [List.takeWhile_eq_self_iff]
    intro line hline
    exact decide_eq_true (hfit line hline)
  unfold isSkippableError
  split
  · rename_i exitStatus
    by_cases hs : exitStatus = 1
    · subst hs
      simp only [ne_eq, not_true_eq_false, if_false, true_and]
      rw [htok, skippableLines_iff]
      simp only [List.mem_map, forall_exists_index, and_imp, forall_apply_eq_imp_iff₂]
    · simp [hs]
  · rename_i hne
    constructor
    · intro h; cases h
    · rintro ⟨h, _⟩
      exact absurd h (hne 1)

/-- Claim C24, evaluated at an input where it fails.  The error is an exit error
with status 1 and the standard error output is one line of 65536 letters `x`,
which is neither empty after trimming nor starts with the marker; it does not
fit the scanner's buffer, the scan stops before the loop body runs, and
`isSkippableError` returns true. -/
theorem isSkippableError_long_line :
    isSkippableError (some (.ExitError 1)) (String.mk (List.replicate 65536 'x')) = true
      ∧ rawLines (List.replicate 65536 'x') = [List.replicate 65536 'x']
      ∧ TrimSpace (List.replicate 65536 'x') = List.replicate 65536 'x'
      ∧ List.replicate 65536 'x' ≠ []
      ∧ noSuchContainer.isPrefixOf (List.replicate 65536 'x') = false := by
  have hnl : '\n' ∉ List.replicate 65536 'x' := by
    intro h
    have := List.eq_of_mem_replicate h
    exact absurd this (by decide)
  have hne : List.replicate 65536 'x' ≠ [] := by
    rw [show (65536 : Nat) = 65535 + 1 from rfl, List.replicate_succ]
    exact List.cons_ne_nil _ _
  refine ⟨isSkippableError_too_long _ hnl ?_, ?_, ?_, hne, ?_⟩
  · rw [byteLen_replicate_x]
    decide
  · unfold rawLines
    rw [rawLinesFrom_no_newline [] _ hnl]
    simp only [List.reverse_nil, List.nil_append]
    rw [if_neg]
    simp
  · unfold TrimSpace
    have hdrop : ∀ n, (List.replicate (n + 1) 'x').dropWhile isSpace
        = List.replicate (n + 1) 'x' := by
      intro n
      rw [List.replicate_succ, List.dropWhile_cons_of_neg]
      decide
    rw [show (65536 : Nat) = 65535 + 1 from rfl, hdrop, List.reverse_replicate, hdrop,
      List.reverse_replicate]
  · rw [show (65536 : Nat) = 65535 + 1 from rfl, List.replicate_succ]
    rfl

/-! ## Kubeconfig -/

/-- Claim C25.  For all argument strings, `Kubeconfig` returns a configuration
with exactly one cluster entry, under the cluster name, whose server is
`https://localhost:16443` and whose CA data are the bytes of `ca`; exactly one
user entry, under the user name, with the client certificate and key bytes;
exactly one context, named `default`, that refers to that cluster and that
user; and current context `default`. -/
theorem Kubeconfig_single_entries (cluster user ca clientCrt clientKey : String) :
    (∃ c, (Kubeconfig cluster user ca clientCrt clientKey).Clusters = [(cluster, c)]
        ∧ c.Server = "https://localhost:16443"
        ∧ c.CertificateAuthorityData = bytesOf ca)
      ∧ (∃ a, (Kubeconfig cluster user ca clientCrt clientKey).AuthInfos = [(user, a)]
        ∧ a.ClientCertificateData = bytesOf clientCrt
        ∧ a.ClientKeyData = bytesOf clientKey)
      ∧ (∃ ctx, (Kubeconfig cluster user ca clientCrt clientKey).Contexts = [("default", ctx)]
        ∧ ctx.Cluster = cluster ∧ ctx.AuthInfo = user
        ∧ (Kubeconfig cluster user ca clientCrt clientKey).Clusters.lookup ctx.Cluster ≠ none
        ∧ (Kubeconfig cluster user ca clientCrt clientKey).AuthInfos.lookup ctx.AuthInfo ≠ none)
      ∧ (Kubeconfig cluster user ca clientCrt clientKey).CurrentContext = "default" := by
  refine ⟨⟨_, rfl, rfl, rfl⟩, ⟨_, rfl, rfl, rfl⟩, ⟨_, rfl, rfl, rfl, ?_, ?_⟩, rfl⟩
  · simp [Kubeconfig, mapSet, api.NewConfig, List.lookup]
  · simp [Kubeconfig, mapSet, api.NewConfig, List.lookup]

/-- Claim C25 at a concrete input. -/
theorem Kubeconfig_single_entries_witness :
    (Kubeconfig "cke" "admin" "CA" "CRT" "KEY").CurrentContext = "default" :=
  (Kubeconfig_single_entries "cke" "admin" "CA" "CRT" "KEY").2.2.2

/-- Claim C26.  For all arguments, `UserKubeconfig` equals `Kubeconfig` except
that the server of the cluster is the caller-supplied one; the two results are
equal when the server is `https://localhost:16443`. -/
theorem UserKubeconfig_eq_Kubeconfig (cluster user ca clientCrt clientKey server : String) :
    UserKubeconfig cluster user ca clientCrt clientKey server
        = withServer (Kubeconfig cluster user ca clientCrt clientKey) cluster server
      ∧ (∃ c, (UserKubeconfig cluster user ca clientCrt clientKey server).Clusters
            = [(cluster, c)] ∧ c.Server = server)
      ∧ UserKubeconfig cluster user ca clientCrt clientKey "https://localhost:16443"
          = Kubeconfig cluster user ca clientCrt clientKey := by
  refine ⟨?_, ⟨_, rfl, rfl⟩, rfl⟩
  simp [UserKubeconfig, Kubeconfig, withServer, mapSet, api.NewConfig]

/-- Claim C26 at a concrete input. -/
theorem UserKubeconfig_eq_Kubeconfig_witness :
    UserKubeconfig "cke" "admin" "CA" "CRT" "KEY" "https://localhost:16443"
      = Kubeconfig "cke" "admin" "CA" "CRT" "KEY" :=
  (UserKubeconfig_eq_Kubeconfig "cke" "admin" "CA" "CRT" "KEY" "https://10.0.0.1:6443").2.2

/-! ## The controller: one tick -/

/-- Reading the runs distributes over concatenation. -/
theorem runsOf_append {σ : Type} (xs ys : List (Event σ)) :
    runsOf (xs ++ ys) = runsOf xs ++ runsOf ys := by
  induction xs with
  | nil => rfl
  | cons x rest ih => cases x <;> simp [runsOf, ih]

/-- Reading the requests distributes over concatenation. -/
theorem requestsOf_append {σ : Type} (xs ys : List (Event σ)) :
    requestsOf (xs ++ ys) = requestsOf xs ++ requestsOf ys := by
  induction xs with
  | nil => rfl
  | cons x rest ih => cases x <;> simp [requestsOf, ih]

/-- In the command loop, when the run of a commander fails, the commanders run
are the ones handed out so far, the loop has recorded the error and returns
it. -/
theorem commandLoop_failure {σ : Type} (env : Controller.Env σ) (op : Controller.Operator σ)
    (leaderKey : String) (fuel : Nat) :
    ∀ (record : Record) (s : σ) (k : Nat) (c : Commander σ) (e : GoError),
      (runsOf (Controller.commandLoop env op leaderKey fuel record s).events)[k]?
          = some (c, some e) →
      FailureAt leaderKey (Controller.commandLoop env op leaderKey fuel record s).events k c e
        ∧ (Controller.commandLoop env op leaderKey fuel record s).result
            = .ok (.return_ e) := by
  induction fuel with
  | zero =>
    intro record s k c e h
    simp [Controller.commandLoop, runsOf] at h
  | succ fuel ih =>
    intro record s k c e h
    unfold Controller.commandLoop at h ⊢
    simp only [] at h ⊢
    split
    · rename_i hnext
      simp [hnext, runsOf] at h
    · rename_i commander hnext
      simp only [hnext] at h
      split
      · rename_i err hupd
        simp [hupd, runsOf] at h
      · rename_i hupd
        simp only [hupd] at h
        split
        · rename_i hran
          simp only [hran, List.cons_append, List.nil_append, runsOf] at h
          cases k with
          | zero => simp at h
          | succ k =>
            rw [List.getElem?_cons_succ] at h
            obtain ⟨⟨hlen, hbefore, hreq, pre, r, res, hevs⟩, hres⟩ := ih _ _ k c e h
            refine ⟨⟨?_, ?_, ?_, ?_⟩, hres⟩
            · simp [runsOf, hlen]
            · intro j hj
              cases j with
              | zero => exact ⟨commander, by simp [runsOf]⟩
              | succ j =>
                obtain ⟨cj, hcj⟩ := hbefore j (by omega)
                exact ⟨cj, by simpa [runsOf] using hcj⟩
            · simp [runsOf, requestsOf, hreq]
            · refine ⟨[Event.nextCommand (some commander),
                  Event.updateRecord .command leaderKey (record.SetCommand commander.Command) none,
                  Event.run commander none] ++ pre, r, res, ?_⟩
              rw [hevs]
              simp
        · rename_i err hran
          simp only [hran, runsOf] at h
          cases k with
          | zero =>
            simp only [List.getElem?_cons_zero, Option.some.injEq, Prod.mk.injEq] at h
            obtain ⟨rfl, rfl⟩ := h
            refine ⟨⟨by simp [runsOf], ?_, by simp [runsOf, requestsOf], ?_⟩, rfl⟩
            · intro j hj; omega
            · exact ⟨[Event.nextCommand (some commander),
                  Event.updateRecord .command leaderKey (record.SetCommand commander.Command) none],
                record.SetCommand commander.Command, _, rfl⟩
          | succ k => simp at h

/-- A tick either ends before the command loop, having run no commander, or
runs the command loop of an operator and ends as the loop ends. -/
theorem runOnce_cases {σ : Type} (env : Controller.Env σ) (fuel : Nat) (leaderKey : String)
    (s : σ) :
    runsOf (Controller.runOnce env fuel leaderKey s).events = []
      ∨ ∃ (op : Controller.Operator σ) (id : Int) (s1 : σ),
          ((∃ f, (Controller.commandLoop env op leaderKey fuel (op.NewRecord id) s1).result
                = .error f
              ∧ (Controller.runOnce env fuel leaderKey s).result = .error f)
            ∨ (∃ err, (Controller.commandLoop env op leaderKey fuel (op.NewRecord id) s1).result
                  = .ok (.return_ err)
                ∧ (Controller.runOnce env fuel leaderKey s).result = .ok (some err)
                ∧ (Controller.runOnce env fuel leaderKey s).events
                    = beforeLoop leaderKey id (op.NewRecord id)
                      ++ (Controller.commandLoop env op leaderKey fuel (op.NewRecord id) s1).events)
            ∨ (∃ r res, (Controller.commandLoop env op leaderKey fuel (op.NewRecord id) s1).result
                  = .ok (.break_ r)
                ∧ (Controller.runOnce env fuel leaderKey s).result = .ok res
                ∧ (Controller.runOnce env fuel leaderKey s).events
                    = beforeLoop leaderKey id (op.NewRecord id)
                      ++ (Controller.commandLoop env op leaderKey fuel (op.NewRecord id) s1).events
                      ++ [Event.updateRecord .completion leaderKey r.Complete res]))
          ∧ runsOf (Controller.runOnce env fuel leaderKey s).events
              = runsOf (Controller.commandLoop env op leaderKey fuel (op.NewRecord id) s1).events
          ∧ requestsOf (Controller.runOnce env fuel leaderKey s).events
              = requestsOf
                  (Controller.commandLoop env op leaderKey fuel (op.NewRecord id) s1).events := by
  unfold Controller.runOnce
  simp only []
  split
  · left; rfl
  split
  · left; rfl
  split
  · left; rfl
  split
  · left; rfl
  split
  · left; rfl
  split
  · left; rfl
  rename_i _ cluster _ _ _ _ _ op _ _ id _ _ _ _ _
  right
  refine ⟨op, id, (op.Cleanup (env.RegisterRecord leaderKey (op.NewRecord id)
    (env.NextRecordID (env.GetClusterStatus cluster (env.GetCluster s).2).2).2).2).2, ?_⟩
  split
  · rename_i f hf
    refine ⟨Or.inl ⟨f, hf, rfl⟩, ?_, ?_⟩
    · rw [runsOf_append]; rfl
    · rw [requestsOf_append]; rfl
  · rename_i err hf
    refine ⟨Or.inr (Or.inl ⟨err, hf, rfl, rfl⟩), ?_, ?_⟩
    · rw [runsOf_append]; rfl
    · rw [requestsOf_append]; rfl
  · rename_i r hf
    refine ⟨Or.inr (Or.inr ⟨r, _, hf, rfl, rfl⟩), ?_, ?_⟩
    · rw [runsOf_append, runsOf_append]; simp [runsOf]
    · rw [requestsOf_append, requestsOf_append]; simp [requestsOf]

/-- One iteration of the command loop when `NextCommand` returns no commander. -/
theorem commandLoop_break {σ : Type} (env : Controller.Env σ) (op : Controller.Operator σ)
    (leaderKey : String) (fuel : Nat) (record : Record) (s : σ)
    (hnext : (op.NextCommand s).1 = none) :
    Controller.commandLoop env op leaderKey (fuel + 1) record s
      = { result := .ok (.break_ record), state := (op.NextCommand s).2,
          events := [Event.nextCommand none] } := by
  rw [Controller.commandLoop]
  simp only [hnext]

/-- One iteration of the command loop when the update before the command fails. -/
theorem commandLoop_update_fails {σ : Type} (env : Controller.Env σ)
    (op : Controller.Operator σ) (leaderKey : String) (fuel : Nat) (record : Record) (s : σ)
    (commander : Commander σ) (err : GoError)
    (hnext : (op.NextCommand s).1 = some commander)
    (hupd : (env.UpdateRecord leaderKey (record.SetCommand commander.Command)
      (op.NextCommand s).2).1 = some err) :
    Controller.commandLoop env op leaderKey (fuel + 1) record s
      = { result := .ok (.return_ err),
          state := (env.UpdateRecord leaderKey (record.SetCommand commander.Command)
            (op.NextCommand s).2).2,
          events := [Event.nextCommand (some commander),
                     Event.updateRecord .command leaderKey
                       (record.SetCommand commander.Command) (some err)] } := by
  rw [Controller.commandLoop]
  simp only [hnext, hupd]

/-- One iteration of the command loop when the command succeeds. -/
theorem commandLoop_continue {σ : Type} (env : Controller.Env σ)
    (op : Controller.Operator σ) (leaderKey : String) (fuel : Nat) (record : Record) (s : σ)
    (commander : Commander σ)
    (hnext : (op.NextCommand s).1 = some commander)
    (hupd : (env.UpdateRecord leaderKey (record.SetCommand commander.Command)
      (op.NextCommand s).2).1 = none)
    (hran : (commander.Run (env.UpdateRecord leaderKey (record.SetCommand commander.Command)
      (op.NextCommand s).2).2).1 = none) :
    Controller.commandLoop env op leaderKey (fuel + 1) record s
      = { result := (Controller.commandLoop env op leaderKey fuel
            (record.SetCommand commander.Command)
            (commander.Run (env.UpdateRecord leaderKey (record.SetCommand commander.Command)
              (op.NextCommand s).2).2).2).result,
          state := (Controller.commandLoop env op leaderKey fuel
            (record.SetCommand commander.Command)
            (commander.Run (env.UpdateRecord leaderKey (record.SetCommand commander.Command)
              (op.NextCommand s).2).2).2).state,
          events := [Event.nextCommand (some commander),
                     Event.updateRecord .command leaderKey
                       (record.SetCommand commander.Command) none,
                     Event.run commander none]
            ++ (Controller.commandLoop env op leaderKey fuel
              (record.SetCommand commander.Command)
              (commander.Run (env.UpdateRecord leaderKey (record.SetCommand commander.Command)
                (op.NextCommand s).2).2).2).events } := by
  rw [Controller.commandLoop]
  simp only [hnext, hupd, hran]

/-- One iteration of the command loop when the command fails. -/
theorem commandLoop_run_fails {σ : Type} (env : Controller.Env σ)
    (op : Controller.Operator σ) (leaderKey : String) (fuel : Nat) (record : Record) (s : σ)
    (commander : Commander σ) (err : GoError)
    (hnext : (op.NextCommand s).1 = some commander)
    (hupd : (env.UpdateRecord leaderKey (record.SetCommand commander.Command)
      (op.NextCommand s).2).1 = none)
    (hran : (commander.Run (env.UpdateRecord leaderKey (record.SetCommand commander.Command)
      (op.NextCommand s).2).2).1 = some err) :
    Controller.commandLoop env op leaderKey (fuel + 1) record s
      = { result := .ok (.return_ err),
          state := (env.UpdateRecord leaderKey
            ((record.SetCommand commander.Command).SetError err)
            (commander.Run (env.UpdateRecord leaderKey (record.SetCommand commander.Command)
              (op.NextCommand s).2).2).2).2,
          events := [Event.nextCommand (some commander),
                     Event.updateRecord .command leaderKey
                       (record.SetCommand commander.Command) none,
                     Event.run commander (some err),
                     Event.updateRecord .failure leaderKey
                       ((record.SetCommand commander.Command).SetError err)
                       (env.UpdateRecord leaderKey
                         ((record.SetCommand commander.Command).SetError err)
                         (commander.Run (env.UpdateRecord leaderKey
                           (record.SetCommand commander.Command)
                           (op.NextCommand s).2).2).2).1] } := by
  rw [Controller.commandLoop]
  simp only [hnext, hupd, hran]

/-- In a tick, when the run of a commander fails, the commanders run are the
ones handed out so far, the error has been recorded last and the tick returns
it. -/
theorem runOnce_failure {σ : Type} (env : Controller.Env σ) (fuel : Nat) (leaderKey : String)
    (s : σ) (k : Nat) (c : Commander σ) (e : GoError)
    (h : (runsOf (Controller.runOnce env fuel leaderKey s).events)[k]? = some (c, some e)) :
    FailureAt leaderKey (Controller.runOnce env fuel leaderKey s).events k c e
      ∧ (Controller.runOnce env fuel leaderKey s).result = .ok (some e) := by
  rcases runOnce_cases env fuel leaderKey s with hnone | ⟨op, id, s1, hcase, hruns, hreqs⟩
  · rw [hnone] at h
    simp at h
  · rw [hruns] at h
    obtain ⟨⟨hlen, hbefore, hreq, pre, r, res, hevs⟩, hres⟩ :=
      commandLoop_failure env op leaderKey fuel (op.NewRecord id) s1 k c e h
    rcases hcase with ⟨f, hf, _⟩ | ⟨err, hf, hr, hev⟩ | ⟨r0, res0, hf, _, _⟩
    · rw [hres] at hf; cases hf
    · rw [hres] at hf
      simp only [Except.ok.injEq, LoopExit.return_.injEq] at hf
      subst hf
      refine ⟨⟨?_, ?_, ?_, ?_⟩, hr⟩
      · rw [hruns]; exact hlen
      · rw [hruns]; exact hbefore
      · rw [hruns, hreqs]; exact hreq
      · exact ⟨beforeLoop leaderKey id (op.NewRecord id) ++ pre, r, res, by
          rw [hev, hevs, List.append_assoc]⟩
    · rw [hres] at hf; cases hf

/-- Claim C27.  In `runOnce`, if the run of the commander at position `k` (counted
from 0) fails with error `e`, then exactly the commanders up to that position
have been run, the earlier ones without error, and they are the commanders that
`NextCommand` handed out, in that order: no further command was requested or
run.  The last two calls of the tick are that run and the update of the store
with the record that was given the error, and `runOnce` returns `e`. -/
theorem runOnce_stops_at_failure {σ : Type} (env : Controller.Env σ) (fuel : Nat)
    (leaderKey : String) (s : σ) (k : Nat) (c : Commander σ) (e : GoError)
    (h : (runsOf (Controller.runOnce env fuel leaderKey s).events)[k]? = some (c, some e)) :
    (runsOf (Controller.runOnce env fuel leaderKey s).events).length = k + 1
      ∧ (∀ j, j < k →
          ∃ cj, (runsOf (Controller.runOnce env fuel leaderKey s).events)[j]? = some (cj, none))
      ∧ requestsOf (Controller.runOnce env fuel leaderKey s).events
          = (runsOf (Controller.runOnce env fuel leaderKey s).events).map (fun cr => some cr.1)
      ∧ (∃ (pre : List (Event σ)) (r : Record) (res : Option GoError),
          (Controller.runOnce env fuel leaderKey s).events
            = pre ++ [Event.run c (some e),
                      Event.updateRecord .failure leaderKey (r.SetError e) res])
      ∧ (Controller.runOnce env fuel leaderKey s).result = .ok (some e) := by
  obtain ⟨⟨h1, h2, h3, h4⟩, h5⟩ := runOnce_failure env fuel leaderKey s k c e h
  exact ⟨h1, h2, h3, h4, h5⟩

/-- Claim C27 at a concrete input: the second of three commands fails; two
commands have been requested and run, the third is never requested, and the
tick returns the error of the second. -/
theorem runOnce_stops_at_failure_witness :
    (runsOf (Controller.runOnce sampleEnv 10 "leader/1" failingWorld).events)[1]?
        = some (sampleCommander "remove-member" (some (.other "exit status 1")),
                some (.other "exit status 1"))
      ∧ (runsOf (Controller.runOnce sampleEnv 10 "leader/1" failingWorld).events).length = 2
      ∧ (Controller.runOnce sampleEnv 10 "leader/1" failingWorld).state.done
          = ["stop-etcd", "remove-member"]
      ∧ (Controller.runOnce sampleEnv 10 "leader/1" failingWorld).result
          = .ok (some (.other "exit status 1")) :=
  ⟨rfl,
   (runOnce_stops_at_failure sampleEnv 10 "leader/1" failingWorld 1
      (sampleCommander "remove-member" (some (.other "exit status 1")))
      (.other "exit status 1") rfl).1,
   rfl, rfl⟩

/-! ## The controller: store writes and terminal updates of a tick -/

/-- Reading the terminal updates distributes over concatenation. -/
theorem terminalUpdatesOf_append {σ : Type} (xs ys : List (Event σ)) :
    terminalUpdatesOf (xs ++ ys) = terminalUpdatesOf xs ++ terminalUpdatesOf ys := by
  induction xs with
  | nil => rfl
  | cons x rest ih =>
    cases x with
    | updateRecord site k r res => cases site <;> simp [terminalUpdatesOf, ih]
    | _ => simp [terminalUpdatesOf, ih]

/-- The calls and the end of the command loop: a failed update before a command
makes the loop return the error of the store; a loop left by `break` has made no
terminal update; a loop that returns an error has either made exactly one
terminal update, with the record that was given this error, or was stopped by
a failed update before a command; and the loop calls neither for a record id,
nor to register a record, nor for the final update. -/
theorem commandLoop_updates {σ : Type} (env : Controller.Env σ) (op : Controller.Operator σ)
    (leaderKey : String) (fuel : Nat) :
    ∀ (record : Record) (s : σ),
      (∀ r e, Event.updateRecord .command leaderKey r (some e)
            ∈ (Controller.commandLoop env op leaderKey fuel record s).events →
          (Controller.commandLoop env op leaderKey fuel record s).result = .ok (.return_ e))
        ∧ (∀ r, (Controller.commandLoop env op leaderKey fuel record s).result
              = .ok (.break_ r) →
            terminalUpdatesOf (Controller.commandLoop env op leaderKey fuel record s).events = [])
        ∧ (∀ err, (Controller.commandLoop env op leaderKey fuel record s).result
              = .ok (.return_ err) →
            (∃ r : Record, terminalUpdatesOf (Controller.commandLoop env op leaderKey fuel record s).events
                = [r.SetError err])
              ∨ ∃ r, Event.updateRecord .command leaderKey r (some err)
                  ∈ (Controller.commandLoop env op leaderKey fuel record s).events)
        ∧ (∀ ev ∈ (Controller.commandLoop env op leaderKey fuel record s).events,
            (∀ res, ev ≠ Event.nextRecordID res)
              ∧ (∀ k r res, ev ≠ Event.registerRecord k r res)
              ∧ (∀ k r res, ev ≠ Event.updateRecord .completion k r res)) := by
  induction fuel with
  | zero =>
    intro record s
    simp [Controller.commandLoop]
  | succ fuel ih =>
    intro record s
    cases hnext : (op.NextCommand s).1 with
    | none =>
      rw [commandLoop_break env op leaderKey fuel record s hnext]
      simp [terminalUpdatesOf]
    | some commander =>
      cases hupd : (env.UpdateRecord leaderKey (record.SetCommand commander.Command)
          (op.NextCommand s).2).1 with
      | some err =>
        rw [commandLoop_update_fails env op leaderKey fuel record s commander err hnext hupd]
        refine ⟨?_, ?_, ?_, ?_⟩
        · intro r e h
          simp only [List.mem_cons, reduceCtorEq, false_or, Event.updateRecord.injEq,
            List.mem_singleton, List.not_mem_nil, or_false] at h
          have := h.2.2.2
          simp only [Option.some.injEq] at this
          rw [this]
        · intro r h; cases h
        · intro err' h
          simp only [Except.ok.injEq, LoopExit.return_.injEq] at h
          subst h
          exact Or.inr ⟨record.SetCommand commander.Command, by simp⟩
        · intro ev hev
          simp only [List.mem_cons, List.mem_singleton, List.not_mem_nil, or_false] at hev
          rcases hev with rfl | rfl <;> simp
      | none =>
        cases hran : (commander.Run (env.UpdateRecord leaderKey
            (record.SetCommand commander.Command) (op.NextCommand s).2).2).1 with
        | none =>
          rw [commandLoop_continue env op leaderKey fuel record s commander hnext hupd hran]
          obtain ⟨h1, h2, h3, h4⟩ := ih (record.SetCommand commander.Command)
            (commander.Run (env.UpdateRecord leaderKey (record.SetCommand commander.Command)
              (op.NextCommand s).2).2).2
          refine ⟨?_, ?_, ?_, ?_⟩
          · intro r e h
            simp only [List.cons_append, List.nil_append, List.mem_cons, reduceCtorEq, false_or,
              Event.updateRecord.injEq, and_false] at h
            exact h1 r e h
          · intro r h
            simp only [List.cons_append, List.nil_append, terminalUpdatesOf]
            exact h2 r h
          · intro err h
            rcases h3 err h with ⟨r, hr⟩ | ⟨r, hr⟩
            · left
              refine ⟨r, ?_⟩
              simp only [List.cons_append, List.nil_append, terminalUpdatesOf]
              exact hr
            · right
              exact ⟨r, by simp [hr]⟩
          · intro ev hev
            simp only [List.cons_append, List.nil_append, List.mem_cons] at hev
            rcases hev with rfl | rfl | rfl | hev
            · simp
            · simp
            · simp
            · exact h4 ev hev
        | some err =>
          rw [commandLoop_run_fails env op leaderKey fuel record s commander err hnext hupd hran]
          refine ⟨?_, ?_, ?_, ?_⟩
          · intro r e h
            simp at h
          · intro r h; cases h
          · intro err' h
            simp only [Except.ok.injEq, LoopExit.return_.injEq] at h
            subst h
            exact Or.inl ⟨record.SetCommand commander.Command, by simp [terminalUpdatesOf]⟩
          · intro ev hev
            simp only [List.mem_cons, List.mem_singleton, List.not_mem_nil, or_false] at hev
            rcases hev with rfl | rfl | rfl | rfl <;> simp

/-- A tick either ends before the command loop, in one of six ways, or runs
the command loop of an operator after five calls without error and ends as the
loop ends: out of fuel, with the error the loop returns, or with the final
update of the completed record. -/
theorem runOnce_shape {σ : Type} (env : Controller.Env σ) (fuel : Nat) (leaderKey : String)
    (s : σ) :
    (∃ res, (Controller.runOnce env fuel leaderKey s).result = .ok res
        ∧ endsBeforeLoop leaderKey (Controller.runOnce env fuel leaderKey s).events res)
      ∨ ∃ (op : Controller.Operator σ) (id : Int) (s1 : σ),
          (∃ f, (Controller.commandLoop env op leaderKey fuel (op.NewRecord id) s1).result
                = .error f
              ∧ (Controller.runOnce env fuel leaderKey s).result = .error f
              ∧ (Controller.runOnce env fuel leaderKey s).events
                  = beforeLoop leaderKey id (op.NewRecord id)
                    ++ (Controller.commandLoop env op leaderKey fuel (op.NewRecord id) s1).events)
            ∨ (∃ err, (Controller.commandLoop env op leaderKey fuel (op.NewRecord id) s1).result
                  = .ok (.return_ err)
                ∧ (Controller.runOnce env fuel leaderKey s).result = .ok (some err)
                ∧ (Controller.runOnce env fuel leaderKey s).events
                    = beforeLoop leaderKey id (op.NewRecord id)
                      ++ (Controller.commandLoop env op leaderKey fuel (op.NewRecord id) s1).events)
            ∨ (∃ r res, (Controller.commandLoop env op leaderKey fuel (op.NewRecord id) s1).result
                  = .ok (.break_ r)
                ∧ (Controller.runOnce env fuel leaderKey s).result = .ok res
                ∧ (Controller.runOnce env fuel leaderKey s).events
                    = beforeLoop leaderKey id (op.NewRecord id)
                      ++ (Controller.commandLoop env op leaderKey fuel (op.NewRecord id) s1).events
                      ++ [Event.updateRecord .completion leaderKey r.Complete res]) := by
  unfold Controller.runOnce
  simp only []
  split
  · exact Or.inl ⟨_, rfl, Or.inl ⟨_, rfl, rfl⟩⟩
  split
  · exact Or.inl ⟨_, rfl, Or.inr (Or.inl ⟨_, rfl, rfl⟩)⟩
  split
  · exact Or.inl ⟨_, rfl, Or.inr (Or.inr (Or.inl ⟨rfl, rfl⟩))⟩
  split
  · exact Or.inl ⟨_, rfl, Or.inr (Or.inr (Or.inr (Or.inl ⟨_, rfl, rfl⟩)))⟩
  split
  · exact Or.inl ⟨_, rfl, Or.inr (Or.inr (Or.inr (Or.inr (Or.inl ⟨_, _, _, rfl, rfl⟩))))⟩
  split
  · exact Or.inl ⟨_, rfl, Or.inr (Or.inr (Or.inr (Or.inr (Or.inr ⟨_, _, _, rfl, rfl⟩))))⟩
  rename_i _ cluster _ _ _ _ _ op _ _ id _ _ _ _ _
  right
  refine ⟨op, id, (op.Cleanup (env.RegisterRecord leaderKey (op.NewRecord id)
    (env.NextRecordID (env.GetClusterStatus cluster (env.GetCluster s).2).2).2).2).2, ?_⟩
  split
  · rename_i f hf
    exact Or.inl ⟨f, hf, rfl, rfl⟩
  · rename_i err hf
    exact Or.inr (Or.inl ⟨err, hf, rfl, rfl⟩)
  · rename_i r hf
    exact Or.inr (Or.inr ⟨r, _, hf, rfl, rfl⟩)

/-- Four of the store calls of a tick abort it with the error of the store when
they fail: obtaining the record id, registering the record, updating the record
before a command, and the final update. -/
theorem runOnce_store_errors {σ : Type} (env : Controller.Env σ) (fuel : Nat)
    (leaderKey : String) (s : σ) (e : GoError) :
    (Event.nextRecordID (.error e) ∈ (Controller.runOnce env fuel leaderKey s).events →
        (Controller.runOnce env fuel leaderKey s).result = .ok (some e))
      ∧ (∀ r, Event.registerRecord leaderKey r (some e)
            ∈ (Controller.runOnce env fuel leaderKey s).events →
          (Controller.runOnce env fuel leaderKey s).result = .ok (some e))
      ∧ (∀ r, Event.updateRecord .command leaderKey r (some e)
            ∈ (Controller.runOnce env fuel leaderKey s).events →
          (Controller.runOnce env fuel leaderKey s).result = .ok (some e))
      ∧ (∀ r, Event.updateRecord .completion leaderKey r (some e)
            ∈ (Controller.runOnce env fuel leaderKey s).events →
          (Controller.runOnce env fuel leaderKey s).result = .ok (some e)) := by
  rcases runOnce_shape env fuel leaderKey s with ⟨res, hres, hearly⟩ | ⟨op, id, s1, hloop⟩
  · rw [hres]
    rcases hearly with ⟨err, rfl, hev⟩ | ⟨err, rfl, hev⟩ | ⟨rfl, hev⟩ | ⟨err, rfl, hev⟩
        | ⟨err, id, r, rfl, hev⟩ | ⟨err, id, r, rfl, hev⟩ <;>
      rw [hev] <;> simp <;> intros <;> simp_all
  · obtain ⟨h1, h2, h3, h4⟩ := commandLoop_updates env op leaderKey fuel (op.NewRecord id) s1
    have hbefore : ∀ ev ∈ beforeLoop (σ := σ) leaderKey id (op.NewRecord id),
        ev ≠ Event.nextRecordID (.error e)
          ∧ (∀ r, ev ≠ Event.registerRecord leaderKey r (some e))
          ∧ (∀ site r, ev ≠ Event.updateRecord site leaderKey r (some e)) := by
      intro ev hev
      simp only [beforeLoop, List.mem_cons, List.mem_singleton, List.not_mem_nil,
        or_false] at hev
      rcases hev with rfl | rfl | rfl | rfl | rfl <;> simp
    have hloopev : ∀ ev ∈ (Controller.commandLoop env op leaderKey fuel (op.NewRecord id)
        s1).events,
        ev ≠ Event.nextRecordID (.error e)
          ∧ (∀ r, ev ≠ Event.registerRecord leaderKey r (some e))
          ∧ (∀ r, ev ≠ Event.updateRecord .completion leaderKey r (some e)) :=
      fun ev hev => ⟨(h4 ev hev).1 _, fun r => (h4 ev hev).2.1 _ r _,
        fun r => (h4 ev hev).2.2 _ r _⟩
    rcases hloop with ⟨f, hf, hr, hev⟩ | ⟨err, hf, hr, hev⟩ | ⟨r0, res0, hf, hr, hev⟩
    · rw [hev]
      simp only [List.mem_append]
      refine ⟨?_, ?_, ?_, ?_⟩
      · rintro (h | h)
        · exact absurd rfl (hbefore _ h).1
        · exact absurd rfl (hloopev _ h).1
      · rintro r (h | h)
        · exact absurd rfl ((hbefore _ h).2.1 r)
        · exact absurd rfl ((hloopev _ h).2.1 r)
      · rintro r (h | h)
        · exact absurd rfl ((hbefore _ h).2.2 _ r)
        · have := h1 r e h
          rw [hf] at this; cases this
      · rintro r (h | h)
        · exact absurd rfl ((hbefore _ h).2.2 _ r)
        · exact absurd rfl ((hloopev _ h).2.2 r)
    · rw [hev, hr]
      simp only [List.mem_append]
      refine ⟨?_, ?_, ?_, ?_⟩
      · rintro (h | h)
        · exact absurd rfl (hbefore _ h).1
        · exact absurd rfl (hloopev _ h).1
      · rintro r (h | h)
        · exact absurd rfl ((hbefore _ h).2.1 r)
        · exact absurd rfl ((hloopev _ h).2.1 r)
      · rintro r (h | h)
        · exact absurd rfl ((hbefore _ h).2.2 _ r)
        · have := h1 r e h
          rw [hf] at this
          simp only [Except.ok.injEq, LoopExit.return_.injEq] at this
          rw [this]
      · rintro r (h | h)
        · exact absurd rfl ((hbefore _ h).2.2 _ r)
        · exact absurd rfl ((hloopev _ h).2.2 r)
    · rw [hev, hr]
      simp only [List.mem_append, List.mem_singleton]
      refine ⟨?_, ?_, ?_, ?_⟩
      · rintro ((h | h) | h)
        · exact absurd rfl (hbefore _ h).1
        · exact absurd rfl (hloopev _ h).1
        · cases h
      · rintro r ((h | h) | h)
        · exact absurd rfl ((hbefore _ h).2.1 r)
        · exact absurd rfl ((hloopev _ h).2.1 r)
        · cases h
      · rintro r ((h | h) | h)
        · exact absurd rfl ((hbefore _ h).2.2 _ r)
        · have := h1 r e h
          rw [hf] at this; cases this
        · cases h
      · rintro r ((h | h) | h)
        · exact absurd rfl ((hbefore _ h).2.2 _ r)
        · exact absurd rfl ((hloopev _ h).2.2 r)
        · simp only [Event.updateRecord.injEq, true_and] at h
          rw [h.2]

/-- Reading the registered records distributes over concatenation. -/
theorem registeredOf_append {σ : Type} (xs ys : List (Event σ)) :
    registeredOf (xs ++ ys) = registeredOf xs ++ registeredOf ys := by
  induction xs with
  | nil => rfl
  | cons x rest ih => cases x <;> simp [registeredOf, ih]

/-- Calls among which no record is registered. -/
theorem registeredOf_eq_nil {σ : Type} (evs : List (Event σ))
    (h : ∀ ev ∈ evs, ∀ k r res, ev ≠ Event.registerRecord k r res) : registeredOf evs = [] := by
  induction evs with
  | nil => rfl
  | cons x rest ih =>
    have hrest := ih (fun ev hev => h ev (List.mem_cons_of_mem _ hev))
    cases x with
    | registerRecord k r res => exact absurd rfl (h _ (List.mem_cons_self _ _) k r res)
    | _ => simpa [registeredOf] using hrest

/-- A tick that has started an operator and cleaned up without error, that
returns, and whose updates of the store all succeed, has registered exactly one
record and made exactly one terminal update: with the completed record, and it
returns no error, or with the record that was given the error of the failed
command, and it returns that error. -/
theorem runOnce_terminal_update {σ : Type} (env : Controller.Env σ) (fuel : Nat)
    (leaderKey : String) (s : σ) (res : Option GoError)
    (hclean : Event.cleanup none ∈ (Controller.runOnce env fuel leaderKey s).events)
    (hret : (Controller.runOnce env fuel leaderKey s).result = .ok res)
    (hstore : ∀ site r e, Event.updateRecord site leaderKey r (some e)
      ∉ (Controller.runOnce env fuel leaderKey s).events) :
    (∃ r, registeredOf (Controller.runOnce env fuel leaderKey s).events = [r])
      ∧ ((∃ r : Record, terminalUpdatesOf (Controller.runOnce env fuel leaderKey s).events
              = [r.Complete] ∧ res = none)
          ∨ (∃ (r : Record) (e : GoError),
              terminalUpdatesOf (Controller.runOnce env fuel leaderKey s).events
                = [r.SetError e] ∧ res = some e)) := by
  rcases runOnce_shape env fuel leaderKey s with ⟨res0, _, hearly⟩ | ⟨op, id, s1, hloop⟩
  · exfalso
    rcases hearly with ⟨err, _, hev⟩ | ⟨err, _, hev⟩ | ⟨_, hev⟩ | ⟨err, _, hev⟩
        | ⟨err, id, r, _, hev⟩ | ⟨err, id, r, _, hev⟩ <;>
      rw [hev] at hclean <;> simp at hclean
  · obtain ⟨_, h2, h3, h4⟩ := commandLoop_updates env op leaderKey fuel (op.NewRecord id) s1
    have hreg : registeredOf (Controller.commandLoop env op leaderKey fuel (op.NewRecord id)
        s1).events = [] :=
      registeredOf_eq_nil _ (fun ev hev => (h4 ev hev).2.1)
    rcases hloop with ⟨f, hf, hr, hev⟩ | ⟨err, hf, hr, hev⟩ | ⟨r0, res0, hf, hr, hev⟩
    · rw [hr] at hret; cases hret
    · rw [hr] at hret
      simp only [Except.ok.injEq] at hret
      subst hret
      refine ⟨⟨op.NewRecord id, ?_⟩, Or.inr ?_⟩
      · rw [hev, registeredOf_append, hreg]; rfl
      · rcases h3 err hf with ⟨r, hterm⟩ | ⟨r, hmem⟩
        · exact ⟨r, err, by rw [hev, terminalUpdatesOf_append, hterm]; rfl, rfl⟩
        · exfalso
          apply hstore .command r err
          rw [hev]
          exact List.mem_append_right _ hmem
    · rw [hr] at hret
      simp only [Except.ok.injEq] at hret
      subst hret
      refine ⟨⟨op.NewRecord id, ?_⟩, Or.inl ⟨r0, ?_, ?_⟩⟩
      · rw [hev, registeredOf_append, registeredOf_append, hreg]; rfl
      · rw [hev, terminalUpdatesOf_append, terminalUpdatesOf_append, h2 r0 hf]; rfl
      · cases hres0 : res0 with
        | none => rfl
        | some e =>
          exfalso
          apply hstore .completion r0.Complete e
          rw [hev, hres0]
          simp

/-! ## Store errors and terminal updates -/

/-- Claim C28, evaluated at an input where it fails.  The second command fails
with "exit status 1"; the leader key has been lost by then, so the update of the
record after the failure fails with `ErrNoLeader`.  The result of that store
write is dropped: the tick returns the error of the command, not the one of the
store. -/
theorem runOnce_failure_update_ignored :
    (Controller.runOnce sampleEnv 10 "leader/1" lostLeaderWorld).events.getLast?
        = some (Event.updateRecord .failure "leader/1"
            ((runningRecord "remove-member").SetError (.other "exit status 1"))
            (some .ErrNoLeader))
      ∧ (Controller.runOnce sampleEnv 10 "leader/1" lostLeaderWorld).result
          = .ok (some (.other "exit status 1"))
      ∧ (Controller.runOnce sampleEnv 10 "leader/1" lostLeaderWorld).result
          ≠ .ok (some .ErrNoLeader) := by
  refine ⟨rfl, rfl, ?_⟩
  intro h
  have h2 : (Controller.runOnce sampleEnv 10 "leader/1" lostLeaderWorld).result
      = .ok (some (.other "exit status 1")) := rfl
  rw [h2] at h
  cases h

/-- Claim C29, evaluated at an input where it fails.  The clean-up of the
operator fails after its record has been registered: the tick returns the error
at once and the record receives no terminal update; in the store it stays as
registered. -/
theorem runOnce_cleanup_failure_unrecorded :
    (Controller.runOnce sampleEnv 10 "leader/1" cleanupFailsWorld).events
        = [Event.getCluster none, Event.getClusterStatus none, Event.nextRecordID (.ok 7),
           Event.registerRecord "leader/1" (sampleOperator.NewRecord 7) none,
           Event.cleanup (some (.other "cleanup failed"))]
      ∧ registeredOf (Controller.runOnce sampleEnv 10 "leader/1" cleanupFailsWorld).events
          = [sampleOperator.NewRecord 7]
      ∧ terminalUpdatesOf (Controller.runOnce sampleEnv 10 "leader/1" cleanupFailsWorld).events
          = []
      ∧ (Controller.runOnce sampleEnv 10 "leader/1" cleanupFailsWorld).result
          = .ok (some (.other "cleanup failed"))
      ∧ (Controller.runOnce sampleEnv 10 "leader/1" cleanupFailsWorld).state.records
          = [{ ID := 7, Operation := "sample", Command := default, Error := none,
               Status := .running }] :=
  ⟨rfl, rfl, rfl, rfl, rfl⟩

/-! ## The controller loop after a failed command -/

/-- A run that is among the calls is among the runs read from them. -/
theorem runsOf_mem {σ : Type} (evs : List (Event σ)) (c : Commander σ) (res : Option GoError)
    (h : Event.run c res ∈ evs) : ∃ k : Nat, (runsOf evs)[k]? = some (c, res) := by
  have hmem : (c, res) ∈ runsOf evs := by
    induction evs with
    | nil => cases h
    | cons x rest ih =>
      rcases List.mem_cons.mp h with hx | hx
      · rw [← hx]; simp [runsOf]
      · cases x <;> simp [runsOf, ih hx]
  exact List.mem_iff_getElem?.mp hmem

/-- A tick in which the run of a commander fails ends with that run and the
update that records the error, and returns the error. -/
theorem runOnce_failure_mem {σ : Type} (env : Controller.Env σ) (fuel : Nat)
    (leaderKey : String) (s : σ) (c : Commander σ) (e : GoError)
    (h : Event.run c (some e) ∈ (Controller.runOnce env fuel leaderKey s).events) :
    (Controller.runOnce env fuel leaderKey s).result = .ok (some e)
      ∧ ∃ (pre : List (Event σ)) (r : Record) (res : Option GoError),
          (Controller.runOnce env fuel leaderKey s).events
            = pre ++ [Event.run c (some e),
                      Event.updateRecord .failure leaderKey (r.SetError e) res] := by
  obtain ⟨k, hk⟩ := runsOf_mem _ c (some e) h
  obtain ⟨⟨_, _, _, hlast⟩, hres⟩ := runOnce_failure env fuel leaderKey s k c e hk
  exact ⟨hres, hlast⟩

/-- The loop returns in the tick in which the run of a commander fails: the
update that records the error is its last call. -/
theorem runLoop_failure {σ : Type} (env : Controller.Env σ) (fuel : Nat) (leaderKey : String)
    (ticks : Nat) :
    ∀ (s : σ) (c : Commander σ) (e : GoError),
      Event.run c (some e) ∈ (Controller.runLoop env fuel leaderKey ticks s).events →
      (Controller.runLoop env fuel leaderKey ticks s).result = .ok e
        ∧ ∃ (pre : List (Event σ)) (r : Record) (res : Option GoError),
            (Controller.runLoop env fuel leaderKey ticks s).events
              = pre ++ [Event.run c (some e),
                        Event.updateRecord .failure leaderKey (r.SetError e) res] := by
  induction ticks with
  | zero =>
    intro s c e h
    simp [Controller.runLoop] at h
  | succ ticks ih =>
    intro s c e h
    unfold Controller.runLoop at h ⊢
    simp only [] at h ⊢
    split
    · rename_i f hf
      simp only [hf] at h
      have := (runOnce_failure_mem env fuel leaderKey s c e h).1
      rw [this] at hf; cases hf
    · rename_i err hf
      simp only [hf] at h
      obtain ⟨hres, hlast⟩ := runOnce_failure_mem env fuel leaderKey s c e h
      rw [hres] at hf
      simp only [Except.ok.injEq, Option.some.injEq] at hf
      subst hf
      exact ⟨rfl, hlast⟩
    · rename_i hf
      simp only [hf, List.mem_append] at h
      rcases h with h | h
      · have := (runOnce_failure_mem env fuel leaderKey s c e h).1
        rw [this] at hf; cases hf
      · obtain ⟨hres, pre, r, res, hlast⟩ := ih _ c e h
        refine ⟨hres, (Controller.runOnce env fuel leaderKey s).events ++ pre, r, res, ?_⟩
        rw [hlast, List.append_assoc]

/-- From the label `RETRY` on, `Run` returns the error of a commander whose run
fails, unless the error is `ErrNoLeader`; the update that records the error is
its last call. -/
theorem campaignLoop_failure {σ : Type} (env : Controller.Env σ) (fuel ticks : Nat)
    (hostname : String) (rounds : Nat) :
    ∀ (s : σ) (c : Commander σ) (e : GoError), e ≠ GoError.ErrNoLeader →
      Event.run c (some e) ∈ (Controller.campaignLoop env fuel ticks hostname rounds s).events →
      (Controller.campaignLoop env fuel ticks hostname rounds s).result = .ok (some e)
        ∧ ∃ (pre : List (Event σ)) (leaderKey : String) (r : Record) (res : Option GoError),
            (Controller.campaignLoop env fuel ticks hostname rounds s).events
              = pre ++ [Event.run c (some e),
                        Event.updateRecord .failure leaderKey (r.SetError e) res] := by
  induction rounds with
  | zero =>
    intro s c e _ h
    simp [Controller.campaignLoop] at h
  | succ rounds ih =>
    intro s c e hne h
    unfold Controller.campaignLoop at h ⊢
    simp only [] at h ⊢
    split
    · rename_i err hwon
      simp [hwon] at h
    · rename_i hwon
      simp only [hwon] at h
      split
      · rename_i f hf
        simp only [hf, List.mem_cons, reduceCtorEq, false_or] at h
        have := (runLoop_failure env fuel _ ticks _ c e h).1
        rw [this] at hf; cases hf
      · rename_i err hf
        simp only [hf] at h
        by_cases hleader : err = GoError.ErrNoLeader
        · rw [if_pos hleader] at h ⊢
          have hnot : Event.run c (some e) ∉
              (Controller.runLoop env fuel (env.Key (env.Campaign hostname s).2) ticks
                (env.Campaign hostname s).2).events := by
            intro hin
            have := (runLoop_failure env fuel _ ticks _ c e hin).1
            rw [this] at hf
            simp only [Except.ok.injEq] at hf
            exact hne (hf.trans hleader)
          split
          · rename_i err2 hleft
            simp [hleft, hnot] at h
          · rename_i hleft
            simp only [hleft, List.cons_append, List.mem_cons, reduceCtorEq, false_or,
              List.mem_append, List.mem_singleton, or_false, List.not_mem_nil] at h
            rcases h with h | h
            · exact absurd h hnot
            · obtain ⟨hres, pre, key, r, res, hlast⟩ := ih _ c e hne h
              refine ⟨hres, (Event.campaign hostname none ::
                (Controller.runLoop env fuel (env.Key (env.Campaign hostname s).2) ticks
                  (env.Campaign hostname s).2).events ++ [Event.resign none]) ++ pre,
                key, r, res, ?_⟩
              simp only [hlast, List.append_assoc, List.cons_append]
        · rw [if_neg hleader] at h ⊢
          simp only [List.mem_cons, reduceCtorEq, false_or] at h
          obtain ⟨hres, pre, r, res, hlast⟩ := runLoop_failure env fuel _ ticks _ c e h
          rw [hres] at hf
          simp only [Except.ok.injEq] at hf
          subst hf
          refine ⟨rfl, Event.campaign hostname none :: pre,
            env.Key (env.Campaign hostname s).2, r, res, ?_⟩
          simp only [hlast, List.cons_append]

/-- The method `Run` returns the error of a commander whose run fails, unless the
error is `ErrNoLeader`; the update that records the error is its last call. -/
theorem Run_failure {σ : Type} (env : Controller.Env σ) (fuel ticks rounds : Nat) (s : σ)
    (c : Commander σ) (e : GoError) (hne : e ≠ GoError.ErrNoLeader)
    (h : Event.run c (some e) ∈ (Controller.Run env fuel ticks rounds s).events) :
    (Controller.Run env fuel ticks rounds s).result = .ok (some e)
      ∧ ∃ (pre : List (Event σ)) (leaderKey : String) (r : Record) (res : Option GoError),
          (Controller.Run env fuel ticks rounds s).events
            = pre ++ [Event.run c (some e),
                      Event.updateRecord .failure leaderKey (r.SetError e) res] := by
  unfold Controller.Run at h ⊢
  simp only [] at h ⊢
  split
  · rename_i err hhost
    simp [hhost] at h
  · rename_i hostname hhost
    simp only [hhost, List.mem_cons, reduceCtorEq, false_or] at h
    obtain ⟨hres, pre, key, r, res, hlast⟩ :=
      campaignLoop_failure env fuel ticks hostname rounds _ c e hne h
    refine ⟨hres, Event.hostname (.ok hostname) :: pre, key, r, res, ?_⟩
    simp only [hlast, List.cons_append]

/-- Claim C30 fails as stated.  In the sample world the second command fails
with "exit status 1", which is not `ErrNoLeader`; with fuel for five ticks,
`runLoop` returns that error after a single tick, and so does `Run`. -/
theorem runLoop_failure_counterexample :
    GoError.other "exit status 1" ≠ GoError.ErrNoLeader
      ∧ runsOf (Controller.runLoop sampleEnv 10 "leader/1" 5 failingWorld).events
          = [(sampleCommander "stop-etcd" none, none),
             (sampleCommander "remove-member" (some (.other "exit status 1")),
              some (.other "exit status 1"))]
      ∧ (Controller.runLoop sampleEnv 10 "leader/1" 5 failingWorld).result
          = .ok (.other "exit status 1")
      ∧ ticksOf (Controller.runLoop sampleEnv 10 "leader/1" 5 failingWorld).events = 1
      ∧ (Controller.Run sampleEnv 10 5 5 failingWorld).result
          = .ok (some (.other "exit status 1"))
      ∧ ticksOf (Controller.Run sampleEnv 10 5 5 failingWorld).events = 1 :=
  ⟨by decide, rfl, rfl, rfl, rfl, rfl⟩

/-- Claim C30, amended.  When the run of a commander fails with an error other
than `ErrNoLeader`, the record with the error is handed to the store and the
tick ends; the controller loop does not go on to a next tick: `runLoop` returns
the error of the commander, and so does `Run` around it, and in both the update
that records the error is the last call made. -/
theorem controller_returns_on_failure {σ : Type} (env : Controller.Env σ)
    (fuel ticks rounds : Nat) (leaderKey : String) (s : σ) (c : Commander σ) (e : GoError)
    (hne : e ≠ GoError.ErrNoLeader) :
    (Event.run c (some e) ∈ (Controller.runLoop env fuel leaderKey ticks s).events →
        (Controller.runLoop env fuel leaderKey ticks s).result = .ok e
          ∧ ∃ (pre : List (Event σ)) (r : Record) (res : Option GoError),
              (Controller.runLoop env fuel leaderKey ticks s).events
                = pre ++ [Event.run c (some e),
                          Event.updateRecord .failure leaderKey (r.SetError e) res])
      ∧ (Event.run c (some e) ∈ (Controller.Run env fuel ticks rounds s).events →
          (Controller.Run env fuel ticks rounds s).result = .ok (some e)
            ∧ ∃ (pre : List (Event σ)) (key : String) (r : Record) (res : Option GoError),
                (Controller.Run env fuel ticks rounds s).events
                  = pre ++ [Event.run c (some e),
                            Event.updateRecord .failure key (r.SetError e) res]) :=
  ⟨runLoop_failure env fuel leaderKey ticks s c e,
   Run_failure env fuel ticks rounds s c e hne⟩

/-- Claim C30, amended, at a concrete input: the failing second command of the
sample world makes `runLoop` return its error. -/
theorem controller_returns_on_failure_witness :
    GoError.other "exit status 1" ≠ GoError.ErrNoLeader
      ∧ (Controller.runLoop sampleEnv 10 "leader/1" 5 failingWorld).result
          = .ok (.other "exit status 1") :=
  ⟨by decide,
   ((controller_returns_on_failure sampleEnv 10 5 5 "leader/1" failingWorld
      (sampleCommander "remove-member" (some (.other "exit status 1")))
      (.other "exit status 1") (by decide)).1
      (List.mem_iff_getElem?.mpr ⟨10, rfl⟩)).1⟩

/-! ## A tick with nothing to do -/

/-- Claim C31.  When the cluster is read and observed and `DecideToDo` returns no
operation, `runOnce` makes three calls only: it reads the cluster, observes it
and waits for the next tick or the cancellation of the context; it returns no
error.  No record id is obtained, no record is registered or updated, nothing
is cleaned up and no command is requested or run; whatever part of the world
the two reads and the wait leave as it is, such as the records of the store,
is left as it is by the tick. -/
theorem runOnce_nothing_to_do {σ : Type} (env : Controller.Env σ) (fuel : Nat)
    (leaderKey : String) (s : σ) (cluster : Cluster) (status : ClusterStatus)
    (hcluster : (env.GetCluster s).1 = .ok cluster)
    (hstatus : (env.GetClusterStatus cluster (env.GetCluster s).2).1 = .ok status)
    (hnothing : env.DecideToDo cluster status = none) :
    (Controller.runOnce env fuel leaderKey s).result = .ok none
      ∧ (Controller.runOnce env fuel leaderKey s).events
          = [Event.getCluster none, Event.getClusterStatus none, Event.wait]
      ∧ (∀ ev ∈ (Controller.runOnce env fuel leaderKey s).events,
          (∀ res, ev ≠ Event.nextRecordID res)
            ∧ (∀ k r res, ev ≠ Event.registerRecord k r res)
            ∧ (∀ site k r res, ev ≠ Event.updateRecord site k r res)
            ∧ (∀ res, ev ≠ Event.cleanup res)
            ∧ (∀ c, ev ≠ Event.nextCommand c)
            ∧ (∀ c res, ev ≠ Event.run c res))
      ∧ (∀ (ρ : Type) (records : σ → ρ),
          (∀ w, records (env.GetCluster w).2 = records w) →
          (∀ c w, records (env.GetClusterStatus c w).2 = records w) →
          (∀ w, records (env.Wait w) = records w) →
          records (Controller.runOnce env fuel leaderKey s).state = records s) := by
  have hrun : Controller.runOnce env fuel leaderKey s
      = { result := .ok none,
          state := env.Wait (env.GetClusterStatus cluster (env.GetCluster s).2).2,
          events := [Event.getCluster none, Event.getClusterStatus none, Event.wait] } := by
    unfold Controller.runOnce
    simp only [hcluster, hstatus, hnothing]
  rw [hrun]
  refine ⟨rfl, rfl, ?_, ?_⟩
  · intro ev hev
    simp only [List.mem_cons, List.mem_singleton, List.not_mem_nil, or_false] at hev
    rcases hev with rfl | rfl | rfl <;> simp
  · intro ρ records h1 h2 h3
    simp only [h3, h2, h1]

/-- Claim C31 at a concrete input: with nothing to do, the tick in the sample
world returns no error and leaves the record of the store as it is. -/
theorem runOnce_nothing_to_do_witness :
    (Controller.runOnce idleEnv 10 "leader/1" settledWorld).result = .ok none
      ∧ (Controller.runOnce idleEnv 10 "leader/1" settledWorld).state.records
          = settledWorld.records :=
  ⟨(runOnce_nothing_to_do idleEnv 10 "leader/1" settledWorld sampleCluster
      (sampleStatus allAddresses) rfl rfl rfl).1,
   (runOnce_nothing_to_do idleEnv 10 "leader/1" settledWorld sampleCluster
      (sampleStatus allAddresses) rfl rfl rfl).2.2.2 (List Record) (fun w => w.records)
      (fun _ => rfl) (fun _ _ => rfl) (fun _ => rfl)⟩

/-! ## Commands are persisted before they are run -/

/-- Where an element sits in a list that begins with a known element. -/
theorem cons_eq_append_cons {α : Type} (a x : α) (l pre post : List α)
    (h : a :: l = pre ++ x :: post) :
    (pre = [] ∧ a = x ∧ l = post) ∨ ∃ pre', pre = a :: pre' ∧ l = pre' ++ x :: post := by
  cases pre with
  | nil =>
    simp only [List.nil_append, List.cons.injEq] at h
    exact Or.inl ⟨rfl, h.1, h.2⟩
  | cons b pre' =>
    simp only [List.cons_append, List.cons.injEq] at h
    exact Or.inr ⟨pre', by rw [h.1], h.2⟩

/-- Where an element sits in a list that ends with a known element. -/
theorem append_singleton_eq_append_cons {α : Type} (a x : α) (l pre post : List α)
    (h : l ++ [a] = pre ++ x :: post) :
    (post = [] ∧ pre = l ∧ x = a) ∨ ∃ post', post = post' ++ [a] ∧ l = pre ++ x :: post' := by
  rcases List.eq_nil_or_concat post with hp | ⟨post', b, hp⟩
  · subst hp
    have h2 : l ++ [a] = pre ++ [x] := h
    have := List.append_inj' h2 rfl
    exact Or.inl ⟨rfl, this.1.symm, (List.cons.inj this.2).1.symm⟩
  · subst hp
    have h2 : l ++ [a] = (pre ++ x :: post') ++ [b] := by
      rw [h]; simp
    have := List.append_inj' h2 rfl
    have hab : a = b := (List.cons.inj this.2).1
    exact Or.inr ⟨post', by rw [hab]; simp, this.1⟩

/-- In the command loop, every run comes right after the successful update of
the record with the command of the commander, and a failed update before a
command comes right after the request that handed out the commander and ends
the calls of the loop. -/
theorem commandLoop_persisted {σ : Type} (env : Controller.Env σ) (op : Controller.Operator σ)
    (leaderKey : String) (fuel : Nat) :
    ∀ (record : Record) (s : σ),
      (∀ pre c res post,
          (Controller.commandLoop env op leaderKey fuel record s).events
            = pre ++ Event.run c res :: post →
          ∃ (pre' : List (Event σ)) (r0 : Record),
            pre = pre'
              ++ [Event.updateRecord .command leaderKey (r0.SetCommand c.Command) none])
        ∧ (∀ pre r e post,
            (Controller.commandLoop env op leaderKey fuel record s).events
              = pre ++ Event.updateRecord .command leaderKey r (some e) :: post →
            post = [] ∧ ∃ (pre' : List (Event σ)) (c : Commander σ) (r0 : Record),
              pre = pre' ++ [Event.nextCommand (some c)] ∧ r = r0.SetCommand c.Command) := by
  induction fuel with
  | zero =>
    intro record s
    constructor
    · intro pre c res post h
      simp [Controller.commandLoop] at h
    · intro pre r e post h
      simp [Controller.commandLoop] at h
  | succ fuel ih =>
    intro record s
    cases hnext : (op.NextCommand s).1 with
    | none =>
      rw [commandLoop_break env op leaderKey fuel record s hnext]
      constructor
      · intro pre c res post h
        rcases cons_eq_append_cons _ _ _ _ _ h with ⟨_, hx, _⟩ | ⟨pre', _, h'⟩
        · cases hx
        · simp at h'
      · intro pre r e post h
        rcases cons_eq_append_cons _ _ _ _ _ h with ⟨_, hx, _⟩ | ⟨pre', _, h'⟩
        · cases hx
        · simp at h'
    | some commander =>
      cases hupd : (env.UpdateRecord leaderKey (record.SetCommand commander.Command)
          (op.NextCommand s).2).1 with
      | some err =>
        rw [commandLoop_update_fails env op leaderKey fuel record s commander err hnext hupd]
        constructor
        · intro pre c res post h
          rcases cons_eq_append_cons _ _ _ _ _ h with ⟨_, hx, _⟩ | ⟨pre1, _, h1⟩
          · cases hx
          · rcases cons_eq_append_cons _ _ _ _ _ h1 with ⟨_, hx, _⟩ | ⟨pre2, _, h2⟩
            · cases hx
            · simp at h2
        · intro pre r e post h
          rcases cons_eq_append_cons _ _ _ _ _ h with ⟨_, hx, _⟩ | ⟨pre1, hp1, h1⟩
          · cases hx
          · rcases cons_eq_append_cons _ _ _ _ _ h1 with ⟨hp2, hx, hpost⟩ | ⟨pre2, _, h2⟩
            · simp only [Event.updateRecord.injEq, true_and] at hx
              refine ⟨hpost.symm, [], commander, record, ?_, hx.1.symm⟩
              rw [hp1, hp2]; rfl
            · simp at h2
      | none =>
        cases hran : (commander.Run (env.UpdateRecord leaderKey
            (record.SetCommand commander.Command) (op.NextCommand s).2).2).1 with
        | none =>
          rw [commandLoop_continue env op leaderKey fuel record s commander hnext hupd hran]
          obtain ⟨ihA, ihB⟩ := ih (record.SetCommand commander.Command)
            (commander.Run (env.UpdateRecord leaderKey (record.SetCommand commander.Command)
              (op.NextCommand s).2).2).2
          simp only [List.cons_append, List.nil_append]
          constructor
          · intro pre c res post h
            rcases cons_eq_append_cons _ _ _ _ _ h with ⟨_, hx, _⟩ | ⟨pre1, hp1, h1⟩
            · cases hx
            · rcases cons_eq_append_cons _ _ _ _ _ h1 with ⟨_, hx, _⟩ | ⟨pre2, hp2, h2⟩
              · cases hx
              · rcases cons_eq_append_cons _ _ _ _ _ h2 with ⟨hp3, hx, _⟩ | ⟨pre3, hp3, h3⟩
                · simp only [Event.run.injEq] at hx
                  refine ⟨[Event.nextCommand (some commander)], record, ?_⟩
                  rw [hp1, hp2, hp3, ← hx.1]; rfl
                · obtain ⟨pre', r0, hpre⟩ := ihA pre3 c res post h3
                  refine ⟨Event.nextCommand (some commander)
                    :: Event.updateRecord .command leaderKey
                        (record.SetCommand commander.Command) none
                    :: Event.run commander none :: pre', r0, ?_⟩
                  rw [hp1, hp2, hp3, hpre]; rfl
          · intro pre r e post h
            rcases cons_eq_append_cons _ _ _ _ _ h with ⟨_, hx, _⟩ | ⟨pre1, hp1, h1⟩
            · cases hx
            · rcases cons_eq_append_cons _ _ _ _ _ h1 with ⟨_, hx, _⟩ | ⟨pre2, hp2, h2⟩
              · simp at hx
              · rcases cons_eq_append_cons _ _ _ _ _ h2 with ⟨_, hx, _⟩ | ⟨pre3, hp3, h3⟩
                · cases hx
                · obtain ⟨hpost, pre', c, r0, hpre, hr⟩ := ihB pre3 r e post h3
                  refine ⟨hpost, Event.nextCommand (some commander)
                    :: Event.updateRecord .command leaderKey
                        (record.SetCommand commander.Command) none
                    :: Event.run commander none :: pre', c, r0, ?_, hr⟩
                  rw [hp1, hp2, hp3, hpre]; rfl
        | some err =>
          rw [commandLoop_run_fails env op leaderKey fuel record s commander err hnext hupd hran]
          constructor
          · intro pre c res post h
            rcases cons_eq_append_cons _ _ _ _ _ h with ⟨_, hx, _⟩ | ⟨pre1, hp1, h1⟩
            · cases hx
            · rcases cons_eq_append_cons _ _ _ _ _ h1 with ⟨_, hx, _⟩ | ⟨pre2, hp2, h2⟩
              · cases hx
              · rcases cons_eq_append_cons _ _ _ _ _ h2 with ⟨hp3, hx, _⟩ | ⟨pre3, hp3, h3⟩
                · simp only [Event.run.injEq] at hx
                  refine ⟨[Event.nextCommand (some commander)], record, ?_⟩
                  rw [hp1, hp2, hp3, ← hx.1]; rfl
                · rcases cons_eq_append_cons _ _ _ _ _ h3 with ⟨_, hx, _⟩ | ⟨pre4, _, h4⟩
                  · cases hx
                  · simp at h4
          · intro pre r e post h
            rcases cons_eq_append_cons _ _ _ _ _ h with ⟨_, hx, _⟩ | ⟨pre1, hp1, h1⟩
            · cases hx
            · rcases cons_eq_append_cons _ _ _ _ _ h1 with ⟨_, hx, _⟩ | ⟨pre2, hp2, h2⟩
              · simp at hx
              · rcases cons_eq_append_cons _ _ _ _ _ h2 with ⟨_, hx, _⟩ | ⟨pre3, hp3, h3⟩
                · cases hx
                · rcases cons_eq_append_cons _ _ _ _ _ h3 with ⟨_, hx, _⟩ | ⟨pre4, _, h4⟩
                  · simp at hx
                  · simp at h4

/-- Where an element sits in a concatenation when it is not in the first part. -/
theorem append_eq_append_cons_of_not_mem {α : Type} (x : α) (front : List α) :
    ∀ (back pre post : List α), front ++ back = pre ++ x :: post → x ∉ front →
      ∃ pre', pre = front ++ pre' ∧ back = pre' ++ x :: post := by
  induction front with
  | nil =>
    intro back pre post h _
    exact ⟨pre, rfl, h⟩
  | cons a front ih =>
    intro back pre post h hx
    rcases cons_eq_append_cons a x (front ++ back) pre post h with ⟨_, hax, _⟩ | ⟨pre1, hp1, h1⟩
    · exact absurd (by rw [hax]; exact List.mem_cons_self _ _) hx
    · obtain ⟨pre', hpre, hback⟩ := ih back pre1 post h1 (fun hm => hx (List.mem_cons_of_mem _ hm))
      exact ⟨pre', by rw [hp1, hpre]; rfl, hback⟩

/-- Claim C35.  In `runOnce` every run of a commander comes right after a
successful update of the store with the record that carries the command of
that commander; and when the update before a command fails, it is the last
call of the tick, which returns the error of the store: the commander that was
just handed out is not run. -/
theorem runOnce_persists_before_run {σ : Type} (env : Controller.Env σ) (fuel : Nat)
    (leaderKey : String) (s : σ) :
    (∀ pre c res post,
        (Controller.runOnce env fuel leaderKey s).events = pre ++ Event.run c res :: post →
        ∃ (pre' : List (Event σ)) (r0 : Record),
          pre = pre' ++ [Event.updateRecord .command leaderKey (r0.SetCommand c.Command) none])
      ∧ (∀ pre r e post,
          (Controller.runOnce env fuel leaderKey s).events
            = pre ++ Event.updateRecord .command leaderKey r (some e) :: post →
          post = []
            ∧ (∃ (pre' : List (Event σ)) (c : Commander σ) (r0 : Record),
                pre = pre' ++ [Event.nextCommand (some c)] ∧ r = r0.SetCommand c.Command)
            ∧ (Controller.runOnce env fuel leaderKey s).result = .ok (some e)) := by
  have hstore := (runOnce_store_errors env fuel leaderKey s)
  rcases runOnce_shape env fuel leaderKey s with ⟨res0, _, hearly⟩ | ⟨op, id, s1, hloop⟩
  · have hno : ∀ ev ∈ (Controller.runOnce env fuel leaderKey s).events,
        (∀ c res, ev ≠ Event.run c res) ∧ (∀ site k r res, ev ≠ Event.updateRecord site k r res) := by
      rcases hearly with ⟨err, _, hev⟩ | ⟨err, _, hev⟩ | ⟨_, hev⟩ | ⟨err, _, hev⟩
          | ⟨err, id, r, _, hev⟩ | ⟨err, id, r, _, hev⟩ <;>
        rw [hev] <;> intro ev hmem <;>
        simp only [List.mem_cons, List.mem_singleton, List.not_mem_nil, or_false] at hmem <;>
        rcases hmem with rfl | rfl | rfl | rfl | rfl <;> simp
    constructor
    · intro pre c res post h
      exact absurd rfl ((hno (Event.run c res) (by rw [h]; simp)).1 c res)
    · intro pre r e post h
      exact absurd rfl ((hno (Event.updateRecord .command leaderKey r (some e))
        (by rw [h]; simp)).2 _ _ _ _)
  · obtain ⟨hA, hB⟩ := commandLoop_persisted env op leaderKey fuel (op.NewRecord id) s1
    have hrunbefore : ∀ c res,
        Event.run c res ∉ beforeLoop (σ := σ) leaderKey id (op.NewRecord id) := by
      intro c res; simp [beforeLoop]
    have hupdbefore : ∀ r e, Event.updateRecord .command leaderKey r (some e)
        ∉ beforeLoop (σ := σ) leaderKey id (op.NewRecord id) := by
      intro r e; simp [beforeLoop]
    have inLoopA : ∀ pre c res post,
        beforeLoop leaderKey id (op.NewRecord id)
          ++ (Controller.commandLoop env op leaderKey fuel (op.NewRecord id) s1).events
          = pre ++ Event.run c res :: post →
        ∃ (pre' : List (Event σ)) (r0 : Record),
          pre = pre' ++ [Event.updateRecord .command leaderKey (r0.SetCommand c.Command)
            none] := by
      intro pre c res post h
      obtain ⟨pre5, hpre, hE⟩ := append_eq_append_cons_of_not_mem _ _ _ _ _ h (hrunbefore c res)
      obtain ⟨pre', r0, hp⟩ := hA pre5 c res post hE
      exact ⟨beforeLoop leaderKey id (op.NewRecord id) ++ pre', r0, by
        rw [hpre, hp, List.append_assoc]⟩
    have inLoopB : ∀ pre r e post,
        beforeLoop leaderKey id (op.NewRecord id)
          ++ (Controller.commandLoop env op leaderKey fuel (op.NewRecord id) s1).events
          = pre ++ Event.updateRecord .command leaderKey r (some e) :: post →
        post = [] ∧ ∃ (pre' : List (Event σ)) (c : Commander σ) (r0 : Record),
          pre = pre' ++ [Event.nextCommand (some c)] ∧ r = r0.SetCommand c.Command := by
      intro pre r e post h
      obtain ⟨pre5, hpre, hE⟩ := append_eq_append_cons_of_not_mem _ _ _ _ _ h (hupdbefore r e)
      obtain ⟨hpost, pre', c, r0, hp, hr⟩ := hB pre5 r e post hE
      exact ⟨hpost, beforeLoop leaderKey id (op.NewRecord id) ++ pre', c, r0, by
        rw [hpre, hp, List.append_assoc], hr⟩
    have hresult : ∀ pre r e post,
        (Controller.runOnce env fuel leaderKey s).events
          = pre ++ Event.updateRecord .command leaderKey r (some e) :: post →
        (Controller.runOnce env fuel leaderKey s).result = .ok (some e) := by
      intro pre r e post h
      exact (hstore e).2.2.1 r (by rw [h]; simp)
    rcases hloop with ⟨f, hf, hr, hev⟩ | ⟨err, hf, hr, hev⟩ | ⟨r1, res1, hf, hr, hev⟩
    · constructor
      · intro pre c res post h
        rw [hev] at h
        exact inLoopA pre c res post h
      · intro pre r e post h
        have := hresult pre r e post h
        rw [hev] at h
        exact ⟨(inLoopB pre r e post h).1, (inLoopB pre r e post h).2, this⟩
    · constructor
      · intro pre c res post h
        rw [hev] at h
        exact inLoopA pre c res post h
      · intro pre r e post h
        have := hresult pre r e post h
        rw [hev] at h
        exact ⟨(inLoopB pre r e post h).1, (inLoopB pre r e post h).2, this⟩
    · constructor
      · intro pre c res post h
        rw [hev] at h
        rcases append_singleton_eq_append_cons _ _ _ _ _ h with ⟨_, _, hx⟩ | ⟨post', _, h'⟩
        · cases hx
        · exact inLoopA pre c res post' h'
      · intro pre r e post h
        have hres := hresult pre r e post h
        rw [hev] at h
        rcases append_singleton_eq_append_cons _ _ _ _ _ h with ⟨_, _, hx⟩ | ⟨post', hpost, h'⟩
        · simp at hx
        · exfalso
          obtain ⟨pre5, _, hE⟩ :=
            append_eq_append_cons_of_not_mem _ _ _ _ _ h' (hupdbefore r e)
          have hmem : Event.updateRecord .command leaderKey r (some e)
              ∈ (Controller.commandLoop env op leaderKey fuel (op.NewRecord id) s1).events := by
            rw [hE]; simp
          have := (commandLoop_updates env op leaderKey fuel (op.NewRecord id) s1).1 r e hmem
          rw [hf] at this
          cases this

/-- Claim C35 at a concrete input: the leader key is lost before the first
command is persisted; the tick ends with the failed update and no command is
run. -/
theorem runOnce_persists_before_run_witness :
    (Controller.runOnce sampleEnv 10 "leader/1" unpersistedWorld).state.done = []
      ∧ (Controller.runOnce sampleEnv 10 "leader/1" unpersistedWorld).result
          = .ok (some .ErrNoLeader) :=
  ⟨rfl, ((runOnce_persists_before_run sampleEnv 10 "leader/1" unpersistedWorld).2
      [Event.getCluster none, Event.getClusterStatus none, Event.nextRecordID (.ok 7),
       Event.registerRecord "leader/1" (sampleOperator.NewRecord 7) none, Event.cleanup none,
       Event.nextCommand (some (sampleCommander "stop-etcd" none))]
      ((sampleOperator.NewRecord 7).SetCommand (sampleCommander "stop-etcd" none).Command)
      .ErrNoLeader [] rfl).2.2⟩

/-! ## The etcd Service -/

/-- Claim C34.  `decideEtcdServiceOps` returns no operator if and only if the
observed etcd Service is non-nil, has exactly one port, that port is 2379, its
type is `ClusterIP` and its cluster IP is `None`; for any other non-nil Service
it returns the update operator. -/
theorem decideEtcdServiceOps_headless (apiServer : Option Node) (svc : Option Service) :
    (decideEtcdServiceOps apiServer svc = none
        ↔ ∃ s port, svc = some s ∧ s.Ports = [port] ∧ port.Port = 2379
            ∧ s.ServiceType = "ClusterIP" ∧ s.ClusterIP = "None")
      ∧ (∀ s, svc = some s →
          ¬ (∃ port, s.Ports = [port] ∧ port.Port = 2379
              ∧ s.ServiceType = "ClusterIP" ∧ s.ClusterIP = "None") →
          decideEtcdServiceOps apiServer svc
            = some (Operator.KubeEtcdServiceUpdateOp apiServer)) := by
  cases svc with
  | none => simp [decideEtcdServiceOps]
  | some s =>
    have hmain : decideEtcdServiceOps apiServer (some s) = none
        ∨ decideEtcdServiceOps apiServer (some s)
            = some (Operator.KubeEtcdServiceUpdateOp apiServer) := by
      unfold decideEtcdServiceOps
      simp only []
      split
      · split_ifs <;> simp
      · exact Or.inr rfl
    have hiff : decideEtcdServiceOps apiServer (some s) = none
        ↔ ∃ port, s.Ports = [port] ∧ port.Port = 2379
            ∧ s.ServiceType = "ClusterIP" ∧ s.ClusterIP = "None" := by
      unfold decideEtcdServiceOps
      simp only [ServiceTypeClusterIP, ClusterIPNone]
      split
      · rename_i port hports
        rw [hports]
        simp only [List.cons.injEq, and_true, exists_eq_left']
        split_ifs with h1 h2 h3 <;> simp_all
      · rename_i hports
        constructor
        · intro h; cases h
        · rintro ⟨port, hp, _⟩
          exact absurd hp (hports port)
    constructor
    · rw [hiff]
      constructor
      · rintro ⟨port, h⟩; exact ⟨s, port, rfl, h⟩
      · rintro ⟨s', port, hs, h⟩
        cases hs
        exact ⟨port, h⟩
    · intro s' hs hnot
      cases hs
      rcases hmain with h | h
      · exact absurd (hiff.mp h) hnot
      · exact h

/-- Claim C34 at a concrete input: a Service with port 2379 of type `ClusterIP`
that is not headless has to be updated. -/
theorem decideEtcdServiceOps_headless_witness :
    decideEtcdServiceOps none
        (some { Ports := [{ Port := 2379 }], ServiceType := "ClusterIP",
                ClusterIP := "10.68.0.20" })
      = some (Operator.KubeEtcdServiceUpdateOp none) :=
  (decideEtcdServiceOps_headless none
      (some { Ports := [{ Port := 2379 }], ServiceType := "ClusterIP",
              ClusterIP := "10.68.0.20" })).2 _ rfl (by
      rintro ⟨port, _, _, _, h⟩
      exact absurd h (by decide))

/-! ## The etcd-wait step -/

/-- Claim C33.  Whenever the observed etcd cluster is reported unhealthy,
`DecideOps` does not go past the etcd-wait step: the phase it returns is one of
`Upgrade`, `UpgradeAborted`, `Rivers`, `EtcdBoot`, `EtcdBootAborted`, `EtcdStart`
and `EtcdWait`, and every operator it returns is built by one of the steps 0 to
4, so none is a Kubernetes component, etcd maintenance, resource, clean-up,
uncordon or reboot operator.  When the four earlier steps produce nothing, the
result is exactly one wait-cluster operator over the control-plane nodes. -/
theorem DecideOps_etcd_unhealthy (d : Deps) (c : Cluster) (cs : ClusterStatus)
    (constraints : Constraints) (resources : List ResourceDefinition)
    (rebootArgs : DecideOpsRebootArgs) (config : Config)
    (hunhealthy : cs.Etcd.IsHealthy = false) :
    (∀ ops phase, DecideOps d c cs constraints resources rebootArgs config = .ok (ops, phase) →
        (phase = .PhaseUpgrade ∨ phase = .PhaseUpgradeAborted ∨ phase = .PhaseRivers
          ∨ phase = .PhaseEtcdBoot ∨ phase = .PhaseEtcdBootAborted ∨ phase = .PhaseEtcdStart
          ∨ phase = .PhaseEtcdWait)
        ∧ ∀ o ∈ ops, o.origin ≤ 4)
      ∧ ((∀ j, j < 4 →
            (cascade d c cs constraints resources rebootArgs config)[j]? = some (.ok none)) →
          DecideOps d c cs constraints resources rebootArgs config
            = .ok ([Operator.etcd_WaitClusterOp (NewNodeFilter c cs).ControlPlane],
                   .PhaseEtcdWait)) := by
  have hwait : (cascade d c cs constraints resources rebootArgs config)[4]?
      = some (.ok (some ([Operator.etcd_WaitClusterOp (NewNodeFilter c cs).ControlPlane],
          .PhaseEtcdWait))) := by
    simp [cascade, stepEtcdWait, hunhealthy]
  constructor
  · intro ops phase h
    rw [DecideOps_eq_firstOutcome] at h
    rcases firstOutcome_ok _ _ h with ⟨k, hk, hk1, hk2⟩ | ⟨_, h2⟩
    · have hk4 : k ≤ 4 := by
        by_contra hgt
        have := hk2 4 (by omega)
        rw [hwait] at this
        cases this
      obtain ⟨p1, p2, _⟩ := cascade_step_spec _ _ _ _ _ _ _ k (ops, phase) hk1
      constructor
      · rcases k with _ | _ | _ | _ | _ | k
        · simp [stepPhases] at p1; rcases p1 with h | h <;> simp [h]
        · simp [stepPhases] at p1; simp [p1]
        · simp [stepPhases] at p1; rcases p1 with h | h <;> simp [h]
        · simp [stepPhases] at p1; simp [p1]
        · simp [stepPhases] at p1; simp [p1]
        · omega
      · intro o ho
        rw [p2 o ho]
        exact hk4
    · have := h2 4 (by rw [cascade_length]; omega)
      rw [hwait] at this
      cases this
  · intro hpass
    rw [DecideOps_eq_firstOutcome]
    have h0 := hpass 0 (by omega)
    have h1 := hpass 1 (by omega)
    have h2 := hpass 2 (by omega)
    have h3 := hpass 3 (by omega)
    simp only [cascade, List.getElem?_cons_zero, List.getElem?_cons_succ,
      Option.some.injEq] at h0 h1 h2 h3
    simp only [cascade, h0, h1, h2, h3, firstOutcome, stepEtcdWait, hunhealthy,
      Bool.false_eq_true, if_false]

/-- Claim C33 at a concrete input: the sample cluster with unhealthy etcd and a
reboot pending gets the wait-cluster operator only. -/
theorem DecideOps_etcd_unhealthy_witness :
    DecideOps quietDeps sampleCluster unhealthyEtcdStatus sampleConstraints [] drainReboot
        sampleConfig
      = .ok ([Operator.etcd_WaitClusterOp [mkNode "10.0.0.1" true]], .PhaseEtcdWait) :=
  (DecideOps_etcd_unhealthy quietDeps sampleCluster unhealthyEtcdStatus sampleConstraints []
      drainReboot sampleConfig rfl).2 (by
    intro j hj
    rcases j with _ | _ | _ | _ | j
    · rfl
    · rfl
    · rfl
    · rfl
    · omega)

/-! ## The batches of `splitOperators` -/

/-- From index `i` on, the loop of `splitOperators` appends batches that put
together are the nodes from `i` on; each batch is non-empty, and each batch but
the last has exactly `m` nodes. -/
theorem splitOperatorsLoop_chunks (nodes : List Node) (m : Int) (hm : 1 ≤ m) :
    ∀ (fuel : Nat) (i : Int) (ops : List (List Node)), 0 ≤ i →
      (nodes.length : Int) - i ≤ fuel →
      ∃ rest, splitOperatorsLoop nodes (fun ns => ns) m fuel i ops = .ok (ops ++ rest)
        ∧ rest.flatten = nodes.drop i.toNat
        ∧ (∀ t ∈ rest, t ≠ [])
        ∧ (∀ t ∈ rest.dropLast, (t.length : Int) = m) := by
  intro fuel
  induction fuel with
  | zero =>
    intro i ops hi hfuel
    refine ⟨[], ?_, ?_, by simp, by simp⟩
    · simp only [splitOperatorsLoop, List.append_nil]
      rw [if_neg]
      simp at hfuel
      omega
    · simp only [List.flatten_nil]
      symm
      apply List.drop_eq_nil_of_le
      simp at hfuel
      omega
  | succ fuel ih =>
    intro i ops hi hfuel
    simp only [splitOperatorsLoop]
    split
    · rename_i hlt
      have hslice : goSlice nodes i
          (if i + m > (nodes.length : Int) then (nodes.length : Int) else i + m)
          = .ok ((nodes.drop i.toNat).take
              ((if i + m > (nodes.length : Int) then (nodes.length : Int) else i + m).toNat
                - i.toNat)) := by
        unfold goSlice
        rw [if_pos]
        refine ⟨hi, ?_, ?_⟩ <;> split <;> omega
      rw [hslice]
      simp only []
      obtain ⟨rest, hres, hjoin, hne, hfull⟩ := ih (i + m)
        (ops ++ [(nodes.drop i.toNat).take
          ((if i + m > (nodes.length : Int) then (nodes.length : Int) else i + m).toNat
            - i.toNat)]) (by omega) (by push_cast at hfuel ⊢; omega)
      refine ⟨(nodes.drop i.toNat).take
          ((if i + m > (nodes.length : Int) then (nodes.length : Int) else i + m).toNat
            - i.toNat) :: rest, ?_, ?_, ?_, ?_⟩
      · rw [hres]; simp
      · rw [List.flatten_cons, hjoin]
        by_cases hend : i + m > (nodes.length : Int)
        · rw [if_pos hend]
          have h1 : nodes.drop (i + m).toNat = [] := by
            apply List.drop_eq_nil_of_le; omega
          rw [h1, List.append_nil]
          apply List.take_of_length_le
          simp only [List.length_drop]
          omega
        · rw [if_neg hend]
          have h1 : nodes.drop (i + m).toNat
              = (nodes.drop i.toNat).drop ((i + m).toNat - i.toNat) := by
            rw [List.drop_drop]
            congr 1
            omega
          rw [h1]
          exact List.take_append_drop _ _
      · intro t ht
        rcases List.mem_cons.mp ht with rfl | ht
        · intro h0
          have hlen := congrArg List.length h0
          simp only [List.length_take, List.length_drop, List.length_nil] at hlen
          split at hlen <;> omega
        · exact hne t ht
      · cases hrest : rest with
        | nil => simp
        | cons t0 rest0 =>
          have hnonempty : nodes.drop (i + m).toNat ≠ [] := by
            rw [← hjoin, hrest, List.flatten_cons]
            intro h0
            have := (List.append_eq_nil.mp h0).1
            exact hne t0 (by rw [hrest]; exact List.mem_cons_self _ _) this
          have hlt2 : i + m < (nodes.length : Int) := by
            by_contra hge
            apply hnonempty
            apply List.drop_eq_nil_of_le
            omega
          intro t ht
          rw [List.dropLast_cons₂] at ht
          rcases List.mem_cons.mp ht with rfl | ht
          · rw [if_neg (by omega)]
            simp only [List.length_take, List.length_drop]
            omega
          · apply hfull t
            rw [hrest]
            exact ht
    · rename_i hge
      refine ⟨[], by simp, ?_, by simp, by simp⟩
      simp only [List.flatten_nil]
      symm
      apply List.drop_eq_nil_of_le
      omega

/-- Batches of `m` nodes each, put together, have `m` times their number of
nodes. -/
theorem length_flatten_of_full (m : Int) (ts : List (List Node))
    (h : ∀ t ∈ ts, (t.length : Int) = m) : (ts.flatten.length : Int) = ts.length * m := by
  induction ts with
  | nil => simp
  | cons t rest ih =>
    have h1 := h t (List.mem_cons_self _ _)
    have h2 := ih (fun t ht => h t (List.mem_cons_of_mem _ ht))
    simp only [List.flatten_cons, List.length_append, List.length_cons]
    push_cast
    rw [h2, h1]
    ring

/-- Claim C36.  For every node list of length `n` and every
`maxConcurrentUpdates` `m ≥ 1`, `splitOperators` returns; it creates one operator
per batch; the batches, put together in operator order, are the input list;
their number is `ceil(n/m)`, written `(n + m - 1) / m`; and every batch except
possibly the last has exactly `m` nodes. -/
theorem splitOperators_chunks (nodes : List Node) (m : Int) (hm : 1 ≤ m) :
    ∃ ts, splitOperators nodes (fun ns => ns) m = .ok ts
      ∧ (∀ createOps : List Node → Operator,
          splitOperators nodes createOps m = .ok (ts.map createOps)
            ∧ ((ts.map createOps).length : Int) = ((nodes.length : Int) + m - 1) / m)
      ∧ ts.flatten = nodes
      ∧ (ts.length : Int) = ((nodes.length : Int) + m - 1) / m
      ∧ ∀ t ∈ ts.dropLast, (t.length : Int) = m := by
  obtain ⟨ts, hts, hjoin, hne, hfull⟩ :=
    splitOperatorsLoop_chunks nodes m hm nodes.length 0 [] (le_refl 0) (by simp)
  simp only [List.nil_append, Int.toNat_zero, List.drop_zero] at hts hjoin
  obtain ⟨ts', hts', hbound⟩ := splitOperators_batches nodes m hm
  have hsame : ts' = ts := by
    unfold splitOperators at hts'
    rw [hts] at hts'
    simp only [Except.ok.injEq] at hts'
    exact hts'.symm
  subst hsame
  have hcount : (ts'.length : Int) = ((nodes.length : Int) + m - 1) / m := by
    rcases List.eq_nil_or_concat ts' with hnil | ⟨front, last, hconcat⟩
    · rw [hnil] at hjoin ⊢
      simp only [List.flatten_nil] at hjoin
      rw [← hjoin]
      simp only [List.length_nil, Nat.cast_zero, zero_add]
      symm
      apply Int.ediv_eq_zero_of_lt <;> omega
    · rw [List.concat_eq_append] at hconcat
      have hfront : ∀ t ∈ front, (t.length : Int) = m := by
        intro t ht
        apply hfull t
        rw [hconcat, List.dropLast_concat]
        exact ht
      have hlast := hbound last (by rw [hconcat]; simp)
      have hlastpos : 1 ≤ (last.length : Int) := by
        have := hlast.1
        have : last.length ≠ 0 := fun h0 => this (List.length_eq_zero.mp h0)
        omega
      have hn : (nodes.length : Int) = front.length * m + last.length := by
        rw [← hjoin, hconcat]
        simp only [List.flatten_append, List.flatten_cons, List.flatten_nil, List.append_nil,
          List.length_append]
        push_cast
        rw [length_flatten_of_full m front hfront]
      rw [hconcat, hn]
      simp only [List.length_append, List.length_cons, List.length_nil]
      push_cast
      have hrw : (front.length : Int) * m + last.length + m - 1
          = ((last.length : Int) - 1) + (front.length + 1) * m := by ring
      rw [hrw, Int.add_mul_ediv_right _ _ (by omega : m ≠ 0),
        Int.ediv_eq_zero_of_lt (by omega) (by omega)]
      simp
  refine ⟨ts', ?_, ?_, hjoin, hcount, hfull⟩
  · exact hts
  · intro createOps
    constructor
    · rw [splitOperators_map]
      have : splitOperators nodes (fun ns => ns) m = .ok ts' := hts
      rw [this]
      rfl
    · rw [List.length_map]
      exact hcount

/-- Claim C36 at a concrete input: the three nodes of the sample cluster in
batches of two give two batches, the first of two nodes. -/
theorem splitOperators_chunks_witness :
    splitOperators sampleCluster.Nodes (fun ns => ns) 2
        = .ok [[mkNode "10.0.0.1" true, mkNode "10.0.0.2" false], [mkNode "10.0.0.3" false]]
      ∧ ∃ ts, splitOperators sampleCluster.Nodes (fun ns => ns) 2 = .ok ts
          ∧ (∀ createOps : List Node → Operator,
              splitOperators sampleCluster.Nodes createOps 2 = .ok (ts.map createOps)
                ∧ ((ts.map createOps).length : Int)
                    = ((sampleCluster.Nodes.length : Int) + 2 - 1) / 2)
          ∧ ts.flatten = sampleCluster.Nodes
          ∧ (ts.length : Int) = ((sampleCluster.Nodes.length : Int) + 2 - 1) / 2
          ∧ ∀ t ∈ ts.dropLast, (t.length : Int) = 2 :=
  ⟨rfl, splitOperators_chunks sampleCluster.Nodes 2 (by decide)⟩

/-! ## Termination of `splitOperators` -/

/-- A loop that has ended within its fuel ends the same way with more fuel. -/
theorem splitOperatorsLoop_more_fuel {α : Type} (nodes : List Node) (createOps : List Node → α)
    (m : Int) :
    ∀ (fuel : Nat) (i : Int) (ops r : List α),
      splitOperatorsLoop nodes createOps m fuel i ops = .ok r →
      splitOperatorsLoop nodes createOps m (fuel + 1) i ops = .ok r := by
  intro fuel
  induction fuel with
  | zero =>
    intro i ops r h
    simp only [splitOperatorsLoop] at h ⊢
    split at h
    · cases h
    · rename_i hge
      rw [if_neg hge]
      exact h
  | succ fuel ih =>
    intro i ops r h
    rw [splitOperatorsLoop] at h ⊢
    split at h
    · rename_i hlt
      rw [if_pos hlt]
      simp only [] at h ⊢
      cases hs : goSlice nodes i
          (if i + m > (nodes.length : Int) then (nodes.length : Int) else i + m) with
      | error e =>
        rw [hs] at h
        cases h
      | ok ns =>
        rw [hs] at h
        simp only [] at h ⊢
        exact ih _ _ _ h
    · rename_i hge
      rw [if_neg hge]
      exact h

/-- Fuel beyond what the loop needs does not change its result. -/
theorem splitOperatorsLoop_fuel_le {α : Type} (nodes : List Node) (createOps : List Node → α)
    (m : Int) (fuel : Nat) (i : Int) (ops r : List α)
    (h : splitOperatorsLoop nodes createOps m fuel i ops = .ok r) :
    ∀ fuel', fuel ≤ fuel' → splitOperatorsLoop nodes createOps m fuel' i ops = .ok r := by
  intro fuel' hle
  induction fuel' with
  | zero =>
    have : fuel = 0 := by omega
    subst this
    exact h
  | succ fuel' ih =>
    by_cases heq : fuel = fuel' + 1
    · subst heq; exact h
    · exact splitOperatorsLoop_more_fuel nodes createOps m fuel' i ops r (ih (by omega))

/-- Claim C40.  For every node list and every `maxConcurrentUpdates ≥ 1`,
`splitOperators` terminates: its loop ends within `len(nodes)` iterations, and
with any larger bound on the iterations it ends with the same result.  The
precondition is needed: with `maxConcurrentUpdates = 0` and a non-empty list the
index never advances, and the loop is still running after any number of
iterations. -/
theorem splitOperators_terminates (nodes : List Node) (createOps : List Node → Operator) :
    (∀ m : Int, 1 ≤ m →
        ∃ ops, splitOperators nodes createOps m = .ok ops
          ∧ ∀ fuel, nodes.length ≤ fuel →
              splitOperatorsLoop nodes createOps m fuel 0 [] = .ok ops)
      ∧ (nodes ≠ [] → ∀ fuel,
          splitOperatorsLoop nodes createOps 0 fuel 0 [] = .error .outOfFuel) := by
  constructor
  · intro m hm
    obtain ⟨ts, _, hops, _⟩ := splitOperators_ok nodes createOps m hm
    refine ⟨ts.map createOps, hops, ?_⟩
    intro fuel hfuel
    exact splitOperatorsLoop_fuel_le nodes createOps m nodes.length 0 [] _ hops fuel hfuel
  · intro hne fuel
    exact splitOperatorsLoop_zero_stuck nodes createOps hne fuel []

/-- Claim C40 at a concrete input: over the three nodes of the sample cluster
the loop ends in batches of two, and is still running after 1000 iterations
with batches of none. -/
theorem splitOperators_terminates_witness :
    (∃ ops, splitOperators sampleCluster.Nodes Operator.APIServerStopOp 2 = .ok ops)
      ∧ splitOperatorsLoop sampleCluster.Nodes Operator.APIServerStopOp 0 1000 0 []
          = .error .outOfFuel :=
  ⟨(((splitOperators_terminates sampleCluster.Nodes Operator.APIServerStopOp).1 2
      (by decide))).imp (fun _ h => h.1),
   (splitOperators_terminates sampleCluster.Nodes Operator.APIServerStopOp).2
      (by simp [sampleCluster]) 1000⟩

/-! ## Endpoints: reordering, fixed point, totality -/

/-- A test over a list does not depend on the order of the list. -/
theorem any_perm {α : Type} (p : α → Bool) (xs ys : List α) (h : xs.Perm ys) :
    xs.any p = ys.any p := by
  rw [Bool.eq_iff_iff, List.any_eq_true, List.any_eq_true]
  constructor
  · rintro ⟨x, hx, hp⟩; exact ⟨x, h.mem_iff.mp hx, hp⟩
  · rintro ⟨x, hx, hp⟩; exact ⟨x, h.mem_iff.mpr hx, hp⟩

/-- The membership loop of `decideEpOp` does not depend on the order of the
observed addresses. -/
theorem notAllIn_perm (endpoints : StrMap Bool) (xs ys : List EndpointAddress)
    (h : xs.Perm ys) :
    notAllIn endpoints (xs.map (fun a => a.IP)) = notAllIn endpoints (ys.map (fun a => a.IP)) := by
  unfold notAllIn
  exact any_perm _ _ _ (h.map _)

/-- Claim C37.  For every expected and every non-nil observed Endpoints object,
the result of `decideEpOp` is the same for the observed object and for the
object in which the ready addresses and the not-ready addresses of the observed
subsets are each reordered. -/
theorem decideEpOp_reorder (expect actual reordered : Endpoints) (apiServer : Option Node)
    (hlabels : reordered.Labels = actual.Labels)
    (hsubsets : List.Forall₂ reorderedSubset actual.Subsets reordered.Subsets) :
    decideEpOp expect (some reordered) apiServer = decideEpOp expect (some actual) apiServer := by
  unfold decideEpOp
  simp only [hlabels]
  cases hA : actual.Subsets with
  | nil =>
    rw [hA] at hsubsets
    have hR : reordered.Subsets = [] := List.forall₂_nil_left_iff.mp hsubsets
    simp only [hR]
  | cons s rest =>
    rw [hA] at hsubsets
    obtain ⟨s', rest', hs, hrest, hR⟩ := List.forall₂_cons_left_iff.mp hsubsets
    cases rest with
    | nil =>
      have hR' : rest' = [] := List.forall₂_nil_left_iff.mp hrest
      subst hR'
      obtain ⟨h1, h2, h3⟩ := hs
      have e1 : s'.Addresses.length = s.Addresses.length := h1.length_eq
      have e2 : s'.NotReadyAddresses.length = s.NotReadyAddresses.length := h2.length_eq
      have e3 : ∀ endpoints, notAllIn endpoints (s'.Addresses.map (fun a => a.IP))
          = notAllIn endpoints (s.Addresses.map (fun a => a.IP)) :=
        fun endpoints => notAllIn_perm endpoints _ _ h1
      have e4 : ∀ endpoints, notAllIn endpoints (s'.NotReadyAddresses.map (fun a => a.IP))
          = notAllIn endpoints (s.NotReadyAddresses.map (fun a => a.IP)) :=
        fun endpoints => notAllIn_perm endpoints _ _ h2
      simp only [hR, h3, e1, e2, e3, e4]
    | cons t rest0 =>
      obtain ⟨t', rest0', _, _, hR'⟩ := List.forall₂_cons_left_iff.mp hrest
      subst hR'
      simp only [hR]

/-- Claim C37 at a concrete input: two ready addresses observed in the other
order give the same result, no operator. -/
theorem decideEpOp_reorder_witness :
    decideEpOp expectedTwoAddresses
        (some (sampleEndpoints "default" "kubernetes" "https" 6443 ["10.0.0.2", "10.0.0.1"]))
        none
      = decideEpOp expectedTwoAddresses (some expectedTwoAddresses) none
      ∧ decideEpOp expectedTwoAddresses (some expectedTwoAddresses) none = .ok none :=
  ⟨decideEpOp_reorder expectedTwoAddresses expectedTwoAddresses
      (sampleEndpoints "default" "kubernetes" "https" 6443 ["10.0.0.2", "10.0.0.1"]) none rfl
      (List.Forall₂.cons ⟨List.Perm.swap _ _ _, List.Perm.refl _, rfl⟩ List.Forall₂.nil),
   rfl⟩

/-- The function `decideEpEpsOps` as the two comparisons it makes, each against
the object it has built as its expectation. -/
theorem decideEpEpsOps_eq (expect : endpointParams) (actualEP : Option Endpoints)
    (actualEPS : Option EndpointSlice) (apiserver : Option Node) :
    decideEpEpsOps expect actualEP actualEPS apiserver
      = match decideEpOp (expectedEndpoints expect) actualEP apiserver with
        | .error e => .error e
        | .ok epOp =>
          match decideEpsOp (expectedEndpointSlice expect) actualEPS apiserver with
          | .error e => .error e
          | .ok epsOp => .ok (epOp.toList ++ epsOp.toList) := by
  unfold decideEpEpsOps expectedEndpoints expectedEndpointSlice
  simp only []
  cases h1 : decideEpOp _ actualEP apiserver with
  | error e => rfl
  | ok epOp =>
    rw [ok_bind]
    cases h2 : decideEpsOp _ actualEPS apiserver with
    | error e => rfl
    | ok epsOp =>
      rw [ok_bind]
      cases epOp <;> cases epsOp <;> rfl

/-- The expected Endpoints object, observed, needs no operator. -/
theorem decideEpOp_expected (expect : endpointParams) (apiserver : Option Node) :
    decideEpOp (expectedEndpoints expect) (some (expectedEndpoints expect)) apiserver
      = .ok none := by
  have h1 : notAllIn (ipSet expect.readyIPs) expect.readyIPs = false :=
    (notAllIn_eq_false _ _).mpr (fun y hy => hy)
  have h2 : notAllIn (ipSet expect.notReadyIPs) expect.notReadyIPs = false :=
    (notAllIn_eq_false _ _).mpr (fun y hy => hy)
  have hlabels : labelsMismatch [("endpointslice.kubernetes.io/skip-mirror", "true")]
      [("endpointslice.kubernetes.io/skip-mirror", "true")] = false := by decide
  simp [decideEpOp, expectedEndpoints, hlabels, List.map_map, Function.comp_def, h1, h2]

/-- The expected EndpointSlice object, observed, needs no operator. -/
theorem decideEpsOp_expected (expect : endpointParams) (apiserver : Option Node) :
    decideEpsOp (expectedEndpointSlice expect) (some (expectedEndpointSlice expect)) apiserver
      = .ok none := by
  have hready : ∀ e ∈ (expectedEndpointSlice expect).Endpoints, ∃ b, e.Ready = some b := by
    intro e he
    simp only [expectedEndpointSlice, List.mem_append, List.mem_map] at he
    rcases he with ⟨ip, _, rfl⟩ | ⟨ip, _, rfl⟩
    · exact ⟨true, rfl⟩
    · exact ⟨false, rfl⟩
  rw [decideEpsOp_none_iff (expectedEndpointSlice expect) (expectedEndpointSlice expect)
    apiserver expect.portName expect.port hready rfl]
  refine ⟨?_, rfl, ?_, rfl⟩
  · intro kv hkv
    simp only [expectedEndpointSlice, List.mem_cons, List.mem_singleton, List.not_mem_nil,
      or_false] at hkv
    rcases hkv with rfl | rfl
    · rfl
    · simp [expectedEndpointSlice, mapGet, List.lookup]
  · have hrefl : ∀ (es : List SliceEndpoint), (∀ e ∈ es, ∃ b, e.Ready = some b) →
        List.Forall₂ sliceEndpointMatches es es := by
      intro es
      induction es with
      | nil => intro _; exact List.Forall₂.nil
      | cons e rest ih =>
        intro h
        obtain ⟨b, hb⟩ := h e (List.mem_cons_self _ _)
        refine List.Forall₂.cons ⟨?_, rfl, rfl, fun a ha => ha⟩
          (ih (fun e he => h e (List.mem_cons_of_mem _ he)))
        rw [hb]
        exact fun h0 => by cases h0
    exact hrefl _ hready

/-- Claim C38.  For every endpoint parameter set, when the observed Endpoints and
EndpointSlice are exactly the objects that `decideEpEpsOps` builds as its
expectation from those parameters (the objects carried by the create operators
it returns when nothing is observed), `decideEpEpsOps` returns no operator. -/
theorem decideEpEpsOps_fixed_point (expect : endpointParams) (apiserver : Option Node) :
    decideEpEpsOps expect none none apiserver
        = .ok [Operator.KubeEndpointsCreateOp apiserver (expectedEndpoints expect),
               Operator.KubeEndpointSliceCreateOp apiserver (expectedEndpointSlice expect)]
      ∧ decideEpEpsOps expect (some (expectedEndpoints expect))
          (some (expectedEndpointSlice expect)) apiserver = .ok [] := by
  constructor
  · rfl
  · rw [decideEpEpsOps_eq, decideEpOp_expected, decideEpsOp_expected]
    rfl

/-- Claim C38 at a concrete input: the expectation for the `kubernetes` endpoints
of the sample cluster is a fixed point. -/
theorem decideEpEpsOps_fixed_point_witness :
    decideEpEpsOps sampleParams (some (expectedEndpoints sampleParams))
      (some (expectedEndpointSlice sampleParams)) none = .ok [] :=
  (decideEpEpsOps_fixed_point sampleParams none).2

/-- Claim C39.  For every endpoint parameter set and every observed Endpoints and
EndpointSlice, nil or not and with any number of subsets, ports, endpoints and
nil pointers, `decideEpEpsOps` returns (no index is out of range and no nil
pointer is dereferenced); it returns at most two operators: first at most one
operator for the Endpoints, the create or the update operator, then at most one
for the EndpointSlice. -/
theorem decideEpEpsOps_total (expect : endpointParams) (actualEP : Option Endpoints)
    (actualEPS : Option EndpointSlice) (apiserver : Option Node) :
    ∃ (epOps epsOps : List Operator),
      decideEpEpsOps expect actualEP actualEPS apiserver = .ok (epOps ++ epsOps)
        ∧ (epOps ++ epsOps).length ≤ 2
        ∧ (epOps = []
            ∨ epOps = [Operator.KubeEndpointsCreateOp apiserver (expectedEndpoints expect)]
            ∨ epOps = [Operator.KubeEndpointsUpdateOp apiserver (expectedEndpoints expect)])
        ∧ (epsOps = []
            ∨ epsOps
                = [Operator.KubeEndpointSliceCreateOp apiserver (expectedEndpointSlice expect)]
            ∨ epsOps
                = [Operator.KubeEndpointSliceUpdateOp apiserver
                    (expectedEndpointSlice expect)]) := by
  obtain ⟨ops, hops⟩ := decideEpEpsOps_ok expect actualEP actualEPS apiserver
  rw [decideEpEpsOps_eq] at hops ⊢
  cases h1 : decideEpOp (expectedEndpoints expect) actualEP apiserver with
  | error e => rw [h1] at hops; cases hops
  | ok epOp =>
    rw [h1] at hops
    simp only [] at hops ⊢
    cases h2 : decideEpsOp (expectedEndpointSlice expect) actualEPS apiserver with
    | error e => rw [h2] at hops; cases hops
    | ok epsOp =>
      simp only []
      have hep : epOp.toList = []
          ∨ epOp.toList = [Operator.KubeEndpointsCreateOp apiserver (expectedEndpoints expect)]
          ∨ epOp.toList
              = [Operator.KubeEndpointsUpdateOp apiserver (expectedEndpoints expect)] := by
        cases actualEP with
        | none =>
          simp only [decideEpOp, Except.ok.injEq] at h1
          rw [← h1]
          exact Or.inr (Or.inl rfl)
        | some a =>
          rcases decideEpOp_result _ a apiserver epOp h1 with h | h
          · rw [h]; exact Or.inl rfl
          · rw [h]; exact Or.inr (Or.inr rfl)
      have heps : epsOp.toList = []
          ∨ epsOp.toList
              = [Operator.KubeEndpointSliceCreateOp apiserver (expectedEndpointSlice expect)]
          ∨ epsOp.toList
              = [Operator.KubeEndpointSliceUpdateOp apiserver
                  (expectedEndpointSlice expect)] := by
        cases actualEPS with
        | none =>
          simp only [decideEpsOp, Except.ok.injEq] at h2
          rw [← h2]
          exact Or.inr (Or.inl rfl)
        | some a =>
          rcases decideEpsOp_result _ a apiserver epsOp h2 with h | h
          · rw [h]; exact Or.inl rfl
          · rw [h]; exact Or.inr (Or.inr rfl)
      refine ⟨epOp.toList, epsOp.toList, rfl, ?_, hep, heps⟩
      rw [List.length_append]
      have l1 : epOp.toList.length ≤ 1 := by cases epOp <;> simp
      have l2 : epsOp.toList.length ≤ 1 := by cases epsOp <;> simp
      omega

/-- Claim C39 at a concrete input: an observed Endpoints object without subsets
and an observed EndpointSlice without endpoints, ports or labels give the two
update operators, Endpoints first. -/
theorem decideEpEpsOps_total_witness :
    decideEpEpsOps sampleParams
        (some { Namespace := "default", Name := "kubernetes", Labels := [], Subsets := [] })
        (some { Namespace := "default", Name := "kubernetes", Labels := [], AddressType := "",
                Endpoints := [], Ports := [] }) none
      = .ok [Operator.KubeEndpointsUpdateOp none (expectedEndpoints sampleParams),
             Operator.KubeEndpointSliceUpdateOp none (expectedEndpointSlice sampleParams)]
      ∧ ∃ (epOps epsOps : List Operator),
          decideEpEpsOps sampleParams none none none = .ok (epOps ++ epsOps)
            ∧ (epOps ++ epsOps).length ≤ 2 :=
  ⟨rfl, (decideEpEpsOps_total sampleParams none none none).imp
    (fun _ h => h.imp (fun _ h' => ⟨h'.1, h'.2.1⟩))⟩

/-! ## Repeated ticks: convergence and stalls -/

end Cke
